import Mathlib

/-!
# The condition engine of `src/condition.cpp`

A shallow embedding of the status-effect engine: the tagged binary codec, the
factory, the damage-distribution algorithm, the parameter setters and the
lifecycle of the eleven variants (`startCondition`, `executeCondition`,
`addCondition`), followed by the properties proved about them.

Conventions of the embedding.

* A C++ `int32_t` is an `Int` kept in `[-2^31, 2^31)`; every arithmetic result
  that the code stores in an `int32_t` goes through `wrapInt32` (two's
  complement).  `uint32_t` and `uint8_t` are `Nat` reduced modulo `2^32`, `2^8`.
* `OTSYS_TIME()` is the argument `now` of the operation that reads the clock.
* The enumerations `ConditionAttr_t`, `ConditionType_t`, `skills_t`, `stats_t`
  are declared in headers that are not part of `src/`; their enumerators are
  the constructors below and their numeric values are the fields of `Enums`.
* Calls into the game world are recorded as the list of values passed to them
  or as a list of `WorldCall`s; what the entity and the world answer to the
  queries of a method is an argument of the method (`World`).
-/

namespace TFS

/-! ## Machine integers -/

/-- Two's complement reduction of an integer to `int32_t`. -/
def wrapInt32 (x : Int) : Int := (x + 2147483648) % 4294967296 - 2147483648

/-- Two's complement reduction of an integer to `int64_t`. -/
def wrapInt64 (x : Int) : Int :=
  (x + 9223372036854775808) % 18446744073709551616 - 9223372036854775808

/-- Conversion of an integer to `uint32_t`. -/
def toUInt32 (x : Int) : Nat := (x % 4294967296).toNat

/-- Conversion of an integer to `uint8_t`. -/
def toUInt8 (x : Int) : Nat := (x % 256).toNat

/-- The predicate "is a value of `int32_t`". -/
def IsInt32 (x : Int) : Prop := -2147483648 ≤ x ∧ x ≤ 2147483647

instance (x : Int) : Decidable (IsInt32 x) := by unfold IsInt32; infer_instance

/-- The predicate "is a value of `uint32_t`". -/
def IsUInt32 (x : Nat) : Prop := x < 4294967296

instance (x : Nat) : Decidable (IsUInt32 x) := by unfold IsUInt32; infer_instance

/-- The value `std::numeric_limits<int64_t>::max()`. -/
def INT64_MAX : Int := 9223372036854775807

/-- The value of `std::abs(value)` stored back into an `int32_t`. -/
def abs32 (value : Int) : Int := wrapInt32 (Int.natAbs value)

/-! ## The attribute stream -/

/-- Modelled from the spec: `PropStream` (declared outside `src/`) is the unread
rest of "a tagged-attribute binary stream (one byte tag + typed payload)"; the
elements are byte values. -/
abbrev PropStream := List Nat

/-- Modelled from the spec: `PropWriteStream` (declared outside `src/`), the
bytes written so far. -/
abbrev PropWriteStream := List Nat

/-- Modelled from the spec: `PropStream::read<uint8_t>`, a "boolean-returning
read": it fails, consuming nothing, when no byte is left. -/
def PropStream.readUInt8 : PropStream → Option (Nat × PropStream)
  | [] => none
  | b :: s => some (b, s)

/-- Modelled from the spec: `PropStream::read<uint32_t>`, a fixed-width 32-bit
read (least significant byte first); it fails, consuming nothing, when fewer
than four bytes are left. -/
def PropStream.readUInt32 : PropStream → Option (Nat × PropStream)
  | b0 :: b1 :: b2 :: b3 :: s => some (b0 + 256 * b1 + 65536 * b2 + 16777216 * b3, s)
  | _ => none

/-- Modelled from the spec: `PropStream::read<int32_t>`, the same four bytes
read as a signed value. -/
def PropStream.readInt32 (s : PropStream) : Option (Int × PropStream) :=
  match s.readUInt32 with
  | none => none
  | some (v, s) => some (wrapInt32 v, s)

/-- Modelled from the spec: `PropStream::read<float>`; a `float` is represented
by its 32-bit pattern. -/
def PropStream.readFloat (s : PropStream) : Option (Nat × PropStream) := s.readUInt32

/-- Modelled from the spec: `PropStream::skip(n)`; it fails, consuming nothing,
when fewer than `n` bytes are left. -/
def PropStream.skip (s : PropStream) (n : Nat) : Option PropStream :=
  if s.length < n then none else some (s.drop n)

/-- Modelled from the spec: reading a fixed-size record of `n` raw bytes, as
`PropStream::read<Outfit_t>` does. -/
def PropStream.readBytes (s : PropStream) (n : Nat) : Option (List Nat × PropStream) :=
  if s.length < n then none else some (s.take n, s.drop n)

/-- Modelled from the spec: `PropWriteStream::write<uint8_t>`. -/
def PropWriteStream.writeUInt8 (w : PropWriteStream) (v : Nat) : PropWriteStream :=
  w ++ [v % 256]

/-- Modelled from the spec: `PropWriteStream::write<uint32_t>`, least
significant byte first. -/
def PropWriteStream.writeUInt32 (w : PropWriteStream) (v : Nat) : PropWriteStream :=
  w ++ [v % 256, v / 256 % 256, v / 65536 % 256, v / 16777216 % 256]

/-- Modelled from the spec: `PropWriteStream::write<int32_t>`. -/
def PropWriteStream.writeInt32 (w : PropWriteStream) (v : Int) : PropWriteStream :=
  w.writeUInt32 (toUInt32 v)

/-- Modelled from the spec: `PropWriteStream::write<float>` of a 32-bit pattern. -/
def PropWriteStream.writeFloat (w : PropWriteStream) (v : Nat) : PropWriteStream :=
  w.writeUInt32 v

/-- Modelled from the spec: writing a fixed-size record of raw bytes, as
`PropWriteStream::write<Outfit_t>` does. -/
def PropWriteStream.writeBytes (w : PropWriteStream) (bs : List Nat) : PropWriteStream :=
  w ++ bs

/-! ## Enumerations -/

/-- The enumerators of `ConditionAttr_t` that `condition.cpp` names. -/
inductive ConditionAttr_t
  | CONDITIONATTR_TYPE
  | CONDITIONATTR_ID
  | CONDITIONATTR_TICKS
  | CONDITIONATTR_HEALTHTICKS
  | CONDITIONATTR_HEALTHGAIN
  | CONDITIONATTR_MANATICKS
  | CONDITIONATTR_MANAGAIN
  | CONDITIONATTR_DELAYED
  | CONDITIONATTR_OWNER
  | CONDITIONATTR_INTERVALDATA
  | CONDITIONATTR_SPEEDDELTA
  | CONDITIONATTR_FORMULA_MINA
  | CONDITIONATTR_FORMULA_MINB
  | CONDITIONATTR_FORMULA_MAXA
  | CONDITIONATTR_FORMULA_MAXB
  | CONDITIONATTR_LIGHTCOLOR
  | CONDITIONATTR_LIGHTLEVEL
  | CONDITIONATTR_LIGHTTICKS
  | CONDITIONATTR_LIGHTINTERVAL
  | CONDITIONATTR_SOULTICKS
  | CONDITIONATTR_SOULGAIN
  | CONDITIONATTR_SKILLS
  | CONDITIONATTR_STATS
  | CONDITIONATTR_OUTFIT
  | CONDITIONATTR_PERIODDAMAGE
  | CONDITIONATTR_ISBUFF
  | CONDITIONATTR_SUBID
  | CONDITIONATTR_END
  deriving DecidableEq, Repr

/-- The enumerators of `ConditionType_t` that `condition.cpp` names. -/
inductive ConditionType_t
  | CONDITION_POISON
  | CONDITION_FIRE
  | CONDITION_ENERGY
  | CONDITION_DROWN
  | CONDITION_FREEZING
  | CONDITION_DAZZLED
  | CONDITION_CURSED
  | CONDITION_BLEEDING
  | CONDITION_HASTE
  | CONDITION_PARALYZE
  | CONDITION_INVISIBLE
  | CONDITION_OUTFIT
  | CONDITION_LIGHT
  | CONDITION_REGENERATION
  | CONDITION_SOUL
  | CONDITION_ATTRIBUTES
  | CONDITION_SPELLCOOLDOWN
  | CONDITION_SPELLGROUPCOOLDOWN
  | CONDITION_INFIGHT
  | CONDITION_DRUNK
  | CONDITION_EXHAUST_WEAPON
  | CONDITION_EXHAUST_COMBAT
  | CONDITION_EXHAUST_HEAL
  | CONDITION_MUTED
  | CONDITION_CHANNELMUTEDTICKS
  | CONDITION_YELLTICKS
  | CONDITION_PACIFIED
  | CONDITION_MANASHIELD
  deriving DecidableEq, Repr

/-- The enumerators of `ConditionParam_t` that `condition.cpp` names; `other`
stands for any enumerator the file does not name. -/
inductive ConditionParam_t
  | CONDITION_PARAM_TICKS
  | CONDITION_PARAM_BUFF_SPELL
  | CONDITION_PARAM_SUBID
  | CONDITION_PARAM_SKILL_MELEE
  | CONDITION_PARAM_SKILL_MELEEPERCENT
  | CONDITION_PARAM_SKILL_FIST
  | CONDITION_PARAM_SKILL_FISTPERCENT
  | CONDITION_PARAM_SKILL_CLUB
  | CONDITION_PARAM_SKILL_CLUBPERCENT
  | CONDITION_PARAM_SKILL_SWORD
  | CONDITION_PARAM_SKILL_SWORDPERCENT
  | CONDITION_PARAM_SKILL_AXE
  | CONDITION_PARAM_SKILL_AXEPERCENT
  | CONDITION_PARAM_SKILL_DISTANCE
  | CONDITION_PARAM_SKILL_DISTANCEPERCENT
  | CONDITION_PARAM_SKILL_SHIELD
  | CONDITION_PARAM_SKILL_SHIELDPERCENT
  | CONDITION_PARAM_SKILL_FISHING
  | CONDITION_PARAM_SKILL_FISHINGPERCENT
  | CONDITION_PARAM_STAT_MAXHITPOINTS
  | CONDITION_PARAM_STAT_MAXMANAPOINTS
  | CONDITION_PARAM_STAT_SOULPOINTS
  | CONDITION_PARAM_STAT_MAGICPOINTS
  | CONDITION_PARAM_STAT_MAXHITPOINTSPERCENT
  | CONDITION_PARAM_STAT_MAXMANAPOINTSPERCENT
  | CONDITION_PARAM_STAT_SOULPOINTSPERCENT
  | CONDITION_PARAM_STAT_MAGICPOINTSPERCENT
  | CONDITION_PARAM_HEALTHGAIN
  | CONDITION_PARAM_HEALTHTICKS
  | CONDITION_PARAM_MANAGAIN
  | CONDITION_PARAM_MANATICKS
  | CONDITION_PARAM_SOULGAIN
  | CONDITION_PARAM_SOULTICKS
  | CONDITION_PARAM_OWNER
  | CONDITION_PARAM_FORCEUPDATE
  | CONDITION_PARAM_DELAYED
  | CONDITION_PARAM_MAXVALUE
  | CONDITION_PARAM_MINVALUE
  | CONDITION_PARAM_STARTVALUE
  | CONDITION_PARAM_TICKINTERVAL
  | CONDITION_PARAM_PERIODICDAMAGE
  | CONDITION_PARAM_FIELD
  | CONDITION_PARAM_SPEED
  | CONDITION_PARAM_LIGHT_LEVEL
  | CONDITION_PARAM_LIGHT_COLOR
  | other (code : Nat)
  deriving DecidableEq, Repr

/-- The enumerators of `skills_t` that `condition.cpp` names. -/
inductive skills_t
  | SKILL_FIST
  | SKILL_CLUB
  | SKILL_SWORD
  | SKILL_AXE
  | SKILL_DISTANCE
  | SKILL_SHIELD
  | SKILL_FISHING
  deriving DecidableEq, Repr

/-- The enumerators of `stats_t` that `condition.cpp` names. -/
inductive stats_t
  | STAT_MAXHITPOINTS
  | STAT_MAXMANAPOINTS
  | STAT_SOULPOINTS
  | STAT_MAGICPOINTS
  deriving DecidableEq, Repr

/-- The numeric values fixed by the headers that are not part of `src/`: the
value of every `ConditionAttr_t`, `ConditionType_t`, `skills_t` and `stats_t`
enumerator, the bounds of the skill and stat index ranges, the two
persist-eligible scope ids and `sizeof(Outfit_t)`. -/
structure Enums where
  attr : ConditionAttr_t → Nat
  type : ConditionType_t → Nat
  skill : skills_t → Nat
  stat : stats_t → Nat
  SKILL_FIRST : Nat
  SKILL_LAST : Nat
  STAT_FIRST : Nat
  STAT_LAST : Nat
  CONDITIONID_DEFAULT : Int
  CONDITIONID_COMBAT : Int
  sizeofOutfit : Nat

/-- The assumptions on the header values under which the codec is read: distinct
enumerators have distinct values, an attribute tag fits the byte it is written
as and a type value fits the 32 bits it is written as. -/
structure Enums.WellFormed (K : Enums) : Prop where
  attr_inj : Function.Injective K.attr
  attr_byte : ∀ a, K.attr a < 256
  type_inj : Function.Injective K.type
  type_u32 : ∀ t, K.type t < 4294967296

/-! ## Data model -/

/-- The fields of the base class `Condition`. -/
structure Condition where
  /-- Field `uint32_t subId`. -/
  subId : Nat
  /-- Field `int32_t ticks`; `-1` means infinite. -/
  ticks : Int
  /-- Field `int64_t endTime`. -/
  endTime : Int
  /-- Field `ConditionType_t conditionType`, as its numeric value. -/
  conditionType : Nat
  /-- Field `ConditionId_t id`, as its numeric value. -/
  id : Int
  isBuff : Bool
  deriving DecidableEq, Repr

/-- Class `ConditionAttributes`; the four arrays have `SKILL_LAST + 1` and
`STAT_LAST + 1` entries of type `int32_t`. -/
structure ConditionAttributes extends Condition where
  skills : List Int
  skillsPercent : List Int
  stats : List Int
  statsPercent : List Int
  currentSkill : Nat
  currentStat : Nat
  deriving DecidableEq, Repr

/-- Class `ConditionRegeneration`; all fields are `uint32_t`. -/
structure ConditionRegeneration extends Condition where
  internalHealthTicks : Nat
  internalManaTicks : Nat
  healthTicks : Nat
  manaTicks : Nat
  healthGain : Nat
  manaGain : Nat
  deriving DecidableEq, Repr

/-- Class `ConditionSoul`; all fields are `uint32_t`. -/
structure ConditionSoul extends Condition where
  internalSoulTicks : Nat
  soulTicks : Nat
  soulGain : Nat
  deriving DecidableEq, Repr

/-- The record `IntervalInfo` of a damage schedule entry; all fields are
`int32_t`. -/
structure IntervalInfo where
  timeLeft : Int
  value : Int
  interval : Int
  deriving DecidableEq, Repr

/-- Class `ConditionDamage`. -/
structure ConditionDamage extends Condition where
  delayed : Bool
  forceUpdate : Bool
  field : Bool
  /-- Field `uint32_t owner`. -/
  owner : Nat
  minDamage : Int
  maxDamage : Int
  startDamage : Int
  periodDamage : Int
  periodDamageTick : Int
  tickInterval : Int
  damageList : List IntervalInfo
  deriving DecidableEq, Repr

/-- Class `ConditionSpeed`; the four `float` coefficients are kept as their
32-bit patterns. -/
structure ConditionSpeed extends Condition where
  speedDelta : Int
  mina : Nat
  minb : Nat
  maxa : Nat
  maxb : Nat
  deriving DecidableEq, Repr

/-- Class `ConditionOutfit`; the `Outfit_t` record is kept as its
`sizeof(Outfit_t)` raw bytes. -/
structure ConditionOutfit extends Condition where
  outfit : List Nat
  deriving DecidableEq, Repr

/-- The record `LightInfo`; both fields are `uint8_t`. -/
structure LightInfo where
  level : Nat
  color : Nat
  deriving DecidableEq, Repr

/-- Class `ConditionLight`; the two counters are `uint32_t`. -/
structure ConditionLight extends Condition where
  lightInfo : LightInfo
  internalLightTicks : Nat
  lightChangeInterval : Nat
  deriving DecidableEq, Repr

/-- The eleven concrete classes.  `ConditionGeneric`, `ConditionInvisible`,
`ConditionSpellCooldown` and `ConditionSpellGroupCooldown` add no field to the
base class. -/
inductive AnyCondition
  | generic (c : Condition)
  | attributes (c : ConditionAttributes)
  | regeneration (c : ConditionRegeneration)
  | soul (c : ConditionSoul)
  | damage (c : ConditionDamage)
  | speed (c : ConditionSpeed)
  | invisible (c : Condition)
  | outfit (c : ConditionOutfit)
  | light (c : ConditionLight)
  | spellCooldown (c : Condition)
  | spellGroupCooldown (c : Condition)
  deriving DecidableEq, Repr

/-- The names of the eleven concrete classes. -/
inductive Variant
  | Generic | Attributes | Regeneration | Soul | Damage | Speed | Invisible
  | Outfit | Light | SpellCooldown | SpellGroupCooldown
  deriving DecidableEq, Repr

/-- The concrete class of an instance. -/
def AnyCondition.variant : AnyCondition → Variant
  | .generic _ => .Generic
  | .attributes _ => .Attributes
  | .regeneration _ => .Regeneration
  | .soul _ => .Soul
  | .damage _ => .Damage
  | .speed _ => .Speed
  | .invisible _ => .Invisible
  | .outfit _ => .Outfit
  | .light _ => .Light
  | .spellCooldown _ => .SpellCooldown
  | .spellGroupCooldown _ => .SpellGroupCooldown

/-- The base-class part of an instance. -/
def AnyCondition.base : AnyCondition → Condition
  | .generic c => c
  | .attributes c => c.toCondition
  | .regeneration c => c.toCondition
  | .soul c => c.toCondition
  | .damage c => c.toCondition
  | .speed c => c.toCondition
  | .invisible c => c
  | .outfit c => c.toCondition
  | .light c => c.toCondition
  | .spellCooldown c => c
  | .spellGroupCooldown c => c

/-! ## The base class -/

/-- Constructor `Condition::Condition`. -/
def Condition.new (_id : Int) (_type : Nat) (_ticks : Int) (_buff : Bool) (_subId : Nat) :
    Condition :=
  { subId := _subId
    ticks := _ticks
    conditionType := _type
    id := _id
    isBuff := _buff
    endTime := if _ticks = -1 then INT64_MAX else 0 }

/-- Method `Condition::setParam`. -/
def Condition.setParam (c : Condition) (param : ConditionParam_t) (value : Int) :
    Bool × Condition :=
  match param with
  | .CONDITION_PARAM_TICKS => (true, { c with ticks := value })
  | .CONDITION_PARAM_BUFF_SPELL => (true, { c with isBuff := decide (value ≠ 0) })
  | .CONDITION_PARAM_SUBID => (true, { c with subId := toUInt32 value })
  | _ => (false, c)

/-- Method `Condition::setTicks`. -/
def Condition.setTicks (c : Condition) (now : Int) (newTicks : Int) : Condition :=
  { c with ticks := newTicks, endTime := wrapInt64 (newTicks + now) }

/-- Method `Condition::unserializeProp`: the result flag, the instance and the
stream after the call. -/
def Condition.unserializeProp (K : Enums) (c : Condition) (attr : Nat) (s : PropStream) :
    Bool × Condition × PropStream :=
  if attr = K.attr .CONDITIONATTR_TYPE then
    match s.readInt32 with
    | none => (false, c, s)
    | some (value, s) => (true, { c with conditionType := toUInt32 value }, s)
  else if attr = K.attr .CONDITIONATTR_ID then
    match s.readInt32 with
    | none => (false, c, s)
    | some (value, s) => (true, { c with id := value }, s)
  else if attr = K.attr .CONDITIONATTR_TICKS then
    match s.readInt32 with
    | none => (false, c, s)
    | some (value, s) => (true, { c with ticks := value }, s)
  else if attr = K.attr .CONDITIONATTR_ISBUFF then
    match s.readUInt8 with
    | none => (false, c, s)
    | some (value, s) => (true, { c with isBuff := decide (value ≠ 0) }, s)
  else if attr = K.attr .CONDITIONATTR_SUBID then
    match s.readUInt32 with
    | none => (false, c, s)
    | some (value, s) => (true, { c with subId := value }, s)
  else if attr = K.attr .CONDITIONATTR_END then
    (true, c, s)
  else
    (false, c, s)

/-- Method `Condition::serialize`. -/
def Condition.serialize (K : Enums) (c : Condition) (w : PropWriteStream) :
    Bool × PropWriteStream :=
  let w := w.writeUInt8 (K.attr .CONDITIONATTR_TYPE)
  let w := w.writeUInt32 c.conditionType
  let w := w.writeUInt8 (K.attr .CONDITIONATTR_ID)
  let w := w.writeUInt32 (toUInt32 c.id)
  let w := w.writeUInt8 (K.attr .CONDITIONATTR_TICKS)
  let w := w.writeUInt32 (toUInt32 c.ticks)
  let w := w.writeUInt8 (K.attr .CONDITIONATTR_ISBUFF)
  let w := w.writeUInt8 (if c.isBuff then 1 else 0)
  let w := w.writeUInt8 (K.attr .CONDITIONATTR_SUBID)
  let w := w.writeUInt32 c.subId
  (true, w)

/-- Method `Condition::startCondition`. -/
def Condition.startCondition (c : Condition) (now : Int) : Bool × Condition :=
  (true, if c.ticks > 0 then { c with endTime := wrapInt64 (c.ticks + now) } else c)

/-- Method `Condition::updateCondition`; `addCondition` is the incoming
instance. -/
def Condition.updateCondition (c : Condition) (now : Int) (addCondition : Condition) : Bool :=
  if c.conditionType ≠ addCondition.conditionType then false
  else if c.ticks = -1 ∧ addCondition.ticks > 0 then false
  else if addCondition.ticks ≥ 0 ∧ c.endTime > wrapInt64 (now + addCondition.ticks) then false
  else true

/-! ## Constructors of the variants -/

/-- Constructor `ConditionAttributes::ConditionAttributes`. -/
def ConditionAttributes.new (K : Enums) (_id : Int) (_type : Nat) (_ticks : Int) (_buff : Bool)
    (_subId : Nat) : ConditionAttributes :=
  { Condition.new _id _type _ticks _buff _subId with
    skills := List.replicate (K.SKILL_LAST + 1) 0
    skillsPercent := List.replicate (K.SKILL_LAST + 1) 0
    stats := List.replicate (K.STAT_LAST + 1) 0
    statsPercent := List.replicate (K.STAT_LAST + 1) 0
    currentSkill := 0
    currentStat := 0 }

/-- Constructor `ConditionRegeneration::ConditionRegeneration`. -/
def ConditionRegeneration.new (_id : Int) (_type : Nat) (_ticks : Int) (_buff : Bool)
    (_subId : Nat) : ConditionRegeneration :=
  { Condition.new _id _type _ticks _buff _subId with
    internalHealthTicks := 0
    internalManaTicks := 0
    healthTicks := 1000
    manaTicks := 1000
    healthGain := 0
    manaGain := 0 }

/-- Constructor `ConditionSoul::ConditionSoul`. -/
def ConditionSoul.new (_id : Int) (_type : Nat) (_ticks : Int) (_buff : Bool) (_subId : Nat) :
    ConditionSoul :=
  { Condition.new _id _type _ticks _buff _subId with
    internalSoulTicks := 0
    soulTicks := 0
    soulGain := 0 }

/-- Constructor `ConditionDamage::ConditionDamage`; it takes no duration and
passes `0` to the base constructor. -/
def ConditionDamage.new (_id : Int) (_type : Nat) (_buff : Bool) (_subId : Nat) :
    ConditionDamage :=
  { Condition.new _id _type 0 _buff _subId with
    delayed := false
    forceUpdate := false
    field := false
    owner := 0
    minDamage := 0
    maxDamage := 0
    startDamage := 0
    periodDamage := 0
    periodDamageTick := 0
    tickInterval := 2000
    damageList := [] }

/-- Constructor `ConditionSpeed::ConditionSpeed`; `0.0f` has the bit pattern 0. -/
def ConditionSpeed.new (_id : Int) (_type : Nat) (_ticks : Int) (_buff : Bool) (_subId : Nat)
    (changeSpeed : Int) : ConditionSpeed :=
  { Condition.new _id _type _ticks _buff _subId with
    speedDelta := changeSpeed
    mina := 0
    minb := 0
    maxa := 0
    maxb := 0 }

/-- Constructor `ConditionOutfit::ConditionOutfit`; the outfit record starts
zeroed. -/
def ConditionOutfit.new (K : Enums) (_id : Int) (_type : Nat) (_ticks : Int) (_buff : Bool)
    (_subId : Nat) : ConditionOutfit :=
  { Condition.new _id _type _ticks _buff _subId with
    outfit := List.replicate K.sizeofOutfit 0 }

/-- Constructor `ConditionLight::ConditionLight`. -/
def ConditionLight.new (_id : Int) (_type : Nat) (_ticks : Int) (_buff : Bool) (_subId : Nat)
    (_lightlevel _lightcolor : Nat) : ConditionLight :=
  { Condition.new _id _type _ticks _buff _subId with
    lightInfo := { level := _lightlevel, color := _lightcolor }
    internalLightTicks := 0
    lightChangeInterval := 0 }

/-! ## The factory -/

/-- Function `Condition::createCondition(_id, _type, _ticks, param, _buff, _subId)`. -/
def Condition.createCondition (K : Enums) (_id : Int) (_type : Nat) (_ticks : Int)
    (param : Int) (_buff : Bool) (_subId : Nat) : Option AnyCondition :=
  if _type = K.type .CONDITION_POISON ∨ _type = K.type .CONDITION_FIRE
      ∨ _type = K.type .CONDITION_ENERGY ∨ _type = K.type .CONDITION_DROWN
      ∨ _type = K.type .CONDITION_FREEZING ∨ _type = K.type .CONDITION_DAZZLED
      ∨ _type = K.type .CONDITION_CURSED ∨ _type = K.type .CONDITION_BLEEDING then
    some (.damage (ConditionDamage.new _id _type _buff _subId))
  else if _type = K.type .CONDITION_HASTE ∨ _type = K.type .CONDITION_PARALYZE then
    some (.speed (ConditionSpeed.new _id _type _ticks _buff _subId param))
  else if _type = K.type .CONDITION_INVISIBLE then
    some (.invisible (Condition.new _id _type _ticks _buff _subId))
  else if _type = K.type .CONDITION_OUTFIT then
    some (.outfit (ConditionOutfit.new K _id _type _ticks _buff _subId))
  else if _type = K.type .CONDITION_LIGHT then
    some (.light (ConditionLight.new _id _type _ticks _buff _subId
      (toUInt8 (param % 256)) (toUInt8 (param % 65536 / 256))))
  else if _type = K.type .CONDITION_REGENERATION then
    some (.regeneration (ConditionRegeneration.new _id _type _ticks _buff _subId))
  else if _type = K.type .CONDITION_SOUL then
    some (.soul (ConditionSoul.new _id _type _ticks _buff _subId))
  else if _type = K.type .CONDITION_ATTRIBUTES then
    some (.attributes (ConditionAttributes.new K _id _type _ticks _buff _subId))
  else if _type = K.type .CONDITION_SPELLCOOLDOWN then
    some (.spellCooldown (Condition.new _id _type _ticks _buff _subId))
  else if _type = K.type .CONDITION_SPELLGROUPCOOLDOWN then
    some (.spellGroupCooldown (Condition.new _id _type _ticks _buff _subId))
  else if _type = K.type .CONDITION_INFIGHT ∨ _type = K.type .CONDITION_DRUNK
      ∨ _type = K.type .CONDITION_EXHAUST_WEAPON ∨ _type = K.type .CONDITION_EXHAUST_COMBAT
      ∨ _type = K.type .CONDITION_EXHAUST_HEAL ∨ _type = K.type .CONDITION_MUTED
      ∨ _type = K.type .CONDITION_CHANNELMUTEDTICKS ∨ _type = K.type .CONDITION_YELLTICKS
      ∨ _type = K.type .CONDITION_PACIFIED ∨ _type = K.type .CONDITION_MANASHIELD then
    some (.generic (Condition.new _id _type _ticks _buff _subId))
  else
    none

/-- Function `Condition::createCondition(PropStream&)`: the instance, if any, and
the stream after the call. -/
def Condition.createConditionStream (K : Enums) (propStream : PropStream) :
    Option AnyCondition × PropStream :=
  match propStream.readUInt8 with
  | none => (none, propStream)
  | some (attr, s1) =>
  if attr ≠ K.attr .CONDITIONATTR_TYPE then (none, s1) else
  match s1.readUInt32 with
  | none => (none, s1)
  | some (_type, s2) =>
  match s2.readUInt8 with
  | none => (none, s2)
  | some (attr, s3) =>
  if attr ≠ K.attr .CONDITIONATTR_ID then (none, s3) else
  match s3.readUInt32 with
  | none => (none, s3)
  | some (_id, s4) =>
  match s4.readUInt8 with
  | none => (none, s4)
  | some (attr, s5) =>
  if attr ≠ K.attr .CONDITIONATTR_TICKS then (none, s5) else
  match s5.readUInt32 with
  | none => (none, s5)
  | some (_ticks, s6) =>
  match s6.readUInt8 with
  | none => (none, s6)
  | some (attr, s7) =>
  if attr ≠ K.attr .CONDITIONATTR_ISBUFF then (none, s7) else
  match s7.readUInt8 with
  | none => (none, s7)
  | some (_buff, s8) =>
  match s8.readUInt8 with
  | none => (none, s8)
  | some (attr, s9) =>
  if attr ≠ K.attr .CONDITIONATTR_SUBID then (none, s9) else
  match s9.readUInt32 with
  | none => (none, s9)
  | some (_subId, s10) =>
  (Condition.createCondition K (wrapInt32 _id) _type (wrapInt32 _ticks) 0
    (decide (_buff ≠ 0)) _subId, s10)

/-! ## The codec of the variants -/

/-- Modelled from the spec: `PropStream::read<IntervalInfo>`, "a fixed-size
structured record for schedule entries (interval, remaining time, signed
magnitude)" of three 32-bit fields; it fails, consuming nothing, when fewer than
twelve bytes are left. -/
def PropStream.readIntervalInfo (s : PropStream) : Option (IntervalInfo × PropStream) :=
  if s.length < 12 then none else
  match s.readInt32 with
  | none => none
  | some (interval, s1) =>
  match s1.readInt32 with
  | none => none
  | some (timeLeft, s2) =>
  match s2.readInt32 with
  | none => none
  | some (value, s3) => some ({ timeLeft := timeLeft, value := value, interval := interval }, s3)

/-- Modelled from the spec: `PropWriteStream::write<IntervalInfo>`. -/
def PropWriteStream.writeIntervalInfo (w : PropWriteStream) (info : IntervalInfo) :
    PropWriteStream :=
  ((w.writeInt32 info.interval).writeInt32 info.timeLeft).writeInt32 info.value

/-- Method `ConditionAttributes::unserializeProp`.  The source stores into
`skills[currentSkill++]` and `stats[currentStat++]` without a check of the
index: when a value is read and the index is outside the array, the store is
outside the array and the call has no result (`none`). -/
def ConditionAttributes.unserializeProp (K : Enums) (c : ConditionAttributes) (attr : Nat)
    (s : PropStream) : Option (Bool × ConditionAttributes × PropStream) :=
  if attr = K.attr .CONDITIONATTR_SKILLS then
    let i := c.currentSkill
    let c := { c with currentSkill := i + 1 }
    match s.readInt32 with
    | none => some (false, c, s)
    | some (value, s) =>
      if i < c.skills.length then some (true, { c with skills := c.skills.set i value }, s)
      else none
  else if attr = K.attr .CONDITIONATTR_STATS then
    let i := c.currentStat
    let c := { c with currentStat := i + 1 }
    match s.readInt32 with
    | none => some (false, c, s)
    | some (value, s) =>
      if i < c.stats.length then some (true, { c with stats := c.stats.set i value }, s)
      else none
  else
    match c.toCondition.unserializeProp K attr s with
    | (r, b, s) => some (r, { c with toCondition := b }, s)

/-- Method `ConditionAttributes::serialize`. -/
def ConditionAttributes.serialize (K : Enums) (c : ConditionAttributes) (w : PropWriteStream) :
    Bool × PropWriteStream :=
  match c.toCondition.serialize K w with
  | (false, w) => (false, w)
  | (true, w) =>
    let w := (List.range' K.SKILL_FIRST (K.SKILL_LAST + 1 - K.SKILL_FIRST)).foldl
      (fun w i => (w.writeUInt8 (K.attr .CONDITIONATTR_SKILLS)).writeInt32 (c.skills.getD i 0)) w
    let w := (List.range' K.STAT_FIRST (K.STAT_LAST + 1 - K.STAT_FIRST)).foldl
      (fun w i => (w.writeUInt8 (K.attr .CONDITIONATTR_STATS)).writeInt32 (c.stats.getD i 0)) w
    (true, w)

/-- Method `ConditionRegeneration::unserializeProp`. -/
def ConditionRegeneration.unserializeProp (K : Enums) (c : ConditionRegeneration) (attr : Nat)
    (s : PropStream) : Bool × ConditionRegeneration × PropStream :=
  if attr = K.attr .CONDITIONATTR_HEALTHTICKS then
    match s.readUInt32 with
    | none => (false, c, s)
    | some (value, s) => (true, { c with healthTicks := value }, s)
  else if attr = K.attr .CONDITIONATTR_HEALTHGAIN then
    match s.readUInt32 with
    | none => (false, c, s)
    | some (value, s) => (true, { c with healthGain := value }, s)
  else if attr = K.attr .CONDITIONATTR_MANATICKS then
    match s.readUInt32 with
    | none => (false, c, s)
    | some (value, s) => (true, { c with manaTicks := value }, s)
  else if attr = K.attr .CONDITIONATTR_MANAGAIN then
    match s.readUInt32 with
    | none => (false, c, s)
    | some (value, s) => (true, { c with manaGain := value }, s)
  else
    match c.toCondition.unserializeProp K attr s with
    | (r, b, s) => (r, { c with toCondition := b }, s)

/-- Method `ConditionRegeneration::serialize`. -/
def ConditionRegeneration.serialize (K : Enums) (c : ConditionRegeneration)
    (w : PropWriteStream) : Bool × PropWriteStream :=
  match c.toCondition.serialize K w with
  | (false, w) => (false, w)
  | (true, w) =>
    let w := w.writeUInt8 (K.attr .CONDITIONATTR_HEALTHTICKS)
    let w := w.writeUInt32 c.healthTicks
    let w := w.writeUInt8 (K.attr .CONDITIONATTR_HEALTHGAIN)
    let w := w.writeUInt32 c.healthGain
    let w := w.writeUInt8 (K.attr .CONDITIONATTR_MANATICKS)
    let w := w.writeUInt32 c.manaTicks
    let w := w.writeUInt8 (K.attr .CONDITIONATTR_MANAGAIN)
    let w := w.writeUInt32 c.manaGain
    (true, w)

/-- Method `ConditionSoul::unserializeProp`. -/
def ConditionSoul.unserializeProp (K : Enums) (c : ConditionSoul) (attr : Nat)
    (s : PropStream) : Bool × ConditionSoul × PropStream :=
  if attr = K.attr .CONDITIONATTR_SOULGAIN then
    match s.readUInt32 with
    | none => (false, c, s)
    | some (value, s) => (true, { c with soulGain := value }, s)
  else if attr = K.attr .CONDITIONATTR_SOULTICKS then
    match s.readUInt32 with
    | none => (false, c, s)
    | some (value, s) => (true, { c with soulTicks := value }, s)
  else
    match c.toCondition.unserializeProp K attr s with
    | (r, b, s) => (r, { c with toCondition := b }, s)

/-- Method `ConditionSoul::serialize`. -/
def ConditionSoul.serialize (K : Enums) (c : ConditionSoul) (w : PropWriteStream) :
    Bool × PropWriteStream :=
  match c.toCondition.serialize K w with
  | (false, w) => (false, w)
  | (true, w) =>
    let w := w.writeUInt8 (K.attr .CONDITIONATTR_SOULGAIN)
    let w := w.writeUInt32 c.soulGain
    let w := w.writeUInt8 (K.attr .CONDITIONATTR_SOULTICKS)
    let w := w.writeUInt32 c.soulTicks
    (true, w)

/-- Method `ConditionDamage::unserializeProp`. -/
def ConditionDamage.unserializeProp (K : Enums) (now : Int) (c : ConditionDamage) (attr : Nat)
    (s : PropStream) : Bool × ConditionDamage × PropStream :=
  if attr = K.attr .CONDITIONATTR_DELAYED then
    match s.readUInt8 with
    | none => (false, c, s)
    | some (value, s) => (true, { c with delayed := decide (value ≠ 0) }, s)
  else if attr = K.attr .CONDITIONATTR_PERIODDAMAGE then
    match s.readInt32 with
    | none => (false, c, s)
    | some (value, s) => (true, { c with periodDamage := value }, s)
  else if attr = K.attr .CONDITIONATTR_OWNER then
    match s.skip 4 with
    | none => (false, c, s)
    | some s => (true, c, s)
  else if attr = K.attr .CONDITIONATTR_INTERVALDATA then
    match s.readIntervalInfo with
    | none => (false, c, s)
    | some (damageInfo, s) =>
      let c := { c with damageList := c.damageList ++ [damageInfo] }
      let c := if c.ticks ≠ -1 then
          { c with toCondition :=
              c.toCondition.setTicks now (wrapInt32 (c.ticks + damageInfo.interval)) }
        else c
      (true, c, s)
  else
    match c.toCondition.unserializeProp K attr s with
    | (r, b, s) => (r, { c with toCondition := b }, s)

/-- Method `ConditionDamage::serialize`. -/
def ConditionDamage.serialize (K : Enums) (c : ConditionDamage) (w : PropWriteStream) :
    Bool × PropWriteStream :=
  match c.toCondition.serialize K w with
  | (false, w) => (false, w)
  | (true, w) =>
    let w := w.writeUInt8 (K.attr .CONDITIONATTR_DELAYED)
    let w := w.writeUInt8 (if c.delayed then 1 else 0)
    let w := w.writeUInt8 (K.attr .CONDITIONATTR_PERIODDAMAGE)
    let w := w.writeInt32 c.periodDamage
    let w := c.damageList.foldl
      (fun w intervalInfo =>
        (w.writeUInt8 (K.attr .CONDITIONATTR_INTERVALDATA)).writeIntervalInfo intervalInfo) w
    (true, w)

/-- Method `ConditionSpeed::unserializeProp`. -/
def ConditionSpeed.unserializeProp (K : Enums) (c : ConditionSpeed) (attr : Nat)
    (s : PropStream) : Bool × ConditionSpeed × PropStream :=
  if attr = K.attr .CONDITIONATTR_SPEEDDELTA then
    match s.readInt32 with
    | none => (false, c, s)
    | some (value, s) => (true, { c with speedDelta := value }, s)
  else if attr = K.attr .CONDITIONATTR_FORMULA_MINA then
    match s.readFloat with
    | none => (false, c, s)
    | some (value, s) => (true, { c with mina := value }, s)
  else if attr = K.attr .CONDITIONATTR_FORMULA_MINB then
    match s.readFloat with
    | none => (false, c, s)
    | some (value, s) => (true, { c with minb := value }, s)
  else if attr = K.attr .CONDITIONATTR_FORMULA_MAXA then
    match s.readFloat with
    | none => (false, c, s)
    | some (value, s) => (true, { c with maxa := value }, s)
  else if attr = K.attr .CONDITIONATTR_FORMULA_MAXB then
    match s.readFloat with
    | none => (false, c, s)
    | some (value, s) => (true, { c with maxb := value }, s)
  else
    match c.toCondition.unserializeProp K attr s with
    | (r, b, s) => (r, { c with toCondition := b }, s)

/-- Method `ConditionSpeed::serialize`. -/
def ConditionSpeed.serialize (K : Enums) (c : ConditionSpeed) (w : PropWriteStream) :
    Bool × PropWriteStream :=
  match c.toCondition.serialize K w with
  | (false, w) => (false, w)
  | (true, w) =>
    let w := w.writeUInt8 (K.attr .CONDITIONATTR_SPEEDDELTA)
    let w := w.writeInt32 c.speedDelta
    let w := w.writeUInt8 (K.attr .CONDITIONATTR_FORMULA_MINA)
    let w := w.writeFloat c.mina
    let w := w.writeUInt8 (K.attr .CONDITIONATTR_FORMULA_MINB)
    let w := w.writeFloat c.minb
    let w := w.writeUInt8 (K.attr .CONDITIONATTR_FORMULA_MAXA)
    let w := w.writeFloat c.maxa
    let w := w.writeUInt8 (K.attr .CONDITIONATTR_FORMULA_MAXB)
    let w := w.writeFloat c.maxb
    (true, w)

/-- Method `ConditionOutfit::unserializeProp`. -/
def ConditionOutfit.unserializeProp (K : Enums) (c : ConditionOutfit) (attr : Nat)
    (s : PropStream) : Bool × ConditionOutfit × PropStream :=
  if attr = K.attr .CONDITIONATTR_OUTFIT then
    match s.readBytes K.sizeofOutfit with
    | none => (false, c, s)
    | some (value, s) => (true, { c with outfit := value }, s)
  else
    match c.toCondition.unserializeProp K attr s with
    | (r, b, s) => (r, { c with toCondition := b }, s)

/-- Method `ConditionOutfit::serialize`. -/
def ConditionOutfit.serialize (K : Enums) (c : ConditionOutfit) (w : PropWriteStream) :
    Bool × PropWriteStream :=
  match c.toCondition.serialize K w with
  | (false, w) => (false, w)
  | (true, w) =>
    let w := w.writeUInt8 (K.attr .CONDITIONATTR_OUTFIT)
    let w := w.writeBytes c.outfit
    (true, w)

/-- Method `ConditionLight::unserializeProp`; the colour and the level are read
as 32 bits and stored in 8. -/
def ConditionLight.unserializeProp (K : Enums) (c : ConditionLight) (attr : Nat)
    (s : PropStream) : Bool × ConditionLight × PropStream :=
  if attr = K.attr .CONDITIONATTR_LIGHTCOLOR then
    match s.readUInt32 with
    | none => (false, c, s)
    | some (value, s) => (true, { c with lightInfo := { c.lightInfo with color := value % 256 } }, s)
  else if attr = K.attr .CONDITIONATTR_LIGHTLEVEL then
    match s.readUInt32 with
    | none => (false, c, s)
    | some (value, s) => (true, { c with lightInfo := { c.lightInfo with level := value % 256 } }, s)
  else if attr = K.attr .CONDITIONATTR_LIGHTTICKS then
    match s.readUInt32 with
    | none => (false, c, s)
    | some (value, s) => (true, { c with internalLightTicks := value }, s)
  else if attr = K.attr .CONDITIONATTR_LIGHTINTERVAL then
    match s.readUInt32 with
    | none => (false, c, s)
    | some (value, s) => (true, { c with lightChangeInterval := value }, s)
  else
    match c.toCondition.unserializeProp K attr s with
    | (r, b, s) => (r, { c with toCondition := b }, s)

/-- Method `ConditionLight::serialize`. -/
def ConditionLight.serialize (K : Enums) (c : ConditionLight) (w : PropWriteStream) :
    Bool × PropWriteStream :=
  match c.toCondition.serialize K w with
  | (false, w) => (false, w)
  | (true, w) =>
    let w := w.writeUInt8 (K.attr .CONDITIONATTR_LIGHTCOLOR)
    let w := w.writeUInt32 c.lightInfo.color
    let w := w.writeUInt8 (K.attr .CONDITIONATTR_LIGHTLEVEL)
    let w := w.writeUInt32 c.lightInfo.level
    let w := w.writeUInt8 (K.attr .CONDITIONATTR_LIGHTTICKS)
    let w := w.writeUInt32 c.internalLightTicks
    let w := w.writeUInt8 (K.attr .CONDITIONATTR_LIGHTINTERVAL)
    let w := w.writeUInt32 c.lightChangeInterval
    (true, w)

/-- Virtual dispatch of `unserializeProp`; the four classes without an override
use the one of the base class.  There is no result when
`ConditionAttributes::unserializeProp` stores outside an array. -/
def AnyCondition.unserializeProp (K : Enums) (now : Int) (c : AnyCondition) (attr : Nat)
    (s : PropStream) : Option (Bool × AnyCondition × PropStream) :=
  match c with
  | .generic c => match c.unserializeProp K attr s with
    | (r, c, s) => some (r, .generic c, s)
  | .attributes c => match c.unserializeProp K attr s with
    | none => none
    | some (r, c, s) => some (r, .attributes c, s)
  | .regeneration c => match c.unserializeProp K attr s with
    | (r, c, s) => some (r, .regeneration c, s)
  | .soul c => match c.unserializeProp K attr s with
    | (r, c, s) => some (r, .soul c, s)
  | .damage c => match c.unserializeProp K now attr s with
    | (r, c, s) => some (r, .damage c, s)
  | .speed c => match c.unserializeProp K attr s with
    | (r, c, s) => some (r, .speed c, s)
  | .invisible c => match c.unserializeProp K attr s with
    | (r, c, s) => some (r, .invisible c, s)
  | .outfit c => match c.unserializeProp K attr s with
    | (r, c, s) => some (r, .outfit c, s)
  | .light c => match c.unserializeProp K attr s with
    | (r, c, s) => some (r, .light c, s)
  | .spellCooldown c => match c.unserializeProp K attr s with
    | (r, c, s) => some (r, .spellCooldown c, s)
  | .spellGroupCooldown c => match c.unserializeProp K attr s with
    | (r, c, s) => some (r, .spellGroupCooldown c, s)

/-- Virtual dispatch of `serialize`. -/
def AnyCondition.serialize (K : Enums) (c : AnyCondition) (w : PropWriteStream) :
    Bool × PropWriteStream :=
  match c with
  | .generic c => c.serialize K w
  | .attributes c => c.serialize K w
  | .regeneration c => c.serialize K w
  | .soul c => c.serialize K w
  | .damage c => c.serialize K w
  | .speed c => c.serialize K w
  | .invisible c => c.serialize K w
  | .outfit c => c.serialize K w
  | .light c => c.serialize K w
  | .spellCooldown c => c.serialize K w
  | .spellGroupCooldown c => c.serialize K w

/-- The loop of `Condition::unserialize`, bounded by `fuel` iterations; `none`
means that the bound was reached or that `unserializeProp` has no result. -/
def AnyCondition.unserializeLoop (K : Enums) (now : Int) :
    Nat → AnyCondition → PropStream → Option (Bool × AnyCondition × PropStream)
  | 0, _, _ => none
  | fuel + 1, c, s =>
    match s.readUInt8 with
    | none => some (true, c, s)
    | some (attr_type, s) =>
      if attr_type = K.attr .CONDITIONATTR_END then some (true, c, s)
      else
        match c.unserializeProp K now attr_type s with
        | none => none
        | some (false, c, s) => some (false, c, s)
        | some (true, c, s) => AnyCondition.unserializeLoop K now fuel c s

/-- Method `Condition::unserialize`: every iteration consumes the tag byte, so
one more iteration than there are bytes is enough. -/
def AnyCondition.unserialize (K : Enums) (now : Int) (c : AnyCondition) (propStream : PropStream) :
    Option (Bool × AnyCondition × PropStream) :=
  AnyCondition.unserializeLoop K now (propStream.length + 1) c propStream

/-! ## Randomness -/

/-- Modelled from the spec: `uniform_random(minNumber, maxNumber)` (declared
outside `src/`) "samples uniformly from a range"; `seed` is the state of the
random generator, and every value of the range is the result for some seed. -/
def uniform_random (seed : Nat) (minNumber maxNumber : Int) : Int :=
  let lo := min minNumber maxNumber
  let hi := max minNumber maxNumber
  lo + ((seed % (hi - lo + 1).toNat : Nat) : Int)

/-! ## Floating point -/

/-- The least `j' ≥ j`, found within `fuel` steps, with `n < d * 2 ^ (p + j')`:
the number of low bits that rounding `n / d` to `p` significant bits drops. -/
def roundToEven.shift (p n d : Nat) : Nat → Nat → Nat
  | 0, j => j
  | fuel + 1, j => if n < d * 2 ^ (p + j) then j else roundToEven.shift p n d fuel (j + 1)

/-- The quotient `n / D` rounded to an integer: to nearest, ties to even. -/
def roundToEven.nearest (n D : Nat) : Nat :=
  if D < 2 * (n % D) ∨ (2 * (n % D) = D ∧ n / D % 2 = 1) then n / D + 1 else n / D

/-- The rounding of IEEE 754 arithmetic in its default mode, to nearest with
ties to even: the quotient `n / d` rounded to `p` significant bits, for a
quotient that is at least `2 ^ (p - 1)` or an integer below `2 ^ p`, so that the
result is an integer.  The exponent range is not modelled: the values below
stay far inside it. -/
def roundToEven (p n d : Nat) : Nat :=
  let j := roundToEven.shift p n d n 0
  roundToEven.nearest n (d * 2 ^ j) * 2 ^ j

/-- The conversion `static_cast<float>(x)` of an integer, which is also the
implicit conversion of an `int32_t` operand of a `float` operation: `x` rounded
to the 24 significant bits of single precision. -/
def float.ofInt (x : Int) : Int :=
  if 0 ≤ x then roundToEven 24 x.natAbs 1 else -(roundToEven 24 x.natAbs 1 : Int)

/-- The `float` sum of two `float` values that are integers. -/
def float.add (a b : Int) : Int := float.ofInt (a + b)

/-- The `float` quotient `a / b` of two `float` values that are integers,
`b ≠ 0`, as a fixed-point number with 64 fractional bits, that is, the multiple
of `2 ^ (-64)` it is.  For operands that come from `int32_t` values a non-zero
quotient has magnitude at least `2 ^ (-31)`, so its 24 significant bits lie
above `2 ^ (-64)`.  The sign of a zero is not kept, `1.0 - q` does not depend on
it. -/
def float.div (a b : Int) : Int :=
  if (0 ≤ a ∧ 0 ≤ b) ∨ (a < 0 ∧ b < 0) then roundToEven 24 (a.natAbs * 2 ^ 64) b.natAbs
  else -(roundToEven 24 (a.natAbs * 2 ^ 64) b.natAbs : Int)

/-- The value `std::fabs(1.0 - q)` for a `float` `q`, computed in `double`: the
difference rounded to 53 significant bits; `q` and the result are fixed-point
numbers with 64 fractional bits. -/
def double.distanceToOne (q : Int) : Nat := roundToEven 53 (2 ^ 64 - q).natAbs 1

/-! ## The damage variant -/

/-- The test `x1 < x2` that ends the `do … while` loop of `generateDamageList`,
where `x1 = std::fabs(1.0 - ((static_cast<float>(sum)) + i) / med)` and
`x2 = std::fabs(1.0 - (static_cast<float>(sum) / med))`: the sum and the two
quotients are `float` operations on the converted operands, the subtractions
from `1.0` are `double` operations.  For `med = 0` the quotients are infinite
or NaN, so that `x1` and `x2` are both infinite or NaN and the test fails. -/
def generateDamageList.closer (sum i med : Int) : Bool :=
  if med = 0 then false
  else
    let x1 := double.distanceToOne
      (float.div (float.add (float.ofInt sum) (float.ofInt i)) (float.ofInt med))
    let x2 := double.distanceToOne (float.div (float.ofInt sum) (float.ofInt med))
    decide (x1 < x2)

/-- The `do … while` loop of `generateDamageList` for one value of `i`, bounded
by `fuel` iterations (`none` when the bound is reached): the running sum and the
list after the loop. -/
def generateDamageList.doWhile (i med : Int) : Nat → Int → List Int → Option (Int × List Int)
  | 0, _, _ => none
  | fuel + 1, sum, list =>
    let sum := wrapInt32 (sum + i)
    let list := list ++ [i]
    if generateDamageList.closer sum i med then generateDamageList.doWhile i med fuel sum list
    else some (sum, list)

/-- The `for (i = start; i > 0; --i)` loop of `generateDamageList`; the first
argument counts the rounds left, so that `i` is that count. -/
def generateDamageList.forLoop (amount start : Int) (fuel : Nat) :
    Nat → Int → List Int → Option (List Int)
  | 0, _, list => some list
  | k + 1, sum, list =>
    let i : Int := (k : Int) + 1
    let n := wrapInt32 (start + 1 - i)
    let med := wrapInt32 (Int.tdiv (wrapInt32 (n * amount)) start)
    match generateDamageList.doWhile i med fuel sum list with
    | none => none
    | some (sum, list) => generateDamageList.forLoop amount start fuel k sum list

/-- Function `ConditionDamage::generateDamageList(amount, start, list)` called
with an empty `list`; each inner loop is bounded by `fuel` iterations. -/
def ConditionDamage.generateDamageList (fuel : Nat) (amount start : Int) : Option (List Int) :=
  generateDamageList.forLoop (abs32 amount) start fuel start.toNat 0 []

/-! ### The other methods -/

/-- Method `ConditionDamage::setParam`. -/
def ConditionDamage.setParam (c : ConditionDamage) (param : ConditionParam_t) (value : Int) :
    Bool × ConditionDamage :=
  match c.toCondition.setParam param value with
  | (ret, b) =>
    let c := { c with toCondition := b }
    match param with
    | .CONDITION_PARAM_OWNER => (true, { c with owner := toUInt32 value })
    | .CONDITION_PARAM_FORCEUPDATE => (true, { c with forceUpdate := decide (value ≠ 0) })
    | .CONDITION_PARAM_DELAYED => (true, { c with delayed := decide (value ≠ 0) })
    | .CONDITION_PARAM_MAXVALUE => (ret, { c with maxDamage := abs32 value })
    | .CONDITION_PARAM_MINVALUE => (ret, { c with minDamage := abs32 value })
    | .CONDITION_PARAM_STARTVALUE => (ret, { c with startDamage := abs32 value })
    | .CONDITION_PARAM_TICKINTERVAL => (ret, { c with tickInterval := abs32 value })
    | .CONDITION_PARAM_PERIODICDAMAGE => (ret, { c with periodDamage := value })
    | .CONDITION_PARAM_FIELD => (ret, { c with field := decide (value ≠ 0) })
    | _ => (false, c)

/-- One iteration of the `for` loop of `addDamage`. -/
def ConditionDamage.addDamage.round (now time value : Int) (c : ConditionDamage) :
    ConditionDamage :=
  let damageInfo : IntervalInfo := { interval := time, timeLeft := time, value := value }
  let c := { c with damageList := c.damageList ++ [damageInfo] }
  if c.ticks ≠ -1 then
    { c with toCondition := c.toCondition.setTicks now (wrapInt32 (c.ticks + damageInfo.interval)) }
  else c

/-- Method `ConditionDamage::addDamage(rounds, time, value)`. -/
def ConditionDamage.addDamage (c : ConditionDamage) (now : Int) (rounds time value : Int) :
    Bool × ConditionDamage :=
  if rounds = -1 then
    let c := { c with periodDamage := value }
    let c := (c.setParam .CONDITION_PARAM_TICKINTERVAL time).2
    let c := (c.setParam .CONDITION_PARAM_TICKS (-1)).2
    (true, c)
  else if c.periodDamage > 0 then (false, c)
  else (true, (ConditionDamage.addDamage.round now time value)^[rounds.toNat] c)

/-- The value of `std::max<int32_t>(1, std::ceil(amount / 20.0))`. -/
def ConditionDamage.init.startValue (amount : Int) : Int := max 1 (-((-amount) / 20))

/-- Method `ConditionDamage::init`; `seed` drives `uniform_random` and `fuel`
bounds the inner loops of `generateDamageList`. -/
def ConditionDamage.init (c : ConditionDamage) (now : Int) (seed fuel : Nat) :
    Option (Bool × ConditionDamage) :=
  if c.periodDamage ≠ 0 then some (true, c)
  else if c.damageList.isEmpty then
    let c := { c with toCondition := c.toCondition.setTicks now 0 }
    let amount := uniform_random seed c.minDamage c.maxDamage
    if amount ≠ 0 then
      let c :=
        if c.startDamage > c.maxDamage then { c with startDamage := c.maxDamage }
        else if c.startDamage = 0 then
          { c with startDamage := ConditionDamage.init.startValue amount }
        else c
      match ConditionDamage.generateDamageList fuel amount c.startDamage with
      | none => none
      | some list =>
        let c := list.foldl
          (fun c value => (c.addDamage now 1 c.tickInterval (wrapInt32 (-value))).2) c
        some (!c.damageList.isEmpty, c)
    else some (!c.damageList.isEmpty, c)
  else some (!c.damageList.isEmpty, c)

/-- Method `ConditionDamage::getNextDamage`: the result flag, the value of the
output parameter `damage` (meaningful when the flag is set) and the instance. -/
def ConditionDamage.getNextDamage (c : ConditionDamage) : Bool × Int × ConditionDamage :=
  if c.periodDamage ≠ 0 then (true, c.periodDamage, c)
  else
    match c.damageList with
    | damageInfo :: rest =>
      (true, damageInfo.value, if c.ticks ≠ -1 then { c with damageList := rest } else c)
    | [] => (false, 0, c)

/-- Method `ConditionDamage::getTotalDamage`. -/
def ConditionDamage.getTotalDamage (c : ConditionDamage) : Int :=
  let result :=
    if !c.damageList.isEmpty then
      c.damageList.foldl (fun result intervalInfo => wrapInt32 (result + intervalInfo.value)) 0
    else
      wrapInt32 (c.minDamage + Int.tdiv (wrapInt32 (c.maxDamage - c.minDamage)) 2)
  abs32 result

/-- Method `ConditionDamage::updateCondition`. -/
def ConditionDamage.updateCondition (c : ConditionDamage) (addCondition : ConditionDamage) :
    Bool :=
  if addCondition.forceUpdate then true
  else if c.ticks = -1 ∧ addCondition.ticks > 0 then false
  else decide (addCondition.getTotalDamage > c.getTotalDamage)

/-- Method `ConditionDamage::addCondition`: the instance after the call and the
values handed to `doDamage`, in order. -/
def ConditionDamage.addCondition (c : ConditionDamage) (now : Int) (seed fuel : Nat)
    (addCondition : ConditionDamage) : Option (ConditionDamage × List Int) :=
  if addCondition.conditionType ≠ c.conditionType then some (c, [])
  else if !c.updateCondition addCondition then some (c, [])
  else
    let c := { c with toCondition := c.toCondition.setTicks now addCondition.ticks }
    let c := { c with
      owner := addCondition.owner
      maxDamage := addCondition.maxDamage
      minDamage := addCondition.minDamage
      startDamage := addCondition.startDamage
      tickInterval := addCondition.tickInterval
      periodDamage := addCondition.periodDamage }
    let nextTimeLeft :=
      match c.damageList with
      | damageInfo :: _ => damageInfo.timeLeft
      | [] => c.tickInterval
    let c := { c with damageList := addCondition.damageList }
    match c.init now seed fuel with
    | none => none
    | some (false, c) => some (c, [])
    | some (true, c) =>
      let c :=
        match c.damageList with
        | damageInfo :: rest =>
          { c with damageList := { damageInfo with timeLeft := nextTimeLeft } :: rest }
        | [] => c
      if !c.delayed then
        match c.getNextDamage with
        | (true, damage, c) => some (c, [damage])
        | (false, _, c) => some (c, [])
      else some (c, [])

/-! ## The speed variant -/

/-- Method `ConditionSpeed::startCondition`: the result flag, the instance and
the deltas handed to `g_game.changeSpeed`.  The pair `formulaMin`, `formulaMax`
is what `getFormulaValues(creature->getBaseSpeed(), min, max)` yields. -/
def ConditionSpeed.startCondition (c : ConditionSpeed) (now : Int) (formulaMin formulaMax : Int)
    (seed : Nat) : Bool × ConditionSpeed × List Int :=
  match c.toCondition.startCondition now with
  | (false, b) => (false, { c with toCondition := b }, [])
  | (true, b) =>
    let c := { c with toCondition := b }
    let c :=
      if c.speedDelta = 0 then
        { c with speedDelta := uniform_random seed formulaMin formulaMax }
      else c
    (true, c, [c.speedDelta])

/-- Method `ConditionSpeed::endCondition`: the deltas handed to
`g_game.changeSpeed`. -/
def ConditionSpeed.endCondition (c : ConditionSpeed) : List Int :=
  [wrapInt32 (-c.speedDelta)]

/-- Method `ConditionSpeed::addCondition`: the instance after the call and the
deltas handed to `g_game.changeSpeed`. -/
def ConditionSpeed.addCondition (c : ConditionSpeed) (now : Int) (formulaMin formulaMax : Int)
    (seed : Nat) (addCondition : ConditionSpeed) : ConditionSpeed × List Int :=
  if c.conditionType ≠ addCondition.conditionType then (c, [])
  else if c.ticks = -1 ∧ addCondition.ticks > 0 then (c, [])
  else
    let c := { c with toCondition := c.toCondition.setTicks now addCondition.ticks }
    let oldSpeedDelta := c.speedDelta
    let c := { c with
      speedDelta := addCondition.speedDelta
      mina := addCondition.mina
      maxa := addCondition.maxa
      minb := addCondition.minb
      maxb := addCondition.maxb }
    let c :=
      if c.speedDelta = 0 then
        { c with speedDelta := uniform_random seed formulaMin formulaMax }
      else c
    let newSpeedChange := wrapInt32 (c.speedDelta - oldSpeedDelta)
    if newSpeedChange ≠ 0 then (c, [newSpeedChange]) else (c, [])

/-! ## The remaining operations of the base class -/

/-- Method `Condition::executeCondition`: the result flag and the instance
after the call. -/
def Condition.executeCondition (c : Condition) (now : Int) (interval : Int) : Bool × Condition :=
  if c.ticks = -1 then (true, c)
  else
    let c := { c with ticks := max 0 (wrapInt32 (c.ticks - interval)) }
    (decide (c.endTime ≥ now), c)

/-- Method `Condition::isPersistent`. -/
def Condition.isPersistent (K : Enums) (c : Condition) : Bool :=
  if c.ticks = -1 then false
  else if !(c.id = K.CONDITIONID_DEFAULT || c.id = K.CONDITIONID_COMBAT) then false
  else true

/-! ## Parameter setters of the variants -/

/-- Method `ConditionAttributes::setParam`. -/
def ConditionAttributes.setParam (K : Enums) (c : ConditionAttributes) (param : ConditionParam_t)
    (value : Int) : Bool × ConditionAttributes :=
  match c.toCondition.setParam param value with
  | (ret, b) =>
    let c := { c with toCondition := b }
    match param with
    | .CONDITION_PARAM_SKILL_MELEE =>
      (true, { c with skills := ((c.skills.set (K.skill .SKILL_CLUB) value).set
          (K.skill .SKILL_AXE) value).set (K.skill .SKILL_SWORD) value })
    | .CONDITION_PARAM_SKILL_MELEEPERCENT =>
      (true, { c with skillsPercent := ((c.skillsPercent.set (K.skill .SKILL_CLUB) value).set
          (K.skill .SKILL_AXE) value).set (K.skill .SKILL_SWORD) value })
    | .CONDITION_PARAM_SKILL_FIST =>
      (true, { c with skills := c.skills.set (K.skill .SKILL_FIST) value })
    | .CONDITION_PARAM_SKILL_FISTPERCENT =>
      (true, { c with skillsPercent := c.skillsPercent.set (K.skill .SKILL_FIST) value })
    | .CONDITION_PARAM_SKILL_CLUB =>
      (true, { c with skills := c.skills.set (K.skill .SKILL_CLUB) value })
    | .CONDITION_PARAM_SKILL_CLUBPERCENT =>
      (true, { c with skillsPercent := c.skillsPercent.set (K.skill .SKILL_CLUB) value })
    | .CONDITION_PARAM_SKILL_SWORD =>
      (true, { c with skills := c.skills.set (K.skill .SKILL_SWORD) value })
    | .CONDITION_PARAM_SKILL_SWORDPERCENT =>
      (true, { c with skillsPercent := c.skillsPercent.set (K.skill .SKILL_SWORD) value })
    | .CONDITION_PARAM_SKILL_AXE =>
      (true, { c with skills := c.skills.set (K.skill .SKILL_AXE) value })
    | .CONDITION_PARAM_SKILL_AXEPERCENT =>
      (true, { c with skillsPercent := c.skillsPercent.set (K.skill .SKILL_AXE) value })
    | .CONDITION_PARAM_SKILL_DISTANCE =>
      (true, { c with skills := c.skills.set (K.skill .SKILL_DISTANCE) value })
    | .CONDITION_PARAM_SKILL_DISTANCEPERCENT =>
      (true, { c with skillsPercent := c.skillsPercent.set (K.skill .SKILL_DISTANCE) value })
    | .CONDITION_PARAM_SKILL_SHIELD =>
      (true, { c with skills := c.skills.set (K.skill .SKILL_SHIELD) value })
    | .CONDITION_PARAM_SKILL_SHIELDPERCENT =>
      (true, { c with skillsPercent := c.skillsPercent.set (K.skill .SKILL_SHIELD) value })
    | .CONDITION_PARAM_SKILL_FISHING =>
      (true, { c with skills := c.skills.set (K.skill .SKILL_FISHING) value })
    | .CONDITION_PARAM_SKILL_FISHINGPERCENT =>
      (true, { c with skillsPercent := c.skillsPercent.set (K.skill .SKILL_FISHING) value })
    | .CONDITION_PARAM_STAT_MAXHITPOINTS =>
      (true, { c with stats := c.stats.set (K.stat .STAT_MAXHITPOINTS) value })
    | .CONDITION_PARAM_STAT_MAXMANAPOINTS =>
      (true, { c with stats := c.stats.set (K.stat .STAT_MAXMANAPOINTS) value })
    | .CONDITION_PARAM_STAT_SOULPOINTS =>
      (true, { c with stats := c.stats.set (K.stat .STAT_SOULPOINTS) value })
    | .CONDITION_PARAM_STAT_MAGICPOINTS =>
      (true, { c with stats := c.stats.set (K.stat .STAT_MAGICPOINTS) value })
    | .CONDITION_PARAM_STAT_MAXHITPOINTSPERCENT =>
      (true, { c with
        statsPercent := c.statsPercent.set (K.stat .STAT_MAXHITPOINTS) (max 0 value) })
    | .CONDITION_PARAM_STAT_MAXMANAPOINTSPERCENT =>
      (true, { c with
        statsPercent := c.statsPercent.set (K.stat .STAT_MAXMANAPOINTS) (max 0 value) })
    | .CONDITION_PARAM_STAT_SOULPOINTSPERCENT =>
      (true, { c with
        statsPercent := c.statsPercent.set (K.stat .STAT_SOULPOINTS) (max 0 value) })
    | .CONDITION_PARAM_STAT_MAGICPOINTSPERCENT =>
      (true, { c with
        statsPercent := c.statsPercent.set (K.stat .STAT_MAGICPOINTS) (max 0 value) })
    | _ => (ret, c)

/-- Method `ConditionRegeneration::setParam`. -/
def ConditionRegeneration.setParam (c : ConditionRegeneration) (param : ConditionParam_t)
    (value : Int) : Bool × ConditionRegeneration :=
  match c.toCondition.setParam param value with
  | (ret, b) =>
    let c := { c with toCondition := b }
    match param with
    | .CONDITION_PARAM_HEALTHGAIN => (true, { c with healthGain := toUInt32 value })
    | .CONDITION_PARAM_HEALTHTICKS => (true, { c with healthTicks := toUInt32 value })
    | .CONDITION_PARAM_MANAGAIN => (true, { c with manaGain := toUInt32 value })
    | .CONDITION_PARAM_MANATICKS => (true, { c with manaTicks := toUInt32 value })
    | _ => (ret, c)

/-- Method `ConditionSoul::setParam`. -/
def ConditionSoul.setParam (c : ConditionSoul) (param : ConditionParam_t) (value : Int) :
    Bool × ConditionSoul :=
  match c.toCondition.setParam param value with
  | (ret, b) =>
    let c := { c with toCondition := b }
    match param with
    | .CONDITION_PARAM_SOULGAIN => (true, { c with soulGain := toUInt32 value })
    | .CONDITION_PARAM_SOULTICKS => (true, { c with soulTicks := toUInt32 value })
    | _ => (ret, c)

/-- Method `ConditionSpeed::setParam`. -/
def ConditionSpeed.setParam (K : Enums) (c : ConditionSpeed) (param : ConditionParam_t)
    (value : Int) : Bool × ConditionSpeed :=
  let c := { c with toCondition := (c.toCondition.setParam param value).2 }
  if param ≠ .CONDITION_PARAM_SPEED then (false, c)
  else
    let c := { c with speedDelta := value }
    if value > 0 then (true, { c with conditionType := K.type .CONDITION_HASTE })
    else (true, { c with conditionType := K.type .CONDITION_PARALYZE })

/-- Method `ConditionLight::setParam`. -/
def ConditionLight.setParam (c : ConditionLight) (param : ConditionParam_t) (value : Int) :
    Bool × ConditionLight :=
  match c.toCondition.setParam param value with
  | (true, b) => (false, { c with toCondition := b })
  | (false, b) =>
    let c := { c with toCondition := b }
    match param with
    | .CONDITION_PARAM_LIGHT_LEVEL =>
      (true, { c with lightInfo := { c.lightInfo with level := toUInt8 value } })
    | .CONDITION_PARAM_LIGHT_COLOR =>
      (true, { c with lightInfo := { c.lightInfo with color := toUInt8 value } })
    | _ => (false, c)

/-- The virtual call `setParam` on an instance of any class; the classes that
do not override it use `Condition::setParam`. -/
def AnyCondition.setParam (K : Enums) (c : AnyCondition) (param : ConditionParam_t)
    (value : Int) : Bool × AnyCondition :=
  match c with
  | .generic c => ((c.setParam param value).1, .generic (c.setParam param value).2)
  | .attributes c => ((c.setParam K param value).1, .attributes (c.setParam K param value).2)
  | .regeneration c => ((c.setParam param value).1, .regeneration (c.setParam param value).2)
  | .soul c => ((c.setParam param value).1, .soul (c.setParam param value).2)
  | .damage c => ((c.setParam param value).1, .damage (c.setParam param value).2)
  | .speed c => ((c.setParam K param value).1, .speed (c.setParam K param value).2)
  | .invisible c => ((c.setParam param value).1, .invisible (c.setParam param value).2)
  | .outfit c => ((c.toCondition.setParam param value).1,
      .outfit { c with toCondition := (c.toCondition.setParam param value).2 })
  | .light c => ((c.setParam param value).1, .light (c.setParam param value).2)
  | .spellCooldown c => ((c.setParam param value).1, .spellCooldown (c.setParam param value).2)
  | .spellGroupCooldown c =>
    ((c.setParam param value).1, .spellGroupCooldown (c.setParam param value).2)

/-! ## The entity and the world -/

/-- The calls that the methods of this file make into the entity and the game
world, with the arguments that are passed; a method returns the calls it made
in order. -/
inductive WorldCall
  | setVarSkill (skill : Nat) (modifier : Int)
  | sendSkills
  | setVarStats (stat : Nat) (modifier : Int)
  | sendStats
  | changeHealth (healthChange : Int)
  | changeMana (manaChange : Int)
  | sendHealMessage (toPlayer : Bool) (realHealthGain : Int)
  | changeSoul (soulChange : Int)
  | onTickCondition (type : Nat) (bRemove : Bool)
  | addMagicEffect
  | combatChangeHealth (value : Int)
  | changeSpeed (delta : Int)
  | internalCreatureChangeVisible (visible : Bool)
  | internalCreatureChangeOutfit (outfit : List Nat)
  | setCreatureLight (light : LightInfo)
  | setNormalCreatureLight
  | changeLight
  | sendSpellCooldown (spellId : Nat) (time : Int)
  | sendSpellGroupCooldown (groupId : Nat) (time : Int)
  deriving DecidableEq, Repr

/-- Modelled from the spec: the "collaborator interfaces consumed" by a
condition (the classes `Creature`, `Player`, `Game` and `Combat` are declared
outside `src/`), as what the entity, the world, the clock and the random
generator answer during one call of a method. -/
structure World where
  /-- The value of `OTSYS_TIME()`. -/
  now : Int
  /-- The state of the generator behind `uniform_random`. -/
  seed : Nat
  /-- The bound on the iterations of each inner loop of `generateDamageList`. -/
  fuel : Nat
  /-- Whether `creature->getPlayer()` is not null. -/
  isPlayer : Bool
  /-- Whether `getZone()` is `ZONE_PROTECTION`. -/
  inProtectionZone : Bool
  /-- The value of `creature->getHealth()` before `changeHealth`. -/
  health : Int
  /-- The value of `creature->getHealth()` after `changeHealth`. -/
  healthAfter : Int
  /-- The number of spectators that `g_game.getSpectators` lists besides the
  player. -/
  otherSpectators : Nat
  /-- The value of `player->getMaxHealth()`. -/
  maxHealth : Int
  /-- The value of `player->getMaxMana()`. -/
  maxMana : Int
  /-- The value of `player->getPlayerInfo(PLAYERINFO_SOUL)`. -/
  soul : Int
  /-- The value of `player->getMagicLevel()`. -/
  magicLevel : Int
  /-- The value of `player->getSkillLevel(i)`. -/
  skillLevel : Nat → Int
  /-- The value of `static_cast<int32_t>(x * ((percent - 100) / 100.f))`, a
  `float` computation, as a function of `x` and `percent`. -/
  percentOf : Int → Int → Int
  /-- The value `min` of `getFormulaValues(creature->getBaseSpeed(), min, max)`. -/
  formulaMin : Int
  /-- The value `max` of `getFormulaValues(creature->getBaseSpeed(), min, max)`. -/
  formulaMax : Int
  /-- What `creature->getCreatureLight` yields. -/
  creatureLight : LightInfo
  /-- The value of `creature->isInvisible()`. -/
  isInvisible : Bool
  /-- The value of `creature->getDefaultOutfit()`. -/
  defaultOutfit : List Nat
  /-- The flag `bRemove` after `creature->onTickCondition(type, bRemove)`, as a
  function of the type and of the flag before the call. -/
  onTickCondition : Nat → Bool → Bool
  /-- The value of `creature->isSuppress(type)`. -/
  isSuppress : Bool
  /-- The value of `creature->isAttackable()`. -/
  isAttackable : Bool
  /-- Whether `Combat::canDoCombat(attacker, creature)` is `RETURNVALUE_NOERROR`. -/
  canDoCombat : Bool
  /-- The value of `creature->isInGhostMode()`. -/
  isInGhostMode : Bool
  /-- The value of `g_game.combatBlockHit(…)`. -/
  combatBlockHit : Bool
  /-- The value of `g_game.combatChangeHealth(…)`. -/
  combatChangeHealth : Bool

/-! ## Lifecycle of the variants -/

/-- Method `ConditionGeneric::addCondition`, which `ConditionInvisible` inherits. -/
def ConditionGeneric.addCondition (c : Condition) (now : Int) (addCondition : Condition) :
    Condition :=
  if c.updateCondition now addCondition then c.setTicks now addCondition.ticks else c

/-- The loop of `ConditionAttributes::updatePercentStats`. -/
def ConditionAttributes.updatePercentStats (K : Enums) (c : ConditionAttributes) (w : World) :
    ConditionAttributes :=
  (List.range' K.STAT_FIRST (K.STAT_LAST + 1 - K.STAT_FIRST)).foldl (fun c i =>
    if c.statsPercent.getD i 0 = 0 then c
    else if i = K.stat .STAT_MAXHITPOINTS then
      { c with stats := c.stats.set i (w.percentOf w.maxHealth (c.statsPercent.getD i 0)) }
    else if i = K.stat .STAT_MAXMANAPOINTS then
      { c with stats := c.stats.set i (w.percentOf w.maxMana (c.statsPercent.getD i 0)) }
    else if i = K.stat .STAT_SOULPOINTS then
      { c with stats := c.stats.set i (w.percentOf w.soul (c.statsPercent.getD i 0)) }
    else if i = K.stat .STAT_MAGICPOINTS then
      { c with stats := c.stats.set i (w.percentOf w.magicLevel (c.statsPercent.getD i 0)) }
    else c) c

/-- Method `ConditionAttributes::updateStats`: the calls made on the player. -/
def ConditionAttributes.updateStats (K : Enums) (c : ConditionAttributes) : List WorldCall :=
  let r := (List.range' K.STAT_FIRST (K.STAT_LAST + 1 - K.STAT_FIRST)).foldl
    (fun (r : Bool × List WorldCall) i =>
      if c.stats.getD i 0 ≠ 0 then (true, r.2 ++ [.setVarStats i (c.stats.getD i 0)]) else r)
    (false, [])
  if r.1 then r.2 ++ [.sendStats] else r.2

/-- The loop of `ConditionAttributes::updatePercentSkills`. -/
def ConditionAttributes.updatePercentSkills (K : Enums) (c : ConditionAttributes) (w : World) :
    ConditionAttributes :=
  (List.range' K.SKILL_FIRST (K.SKILL_LAST + 1 - K.SKILL_FIRST)).foldl (fun c i =>
    if c.skillsPercent.getD i 0 = 0 then c
    else
      { c with skills := c.skills.set i (w.percentOf (w.skillLevel i) (c.skillsPercent.getD i 0)) })
    c

/-- Method `ConditionAttributes::updateSkills`: the calls made on the player. -/
def ConditionAttributes.updateSkills (K : Enums) (c : ConditionAttributes) : List WorldCall :=
  let r := (List.range' K.SKILL_FIRST (K.SKILL_LAST + 1 - K.SKILL_FIRST)).foldl
    (fun (r : Bool × List WorldCall) i =>
      if c.skills.getD i 0 ≠ 0 then (true, r.2 ++ [.setVarSkill i (c.skills.getD i 0)]) else r)
    (false, [])
  if r.1 then r.2 ++ [.sendSkills] else r.2

/-- The four update calls that `startCondition` and `addCondition` of
`ConditionAttributes` make for a player: the instance and the calls made. -/
def ConditionAttributes.updateAll (K : Enums) (c : ConditionAttributes) (w : World) :
    ConditionAttributes × List WorldCall :=
  let c := c.updatePercentSkills K w
  let e1 := c.updateSkills K
  let c := c.updatePercentStats K w
  let e2 := c.updateStats K
  (c, e1 ++ e2)

/-- Method `ConditionAttributes::startCondition`. -/
def ConditionAttributes.startCondition (K : Enums) (c : ConditionAttributes) (w : World) :
    Bool × ConditionAttributes × List WorldCall :=
  match c.toCondition.startCondition w.now with
  | (false, b) => (false, { c with toCondition := b }, [])
  | (true, b) =>
    let c := { c with toCondition := b }
    if w.isPlayer then (true, c.updateAll K w) else (true, c, [])

/-- Method `ConditionAttributes::endCondition`: the calls made on the player. -/
def ConditionAttributes.endCondition (K : Enums) (c : ConditionAttributes) (w : World) :
    List WorldCall :=
  if w.isPlayer then
    let r := (List.range' K.SKILL_FIRST (K.SKILL_LAST + 1 - K.SKILL_FIRST)).foldl
      (fun (r : Bool × List WorldCall) i =>
        if c.skills.getD i 0 ≠ 0 ∨ c.skillsPercent.getD i 0 ≠ 0 then
          (true, r.2 ++ [.setVarSkill i (wrapInt32 (-(c.skills.getD i 0)))])
        else r)
      (false, [])
    let e1 := if r.1 then r.2 ++ [.sendSkills] else r.2
    let r := (List.range' K.STAT_FIRST (K.STAT_LAST + 1 - K.STAT_FIRST)).foldl
      (fun (r : Bool × List WorldCall) i =>
        if c.stats.getD i 0 ≠ 0 then
          (true, r.2 ++ [.setVarStats i (wrapInt32 (-(c.stats.getD i 0)))])
        else r)
      (false, [])
    let e2 := if r.1 then r.2 ++ [.sendStats] else r.2
    e1 ++ e2
  else []

/-- Method `ConditionAttributes::addCondition`. -/
def ConditionAttributes.addCondition (K : Enums) (c : ConditionAttributes) (w : World)
    (addCondition : ConditionAttributes) : ConditionAttributes × List WorldCall :=
  if c.toCondition.updateCondition w.now addCondition.toCondition then
    let c := { c with toCondition := c.toCondition.setTicks w.now addCondition.ticks }
    let e1 := c.endCondition K w
    let c := { c with
      skills := addCondition.skills
      skillsPercent := addCondition.skillsPercent
      stats := addCondition.stats
      statsPercent := addCondition.statsPercent }
    if w.isPlayer then ((c.updateAll K w).1, e1 ++ (c.updateAll K w).2) else (c, e1)
  else (c, [])

/-- The part of `ConditionRegeneration::executeCondition` that precedes the
call of the base method: the instance and the calls made. -/
def ConditionRegeneration.executeCondition.regenerate (c : ConditionRegeneration) (w : World)
    (interval : Int) : ConditionRegeneration × List WorldCall :=
  let c := { c with
    internalHealthTicks := toUInt32 (c.internalHealthTicks + interval)
    internalManaTicks := toUInt32 (c.internalManaTicks + interval) }
  if !w.inProtectionZone then
    let realHealthGain := wrapInt32 (w.healthAfter - w.health)
    let e1 : List WorldCall :=
      if c.internalHealthTicks ≥ c.healthTicks then
        WorldCall.changeHealth (wrapInt32 c.healthGain) ::
          (if c.isBuff ∧ realHealthGain > 0 ∧ w.isPlayer then
            WorldCall.sendHealMessage true realHealthGain ::
              List.replicate w.otherSpectators (WorldCall.sendHealMessage false realHealthGain)
          else [])
      else []
    let c :=
      if c.internalHealthTicks ≥ c.healthTicks then { c with internalHealthTicks := 0 } else c
    let e2 : List WorldCall :=
      if c.internalManaTicks ≥ c.manaTicks then [.changeMana (wrapInt32 c.manaGain)] else []
    let c := if c.internalManaTicks ≥ c.manaTicks then { c with internalManaTicks := 0 } else c
    (c, e1 ++ e2)
  else (c, [])

/-- Method `ConditionRegeneration::executeCondition`. -/
def ConditionRegeneration.executeCondition (c : ConditionRegeneration) (w : World)
    (interval : Int) : Bool × ConditionRegeneration × List WorldCall :=
  let r := ConditionRegeneration.executeCondition.regenerate c w interval
  ((r.1.toCondition.executeCondition w.now interval).1,
    { r.1 with toCondition := (r.1.toCondition.executeCondition w.now interval).2 }, r.2)

/-- Method `ConditionRegeneration::addCondition`. -/
def ConditionRegeneration.addCondition (c : ConditionRegeneration) (now : Int)
    (addCondition : ConditionRegeneration) : ConditionRegeneration :=
  if c.toCondition.updateCondition now addCondition.toCondition then
    { c with
      toCondition := c.toCondition.setTicks now addCondition.ticks
      healthTicks := addCondition.healthTicks
      manaTicks := addCondition.manaTicks
      healthGain := addCondition.healthGain
      manaGain := addCondition.manaGain }
  else c

/-- The part of `ConditionSoul::executeCondition` that precedes the call of the
base method: the instance and the calls made. -/
def ConditionSoul.executeCondition.regenerate (c : ConditionSoul) (w : World) (interval : Int) :
    ConditionSoul × List WorldCall :=
  let c := { c with internalSoulTicks := toUInt32 (c.internalSoulTicks + interval) }
  if w.isPlayer ∧ !w.inProtectionZone ∧ c.internalSoulTicks ≥ c.soulTicks then
    ({ c with internalSoulTicks := 0 }, [.changeSoul (wrapInt32 c.soulGain)])
  else (c, [])

/-- Method `ConditionSoul::executeCondition`. -/
def ConditionSoul.executeCondition (c : ConditionSoul) (w : World) (interval : Int) :
    Bool × ConditionSoul × List WorldCall :=
  let r := ConditionSoul.executeCondition.regenerate c w interval
  ((r.1.toCondition.executeCondition w.now interval).1,
    { r.1 with toCondition := (r.1.toCondition.executeCondition w.now interval).2 }, r.2)

/-- Method `ConditionSoul::addCondition`. -/
def ConditionSoul.addCondition (c : ConditionSoul) (now : Int) (addCondition : ConditionSoul) :
    ConditionSoul :=
  if c.toCondition.updateCondition now addCondition.toCondition then
    { c with
      toCondition := c.toCondition.setTicks now addCondition.ticks
      soulTicks := addCondition.soulTicks
      soulGain := addCondition.soulGain }
  else c

/-- Method `ConditionDamage::doDamage`: the result flag and the calls made. -/
def ConditionDamage.doDamage (_c : ConditionDamage) (w : World) (healthChange : Int) :
    Bool × List WorldCall :=
  if w.isSuppress then (true, [])
  else if !w.isAttackable || !w.canDoCombat then
    (false, if !w.isInGhostMode then [.addMagicEffect] else [])
  else if w.combatBlockHit then (false, [])
  else (w.combatChangeHealth, [.combatChangeHealth healthChange])

/-- Method `ConditionDamage::startCondition`; there is no result when an inner
loop of `generateDamageList` does not end within `w.fuel` iterations. -/
def ConditionDamage.startCondition (c : ConditionDamage) (w : World) :
    Option (Bool × ConditionDamage × List WorldCall) :=
  match c.toCondition.startCondition w.now with
  | (false, b) => some (false, { c with toCondition := b }, [])
  | (true, b) =>
    match ({ c with toCondition := b } : ConditionDamage).init w.now w.seed w.fuel with
    | none => none
    | some (false, c) => some (false, c, [])
    | some (true, c) =>
      if !c.delayed then
        match c.getNextDamage with
        | (true, damage, c) => some ((c.doDamage w damage).1, c, (c.doDamage w damage).2)
        | (false, _, c) => some (true, c, [])
      else some (true, c, [])

/-- The part of `ConditionDamage::executeCondition` that precedes the call of
the base method: the instance, the interval handed to the base method and the
calls made. -/
def ConditionDamage.executeCondition.tick (c : ConditionDamage) (w : World) (interval : Int) :
    ConditionDamage × Int × List WorldCall :=
  if c.periodDamage ≠ 0 then
    let c := { c with periodDamageTick := wrapInt32 (c.periodDamageTick + interval) }
    if c.periodDamageTick ≥ c.tickInterval then
      ({ c with periodDamageTick := 0 }, interval, (c.doDamage w c.periodDamage).2)
    else (c, interval, [])
  else
    match c.damageList with
    | [] => (c, interval, [])
    | damageInfo :: rest =>
      let bRemove := w.onTickCondition c.conditionType (decide (c.ticks ≠ -1))
      let e1 : List WorldCall := [.onTickCondition c.conditionType (decide (c.ticks ≠ -1))]
      let damageInfo := { damageInfo with timeLeft := wrapInt32 (damageInfo.timeLeft - interval) }
      let e2 : List WorldCall :=
        if damageInfo.timeLeft ≤ 0 then (c.doDamage w damageInfo.value).2 else []
      let c :=
        if damageInfo.timeLeft ≤ 0 then
          if bRemove then { c with damageList := rest }
          else { c with damageList := { damageInfo with timeLeft := damageInfo.interval } :: rest }
        else { c with damageList := damageInfo :: rest }
      if !bRemove then
        (if c.ticks > 0 then { c with endTime := wrapInt64 (c.endTime + interval) } else c,
          0, e1 ++ e2)
      else (c, interval, e1 ++ e2)

/-- Method `ConditionDamage::executeCondition`. -/
def ConditionDamage.executeCondition (c : ConditionDamage) (w : World) (interval : Int) :
    Bool × ConditionDamage × List WorldCall :=
  let r := ConditionDamage.executeCondition.tick c w interval
  ((r.1.toCondition.executeCondition w.now r.2.1).1,
    { r.1 with toCondition := (r.1.toCondition.executeCondition w.now r.2.1).2 }, r.2.2)

/-- Method `ConditionInvisible::startCondition`. -/
def ConditionInvisible.startCondition (c : Condition) (w : World) :
    Bool × Condition × List WorldCall :=
  match c.startCondition w.now with
  | (false, c) => (false, c, [])
  | (true, c) => (true, c, [.internalCreatureChangeVisible false])

/-- Method `ConditionInvisible::endCondition`: the calls made. -/
def ConditionInvisible.endCondition (_c : Condition) (w : World) : List WorldCall :=
  if !w.isInvisible then [.internalCreatureChangeVisible true] else []

/-- Method `ConditionOutfit::startCondition`. -/
def ConditionOutfit.startCondition (c : ConditionOutfit) (w : World) :
    Bool × ConditionOutfit × List WorldCall :=
  match c.toCondition.startCondition w.now with
  | (false, b) => (false, { c with toCondition := b }, [])
  | (true, b) => (true, { c with toCondition := b }, [.internalCreatureChangeOutfit c.outfit])

/-- Method `ConditionOutfit::endCondition`: the calls made. -/
def ConditionOutfit.endCondition (_c : ConditionOutfit) (w : World) : List WorldCall :=
  [.internalCreatureChangeOutfit w.defaultOutfit]

/-- Method `ConditionOutfit::addCondition`. -/
def ConditionOutfit.addCondition (c : ConditionOutfit) (w : World)
    (addCondition : ConditionOutfit) : ConditionOutfit × List WorldCall :=
  if c.toCondition.updateCondition w.now addCondition.toCondition then
    ({ c with
        toCondition := c.toCondition.setTicks w.now addCondition.ticks
        outfit := addCondition.outfit },
      [.internalCreatureChangeOutfit addCondition.outfit])
  else (c, [])

/-- Method `ConditionLight::startCondition`; there is no result when the
division `ticks / lightInfo.level` is a division by zero. -/
def ConditionLight.startCondition (c : ConditionLight) (w : World) :
    Option (Bool × ConditionLight × List WorldCall) :=
  match c.toCondition.startCondition w.now with
  | (false, b) => some (false, { c with toCondition := b }, [])
  | (true, b) =>
    let c := { c with toCondition := b, internalLightTicks := 0 }
    if c.lightInfo.level = 0 then none
    else
      let c := { c with lightChangeInterval := toUInt32 (Int.tdiv c.ticks c.lightInfo.level) }
      some (true, c, [.setCreatureLight c.lightInfo, .changeLight])

/-- The part of `ConditionLight::executeCondition` that precedes the call of
the base method: the instance and the calls made. -/
def ConditionLight.executeCondition.decay (c : ConditionLight) (w : World) (interval : Int) :
    ConditionLight × List WorldCall :=
  let c := { c with internalLightTicks := toUInt32 (c.internalLightTicks + interval) }
  if c.internalLightTicks ≥ c.lightChangeInterval then
    ({ c with internalLightTicks := 0 },
      if w.creatureLight.level > 0 then
        [.setCreatureLight { w.creatureLight with level := w.creatureLight.level - 1 },
          .changeLight]
      else [])
  else (c, [])

/-- Method `ConditionLight::executeCondition`. -/
def ConditionLight.executeCondition (c : ConditionLight) (w : World) (interval : Int) :
    Bool × ConditionLight × List WorldCall :=
  let r := ConditionLight.executeCondition.decay c w interval
  ((r.1.toCondition.executeCondition w.now interval).1,
    { r.1 with toCondition := (r.1.toCondition.executeCondition w.now interval).2 }, r.2)

/-- Method `ConditionLight::endCondition`: the calls made. -/
def ConditionLight.endCondition (_c : ConditionLight) (_w : World) : List WorldCall :=
  [.setNormalCreatureLight, .changeLight]

/-- Method `ConditionLight::addCondition`; there is no result when the division
`ticks / lightInfo.level` is a division by zero. -/
def ConditionLight.addCondition (c : ConditionLight) (w : World) (addCondition : ConditionLight) :
    Option (ConditionLight × List WorldCall) :=
  if c.toCondition.updateCondition w.now addCondition.toCondition then
    let c := { c with
      toCondition := c.toCondition.setTicks w.now addCondition.ticks
      lightInfo := { level := addCondition.lightInfo.level, color := addCondition.lightInfo.color } }
    if c.lightInfo.level = 0 then none
    else
      let c := { c with
        lightChangeInterval := toUInt32 (Int.tdiv c.ticks c.lightInfo.level)
        internalLightTicks := 0 }
      some (c, [.setCreatureLight c.lightInfo, .changeLight])
  else some (c, [])

/-- Method `ConditionSpellCooldown::startCondition`. -/
def ConditionSpellCooldown.startCondition (c : Condition) (w : World) :
    Bool × Condition × List WorldCall :=
  match c.startCondition w.now with
  | (false, c) => (false, c, [])
  | (true, c) =>
    (true, c, if c.subId ≠ 0 ∧ c.ticks > 0 ∧ w.isPlayer then
      [.sendSpellCooldown c.subId c.ticks] else [])

/-- Method `ConditionSpellCooldown::addCondition`. -/
def ConditionSpellCooldown.addCondition (c : Condition) (w : World) (addCondition : Condition) :
    Condition × List WorldCall :=
  if c.updateCondition w.now addCondition then
    let c := c.setTicks w.now addCondition.ticks
    (c, if c.subId ≠ 0 ∧ c.ticks > 0 ∧ w.isPlayer then
      [.sendSpellCooldown c.subId c.ticks] else [])
  else (c, [])

/-- Method `ConditionSpellGroupCooldown::startCondition`. -/
def ConditionSpellGroupCooldown.startCondition (c : Condition) (w : World) :
    Bool × Condition × List WorldCall :=
  match c.startCondition w.now with
  | (false, c) => (false, c, [])
  | (true, c) =>
    (true, c, if c.subId ≠ 0 ∧ c.ticks > 0 ∧ w.isPlayer then
      [.sendSpellGroupCooldown c.subId c.ticks] else [])

/-- Method `ConditionSpellGroupCooldown::addCondition`. -/
def ConditionSpellGroupCooldown.addCondition (c : Condition) (w : World)
    (addCondition : Condition) : Condition × List WorldCall :=
  if c.updateCondition w.now addCondition then
    let c := c.setTicks w.now addCondition.ticks
    (c, if c.subId ≠ 0 ∧ c.ticks > 0 ∧ w.isPlayer then
      [.sendSpellGroupCooldown c.subId c.ticks] else [])
  else (c, [])

/-! ## Virtual dispatch -/

/-- The virtual call `startCondition` on an instance of any class: the result
flag, the instance after the call and the calls made into the world.  The
classes that do not override the method use `Condition::startCondition`. -/
def AnyCondition.startCondition (K : Enums) (c : AnyCondition) (w : World) :
    Option (Bool × AnyCondition × List WorldCall) :=
  match c with
  | .generic c => some ((c.startCondition w.now).1, .generic (c.startCondition w.now).2, [])
  | .attributes c =>
    some ((c.startCondition K w).1, .attributes (c.startCondition K w).2.1,
      (c.startCondition K w).2.2)
  | .regeneration c =>
    some ((c.toCondition.startCondition w.now).1,
      .regeneration { c with toCondition := (c.toCondition.startCondition w.now).2 }, [])
  | .soul c =>
    some ((c.toCondition.startCondition w.now).1,
      .soul { c with toCondition := (c.toCondition.startCondition w.now).2 }, [])
  | .damage c => (c.startCondition w).map (fun r => (r.1, .damage r.2.1, r.2.2))
  | .speed c =>
    some ((c.startCondition w.now w.formulaMin w.formulaMax w.seed).1,
      .speed (c.startCondition w.now w.formulaMin w.formulaMax w.seed).2.1,
      (c.startCondition w.now w.formulaMin w.formulaMax w.seed).2.2.map WorldCall.changeSpeed)
  | .invisible c =>
    some ((ConditionInvisible.startCondition c w).1,
      .invisible (ConditionInvisible.startCondition c w).2.1,
      (ConditionInvisible.startCondition c w).2.2)
  | .outfit c =>
    some ((c.startCondition w).1, .outfit (c.startCondition w).2.1, (c.startCondition w).2.2)
  | .light c => (c.startCondition w).map (fun r => (r.1, .light r.2.1, r.2.2))
  | .spellCooldown c =>
    some ((ConditionSpellCooldown.startCondition c w).1,
      .spellCooldown (ConditionSpellCooldown.startCondition c w).2.1,
      (ConditionSpellCooldown.startCondition c w).2.2)
  | .spellGroupCooldown c =>
    some ((ConditionSpellGroupCooldown.startCondition c w).1,
      .spellGroupCooldown (ConditionSpellGroupCooldown.startCondition c w).2.1,
      (ConditionSpellGroupCooldown.startCondition c w).2.2)

/-- The virtual call `executeCondition` on an instance of any class: the result
flag, the instance after the call and the calls made into the world.  The
generic, attributes, speed, invisible, outfit and cooldown classes run
`Condition::executeCondition` only. -/
def AnyCondition.executeCondition (c : AnyCondition) (w : World) (interval : Int) :
    Bool × AnyCondition × List WorldCall :=
  match c with
  | .generic c =>
    ((c.executeCondition w.now interval).1, .generic (c.executeCondition w.now interval).2, [])
  | .attributes c =>
    ((c.toCondition.executeCondition w.now interval).1,
      .attributes { c with toCondition := (c.toCondition.executeCondition w.now interval).2 }, [])
  | .regeneration c =>
    ((c.executeCondition w interval).1, .regeneration (c.executeCondition w interval).2.1,
      (c.executeCondition w interval).2.2)
  | .soul c =>
    ((c.executeCondition w interval).1, .soul (c.executeCondition w interval).2.1,
      (c.executeCondition w interval).2.2)
  | .damage c =>
    ((c.executeCondition w interval).1, .damage (c.executeCondition w interval).2.1,
      (c.executeCondition w interval).2.2)
  | .speed c =>
    ((c.toCondition.executeCondition w.now interval).1,
      .speed { c with toCondition := (c.toCondition.executeCondition w.now interval).2 }, [])
  | .invisible c =>
    ((c.executeCondition w.now interval).1, .invisible (c.executeCondition w.now interval).2, [])
  | .outfit c =>
    ((c.toCondition.executeCondition w.now interval).1,
      .outfit { c with toCondition := (c.toCondition.executeCondition w.now interval).2 }, [])
  | .light c =>
    ((c.executeCondition w interval).1, .light (c.executeCondition w interval).2.1,
      (c.executeCondition w interval).2.2)
  | .spellCooldown c =>
    ((c.executeCondition w.now interval).1,
      .spellCooldown (c.executeCondition w.now interval).2, [])
  | .spellGroupCooldown c =>
    ((c.executeCondition w.now interval).1,
      .spellGroupCooldown (c.executeCondition w.now interval).2, [])

/-- The virtual call `addCondition(creature, addCondition)` on an instance of
any class: the instance after the call and the calls made into the world.  The
generic and invisible classes read only the base-class part of the incoming
instance; every other class casts it to its own class, and there is no result
when the incoming instance is of another class, when `ConditionLight` divides
by zero or when the damage distribution does not end within `w.fuel`
iterations. -/
def AnyCondition.addCondition (K : Enums) (c : AnyCondition) (w : World)
    (addCondition : AnyCondition) : Option (AnyCondition × List WorldCall) :=
  match c, addCondition with
  | .generic c, a => some (.generic (ConditionGeneric.addCondition c w.now a.base), [])
  | .invisible c, a => some (.invisible (ConditionGeneric.addCondition c w.now a.base), [])
  | .spellCooldown c, a =>
    some (.spellCooldown (ConditionSpellCooldown.addCondition c w a.base).1,
      (ConditionSpellCooldown.addCondition c w a.base).2)
  | .spellGroupCooldown c, a =>
    some (.spellGroupCooldown (ConditionSpellGroupCooldown.addCondition c w a.base).1,
      (ConditionSpellGroupCooldown.addCondition c w a.base).2)
  | .attributes c, .attributes a =>
    some (.attributes (c.addCondition K w a).1, (c.addCondition K w a).2)
  | .regeneration c, .regeneration a => some (.regeneration (c.addCondition w.now a), [])
  | .soul c, .soul a => some (.soul (c.addCondition w.now a), [])
  | .damage c, .damage a =>
    (c.addCondition w.now w.seed w.fuel a).map
      (fun r => (.damage r.1, (r.2.map (fun damage => (r.1.doDamage w damage).2)).flatten))
  | .speed c, .speed a =>
    some (.speed (c.addCondition w.now w.formulaMin w.formulaMax w.seed a).1,
      (c.addCondition w.now w.formulaMin w.formulaMax w.seed a).2.map WorldCall.changeSpeed)
  | .outfit c, .outfit a => some (.outfit (c.addCondition w a).1, (c.addCondition w a).2)
  | .light c, .light a => (c.addCondition w a).map (fun r => (.light r.1, r.2))
  | _, _ => none

/-- The virtual call `endCondition` on an instance of any class: the calls made
into the world.  The bodies of `ConditionGeneric::endCondition`, which the
regeneration, soul and cooldown classes inherit, and of
`ConditionDamage::endCondition` are empty. -/
def AnyCondition.endCondition (K : Enums) (c : AnyCondition) (w : World) : List WorldCall :=
  match c with
  | .generic _ => []
  | .attributes c => c.endCondition K w
  | .regeneration _ => []
  | .soul _ => []
  | .damage _ => []
  | .speed c => c.endCondition.map WorldCall.changeSpeed
  | .invisible c => ConditionInvisible.endCondition c w
  | .outfit c => c.endCondition w
  | .light c => c.endCondition w
  | .spellCooldown _ => []
  | .spellGroupCooldown _ => []

/-- The predicate "is a value of `int64_t`". -/
def IsInt64 (x : Int) : Prop := -9223372036854775808 ≤ x ∧ x ≤ 9223372036854775807

instance (x : Int) : Decidable (IsInt64 x) := by unfold IsInt64; infer_instance

/-- Every field of the base class holds a value of its C++ type. -/
def Condition.WellTyped (c : Condition) : Prop :=
  IsUInt32 c.subId ∧ IsInt32 c.ticks ∧ IsInt64 c.endTime ∧ IsUInt32 c.conditionType ∧ IsInt32 c.id

instance (c : Condition) : Decidable c.WellTyped := by unfold Condition.WellTyped; infer_instance

/-- Every field of a schedule entry holds a value of `int32_t`. -/
def IntervalInfo.WellTyped (info : IntervalInfo) : Prop :=
  IsInt32 info.timeLeft ∧ IsInt32 info.value ∧ IsInt32 info.interval

instance (info : IntervalInfo) : Decidable info.WellTyped := by
  unfold IntervalInfo.WellTyped; infer_instance

/-- Every field of an instance holds a value of its C++ type, the arrays of
`ConditionAttributes` have `SKILL_LAST + 1` and `STAT_LAST + 1` entries and the
outfit record has `sizeof(Outfit_t)` bytes. -/
def AnyCondition.WellTyped (K : Enums) : AnyCondition → Prop
  | .generic c => c.WellTyped
  | .attributes c => c.toCondition.WellTyped
      ∧ c.skills.length = K.SKILL_LAST + 1 ∧ (∀ x ∈ c.skills, IsInt32 x)
      ∧ c.skillsPercent.length = K.SKILL_LAST + 1 ∧ (∀ x ∈ c.skillsPercent, IsInt32 x)
      ∧ c.stats.length = K.STAT_LAST + 1 ∧ (∀ x ∈ c.stats, IsInt32 x)
      ∧ c.statsPercent.length = K.STAT_LAST + 1 ∧ (∀ x ∈ c.statsPercent, IsInt32 x)
  | .regeneration c => c.toCondition.WellTyped
      ∧ IsUInt32 c.internalHealthTicks ∧ IsUInt32 c.internalManaTicks
      ∧ IsUInt32 c.healthTicks ∧ IsUInt32 c.manaTicks
      ∧ IsUInt32 c.healthGain ∧ IsUInt32 c.manaGain
  | .soul c => c.toCondition.WellTyped
      ∧ IsUInt32 c.internalSoulTicks ∧ IsUInt32 c.soulTicks ∧ IsUInt32 c.soulGain
  | .damage c => c.toCondition.WellTyped ∧ IsUInt32 c.owner
      ∧ IsInt32 c.minDamage ∧ IsInt32 c.maxDamage ∧ IsInt32 c.startDamage
      ∧ IsInt32 c.periodDamage ∧ IsInt32 c.periodDamageTick ∧ IsInt32 c.tickInterval
      ∧ (∀ info ∈ c.damageList, IntervalInfo.WellTyped info)
  | .speed c => c.toCondition.WellTyped ∧ IsInt32 c.speedDelta
      ∧ IsUInt32 c.mina ∧ IsUInt32 c.minb ∧ IsUInt32 c.maxa ∧ IsUInt32 c.maxb
  | .invisible c => c.WellTyped
  | .outfit c => c.toCondition.WellTyped
      ∧ c.outfit.length = K.sizeofOutfit ∧ (∀ b ∈ c.outfit, b < 256)
  | .light c => c.toCondition.WellTyped ∧ c.lightInfo.level < 256 ∧ c.lightInfo.color < 256
      ∧ IsUInt32 c.internalLightTicks ∧ IsUInt32 c.lightChangeInterval
  | .spellCooldown c => c.WellTyped
  | .spellGroupCooldown c => c.WellTyped

instance (K : Enums) (c : AnyCondition) : Decidable (c.WellTyped K) := by
  cases c <;> unfold AnyCondition.WellTyped <;> infer_instance

/-! ## Scenarios and tables of the specification -/

/-- A freshly created instance of class `v`: the result of its constructor.
`param` is the `changeSpeed` argument of the speed constructor and the packed
level and colour of the light constructor, as in the factory. -/
def AnyCondition.construct (K : Enums) (v : Variant) (_id : Int) (_type : Nat) (_ticks : Int)
    (param : Int) (_buff : Bool) (_subId : Nat) : AnyCondition :=
  match v with
  | .Generic => .generic (Condition.new _id _type _ticks _buff _subId)
  | .Attributes => .attributes (ConditionAttributes.new K _id _type _ticks _buff _subId)
  | .Regeneration => .regeneration (ConditionRegeneration.new _id _type _ticks _buff _subId)
  | .Soul => .soul (ConditionSoul.new _id _type _ticks _buff _subId)
  | .Damage => .damage (ConditionDamage.new _id _type _buff _subId)
  | .Speed => .speed (ConditionSpeed.new _id _type _ticks _buff _subId param)
  | .Invisible => .invisible (Condition.new _id _type _ticks _buff _subId)
  | .Outfit => .outfit (ConditionOutfit.new K _id _type _ticks _buff _subId)
  | .Light => .light (ConditionLight.new _id _type _ticks _buff _subId
      (toUInt8 (param % 256)) (toUInt8 (param % 65536 / 256)))
  | .SpellCooldown => .spellCooldown (Condition.new _id _type _ticks _buff _subId)
  | .SpellGroupCooldown => .spellGroupCooldown (Condition.new _id _type _ticks _buff _subId)

/-- The relation "`c'` has the same class as `c` and the same value in every
variant-specific field that `serialize` writes", field by field as the
round-trip property lists them. -/
def SamePersistedPayload (K : Enums) : AnyCondition → AnyCondition → Prop
  | .generic _, .generic _ => True
  | .attributes c, .attributes c' =>
      (∀ i, K.SKILL_FIRST ≤ i → i ≤ K.SKILL_LAST → c'.skills.getD i 0 = c.skills.getD i 0)
      ∧ (∀ i, K.STAT_FIRST ≤ i → i ≤ K.STAT_LAST → c'.stats.getD i 0 = c.stats.getD i 0)
  | .regeneration c, .regeneration c' =>
      c'.healthTicks = c.healthTicks ∧ c'.healthGain = c.healthGain
      ∧ c'.manaTicks = c.manaTicks ∧ c'.manaGain = c.manaGain
  | .soul c, .soul c' => c'.soulGain = c.soulGain ∧ c'.soulTicks = c.soulTicks
  | .damage c, .damage c' =>
      c'.delayed = c.delayed ∧ c'.periodDamage = c.periodDamage ∧ c'.damageList = c.damageList
  | .speed c, .speed c' =>
      c'.speedDelta = c.speedDelta ∧ c'.mina = c.mina ∧ c'.minb = c.minb
      ∧ c'.maxa = c.maxa ∧ c'.maxb = c.maxb
  | .invisible _, .invisible _ => True
  | .outfit c, .outfit c' => c'.outfit = c.outfit
  | .light c, .light c' =>
      c'.lightInfo.color = c.lightInfo.color ∧ c'.lightInfo.level = c.lightInfo.level
      ∧ c'.internalLightTicks = c.internalLightTicks
      ∧ c'.lightChangeInterval = c.lightChangeInterval
  | .spellCooldown _, .spellCooldown _ => True
  | .spellGroupCooldown _, .spellGroupCooldown _ => True
  | _, _ => False

/-- The type-to-variant table as the specification states it. -/
def claimedVariant : ConditionType_t → Variant
  | .CONDITION_POISON | .CONDITION_FIRE | .CONDITION_ENERGY | .CONDITION_DROWN
  | .CONDITION_FREEZING | .CONDITION_DAZZLED | .CONDITION_CURSED | .CONDITION_BLEEDING => .Damage
  | .CONDITION_HASTE | .CONDITION_PARALYZE => .Speed
  | .CONDITION_INVISIBLE => .Invisible
  | .CONDITION_OUTFIT => .Outfit
  | .CONDITION_LIGHT => .Light
  | .CONDITION_REGENERATION => .Regeneration
  | .CONDITION_SOUL => .Soul
  | .CONDITION_ATTRIBUTES => .Attributes
  | .CONDITION_SPELLCOOLDOWN => .SpellCooldown
  | .CONDITION_SPELLGROUPCOOLDOWN => .SpellGroupCooldown
  | .CONDITION_INFIGHT | .CONDITION_DRUNK | .CONDITION_EXHAUST_WEAPON
  | .CONDITION_EXHAUST_COMBAT | .CONDITION_EXHAUST_HEAL | .CONDITION_MUTED
  | .CONDITION_CHANNELMUTEDTICKS | .CONDITION_YELLTICKS | .CONDITION_PACIFIED
  | .CONDITION_MANASHIELD => .Generic

/-- The stat-percent option of each stat. -/
def statPercentParam : stats_t → ConditionParam_t
  | .STAT_MAXHITPOINTS => .CONDITION_PARAM_STAT_MAXHITPOINTSPERCENT
  | .STAT_MAXMANAPOINTS => .CONDITION_PARAM_STAT_MAXMANAPOINTSPERCENT
  | .STAT_SOULPOINTS => .CONDITION_PARAM_STAT_SOULPOINTSPERCENT
  | .STAT_MAGICPOINTS => .CONDITION_PARAM_STAT_MAGICPOINTSPERCENT

/-- The skill-percent option of each skill. -/
def skillPercentParam : skills_t → ConditionParam_t
  | .SKILL_FIST => .CONDITION_PARAM_SKILL_FISTPERCENT
  | .SKILL_CLUB => .CONDITION_PARAM_SKILL_CLUBPERCENT
  | .SKILL_SWORD => .CONDITION_PARAM_SKILL_SWORDPERCENT
  | .SKILL_AXE => .CONDITION_PARAM_SKILL_AXEPERCENT
  | .SKILL_DISTANCE => .CONDITION_PARAM_SKILL_DISTANCEPERCENT
  | .SKILL_SHIELD => .CONDITION_PARAM_SKILL_SHIELDPERCENT
  | .SKILL_FISHING => .CONDITION_PARAM_SKILL_FISHINGPERCENT

/-- The list `start, start - 1, …, 1`. -/
def countdown (start : Nat) : List Int :=
  (List.range start).reverse.map (fun (k : Nat) => (k : Int) + 1)

/-- One merge request on a speed condition: the incoming instance and the
inputs of that `addCondition` call. -/
structure SpeedMerge where
  now : Int
  formulaMin : Int
  formulaMax : Int
  seed : Nat
  addCondition : ConditionSpeed

/-- A sequence of `ConditionSpeed::addCondition` calls on one instance: the
instance afterwards and all deltas handed to `g_game.changeSpeed`, in order. -/
def ConditionSpeed.addConditions (c : ConditionSpeed) : List SpeedMerge → ConditionSpeed × List Int
  | [] => (c, [])
  | m :: ms =>
    match c.addCondition m.now m.formulaMin m.formulaMax m.seed m.addCondition with
    | (c1, e1) =>
      match ConditionSpeed.addConditions c1 ms with
      | (c2, e2) => (c2, e1 ++ e2)

/-- The deltas handed to `g_game.changeSpeed` over one attachment:
`startCondition`, then the merges, then `endCondition`. -/
def ConditionSpeed.lifecycle (c : ConditionSpeed) (now formulaMin formulaMax : Int) (seed : Nat)
    (merges : List SpeedMerge) : List Int :=
  match c.startCondition now formulaMin formulaMax seed with
  | (_, c1, e1) =>
    match c1.addConditions merges with
    | (c2, e2) => e1 ++ e2 ++ c2.endCondition

/-- A delta small enough that no difference or negation of two such deltas
leaves the range of `int32_t`. -/
def SmallDelta (x : Int) : Prop := -1073741824 ≤ x ∧ x ≤ 1073741823

instance (x : Int) : Decidable (SmallDelta x) := by unfold SmallDelta; infer_instance

/-- One assignment of the header values that satisfies `Enums.WellFormed`: the
attribute tags and the types are numbered from 1 in the order listed above, the
end tag is 254, the seven skills and the four stats are numbered from 0. -/
def Enums.sample : Enums :=
  { attr := fun a => if a = .CONDITIONATTR_END then 254 else a.toCtorIdx + 1
    type := fun t => t.toCtorIdx + 1
    skill := fun s => s.toCtorIdx
    stat := fun s => s.toCtorIdx
    SKILL_FIRST := 0
    SKILL_LAST := 6
    STAT_FIRST := 0
    STAT_LAST := 3
    CONDITIONID_DEFAULT := -1
    CONDITIONID_COMBAT := 0
    sizeofOutfit := 12 }

/-! ## Auxiliary definitions of the proofs -/

/-- Replace the base-class part of an instance. -/
def AnyCondition.mapBase (f : Condition → Condition) : AnyCondition → AnyCondition
  | .generic c => .generic (f c)
  | .attributes c => .attributes { c with toCondition := f c.toCondition }
  | .regeneration c => .regeneration { c with toCondition := f c.toCondition }
  | .soul c => .soul { c with toCondition := f c.toCondition }
  | .damage c => .damage { c with toCondition := f c.toCondition }
  | .speed c => .speed { c with toCondition := f c.toCondition }
  | .invisible c => .invisible (f c)
  | .outfit c => .outfit { c with toCondition := f c.toCondition }
  | .light c => .light { c with toCondition := f c.toCondition }
  | .spellCooldown c => .spellCooldown (f c)
  | .spellGroupCooldown c => .spellGroupCooldown (f c)

/-- The bytes of a run of records "tag, 32-bit signed value". -/
def taggedInt32s (tag : Nat) : List Int → List Nat
  | [] => []
  | x :: xs =>
    tag :: toUInt32 x % 256 :: toUInt32 x / 256 % 256 :: toUInt32 x / 65536 % 256
      :: toUInt32 x / 16777216 % 256 :: taggedInt32s tag xs

/-- The bytes of a run of records "tag, schedule entry". -/
def taggedIntervals (tag : Nat) : List IntervalInfo → List Nat
  | [] => []
  | info :: rest =>
    tag :: toUInt32 info.interval % 256 :: toUInt32 info.interval / 256 % 256
      :: toUInt32 info.interval / 65536 % 256 :: toUInt32 info.interval / 16777216 % 256
      :: toUInt32 info.timeLeft % 256 :: toUInt32 info.timeLeft / 256 % 256
      :: toUInt32 info.timeLeft / 65536 % 256 :: toUInt32 info.timeLeft / 16777216 % 256
      :: toUInt32 info.value % 256 :: toUInt32 info.value / 256 % 256
      :: toUInt32 info.value / 65536 % 256 :: toUInt32 info.value / 16777216 % 256
      :: taggedIntervals tag rest

/-! ## Sequences of calls -/

/-- One assignment of the answers of the entity and the world: a player outside
a protection zone who can be attacked, with a per-tick hook that leaves the
flag alone. -/
def World.sample : World :=
  { now := 100, seed := 0, fuel := 64, isPlayer := true, inProtectionZone := false,
    health := 100, healthAfter := 110, otherSpectators := 1, maxHealth := 150, maxMana := 50,
    soul := 100, magicLevel := 3, skillLevel := fun _ => 10, percentOf := fun x _ => x,
    formulaMin := 0, formulaMax := 0, creatureLight := { level := 5, color := 215 },
    isInvisible := false, defaultOutfit := [], onTickCondition := fun _ bRemove => bRemove,
    isSuppress := false, isAttackable := true, canDoCombat := true, isInGhostMode := false,
    combatBlockHit := false, combatChangeHealth := true }

/-- A call of one of the operations that change an instance after its
construction, with its arguments; `setTicks` carries the clock value it reads. -/
inductive Call
  | setParam (param : ConditionParam_t) (value : Int)
  | setTicks (now newTicks : Int)
  | startCondition (w : World)
  | executeCondition (w : World) (interval : Int)
  | addCondition (w : World) (addCondition : AnyCondition)
  | addDamage (now rounds time value : Int)

/-- The instance after a call; there is no instance when the call has no result
and when `addDamage` is called on a class other than `ConditionDamage`, which
does not have the method. -/
def AnyCondition.call (K : Enums) (c : AnyCondition) : Call → Option AnyCondition
  | .setParam param value => some (c.setParam K param value).2
  | .setTicks now newTicks => some (c.mapBase (fun b => b.setTicks now newTicks))
  | .startCondition w => (c.startCondition K w).map (fun r => r.2.1)
  | .executeCondition w interval => some (c.executeCondition w interval).2.1
  | .addCondition w a => (c.addCondition K w a).map (fun r => r.1)
  | .addDamage now rounds time value =>
    match c with
    | .damage d => some (.damage (d.addDamage now rounds time value).2)
    | _ => none

/-- The values that `init` obtains from `generateDamageList` when it fills an
empty schedule (none when the amount drawn is zero); there is no result when an
inner loop of `generateDamageList` does not end within `fuel` iterations. -/
def ConditionDamage.init.values (c : ConditionDamage) (seed fuel : Nat) : Option (List Int) :=
  let amount := uniform_random seed c.minDamage c.maxDamage
  if amount ≠ 0 then
    ConditionDamage.generateDamageList fuel amount
      (if c.startDamage > c.maxDamage then c.maxDamage
      else if c.startDamage = 0 then ConditionDamage.init.startValue amount
      else c.startDamage)
  else some []

/-- The condition "no 32-bit overflow" for the schedule that `init` builds:
when `init` fills an empty schedule, the tick interval is not negative and the
number of entries times the tick interval, the total duration that `init`
accumulates in `ticks`, fits in an `int32_t`. -/
def ConditionDamage.init.NoOverflow (c : ConditionDamage) (seed fuel : Nat) : Prop :=
  c.periodDamage = 0 → c.damageList = [] →
    0 ≤ c.tickInterval ∧ ∀ list, ConditionDamage.init.values c seed fuel = some list →
      (list.length : Int) * c.tickInterval ≤ 2147483647

/-- The modifier that a call passes to `setVarSkill` for the skill `i`; zero
for every other call. -/
def WorldCall.skillModifier (i : Nat) : WorldCall → Int
  | .setVarSkill skill modifier => if skill = i then modifier else 0
  | _ => 0

/-- The modifier that a call passes to `setVarStats` for the stat `i`; zero for
every other call. -/
def WorldCall.statModifier (i : Nat) : WorldCall → Int
  | .setVarStats stat modifier => if stat = i then modifier else 0
  | _ => 0

/-- The value that an attributes condition holds for the skill `i` when the
loops over the skills reach `i`, and zero otherwise. -/
def ConditionAttributes.skillAt (K : Enums) (c : ConditionAttributes) (i : Nat) : Int :=
  if i ∈ List.range' K.SKILL_FIRST (K.SKILL_LAST + 1 - K.SKILL_FIRST) then c.skills.getD i 0 else 0

/-- The value that an attributes condition holds for the stat `i` when the loops
over the stats reach `i`, and zero otherwise. -/
def ConditionAttributes.statAt (K : Enums) (c : ConditionAttributes) (i : Nat) : Int :=
  if i ∈ List.range' K.STAT_FIRST (K.STAT_LAST + 1 - K.STAT_FIRST) then c.stats.getD i 0 else 0

/-- A sequence of `ConditionAttributes::addCondition` calls on one instance,
one for each pair of a world and an incoming instance: the instance afterwards
and all calls made, in order. -/
def ConditionAttributes.addConditions (K : Enums) (c : ConditionAttributes) :
    List (World × ConditionAttributes) → ConditionAttributes × List WorldCall
  | [] => (c, [])
  | m :: ms =>
    ((ConditionAttributes.addConditions K (c.addCondition K m.1 m.2).1 ms).1,
      (c.addCondition K m.1 m.2).2
        ++ (ConditionAttributes.addConditions K (c.addCondition K m.1 m.2).1 ms).2)

/-- The calls made on the player over one attachment of an attributes
condition: `startCondition`, then the merges, then `endCondition`. -/
def ConditionAttributes.lifecycle (K : Enums) (c : ConditionAttributes) (w : World)
    (merges : List (World × ConditionAttributes)) (wEnd : World) : List WorldCall :=
  (c.startCondition K w).2.2 ++ ((c.startCondition K w).2.1.addConditions K merges).2
    ++ ((c.startCondition K w).2.1.addConditions K merges).1.endCondition K wEnd

/-- A value of `int32_t` whose negation is a value of `int32_t` too. -/
def Negatable32 (x : Int) : Prop := -2147483647 ≤ x ∧ x ≤ 2147483647

instance (x : Int) : Decidable (Negatable32 x) := by unfold Negatable32; infer_instance

/-- Modelled from the spec: the light of the entity after a call into it:
`setCreatureLight` replaces the light, `setNormalCreatureLight` restores the
entity's own light `normal`, and no other call changes it. -/
def WorldCall.light (normal : LightInfo) (light : LightInfo) : WorldCall → LightInfo
  | .setCreatureLight l => l
  | .setNormalCreatureLight => normal
  | _ => light

/-- A run of `executeCondition` calls on a light condition, one for each pair
of a world and an interval, in which `getCreatureLight` yields at every call the
light that the calls before it left to the entity: the instance and the light of
the entity after the run, and the number of calls in which the sub-timer reached
the decay interval. -/
def ConditionLight.executeConditions (normal : LightInfo) :
    ConditionLight → LightInfo → List (World × Int) → ConditionLight × LightInfo × Nat
  | c, light, [] => (c, light, 0)
  | c, light, (w, interval) :: calls =>
    let r := c.executeCondition { w with creatureLight := light } interval
    let crossed : Nat :=
      if toUInt32 (c.internalLightTicks + interval) ≥ c.lightChangeInterval then 1 else 0
    let out := ConditionLight.executeConditions normal r.2.1
      (r.2.2.foldl (WorldCall.light normal) light) calls
    (out.1, out.2.1, crossed + out.2.2)

/-- The instance on which `ConditionDamage::addCondition` calls `init` when the
merge is accepted: the active instance with the duration, the owner, the bounds,
the tick interval, the periodic damage and the schedule of the incoming one. -/
def ConditionDamage.addCondition.merged (c : ConditionDamage) (now : Int)
    (addCondition : ConditionDamage) : ConditionDamage :=
  { c with
    toCondition := c.toCondition.setTicks now addCondition.ticks
    owner := addCondition.owner
    maxDamage := addCondition.maxDamage
    minDamage := addCondition.minDamage
    startDamage := addCondition.startDamage
    tickInterval := addCondition.tickInterval
    periodDamage := addCondition.periodDamage
    damageList := addCondition.damageList }

/-- The duration that decoding the entries of a schedule accumulates from
`ticks`: `ConditionDamage::unserializeProp` adds the interval of each
`CONDITIONATTR_INTERVALDATA` record unless the duration is `-1`. -/
def IntervalInfo.decodedTicks (ticks : Int) (list : List IntervalInfo) : Int :=
  list.foldl (fun t info => if t ≠ -1 then wrapInt32 (t + info.interval) else t) ticks

/-- An active damage condition of type 1 whose only schedule entry, of value
`-5` and interval 2000, has 500 ms left. -/
def ConditionDamage.sampleActive (delayed : Bool) : ConditionDamage :=
  { ConditionDamage.new 0 1 false 0 with
    ticks := 2000
    endTime := 2100
    delayed := delayed
    damageList := [{ timeLeft := 500, value := -5, interval := 2000 }] }

/-- An incoming damage condition of type 1 that forces the update, with two
schedule entries of value `-10` and interval 2000. -/
def ConditionDamage.sampleIncoming : ConditionDamage :=
  { ConditionDamage.new 0 1 false 0 with
    ticks := 4000
    forceUpdate := true
    damageList := [{ timeLeft := 2000, value := -10, interval := 2000 },
      { timeLeft := 2000, value := -10, interval := 2000 }] }

/-- The tags that the decoder of the base class recognises, each with the
number of payload bytes that follow it. -/
def Condition.tags : List (ConditionAttr_t × Nat) :=
  [(.CONDITIONATTR_TYPE, 4), (.CONDITIONATTR_ID, 4), (.CONDITIONATTR_TICKS, 4),
    (.CONDITIONATTR_ISBUFF, 1), (.CONDITIONATTR_SUBID, 4), (.CONDITIONATTR_END, 0)]

/-- The tags that the decoder of a class recognises before it defers to the
base decoder, each with the number of payload bytes that follow it. -/
def Variant.tags (K : Enums) : Variant → List (ConditionAttr_t × Nat)
  | .Attributes => [(.CONDITIONATTR_SKILLS, 4), (.CONDITIONATTR_STATS, 4)]
  | .Regeneration =>
    [(.CONDITIONATTR_HEALTHTICKS, 4), (.CONDITIONATTR_HEALTHGAIN, 4),
      (.CONDITIONATTR_MANATICKS, 4), (.CONDITIONATTR_MANAGAIN, 4)]
  | .Soul => [(.CONDITIONATTR_SOULGAIN, 4), (.CONDITIONATTR_SOULTICKS, 4)]
  | .Damage =>
    [(.CONDITIONATTR_DELAYED, 1), (.CONDITIONATTR_PERIODDAMAGE, 4), (.CONDITIONATTR_OWNER, 4),
      (.CONDITIONATTR_INTERVALDATA, 12)]
  | .Speed =>
    [(.CONDITIONATTR_SPEEDDELTA, 4), (.CONDITIONATTR_FORMULA_MINA, 4),
      (.CONDITIONATTR_FORMULA_MINB, 4), (.CONDITIONATTR_FORMULA_MAXA, 4),
      (.CONDITIONATTR_FORMULA_MAXB, 4)]
  | .Outfit => [(.CONDITIONATTR_OUTFIT, K.sizeofOutfit)]
  | .Light =>
    [(.CONDITIONATTR_LIGHTCOLOR, 4), (.CONDITIONATTR_LIGHTLEVEL, 4),
      (.CONDITIONATTR_LIGHTTICKS, 4), (.CONDITIONATTR_LIGHTINTERVAL, 4)]
  | .Generic | .Invisible | .SpellCooldown | .SpellGroupCooldown => []

/-- The number of payload bytes of a tag that the decoder of class `v` or the
base decoder recognises; there is none for a tag that neither recognises. -/
def Variant.payloadSize (K : Enums) (v : Variant) (tag : Nat) : Option Nat :=
  ((v.tags K ++ Condition.tags).find? (fun p => decide (tag = K.attr p.1))).map (fun p => p.2)

/-- The outcome of `unserialize` on a stream as the specification states it,
for a stream of fewer than `fuel` bytes: the rest of the stream after the first
END tag (or the empty rest at the end of the stream) when the result is true,
and nothing when the result is false, which it is when a tag read before that
is not recognised or is followed by fewer bytes than its payload has. -/
def claimedUnserialize (K : Enums) (v : Variant) : Nat → PropStream → Option PropStream
  | 0, _ => none
  | _ + 1, [] => some []
  | fuel + 1, tag :: s =>
    if tag = K.attr .CONDITIONATTR_END then some s
    else
      match v.payloadSize K tag with
      | none => none
      | some n => if s.length < n then none else claimedUnserialize K v fuel (s.drop n)

/-! ## Building the schedule of a damage condition -/

/-- One of the changes of a damage condition under which its duration is
claimed to stay the sum of the intervals of its schedule: a call of `addDamage`,
a call of `init`, or the decoding of one schedule entry (the tag
`CONDITIONATTR_INTERVALDATA` followed by the stream `s`). -/
inductive ScheduleStep
  | addDamage (now rounds time value : Int)
  | init (now : Int) (seed fuel : Nat)
  | decode (now : Int) (s : PropStream)

/-- The instance after a step; there is no instance when an inner loop of
`generateDamageList` does not end within the fuel of an `init` step. -/
def ConditionDamage.scheduleStep (K : Enums) (c : ConditionDamage) :
    ScheduleStep → Option ConditionDamage
  | .addDamage now rounds time value => some (c.addDamage now rounds time value).2
  | .init now seed fuel => (c.init now seed fuel).map (fun r => r.2)
  | .decode now s => some (c.unserializeProp K now (K.attr .CONDITIONATTR_INTERVALDATA) s).2.1

/-- The conditions of the claim on a step made on the instance `c`: `addDamage`
is called with `rounds ≥ 0` and `time ≥ 0`, a decoded entry has a non-negative
interval, the tick interval that `init` uses as the time of its `addDamage`
calls is not negative, and the duration that the step accumulates fits in an
`int32_t`. -/
def ScheduleStep.Allowed (c : ConditionDamage) : ScheduleStep → Prop
  | .addDamage _ rounds time _ => 0 ≤ rounds ∧ 0 ≤ time ∧ c.ticks + rounds * time ≤ 2147483647
  | .init _ seed fuel => ConditionDamage.init.NoOverflow c seed fuel
  | .decode _ s =>
    ∀ info rest, s.readIntervalInfo = some (info, rest) →
      0 ≤ info.interval ∧ c.ticks + info.interval ≤ 2147483647

/-- The damage conditions that the claim about the duration of a schedule
covers: a fresh one, with `ticks = 0` and an empty schedule as the constructor
leaves them, changed by allowed steps only. -/
inductive ConditionDamage.Built (K : Enums) : ConditionDamage → Prop
  | fresh (c : ConditionDamage) : c.ticks = 0 → c.damageList = [] → ConditionDamage.Built K c
  | step (c c' : ConditionDamage) (x : ScheduleStep) :
      ConditionDamage.Built K c → x.Allowed c → c.scheduleStep K x = some c' →
      ConditionDamage.Built K c'

/-- The sum of the intervals of the entries of a schedule. -/
def IntervalInfo.totalInterval (list : List IntervalInfo) : Int :=
  (list.map (fun info => info.interval)).sum

/-! # Properties -/

/-- The sample header values satisfy the assumptions of `Enums.WellFormed`. -/
theorem Enums.sample_wellFormed : Enums.sample.WellFormed where
  attr_inj := by
    intro a b h
    cases a <;> cases b <;> first | rfl | exact absurd h (by decide)
  attr_byte := by intro a; cases a <;> decide
  type_inj := by
    intro a b h
    cases a <;> cases b <;> first | rfl | exact absurd h (by decide)
  type_u32 := by intro a; cases a <;> decide


/-! ## Machine integers and the stream -/

/-- A value of `int32_t` is unchanged by the 32-bit reduction. -/
theorem wrapInt32_of_isInt32 (x : Int) (h : IsInt32 x) : wrapInt32 x = x := by
  unfold IsInt32 at h
  unfold wrapInt32
  omega

/-! ## The factory -/

/-- A conditional whose first branch is `some` is `none` only through its second branch. -/
theorem ite_some_eq_none {α : Type} (c : Prop) [Decidable c] (a : α) (x : Option α) :
    (if c then some a else x) = none ↔ ¬c ∧ x = none := by
  by_cases h : c <;> simp [h]

/-- The explicit factory returns no instance exactly for a type value outside its table. -/
theorem createCondition_eq_none_iff (K : Enums) (_id : Int) (_type : Nat) (_ticks param : Int)
    (_buff : Bool) (_subId : Nat) :
    Condition.createCondition K _id _type _ticks param _buff _subId = none
      ↔ ∀ t : ConditionType_t, _type ≠ K.type t := by
  unfold Condition.createCondition
  simp only [ite_some_eq_none, not_or, and_true]
  constructor
  · intro h t
    cases t <;> tauto
  · intro h
    simp [h]

/-- A byte read succeeds exactly on a non-empty stream. -/
theorem readUInt8_eq_some (s : PropStream) (b : Nat) (s' : PropStream) :
    s.readUInt8 = some (b, s') ↔ s = b :: s' := by
  cases s with
  | nil => simp [PropStream.readUInt8]
  | cons a t => simp [PropStream.readUInt8]

/-- A 32-bit read succeeds exactly on a stream of at least four bytes. -/
theorem readUInt32_eq_some (s : PropStream) (v : Nat) (s' : PropStream) :
    s.readUInt32 = some (v, s') ↔
      ∃ b0 b1 b2 b3, s = b0 :: b1 :: b2 :: b3 :: s'
        ∧ v = b0 + 256 * b1 + 65536 * b2 + 16777216 * b3 := by
  match s with
  | [] => simp [PropStream.readUInt32]
  | [_] => simp [PropStream.readUInt32]
  | [_, _] => simp [PropStream.readUInt32]
  | [_, _, _] => simp [PropStream.readUInt32]
  | a :: b :: c :: d :: t =>
    simp only [PropStream.readUInt32, Option.some.injEq, Prod.mk.injEq, List.cons.injEq]
    constructor
    · rintro ⟨rfl, rfl⟩
      exact ⟨a, b, c, d, ⟨rfl, rfl, rfl, rfl, rfl⟩, rfl⟩
    · rintro ⟨b0, b1, b2, b3, ⟨rfl, rfl, rfl, rfl, rfl⟩, rfl⟩
      exact ⟨rfl, rfl⟩

/-- Claim C3. The stream factory `createCondition(stream)` returns the instance
`c` if and only if the stream starts with the TYPE tag and four bytes, the ID tag
and four bytes, the TICKS tag and four bytes, the ISBUFF tag and one byte, the
SUBID tag and four bytes, in this order, the decoded type is the value of a type
the factory knows, and `c` is what the explicit factory builds from the decoded
values; for any other stream it returns no instance. -/
theorem createConditionStream_eq_some_iff (K : Enums) (propStream : PropStream)
    (c : AnyCondition) :
    (Condition.createConditionStream K propStream).1 = some c ↔
      ∃ t0 t1 t2 t3 i0 i1 i2 i3 k0 k1 k2 k3 b u0 u1 u2 u3 rest,
        propStream =
          K.attr .CONDITIONATTR_TYPE :: t0 :: t1 :: t2 :: t3
            :: K.attr .CONDITIONATTR_ID :: i0 :: i1 :: i2 :: i3
            :: K.attr .CONDITIONATTR_TICKS :: k0 :: k1 :: k2 :: k3
            :: K.attr .CONDITIONATTR_ISBUFF :: b
            :: K.attr .CONDITIONATTR_SUBID :: u0 :: u1 :: u2 :: u3 :: rest
        ∧ (∃ t : ConditionType_t, t0 + 256 * t1 + 65536 * t2 + 16777216 * t3 = K.type t)
        ∧ Condition.createCondition K
            (wrapInt32 ((i0 + 256 * i1 + 65536 * i2 + 16777216 * i3 : Nat) : Int))
            (t0 + 256 * t1 + 65536 * t2 + 16777216 * t3)
            (wrapInt32 ((k0 + 256 * k1 + 65536 * k2 + 16777216 * k3 : Nat) : Int))
            0 (decide (b ≠ 0)) (u0 + 256 * u1 + 65536 * u2 + 16777216 * u3) = some c := by
  constructor
  · intro h
    unfold Condition.createConditionStream at h
    repeat' split at h
    all_goals try (simp at h; done)
    rename_i x1 a1 s1 e1 n1 x2 ty s2 e2 x3 a3 s3 e3 n3 x4 id s4 e4 x5 a5 s5 e5 n5 x6 tk s6 e6
      x7 a7 s7 e7 n7 x8 bf s8 e8 x9 a9 s9 e9 n9 x10 su s10 e10
    rw [readUInt8_eq_some] at e1 e3 e5 e7 e8 e9
    rw [readUInt32_eq_some] at e2 e4 e6 e10
    obtain ⟨t0, t1, t2, t3, rfl, rfl⟩ := e2
    obtain ⟨i0, i1, i2, i3, rfl, rfl⟩ := e4
    obtain ⟨k0, k1, k2, k3, rfl, rfl⟩ := e6
    obtain ⟨u0, u1, u2, u3, rfl, rfl⟩ := e10
    subst e1 e3 e5 e7 e8 e9
    simp only [ne_eq, Decidable.not_not] at n1 n3 n5 n7 n9
    subst n1 n3 n5 n7 n9
    refine ⟨t0, t1, t2, t3, i0, i1, i2, i3, k0, k1, k2, k3, bf, u0, u1, u2, u3, s10, rfl, ?_, h⟩
    by_contra hno
    rw [(createCondition_eq_none_iff K _ _ _ _ _ _).mpr (fun t ht => hno ⟨t, ht⟩)] at h
    exact absurd h (by simp)
  · rintro ⟨t0, t1, t2, t3, i0, i1, i2, i3, k0, k1, k2, k3, b, u0, u1, u2, u3, rest, rfl, -, h⟩
    simpa [Condition.createConditionStream, PropStream.readUInt8, PropStream.readUInt32] using h

set_option maxHeartbeats 1000000 in
/-- Claim C4. The explicit factory returns, for each type named in its table, an
instance of the class the table gives (`claimedVariant`) that carries the given
scope id, type, buff flag and secondary id, and returns no instance for a type
value outside the table. -/
theorem createCondition_table (K : Enums) (hinj : Function.Injective K.type)
    (_id : Int) (_ticks param : Int) (_buff : Bool) (_subId : Nat) :
    (∀ t : ConditionType_t, ∃ c,
        Condition.createCondition K _id (K.type t) _ticks param _buff _subId = some c
        ∧ c.variant = claimedVariant t
        ∧ c.base.id = _id ∧ c.base.conditionType = K.type t
        ∧ c.base.isBuff = _buff ∧ c.base.subId = _subId)
    ∧ (∀ _type : Nat, (∀ t : ConditionType_t, _type ≠ K.type t) →
        Condition.createCondition K _id _type _ticks param _buff _subId = none) := by
  constructor
  · intro t
    cases t <;>
      simp only [Condition.createCondition, hinj.eq_iff, reduceCtorEq, or_false, false_or, or_true, true_or, if_true, if_false] <;>
      exact ⟨_, rfl, rfl, rfl, rfl, rfl, rfl⟩
  · intro _type h
    exact (createCondition_eq_none_iff K _id _type _ticks param _buff _subId).mpr h

/-- Claim C4 at the paralyze type. -/
theorem createCondition_table_witness :
    ∃ c, Condition.createCondition Enums.sample 0
          (Enums.sample.type .CONDITION_PARALYZE) 4000 (-40) false 0 = some c
      ∧ c.variant = claimedVariant .CONDITION_PARALYZE
      ∧ c.base.id = 0 ∧ c.base.conditionType = Enums.sample.type .CONDITION_PARALYZE
      ∧ c.base.isBuff = false ∧ c.base.subId = 0 :=
  (createCondition_table Enums.sample Enums.sample_wellFormed.type_inj 0 4000 (-40) false 0).1
    .CONDITION_PARALYZE

/-! ## The damage distribution -/

/-! ### The rounding of the loop test -/

/-- The search for the shift finds the least shift at which the quotient has at most `p` bits. -/
theorem roundToEven_shift_aux (p n d : Nat) : ∀ (fuel j : Nat),
    n < d * 2 ^ (p + (j + fuel)) →
    n < d * 2 ^ (p + roundToEven.shift p n d fuel j)
      ∧ j ≤ roundToEven.shift p n d fuel j
      ∧ ∀ j', j ≤ j' → j' < roundToEven.shift p n d fuel j → d * 2 ^ (p + j') ≤ n := by
  intro fuel
  induction fuel with
  | zero =>
    intro j h
    simp only [roundToEven.shift]
    exact ⟨by simpa using h, le_refl _, fun j' h1 h2 => by omega⟩
  | succ fuel ih =>
    intro j h
    unfold roundToEven.shift
    by_cases hc : n < d * 2 ^ (p + j)
    · rw [if_pos hc]
      exact ⟨hc, le_refl _, fun j' h1 h2 => by omega⟩
    · rw [if_neg hc]
      obtain ⟨h1, h2, h3⟩ := ih (j + 1) (by rw [show j + 1 + fuel = j + (fuel + 1) by omega]; exact h)
      refine ⟨h1, by omega, fun j' hj hj' => ?_⟩
      by_cases e : j' = j
      · subst e; omega
      · exact h3 j' (by omega) hj'

/-- The shift of `roundToEven` leaves at most `p` bits and is the least one that does. -/
theorem roundToEven_shift_spec (p n d : Nat) (hd : 0 < d) :
    n < d * 2 ^ (p + roundToEven.shift p n d n 0)
      ∧ ∀ j', j' < roundToEven.shift p n d n 0 → d * 2 ^ (p + j') ≤ n := by
  have h : n < d * 2 ^ (p + (0 + n)) := by
    have h1 : n < 2 ^ n := Nat.lt_two_pow n
    have h2 : 2 ^ n ≤ 2 ^ (p + (0 + n)) := Nat.pow_le_pow_right (by norm_num) (by omega)
    calc n < 2 ^ (p + (0 + n)) := lt_of_lt_of_le h1 h2
      _ ≤ d * 2 ^ (p + (0 + n)) := Nat.le_mul_of_pos_left _ hd
  obtain ⟨h1, -, h3⟩ := roundToEven_shift_aux p n d n 0 h
  exact ⟨h1, fun j' hj => h3 j' (Nat.zero_le _) hj⟩

/-- Rounding to an integer moves up by at most one. -/
theorem nearest_bounds (n D : Nat) :
    n / D ≤ roundToEven.nearest n D ∧ roundToEven.nearest n D ≤ n / D + 1 := by
  unfold roundToEven.nearest
  split_ifs <;> omega

/-- Rounding to an integer is monotone in the numerator. -/
theorem nearest_mono (D n n' : Nat) (h : n ≤ n') :
    roundToEven.nearest n D ≤ roundToEven.nearest n' D := by
  have hq : n / D ≤ n' / D := Nat.div_le_div_right h
  rcases Nat.lt_or_ge (n / D) (n' / D) with hlt | hge
  · have := (nearest_bounds n D).2
    have := (nearest_bounds n' D).1
    omega
  · have e : n / D = n' / D := by omega
    have h1 := Nat.div_add_mod n D
    have h2 := Nat.div_add_mod n' D
    rw [e] at h1
    have hr : n % D ≤ n' % D := by omega
    unfold roundToEven.nearest
    rw [e]
    split_ifs with c1 c2 c2
    · exact le_refl _
    · exfalso; apply c2
      rcases c1 with c1 | ⟨c1, c1'⟩
      · left; omega
      · by_cases h3 : D < 2 * (n' % D)
        · left; exact h3
        · right; exact ⟨by omega, c1'⟩
    · omega
    · exact le_refl _

/-- A multiple of the denominator is not changed by rounding. -/
theorem nearest_exact (q D : Nat) (hD : 0 < D) : roundToEven.nearest (q * D) D = q := by
  unfold roundToEven.nearest
  rw [Nat.mul_mod_left, Nat.mul_div_cancel _ hD]
  rw [if_neg]
  rintro (h | ⟨h, -⟩) <;> omega

/-- Rounding to `p` significant bits is monotone in the numerator. -/
theorem roundToEven_mono (p n n' d : Nat) (hp : 1 ≤ p) (hd : 0 < d) (h : n ≤ n') :
    roundToEven p n d ≤ roundToEven p n' d := by
  obtain ⟨h1, h2⟩ := roundToEven_shift_spec p n d hd
  obtain ⟨h1', h2'⟩ := roundToEven_shift_spec p n' d hd
  unfold roundToEven
  simp only []
  generalize roundToEven.shift p n d n 0 = j at h1 h2 ⊢
  generalize roundToEven.shift p n' d n' 0 = j' at h1' h2' ⊢
  have hjj : j ≤ j' := by
    by_contra hc
    have hlt : j' < j := by omega
    have h3 := h2 (j - 1) (by omega)
    have h4 : 2 ^ (p + j') ≤ 2 ^ (p + (j - 1)) := Nat.pow_le_pow_right (by norm_num) (by omega)
    have h5 : d * 2 ^ (p + j') ≤ d * 2 ^ (p + (j - 1)) := Nat.mul_le_mul_left _ h4
    omega
  rcases Nat.lt_or_ge j j' with hlt | hge
  · have hD : 0 < d * 2 ^ j := Nat.mul_pos hd (by positivity)
    have hD' : 0 < d * 2 ^ j' := Nat.mul_pos hd (by positivity)
    have hm : roundToEven.nearest n (d * 2 ^ j) ≤ 2 ^ p := by
      have hb := (nearest_bounds n (d * 2 ^ j)).2
      have : n / (d * 2 ^ j) < 2 ^ p := by
        rw [Nat.div_lt_iff_lt_mul hD]
        calc n < d * 2 ^ (p + j) := h1
          _ = 2 ^ p * (d * 2 ^ j) := by rw [pow_add]; ring
      omega
    have hm' : 2 ^ (p - 1) ≤ roundToEven.nearest n' (d * 2 ^ j') := by
      have hb := (nearest_bounds n' (d * 2 ^ j')).1
      have h3 := h2' (j' - 1) (by omega)
      have : 2 ^ (p - 1) ≤ n' / (d * 2 ^ j') := by
        rw [Nat.le_div_iff_mul_le hD']
        calc 2 ^ (p - 1) * (d * 2 ^ j') = d * 2 ^ (p - 1 + j') := by rw [pow_add]; ring
          _ = d * 2 ^ (p + (j' - 1)) := by rw [show p - 1 + j' = p + (j' - 1) by omega]
          _ ≤ n' := h3
      omega
    calc roundToEven.nearest n (d * 2 ^ j) * 2 ^ j ≤ 2 ^ p * 2 ^ j := Nat.mul_le_mul_right _ hm
      _ = 2 ^ (p + j) := by rw [pow_add]
      _ ≤ 2 ^ (p - 1 + j') := Nat.pow_le_pow_right (by norm_num) (by omega)
      _ = 2 ^ (p - 1) * 2 ^ j' := by rw [pow_add]
      _ ≤ roundToEven.nearest n' (d * 2 ^ j') * 2 ^ j' := Nat.mul_le_mul_right _ hm'
  · have e : j = j' := by omega
    subst e
    exact Nat.mul_le_mul_right _ (nearest_mono _ _ _ h)

/-- A value `m * 2 ^ t` with `m ≤ 2 ^ p` is representable: rounding returns it. -/
theorem roundToEven_exact (p m t d : Nat) (hp : 1 ≤ p) (hd : 0 < d) (hm : m ≤ 2 ^ p) :
    roundToEven p (m * 2 ^ t * d) d = m * 2 ^ t := by
  obtain ⟨h1, h2⟩ := roundToEven_shift_spec p (m * 2 ^ t * d) d hd
  unfold roundToEven
  simp only []
  generalize roundToEven.shift p (m * 2 ^ t * d) d (m * 2 ^ t * d) 0 = j at h1 h2 ⊢
  have h1' : m * 2 ^ t < 2 ^ (p + j) := by
    have : m * 2 ^ t * d < 2 ^ (p + j) * d := by rw [Nat.mul_comm (2 ^ (p + j))]; exact h1
    exact Nat.lt_of_mul_lt_mul_right this
  rcases Nat.lt_or_ge t j with hlt | hge
  · have h3 := h2 (j - 1) (by omega)
    have h4 : 2 ^ (p + (j - 1)) ≤ m * 2 ^ t := by
      have : 2 ^ (p + (j - 1)) * d ≤ m * 2 ^ t * d := by rw [Nat.mul_comm _ d]; exact h3
      exact Nat.le_of_mul_le_mul_right this hd
    have h5 : m * 2 ^ t ≤ 2 ^ p * 2 ^ t := Nat.mul_le_mul_right _ hm
    rw [← pow_add] at h5
    have h6 : p + (j - 1) ≤ p + t := by
      by_contra hc
      have : 2 ^ (p + t) < 2 ^ (p + (j - 1)) := Nat.pow_lt_pow_right (by norm_num) (by omega)
      omega
    have ej : j = t + 1 := by omega
    subst ej
    have em : m * 2 ^ t = 2 ^ (p + t) := by
      have : p + (t + 1 - 1) = p + t := by omega
      rw [this] at h4
      omega
    have e2 : m * 2 ^ t * d = 2 ^ (p - 1) * (d * 2 ^ (t + 1)) := by
      rw [em]
      have : p + t = (p - 1) + (t + 1) := by omega
      rw [this, pow_add]; ring
    rw [e2, nearest_exact _ _ (Nat.mul_pos hd (by positivity)), ← pow_add, em]
    congr 1; omega
  · have e2 : m * 2 ^ t * d = m * 2 ^ (t - j) * (d * 2 ^ j) := by
      have : t = (t - j) + j := by omega
      conv_lhs => rw [this, pow_add]
      ring
    rw [e2, nearest_exact _ _ (Nat.mul_pos hd (by positivity)), Nat.mul_assoc, ← pow_add]
    congr 2; omega

/-- A rounded value has a mantissa of at most `p` bits, or is a power of two. -/
theorem roundToEven_le_pow (p n d : Nat) (hd : 0 < d) :
    ∃ m j, roundToEven p n d = m * 2 ^ j ∧ m ≤ 2 ^ p := by
  obtain ⟨h1, -⟩ := roundToEven_shift_spec p n d hd
  unfold roundToEven
  simp only []
  generalize roundToEven.shift p n d n 0 = j at h1 ⊢
  refine ⟨_, j, rfl, ?_⟩
  have hD : 0 < d * 2 ^ j := Nat.mul_pos hd (by positivity)
  have hb := (nearest_bounds n (d * 2 ^ j)).2
  have : n / (d * 2 ^ j) < 2 ^ p := by
    rw [Nat.div_lt_iff_lt_mul hD]
    calc n < d * 2 ^ (p + j) := h1
      _ = 2 ^ p * (d * 2 ^ j) := by rw [pow_add]; ring
  omega

/-- Rounding a rounded value changes nothing. -/
theorem roundToEven_idem (p n d : Nat) (hp : 1 ≤ p) (hd : 0 < d) :
    roundToEven p (roundToEven p n d) 1 = roundToEven p n d := by
  obtain ⟨m, j, e, hm⟩ := roundToEven_le_pow p n d hd
  rw [e]
  have := roundToEven_exact p m j 1 hp (by norm_num) hm
  simpa using this

/-- Zero is rounded to zero. -/
theorem roundToEven_zero (p d : Nat) : roundToEven p 0 d = 0 := by
  simp [roundToEven, roundToEven.nearest]


/-- A positive integer is rounded to a positive integer. -/
theorem roundToEven_one_le (p n : Nat) (hp : 1 ≤ p) (hn : 1 ≤ n) : 1 ≤ roundToEven p n 1 := by
  have h1 := roundToEven_mono p 1 n 1 hp (by norm_num) hn
  have h2 := roundToEven_exact p 1 0 1 hp (by norm_num) (Nat.one_le_two_pow)
  simp only [pow_zero, mul_one] at h2
  omega

/-- The conversion of a non-negative integer. -/
theorem ofInt_of_nonneg (x : Int) (h : 0 ≤ x) :
    float.ofInt x = (roundToEven 24 x.natAbs 1 : Nat) := by
  unfold float.ofInt; rw [if_pos h]

/-- The conversion of a negative integer. -/
theorem ofInt_of_neg (x : Int) (h : x < 0) :
    float.ofInt x = -((roundToEven 24 x.natAbs 1 : Nat) : Int) := by
  unfold float.ofInt; rw [if_neg (by omega)]

/-- The conversion of a positive integer is positive. -/
theorem ofInt_pos (x : Int) (h : 1 ≤ x) : 1 ≤ float.ofInt x := by
  rw [ofInt_of_nonneg x (by omega)]
  have := roundToEven_one_le 24 x.natAbs (by norm_num) (by omega)
  exact_mod_cast this

/-- The conversion of a negative integer is negative. -/
theorem ofInt_neg (x : Int) (h : x ≤ -1) : float.ofInt x ≤ -1 := by
  rw [ofInt_of_neg x (by omega)]
  have := roundToEven_one_le 24 x.natAbs (by norm_num) (by omega)
  omega

/-- The conversion to `float` is monotone. -/
theorem ofInt_mono (x y : Int) (h : x ≤ y) : float.ofInt x ≤ float.ofInt y := by
  rcases lt_or_le x 0 with hx | hx <;> rcases lt_or_le y 0 with hy | hy
  · rw [ofInt_of_neg x hx, ofInt_of_neg y hy]
    have := roundToEven_mono 24 y.natAbs x.natAbs 1 (by norm_num) (by norm_num) (by omega)
    omega
  · rw [ofInt_of_neg x hx, ofInt_of_nonneg y hy]
    omega
  · omega
  · rw [ofInt_of_nonneg x hx, ofInt_of_nonneg y hy]
    have := roundToEven_mono 24 x.natAbs y.natAbs 1 (by norm_num) (by norm_num) (by omega)
    exact_mod_cast this

/-- Converting a `float` value again changes nothing. -/
theorem ofInt_idem (x : Int) : float.ofInt (float.ofInt x) = float.ofInt x := by
  have hi := roundToEven_idem 24 x.natAbs 1 (by norm_num) (by norm_num)
  rcases lt_or_le x 0 with hx | hx
  · rw [ofInt_of_neg x hx]
    have h1 := roundToEven_one_le 24 x.natAbs (by norm_num) (by omega)
    rw [ofInt_of_neg _ (by omega)]
    simp only [Int.natAbs_neg, Int.natAbs_ofNat, hi]
  · rw [ofInt_of_nonneg x hx, ofInt_of_nonneg _ (by omega)]
    simp only [Int.natAbs_ofNat, hi]

/-- Integers of magnitude up to `2 ^ 24` are `float` values. -/
theorem ofInt_exact (x : Int) (h : x.natAbs ≤ 16777216) : float.ofInt x = x := by
  have e := roundToEven_exact 24 x.natAbs 0 1 (by norm_num) (by norm_num) (by norm_num; exact h)
  simp only [pow_zero, mul_one] at e
  unfold float.ofInt
  rw [e]
  split_ifs <;> omega

/-- The quotient of two non-negative operands. -/
theorem floatDiv_nonneg_nonneg (a b : Int) (ha : 0 ≤ a) (hb : 0 ≤ b) :
    float.div a b = (roundToEven 24 (a.natAbs * 2 ^ 64) b.natAbs : Nat) := by
  unfold float.div; rw [if_pos (Or.inl ⟨ha, hb⟩)]

/-- The quotient of two negative operands. -/
theorem floatDiv_neg_neg (a b : Int) (ha : a < 0) (hb : b < 0) :
    float.div a b = (roundToEven 24 (a.natAbs * 2 ^ 64) b.natAbs : Nat) := by
  unfold float.div; rw [if_pos (Or.inr ⟨ha, hb⟩)]

/-- The quotient of a non-negative operand by a negative one. -/
theorem floatDiv_nonneg_neg (a b : Int) (ha : 0 ≤ a) (hb : b < 0) :
    float.div a b = -((roundToEven 24 (a.natAbs * 2 ^ 64) b.natAbs : Nat) : Int) := by
  unfold float.div; rw [if_neg (by omega)]

/-- The rounded quotient is monotone in the numerator. -/
theorem quotient_mono (a a' b : Nat) (hb : 0 < b) (h : a ≤ a') :
    roundToEven 24 (a * 2 ^ 64) b ≤ roundToEven 24 (a' * 2 ^ 64) b :=
  roundToEven_mono 24 _ _ b (by norm_num) hb (Nat.mul_le_mul_right _ h)

/-- The quotient of a value by itself is `1.0`. -/
theorem quotient_self (b : Nat) (hb : 0 < b) : roundToEven 24 (b * 2 ^ 64) b = 2 ^ 64 := by
  have := roundToEven_exact 24 1 64 b (by norm_num) hb (by norm_num)
  rw [show b * 2 ^ 64 = 1 * 2 ^ 64 * b by ring, this]; norm_num

/-- The rounded distance to `1.0` is monotone in the exact distance. -/
theorem distanceToOne_mono (q q' : Int) (h : (2 ^ 64 - q).natAbs ≤ (2 ^ 64 - q').natAbs) :
    double.distanceToOne q ≤ double.distanceToOne q' :=
  roundToEven_mono 53 _ _ 1 (by norm_num) (by norm_num) h

/-- The loop test of `generateDamageList` holds only while the running sum is below the target
of the round. -/
theorem closer_lt (sum i med : Int) (hi : 1 ≤ i)
    (h : generateDamageList.closer sum i med = true) : sum < med := by
  by_contra hc
  have hle : med ≤ sum := by omega
  unfold generateDamageList.closer at h
  split_ifs at h with h0
  simp only [decide_eq_true_eq, float.add] at h
  have hFi := ofInt_pos i hi
  have hFm := ofInt_mono med sum hle
  have hG : float.ofInt sum ≤ float.ofInt (float.ofInt sum + float.ofInt i) := by
    have := ofInt_mono (float.ofInt sum) (float.ofInt sum + float.ofInt i) (by omega)
    rwa [ofInt_idem] at this
  generalize float.ofInt (float.ofInt sum + float.ofInt i) = G at h hG
  have key : double.distanceToOne (float.div (float.ofInt sum) (float.ofInt med))
      ≤ double.distanceToOne (float.div G (float.ofInt med)) := by
    apply distanceToOne_mono
    rcases lt_or_le med 0 with hm | hm
    · have hM := ofInt_neg med (by omega)
      generalize float.ofInt med = M at hM hFm ⊢
      generalize float.ofInt sum = F at hFm hG ⊢
      have hMp : 0 < M.natAbs := by omega
      rcases lt_or_le F 0 with hF | hF
      · have h2 := quotient_mono F.natAbs M.natAbs M.natAbs hMp (by omega)
        rw [quotient_self _ hMp] at h2
        rw [floatDiv_neg_neg F M hF (by omega)]
        rcases lt_or_le G 0 with hg | hg
        · have h1 := quotient_mono G.natAbs F.natAbs M.natAbs hMp (by omega)
          rw [floatDiv_neg_neg G M hg (by omega)]
          omega
        · rw [floatDiv_nonneg_neg G M hg (by omega)]
          omega
      · have h1 := quotient_mono F.natAbs G.natAbs M.natAbs hMp (by omega)
        rw [floatDiv_nonneg_neg F M hF (by omega), floatDiv_nonneg_neg G M (by omega) (by omega)]
        omega
    · have hM := ofInt_pos med (by omega)
      generalize float.ofInt med = M at hM hFm ⊢
      generalize float.ofInt sum = F at hFm hG ⊢
      have hMp : 0 < M.natAbs := by omega
      have h1 := quotient_mono F.natAbs G.natAbs M.natAbs hMp (by omega)
      have h2 := quotient_mono M.natAbs F.natAbs M.natAbs hMp (by omega)
      rw [quotient_self _ hMp] at h2
      rw [floatDiv_nonneg_nonneg F M (by omega) (by omega), floatDiv_nonneg_nonneg G M (by omega) (by omega)]
      omega
  omega

/-- For the step 1 and a target of at most `2 ^ 23` the loop test holds whenever the running sum
is positive and below the target: the two quotients are at least `2 ^ (-23)` apart, so that two
multiples of `2 ^ (-24)`, which are `float` values, lie between them. -/
theorem closer_last (s A : Int) (hs : 1 ≤ s) (hlt : s < A) (hA : A ≤ 8388608) :
    generateDamageList.closer s 1 A = true := by
  obtain ⟨sn, rfl⟩ : ∃ sn : Nat, s = sn := ⟨s.toNat, by omega⟩
  obtain ⟨An, rfl⟩ : ∃ An : Nat, A = An := ⟨A.toNat, by omega⟩
  have hs' : 1 ≤ sn := by exact_mod_cast hs
  have hlt' : sn < An := by exact_mod_cast hlt
  have hA' : An ≤ 8388608 := by exact_mod_cast hA
  unfold generateDamageList.closer
  rw [if_neg (by omega)]
  simp only [decide_eq_true_eq, float.add]
  rw [ofInt_exact (sn : Int) (by omega), ofInt_exact (1 : Int) (by norm_num),
    ofInt_exact (An : Int) (by omega), ofInt_exact ((sn : Int) + 1) (by omega),
    floatDiv_nonneg_nonneg _ _ (by omega) (by omega), floatDiv_nonneg_nonneg _ _ (by omega) (by omega)]
  have e1 : ((sn : Int) + 1).natAbs = sn + 1 := by omega
  simp only [e1, Int.natAbs_ofNat]
  have hAp : 0 < An := by omega
  have hdm := Nat.div_add_mod (sn * 16777216 + An - 1) An
  have hmod := Nat.mod_lt (sn * 16777216 + An - 1) hAp
  generalize (sn * 16777216 + An - 1) / An = k1 at hdm
  generalize (sn * 16777216 + An - 1) % An = r at hdm hmod
  have hk2 : k1 + 1 ≤ 16777216 := by
    have : An * (k1 + 1) ≤ An * 16777216 := by
      have : An * (k1 + 1) = An * k1 + An := by ring
      have : An * 16777216 = 16777216 * An := by ring
      omega
    exact Nat.le_of_mul_le_mul_left this hAp
  have hq2 : roundToEven 24 (sn * 2 ^ 64) An ≤ k1 * 2 ^ 40 := by
    have := roundToEven_mono 24 (sn * 2 ^ 64) (k1 * 2 ^ 40 * An) An (by norm_num) hAp (by
      have : k1 * 2 ^ 40 * An = (An * k1) * 1099511627776 := by ring
      omega)
    rwa [roundToEven_exact 24 k1 40 An (by norm_num) hAp (by norm_num; omega)] at this
  have hq1 : (k1 + 1) * 2 ^ 40 ≤ roundToEven 24 ((sn + 1) * 2 ^ 64) An := by
    have := roundToEven_mono 24 ((k1 + 1) * 2 ^ 40 * An) ((sn + 1) * 2 ^ 64) An (by norm_num) hAp (by
      have : (k1 + 1) * 2 ^ 40 * An = (An * k1 + An) * 1099511627776 := by ring
      omega)
    rwa [roundToEven_exact 24 (k1 + 1) 40 An (by norm_num) hAp (by norm_num; omega)] at this
  have hq1' : roundToEven 24 ((sn + 1) * 2 ^ 64) An ≤ 2 ^ 64 := by
    have := quotient_mono (sn + 1) An An hAp (by omega)
    rwa [quotient_self _ hAp] at this
  generalize roundToEven 24 ((sn + 1) * 2 ^ 64) An = Q1 at hq1 hq1' ⊢
  generalize roundToEven 24 (sn * 2 ^ 64) An = Q2 at hq2 ⊢
  unfold double.distanceToOne
  have hx1 : roundToEven 53 ((2 : Int) ^ 64 - (Q1 : Nat)).natAbs 1 ≤ (16777216 - (k1 + 1)) * 2 ^ 40 := by
    have := roundToEven_mono 53 ((2 : Int) ^ 64 - (Q1 : Nat)).natAbs
      ((16777216 - (k1 + 1)) * 2 ^ 40 * 1) 1 (by norm_num) (by norm_num) (by omega)
    rwa [roundToEven_exact 53 _ 40 1 (by norm_num) (by norm_num) (by norm_num; omega)] at this
  have hx2 : (16777216 - k1) * 2 ^ 40 ≤ roundToEven 53 ((2 : Int) ^ 64 - (Q2 : Nat)).natAbs 1 := by
    have := roundToEven_mono 53 ((16777216 - k1) * 2 ^ 40 * 1)
      ((2 : Int) ^ 64 - (Q2 : Nat)).natAbs 1 (by norm_num) (by norm_num) (by omega)
    rwa [roundToEven_exact 53 _ 40 1 (by norm_num) (by norm_num) (by norm_num; omega)] at this
  omega

/-! ### Runs of the distribution -/

/-- The integer expression `startValue` is `max(1, ceil(amount / 20.0))`. -/
theorem startValue_eq_ceil (amount : Int) :
    ConditionDamage.init.startValue amount = max 1 ⌈(amount : ℚ) / 20⌉ := by
  unfold ConditionDamage.init.startValue
  congr 1
  symm
  rw [Int.ceil_eq_iff]
  constructor
  · have h := Int.emod_nonneg (-amount) (by norm_num : (20 : Int) ≠ 0)
    have h2 := Int.emod_lt_of_pos (-amount) (by norm_num : (0 : Int) < 20)
    have h3 := Int.emod_add_ediv (-amount) 20
    have : ((-(-amount / 20) : Int) : ℚ) - 1 < (amount : ℚ) / 20 := by
      rw [lt_div_iff₀ (by norm_num : (0 : ℚ) < 20)]
      have : (-(-amount / 20) - 1) * 20 < amount := by omega
      exact_mod_cast this
    exact_mod_cast this
  · have h := Int.emod_nonneg (-amount) (by norm_num : (20 : Int) ≠ 0)
    have h3 := Int.emod_add_ediv (-amount) 20
    rw [div_le_iff₀ (by norm_num : (0 : ℚ) < 20)]
    have : amount ≤ (-(-amount / 20)) * 20 := by omega
    exact_mod_cast this

/-- More fuel does not change a result of the inner loop. -/
theorem doWhile_fuel_succ (i med : Int) :
    ∀ (fuel : Nat) (sum : Int) (list : List Int) (r : Int × List Int),
      generateDamageList.doWhile i med fuel sum list = some r →
      generateDamageList.doWhile i med (fuel + 1) sum list = some r := by
  intro fuel
  induction fuel with
  | zero => intro sum list r h; simp [generateDamageList.doWhile] at h
  | succ n ih =>
    intro sum list r h
    rw [generateDamageList.doWhile] at h ⊢
    by_cases hc : generateDamageList.closer (wrapInt32 (sum + i)) i med = true
    · simp only [hc, if_true] at h ⊢
      exact ih _ _ _ h
    · simp only [hc, if_false] at h ⊢
      exact h

/-- More fuel does not change a result of the inner loop. -/
theorem doWhile_fuel_mono (i med : Int) (fuel fuel' : Nat) (hf : fuel ≤ fuel') (sum : Int)
    (list : List Int) (r : Int × List Int)
    (h : generateDamageList.doWhile i med fuel sum list = some r) :
    generateDamageList.doWhile i med fuel' sum list = some r := by
  induction hf with
  | refl => exact h
  | step _ ih => exact doWhile_fuel_succ i med _ sum list r ih

/-- More fuel does not change a result of the outer loop. -/
theorem forLoop_fuel_mono (amount start : Int) (fuel fuel' : Nat) (hf : fuel ≤ fuel') :
    ∀ (k : Nat) (sum : Int) (list : List Int) (r : List Int),
      generateDamageList.forLoop amount start fuel k sum list = some r →
      generateDamageList.forLoop amount start fuel' k sum list = some r := by
  intro k
  induction k with
  | zero => intro sum list r h; simpa [generateDamageList.forLoop] using h
  | succ n ih =>
    intro sum list r h
    rw [generateDamageList.forLoop] at h ⊢
    cases hd : generateDamageList.doWhile ((n : Int) + 1)
        (wrapInt32 ((wrapInt32 (wrapInt32 (start + 1 - ((n : Int) + 1)) * amount)).tdiv start))
        fuel sum list with
    | none => rw [hd] at h; simp at h
    | some p =>
      rw [hd] at h
      rw [doWhile_fuel_mono _ _ fuel fuel' hf sum list p hd]
      exact ih _ _ _ h

/-- More fuel does not change a result of `generateDamageList`. -/
theorem generateDamageList_fuel_mono (fuel fuel' : Nat) (hf : fuel ≤ fuel') (amount start : Int)
    (r : List Int) (h : ConditionDamage.generateDamageList fuel amount start = some r) :
    ConditionDamage.generateDamageList fuel' amount start = some r :=
  forLoop_fuel_mono _ _ fuel fuel' hf _ _ _ _ h

set_option maxRecDepth 100000 in
/-- At `amount = 9` and `start = 3` the rounding of the quotients decides the loop test: in the
second round, at the running sum 5 with the target 6, the single-precision quotients `7 / 6` and
`5 / 6` are at the distances `0.16666662693023682` and `0.16666668653488159` from 1, so that a
second 2 is appended, where the exact quotients are at the same distance. -/
theorem generateDamageList_9_3 :
    generateDamageList.closer 5 2 6 = true
      ∧ ConditionDamage.generateDamageList 21 9 3 = some [3, 2, 2, 1, 1] := by
  decide

set_option maxRecDepth 100000 in
/-- The list that `generateDamageList(100, 5)` returns. -/
theorem generateDamageList_100_5 :
    ConditionDamage.generateDamageList 21 100 5
      = some (List.replicate 4 5 ++ List.replicate 5 4 ++ List.replicate 7 3
          ++ List.replicate 9 2 ++ List.replicate 21 1) := by
  decide

set_option maxRecDepth 100000 in
/-- Claim C5. With enough fuel for its inner loops, `generateDamageList(100, 5)`
returns a list that is non-increasing, consists of positive integers and whose
sum differs from 100 by at most 1. -/
theorem generateDamageList_100_5_spec (fuel : Nat) (hf : 21 ≤ fuel) :
    ∃ list, ConditionDamage.generateDamageList fuel 100 5 = some list
      ∧ List.Pairwise (fun a b => a ≥ b) list
      ∧ (∀ x ∈ list, 0 < x)
      ∧ |list.sum - 100| ≤ 1 := by
  refine ⟨_, generateDamageList_fuel_mono 21 fuel hf 100 5 _ generateDamageList_100_5, ?_, ?_, ?_⟩
  · decide
  · decide
  · decide

/-- Claim C5 with fuel 21. -/
theorem generateDamageList_100_5_spec_witness :
    ∃ list, ConditionDamage.generateDamageList 21 100 5 = some list
      ∧ List.Pairwise (fun a b => a ≥ b) list
      ∧ (∀ x ∈ list, 0 < x)
      ∧ |list.sum - 100| ≤ 1 :=
  generateDamageList_100_5_spec 21 (by decide)

/-- The loop test fails when the ramp target is zero. -/
theorem closer_med_zero (sum i : Int) : generateDamageList.closer sum i 0 = false := by
  simp [generateDamageList.closer]

/-- With `amount = 0` every round appends its value exactly once. -/
theorem forLoop_amount_zero (start : Int) (fuel : Nat) :
    ∀ (k : Nat) (sum : Int) (list : List Int),
      generateDamageList.forLoop 0 start (fuel + 1) k sum list = some (list ++ countdown k) := by
  intro k
  induction k with
  | zero => intro sum list; simp [generateDamageList.forLoop, countdown]
  | succ n ih =>
    intro sum list
    have hmed : wrapInt32 ((wrapInt32 (wrapInt32 (start + 1 - ((n : Int) + 1)) * 0)).tdiv start) = 0 := by
      simp [wrapInt32]
    rw [generateDamageList.forLoop]
    simp only [hmed, generateDamageList.doWhile, closer_med_zero]
    simp only [Bool.false_eq_true, if_false]
    rw [ih]
    simp [countdown, List.range_succ]

/-- Claim C6, amended. For every `start > 0`, `generateDamageList(0, start)`
returns the list `start, start - 1, …, 1`: one entry per round, so the list is
not empty and none of its entries is zero. -/
theorem generateDamageList_amount_zero (start : Int) (hs : 0 < start) (fuel : Nat)
    (hf : 1 ≤ fuel) :
    ConditionDamage.generateDamageList fuel 0 start = some (countdown start.toNat)
      ∧ countdown start.toNat ≠ []
      ∧ ∀ x ∈ countdown start.toNat, x ≠ 0 := by
  obtain ⟨f, rfl⟩ : ∃ f, fuel = f + 1 := ⟨fuel - 1, by omega⟩
  refine ⟨?_, ?_, ?_⟩
  · have h0 : abs32 0 = 0 := by decide
    rw [ConditionDamage.generateDamageList, h0, forLoop_amount_zero start f]
    simp
  · obtain ⟨n, hn⟩ : ∃ n, start.toNat = n + 1 := ⟨start.toNat - 1, by omega⟩
    simp [hn, countdown, List.range_succ]
  · intro x hx
    simp only [countdown, List.mem_map, List.mem_reverse, List.mem_range] at hx
    obtain ⟨k, _, rfl⟩ := hx
    have : (0 : Int) ≤ (k : Int) := Int.ofNat_nonneg k
    intro h
    omega

/-- Claim C6, amended, at `start = 3`. -/
theorem generateDamageList_amount_zero_witness :
    ConditionDamage.generateDamageList 1 0 3 = some (countdown (3 : Int).toNat)
      ∧ countdown (3 : Int).toNat ≠ []
      ∧ ∀ x ∈ countdown (3 : Int).toNat, x ≠ 0 :=
  generateDamageList_amount_zero 3 (by decide) 1 (by decide)

/-- Claim C6, counterexample. The call `generateDamageList(0, 3)` returns `3, 2, 1`,
which is neither empty nor made of zeros. -/
theorem generateDamageList_amount_zero_counterexample :
    ConditionDamage.generateDamageList 1 0 3 = some [3, 2, 1]
      ∧ ¬ (([3, 2, 1] : List Int) = [] ∨ ∀ x ∈ ([3, 2, 1] : List Int), x = 0) := by
  decide

/-! ## Building the schedule -/

/-- The call `addDamage(1, time, value)` on a condition without periodic damage adds one entry. -/
theorem addDamage_one (c : ConditionDamage) (now time value : Int) (hp : c.periodDamage ≤ 0) :
    c.addDamage now 1 time value = (true, ConditionDamage.addDamage.round now time value c) := by
  unfold ConditionDamage.addDamage
  have h1 : ¬ ((1 : Int) = -1) := by decide
  have h2 : ¬ (c.periodDamage > 0) := by omega
  simp only [h1, h2, if_false]
  rfl

/-- The effect of the `addDamage(1, tickInterval, -value)` calls of `init` when the accumulated
duration stays in the range of `int32_t`. -/
theorem init_fold (now ti : Int) (hti : 0 ≤ ti) :
    ∀ (vals : List Int) (c : ConditionDamage), c.periodDamage = 0 → c.tickInterval = ti →
      0 ≤ c.ticks → c.ticks + vals.length * ti ≤ 2147483647 →
      ∃ c', vals.foldl
          (fun c value => (c.addDamage now 1 c.tickInterval (wrapInt32 (-value))).2) c = c'
        ∧ c'.damageList = c.damageList
            ++ vals.map (fun v => { timeLeft := ti, value := wrapInt32 (-v), interval := ti })
        ∧ c'.ticks = c.ticks + vals.length * ti
        ∧ c'.startDamage = c.startDamage ∧ c'.minDamage = c.minDamage
        ∧ c'.maxDamage = c.maxDamage ∧ c'.periodDamage = 0 ∧ c'.tickInterval = ti := by
  intro vals
  induction vals with
  | nil => intro c hp ht _ _; exact ⟨c, rfl, by simp, by simp, rfl, rfl, rfl, hp, ht⟩
  | cons v vs ih =>
    intro c hp ht h0 hb
    simp only [List.foldl_cons, List.length_cons, Nat.cast_add, Nat.cast_one] at hb ⊢
    have hvs : (0 : Int) ≤ (vs.length : Int) * ti := mul_nonneg (Int.ofNat_nonneg _) hti
    have hstep : (c.addDamage now 1 c.tickInterval (wrapInt32 (-v))).2
        = { c with
            damageList := c.damageList ++ [{ timeLeft := ti, value := wrapInt32 (-v), interval := ti }]
            toCondition := c.toCondition.setTicks now (c.ticks + ti) } := by
      rw [addDamage_one c now _ _ (by omega)]
      have hne : c.ticks ≠ -1 := by omega
      have hw : wrapInt32 (c.ticks + ti) = c.ticks + ti := by
        apply wrapInt32_of_isInt32
        unfold IsInt32
        constructor
        · omega
        · nlinarith
      simp [ConditionDamage.addDamage.round, hne, ht, hw]
    rw [hstep]
    obtain ⟨c', hc', hl, htk, hs, hmin, hmax, hp', hti'⟩ := ih
      { c with
        damageList := c.damageList ++ [{ timeLeft := ti, value := wrapInt32 (-v), interval := ti }]
        toCondition := c.toCondition.setTicks now (c.ticks + ti) }
      hp ht (by simp only [Condition.setTicks]; omega)
      (by simp only [Condition.setTicks]; nlinarith)
    refine ⟨c', hc', ?_, ?_, hs, hmin, hmax, hp', hti'⟩
    · rw [hl]; simp
    · rw [htk]; simp only [Condition.setTicks]; ring

set_option maxRecDepth 100000 in
/-- For `1 ≤ amount ≤ 20` and one start round the list consists of `amount` ones. -/
theorem generateDamageList_small (amount : Int) (h1 : 1 ≤ amount) (h20 : amount ≤ 20) :
    ConditionDamage.generateDamageList 20 amount 1 = some (List.replicate amount.toNat 1) := by
  interval_cases amount <;> decide

/-- Sampling from a range of one value returns that value. -/
theorem uniform_random_self (seed : Nat) (a : Int) : uniform_random seed a a = a := by
  simp [uniform_random, Nat.mod_one]

/-- The running total of `getTotalDamage` over entries of value `-1`. -/
theorem totalDamage_fold (ti : Int) : ∀ (n : Nat) (acc : Int),
    (List.replicate n ({ timeLeft := ti, value := -1, interval := ti } : IntervalInfo)).foldl
      (fun result intervalInfo => wrapInt32 (result + intervalInfo.value)) acc
      = (fun r => wrapInt32 (r + -1))^[n] acc := by
  intro n
  induction n with
  | zero => intro acc; rfl
  | succ k ih => intro acc; simp only [List.replicate_succ, List.foldl_cons, Function.iterate_succ, Function.comp]; exact ih _

set_option maxRecDepth 100000 in
/-- Claim C7, amended. For `1 ≤ amount ≤ 20`, a damage condition with
`minDamage = maxDamage = amount`, `startDamage = 0`, `periodDamage = 0`,
`tickInterval ≥ 0`, an empty schedule and `amount * tickInterval` within the range
of `int32_t`: `init` returns true, sets the start round count to 1 and leaves
`amount` entries of value -1 with `interval = timeLeft = tickInterval`, so that
`getTotalDamage() = amount` and `ticks = amount * tickInterval`. -/
theorem init_small_amount (c : ConditionDamage) (amount tickInterval now : Int) (seed fuel : Nat)
    (h1 : 1 ≤ amount) (h20 : amount ≤ 20)
    (hmin : c.minDamage = amount) (hmax : c.maxDamage = amount)
    (hstart : c.startDamage = 0) (hperiod : c.periodDamage = 0)
    (hti : 0 ≤ tickInterval) (hc : c.tickInterval = tickInterval)
    (hlist : c.damageList = [])
    (hfit : amount * tickInterval ≤ 2147483647)
    (hfuel : 20 ≤ fuel) :
    ∃ c', c.init now seed fuel = some (true, c')
      ∧ c'.startDamage = 1
      ∧ c'.damageList = List.replicate amount.toNat
          { timeLeft := tickInterval, value := -1, interval := tickInterval }
      ∧ c'.getTotalDamage = amount
      ∧ c'.ticks = amount * tickInterval := by
  have hgen := generateDamageList_fuel_mono 20 fuel hfuel amount 1 _
    (generateDamageList_small amount h1 h20)
  have hsv : ConditionDamage.init.startValue amount = 1 := by
    unfold ConditionDamage.init.startValue; omega
  have hne : amount ≠ 0 := by omega
  obtain ⟨c', hc', hl, htk, hs, -, -, -, -⟩ := init_fold now tickInterval hti
    (List.replicate amount.toNat 1)
    { c with toCondition := c.toCondition.setTicks now 0, startDamage := 1 }
    hperiod hc (by simp [Condition.setTicks])
    (by
      simp only [Condition.setTicks, List.length_replicate]
      have : ((amount.toNat : Nat) : Int) = amount := Int.toNat_of_nonneg (by omega)
      rw [this]; omega)
  have hlen : ((amount.toNat : Nat) : Int) = amount := Int.toNat_of_nonneg (by omega)
  have hl' : c'.damageList = List.replicate amount.toNat
      { timeLeft := tickInterval, value := -1, interval := tickInterval } := by
    rw [hl, hlist]
    simp [wrapInt32]
  have hpos : 0 < amount.toNat := by omega
  refine ⟨c', ?_, hs, hl', ?_, ?_⟩
  · unfold ConditionDamage.init
    have hgt : ¬ ((0 : Int) > amount) := by omega
    simp only [hperiod, hlist, hmin, hmax, hstart, uniform_random_self, ne_eq, not_true_eq_false,
      if_false, List.isEmpty_nil, if_true, hne, not_false_eq_true, gt_iff_lt, hsv, hgen]
    have hnl : ¬ (amount < 0) := by omega
    simp only [hnl, if_false]
    rw [hgen]
    simp only [hperiod, hlist, hmin, hmax] at hc'
    simp only [hc']
    have : c'.damageList.isEmpty = false := by
      rw [hl']
      obtain ⟨n, hn⟩ : ∃ n, amount.toNat = n + 1 := ⟨amount.toNat - 1, by omega⟩
      rw [hn]; rfl
    simp [this]
  · unfold ConditionDamage.getTotalDamage
    have : c'.damageList.isEmpty = false := by
      rw [hl']
      obtain ⟨n, hn⟩ : ∃ n, amount.toNat = n + 1 := ⟨amount.toNat - 1, by omega⟩
      rw [hn]; rfl
    simp only [this, Bool.not_false, if_true]
    rw [hl', totalDamage_fold]
    interval_cases amount <;> decide
  · rw [htk]
    simp only [Condition.setTicks, List.length_replicate, hlen]
    ring

/-- Claim C7 at the scenario of the specification: `amount = 10`, interval 2000. -/
theorem init_small_amount_witness :
    ∃ c', ConditionDamage.init
          { ConditionDamage.new 0 1 false 0 with minDamage := 10, maxDamage := 10 } 0 0 20
        = some (true, c')
      ∧ c'.startDamage = 1
      ∧ c'.damageList = List.replicate (10 : Int).toNat
          { timeLeft := 2000, value := -1, interval := 2000 }
      ∧ c'.getTotalDamage = 10
      ∧ c'.ticks = 10 * 2000 :=
  init_small_amount { ConditionDamage.new 0 1 false 0 with minDamage := 10, maxDamage := 10 }
    10 2000 0 0 20 (by decide) (by decide) rfl rfl rfl rfl (by decide) rfl rfl (by decide)
    (by decide)

/-- Claim C7, counterexample. With `amount = 2` and `tickInterval = 2147483647`
`init` returns true and leaves two entries, but `ticks` is `-2`, not
`amount * tickInterval`. -/
theorem init_small_amount_counterexample :
    (ConditionDamage.init
        { ConditionDamage.new 0 1 false 0 with
          minDamage := 2, maxDamage := 2, tickInterval := 2147483647 } 0 0 20).map
        (fun r => (r.1, r.2.damageList.length, r.2.ticks)) = some (true, 2, -2)
      ∧ (-2 : Int) ≠ 2 * 2147483647 := by
  decide

/-! ## Stacking -/

/-- Claim C8. When the incoming damage condition has its force-update flag off
and a `getTotalDamage()` not above that of the active one, `addCondition` leaves
the active condition unchanged in every field and hands nothing to `doDamage`. -/
theorem damage_addCondition_rejected (c addCondition : ConditionDamage) (now : Int)
    (seed fuel : Nat) (hforce : addCondition.forceUpdate = false)
    (htotal : addCondition.getTotalDamage ≤ c.getTotalDamage) :
    c.addCondition now seed fuel addCondition = some (c, []) := by
  unfold ConditionDamage.addCondition
  by_cases ht : addCondition.conditionType ≠ c.conditionType
  · rw [if_pos ht]
  · have hu : c.updateCondition addCondition = false := by
      unfold ConditionDamage.updateCondition
      have hgt : ¬ (addCondition.getTotalDamage > c.getTotalDamage) := by omega
      simp only [hforce, Bool.false_eq_true, if_false, hgt, decide_False]
      split_ifs <;> rfl
    rw [if_neg ht, if_pos (by rw [hu]; rfl)]

/-- Claim C8 at an active schedule of total 10 and an incoming total of 5. -/
theorem damage_addCondition_rejected_witness :
    ConditionDamage.addCondition
        { ConditionDamage.new 0 1 false 0 with
          damageList := [{ timeLeft := 700, value := -10, interval := 2000 }] }
        0 0 20
        { ConditionDamage.new 0 1 false 0 with minDamage := 4, maxDamage := 6 }
      = some ({ ConditionDamage.new 0 1 false 0 with
          damageList := [{ timeLeft := 700, value := -10, interval := 2000 }] }, []) :=
  damage_addCondition_rejected _ _ 0 0 20 rfl (by decide)

/-- Claim C9, amended. For a speed condition with delta `d1` and an incoming one
of the same type with non-zero delta `d2` (the active one not being infinite
while the incoming one has positive ticks), `addCondition` stores
`speedDelta = d2` and issues no speed change when `d2 = d1` and otherwise exactly
one, of `d2 - d1` reduced to 32 bits, which is `d2 - d1` whenever that difference
is a value of `int32_t`. -/
theorem speed_addCondition_delta (c addCondition : ConditionSpeed) (now formulaMin formulaMax : Int)
    (seed : Nat)
    (htype : c.conditionType = addCondition.conditionType)
    (hinf : ¬ (c.ticks = -1 ∧ addCondition.ticks > 0))
    (hd2 : addCondition.speedDelta ≠ 0)
    (h1 : IsInt32 c.speedDelta) (h2 : IsInt32 addCondition.speedDelta) :
    (c.addCondition now formulaMin formulaMax seed addCondition).1.speedDelta
        = addCondition.speedDelta
      ∧ (c.addCondition now formulaMin formulaMax seed addCondition).2
        = (if addCondition.speedDelta = c.speedDelta then []
           else [wrapInt32 (addCondition.speedDelta - c.speedDelta)])
      ∧ (IsInt32 (addCondition.speedDelta - c.speedDelta) →
          (c.addCondition now formulaMin formulaMax seed addCondition).2
            = (if addCondition.speedDelta = c.speedDelta then []
               else [addCondition.speedDelta - c.speedDelta])) := by
  have hw : wrapInt32 (addCondition.speedDelta - c.speedDelta) = 0
      ↔ addCondition.speedDelta = c.speedDelta := by
    unfold IsInt32 at h1 h2
    unfold wrapInt32
    omega
  have hev : (c.addCondition now formulaMin formulaMax seed addCondition)
      = ({ c with
            toCondition := c.toCondition.setTicks now addCondition.ticks
            speedDelta := addCondition.speedDelta
            mina := addCondition.mina
            maxa := addCondition.maxa
            minb := addCondition.minb
            maxb := addCondition.maxb },
          if addCondition.speedDelta = c.speedDelta then []
          else [wrapInt32 (addCondition.speedDelta - c.speedDelta)]) := by
    unfold ConditionSpeed.addCondition
    simp only [htype, ne_eq, not_true_eq_false, if_false, hinf, hd2, hw]
    by_cases he : addCondition.speedDelta = c.speedDelta <;> simp [he]
  rw [hev]
  refine ⟨rfl, rfl, ?_⟩
  intro hfit
  rw [wrapInt32_of_isInt32 _ hfit]

/-- Claim C9 at the scenario of the specification: `+50` then `+30` gives `-20`. -/
theorem speed_addCondition_delta_witness :
    (ConditionSpeed.addCondition (ConditionSpeed.new 0 9 10000 false 0 50) 0 0 0 0
        (ConditionSpeed.new 0 9 10000 false 0 30)).1.speedDelta = 30
      ∧ (ConditionSpeed.addCondition (ConditionSpeed.new 0 9 10000 false 0 50) 0 0 0 0
        (ConditionSpeed.new 0 9 10000 false 0 30)).2 = [-20] :=
  have h := speed_addCondition_delta (ConditionSpeed.new 0 9 10000 false 0 50)
    (ConditionSpeed.new 0 9 10000 false 0 30) 0 0 0 0 rfl (by decide) (by decide) (by decide)
    (by decide)
  ⟨h.1, h.2.2 (by decide)⟩

/-- Claim C9, counterexample. With `d1 = -2147483648` and `d2 = 1` the single
change handed to the game is `-2147483647`, not `d2 - d1 = 2147483649`. -/
theorem speed_addCondition_delta_counterexample :
    (ConditionSpeed.addCondition (ConditionSpeed.new 0 9 1000 false 0 (-2147483648)) 0 0 0 0
        (ConditionSpeed.new 0 9 1000 false 0 1)).2 = [-2147483647]
      ∧ ([-2147483647] : List Int) ≠ [1 - (-2147483648)] := by
  decide

/-- A sample lies in the range it is drawn from. -/
theorem uniform_random_mem (seed : Nat) (a b : Int) :
    min a b ≤ uniform_random seed a b ∧ uniform_random seed a b ≤ max a b := by
  unfold uniform_random
  have hle : min a b ≤ max a b := le_trans (min_le_left a b) (le_max_left a b)
  have hpos : 0 < (max a b - min a b + 1).toNat := by omega
  have hlt := Nat.mod_lt seed hpos
  have hcast : ((max a b - min a b + 1).toNat : Int) = max a b - min a b + 1 :=
    Int.toNat_of_nonneg (by omega)
  constructor
  · have : (0 : Int) ≤ ((seed % (max a b - min a b + 1).toNat : Nat) : Int) := Int.ofNat_nonneg _
    simp only
    omega
  · have : ((seed % (max a b - min a b + 1).toNat : Nat) : Int) < max a b - min a b + 1 := by
      rw [← hcast]; exact_mod_cast hlt
    simp only
    omega

/-- A sample from small bounds is small. -/
theorem uniform_random_small (seed : Nat) (a b : Int) (ha : SmallDelta a) (hb : SmallDelta b) :
    SmallDelta (uniform_random seed a b) := by
  have h := uniform_random_mem seed a b
  unfold SmallDelta at *
  have h1 : min a b = a ∨ min a b = b := by
    rcases le_total a b with h | h <;> simp [h]
  have h2 : max a b = a ∨ max a b = b := by
    rcases le_total a b with h | h <;> simp [h]
  omega

/-- The two outcomes of `ConditionSpeed::addCondition`: nothing happens, or the
delta is replaced and the 32-bit difference, if not zero, is handed on. -/
theorem speed_addCondition_cases (c : ConditionSpeed) (now formulaMin formulaMax : Int)
    (seed : Nat) (addCondition : ConditionSpeed) :
    c.addCondition now formulaMin formulaMax seed addCondition = (c, [])
      ∨ ∃ d, (d = addCondition.speedDelta ∨ d = uniform_random seed formulaMin formulaMax)
          ∧ (c.addCondition now formulaMin formulaMax seed addCondition).1.speedDelta = d
          ∧ (c.addCondition now formulaMin formulaMax seed addCondition).2
              = (if wrapInt32 (d - c.speedDelta) ≠ 0 then [wrapInt32 (d - c.speedDelta)] else []) := by
  unfold ConditionSpeed.addCondition
  by_cases h1 : c.conditionType ≠ addCondition.conditionType
  · left; rw [if_pos h1]
  · by_cases h2 : c.ticks = -1 ∧ addCondition.ticks > 0
    · left; rw [if_neg h1, if_pos h2]
    · right
      rw [if_neg h1, if_neg h2]
      by_cases h3 : addCondition.speedDelta = 0
      · refine ⟨uniform_random seed formulaMin formulaMax, Or.inr rfl, ?_, ?_⟩
        · simp only [h3, if_true]; split_ifs <;> rfl
        · simp only [h3, if_true]; split_ifs <;> rfl
      · refine ⟨addCondition.speedDelta, Or.inl rfl, ?_, ?_⟩
        · simp only [h3, if_false]; split_ifs <;> rfl
        · simp only [h3, if_false]; split_ifs <;> rfl

/-- A merge changes the recorded delta by the sum of the emitted changes,
modulo `2^32`. -/
theorem speed_addCondition_sum_mod (c : ConditionSpeed) (m : SpeedMerge) :
    ((c.addCondition m.now m.formulaMin m.formulaMax m.seed m.addCondition).2.sum
        - ((c.addCondition m.now m.formulaMin m.formulaMax m.seed m.addCondition).1.speedDelta
            - c.speedDelta)) % 4294967296 = 0 := by
  rcases speed_addCondition_cases c m.now m.formulaMin m.formulaMax m.seed m.addCondition with
    h | ⟨d, -, hd, he⟩
  · rw [h]; simp
  · rw [hd, he]
    by_cases hz : wrapInt32 (d - c.speedDelta) = 0
    · simp only [hz, ne_eq, not_true_eq_false, if_false, List.sum_nil]
      unfold wrapInt32 at hz
      omega
    · simp only [hz, ne_eq, not_false_eq_true, if_true, List.sum_cons, List.sum_nil, add_zero]
      unfold wrapInt32
      omega

/-- For small deltas a merge changes the recorded delta by exactly the sum of the emitted
changes. -/
theorem speed_addCondition_sum_exact (c : ConditionSpeed) (m : SpeedMerge)
    (hc : SmallDelta c.speedDelta)
    (hm : SmallDelta m.addCondition.speedDelta ∧ SmallDelta m.formulaMin
      ∧ SmallDelta m.formulaMax) :
    (c.addCondition m.now m.formulaMin m.formulaMax m.seed m.addCondition).2.sum
        = (c.addCondition m.now m.formulaMin m.formulaMax m.seed m.addCondition).1.speedDelta
            - c.speedDelta
      ∧ SmallDelta
          (c.addCondition m.now m.formulaMin m.formulaMax m.seed m.addCondition).1.speedDelta := by
  have hr := uniform_random_small m.seed m.formulaMin m.formulaMax hm.2.1 hm.2.2
  rcases speed_addCondition_cases c m.now m.formulaMin m.formulaMax m.seed m.addCondition with
    h | ⟨d, hdd, hd, he⟩
  · rw [h]; simpa using hc
  · have hds : SmallDelta d := by
      rcases hdd with rfl | rfl
      · exact hm.1
      · exact hr
    rw [hd, he]
    refine ⟨?_, hds⟩
    unfold SmallDelta at hds hc
    by_cases hz : wrapInt32 (d - c.speedDelta) = 0
    · simp only [hz, ne_eq, not_true_eq_false, if_false, List.sum_nil]
      unfold wrapInt32 at hz
      omega
    · simp only [hz, ne_eq, not_false_eq_true, if_true, List.sum_cons, List.sum_nil, add_zero]
      unfold wrapInt32
      omega

/-- A sequence of merges changes the recorded delta by the sum of the emitted changes, modulo
`2^32`. -/
theorem speed_addConditions_sum_mod : ∀ (merges : List SpeedMerge) (c : ConditionSpeed),
    ((c.addConditions merges).2.sum - ((c.addConditions merges).1.speedDelta - c.speedDelta))
      % 4294967296 = 0 := by
  intro merges
  induction merges with
  | nil => intro c; simp [ConditionSpeed.addConditions]
  | cons m ms ih =>
    intro c
    have h1 := speed_addCondition_sum_mod c m
    have h2 := ih (c.addCondition m.now m.formulaMin m.formulaMax m.seed m.addCondition).1
    simp only [ConditionSpeed.addConditions, List.sum_append]
    omega

/-- For small deltas a sequence of merges changes the recorded delta by exactly the sum of the
emitted changes. -/
theorem speed_addConditions_sum_exact : ∀ (merges : List SpeedMerge) (c : ConditionSpeed),
    SmallDelta c.speedDelta →
    (∀ m ∈ merges, SmallDelta m.addCondition.speedDelta ∧ SmallDelta m.formulaMin
      ∧ SmallDelta m.formulaMax) →
    (c.addConditions merges).2.sum = (c.addConditions merges).1.speedDelta - c.speedDelta
      ∧ SmallDelta (c.addConditions merges).1.speedDelta := by
  intro merges
  induction merges with
  | nil => intro c hc _; simpa [ConditionSpeed.addConditions] using hc
  | cons m ms ih =>
    intro c hc hall
    have h1 := speed_addCondition_sum_exact c m hc (hall m (List.mem_cons_self _ _))
    have h2 := ih (c.addCondition m.now m.formulaMin m.formulaMax m.seed m.addCondition).1 h1.2
      (fun m' hm' => hall m' (List.mem_cons_of_mem _ hm'))
    simp only [ConditionSpeed.addConditions, List.sum_append]
    refine ⟨?_, h2.2⟩
    omega

/-- Claim C10, amended. Over `startCondition`, any list of `addCondition` merges
and `endCondition`, the deltas handed to the game sum to zero modulo `2^32`; they
sum to exactly zero when the delta of the condition, the deltas of the incoming
conditions and the formula bounds used for sampling are all small enough
(`SmallDelta`) for no difference or negation to leave the range of `int32_t`. -/
theorem speed_lifecycle_sum (c : ConditionSpeed) (now formulaMin formulaMax : Int) (seed : Nat)
    (merges : List SpeedMerge) :
    (c.lifecycle now formulaMin formulaMax seed merges).sum % 4294967296 = 0
      ∧ (SmallDelta c.speedDelta → SmallDelta formulaMin → SmallDelta formulaMax →
          (∀ m ∈ merges, SmallDelta m.addCondition.speedDelta ∧ SmallDelta m.formulaMin
            ∧ SmallDelta m.formulaMax) →
          (c.lifecycle now formulaMin formulaMax seed merges).sum = 0) := by
  have hstart : c.startCondition now formulaMin formulaMax seed
      = (true, (c.startCondition now formulaMin formulaMax seed).2.1,
          [(c.startCondition now formulaMin formulaMax seed).2.1.speedDelta]) := by
    unfold ConditionSpeed.startCondition Condition.startCondition
    rfl
  have hsmall : SmallDelta c.speedDelta → SmallDelta formulaMin → SmallDelta formulaMax →
      SmallDelta (c.startCondition now formulaMin formulaMax seed).2.1.speedDelta := by
    intro h1 h2 h3
    have hr := uniform_random_small seed formulaMin formulaMax h2 h3
    unfold ConditionSpeed.startCondition Condition.startCondition
    simp only
    split_ifs <;> assumption
  generalize (c.startCondition now formulaMin formulaMax seed).2.1 = c1 at hstart hsmall
  unfold ConditionSpeed.lifecycle
  rw [hstart]
  simp only [List.sum_append, List.sum_cons, List.sum_nil, add_zero, ConditionSpeed.endCondition]
  constructor
  · have h := speed_addConditions_sum_mod merges c1
    unfold wrapInt32
    omega
  · intro h1 h2 h3 hall
    have h := speed_addConditions_sum_exact merges c1 (hsmall h1 h2 h3) hall
    have hs := h.2
    unfold SmallDelta at hs
    unfold wrapInt32
    omega

/-- Claim C10 at a start with `+50`, one merge with `+30`, then the end. -/
theorem speed_lifecycle_sum_witness :
    (ConditionSpeed.lifecycle (ConditionSpeed.new 0 9 10000 false 0 50) 0 0 0 0
        [{ now := 10, formulaMin := 0, formulaMax := 0, seed := 0,
           addCondition := ConditionSpeed.new 0 9 10000 false 0 30 }]).sum % 4294967296 = 0
      ∧ (ConditionSpeed.lifecycle (ConditionSpeed.new 0 9 10000 false 0 50) 0 0 0 0
        [{ now := 10, formulaMin := 0, formulaMax := 0, seed := 0,
           addCondition := ConditionSpeed.new 0 9 10000 false 0 30 }]).sum = 0 :=
  have h := speed_lifecycle_sum (ConditionSpeed.new 0 9 10000 false 0 50) 0 0 0 0
    [{ now := 10, formulaMin := 0, formulaMax := 0, seed := 0,
       addCondition := ConditionSpeed.new 0 9 10000 false 0 30 }]
  ⟨h.1, h.2 (by decide) (by decide) (by decide) (by decide)⟩

/-- Claim C10, counterexample. A condition with delta `-2147483648` that is started
and ended hands `-2147483648` to the game twice: the sum is not zero. -/
theorem speed_lifecycle_sum_counterexample :
    ConditionSpeed.lifecycle (ConditionSpeed.new 0 10 1000 false 0 (-2147483648)) 0 0 0 0 []
        = [-2147483648, -2147483648]
      ∧ ([-2147483648, -2147483648] : List Int).sum ≠ 0 := by
  decide

/-! ## The codec -/

/-- Reading back the four bytes of a 32-bit write. -/
theorem readUInt32_bytes (v : Nat) (s : PropStream) :
    PropStream.readUInt32
        (v % 256 :: v / 256 % 256 :: v / 65536 % 256 :: v / 16777216 % 256 :: s)
      = some (v % 4294967296, s) := by
  simp only [PropStream.readUInt32, Option.some.injEq, Prod.mk.injEq, and_true]
  omega

/-- Reading back the four bytes of a 32-bit write as a signed value. -/
theorem readInt32_bytes (v : Nat) (s : PropStream) :
    PropStream.readInt32
        (v % 256 :: v / 256 % 256 :: v / 65536 % 256 :: v / 16777216 % 256 :: s)
      = some (wrapInt32 ((v % 4294967296 : Nat) : Int), s) := by
  simp only [PropStream.readInt32, readUInt32_bytes]

/-- Reading back the four bytes of a `float` write. -/
theorem readFloat_bytes (v : Nat) (s : PropStream) :
    PropStream.readFloat
        (v % 256 :: v / 256 % 256 :: v / 65536 % 256 :: v / 16777216 % 256 :: s)
      = some (v % 4294967296, s) := by
  simp only [PropStream.readFloat, readUInt32_bytes]

/-- Writing an `int32_t` as `uint32_t` and reading it back as `int32_t` is the identity. -/
theorem wrapInt32_toUInt32 (x : Int) (h : IsInt32 x) :
    wrapInt32 ((toUInt32 x % 4294967296 : Nat) : Int) = x := by
  unfold IsInt32 at h
  unfold wrapInt32 toUInt32
  omega

/-- Reading a `uint32_t` as `int32_t` and casting it back is the identity. -/
theorem toUInt32_wrapInt32 (v : Nat) (h : IsUInt32 v) :
    toUInt32 (wrapInt32 ((v % 4294967296 : Nat) : Int)) = v := by
  unfold IsUInt32 at h
  unfold wrapInt32 toUInt32
  omega

/-- More fuel does not change a result of the decoding loop. -/
theorem unserializeLoop_fuel_succ (K : Enums) (now : Int) :
    ∀ (fuel : Nat) (c : AnyCondition) (s : PropStream) (r : Bool × AnyCondition × PropStream),
      AnyCondition.unserializeLoop K now fuel c s = some r →
      AnyCondition.unserializeLoop K now (fuel + 1) c s = some r := by
  intro fuel
  induction fuel with
  | zero => intro c s r h; simp [AnyCondition.unserializeLoop] at h
  | succ n ih =>
    intro c s r h
    rw [AnyCondition.unserializeLoop] at h ⊢
    cases hs : s.readUInt8 with
    | none => rw [hs] at h; exact h
    | some p =>
      obtain ⟨attr, s1⟩ := p
      rw [hs] at h
      simp only at h ⊢
      by_cases he : attr = K.attr .CONDITIONATTR_END
      · rw [if_pos he] at h ⊢; exact h
      · rw [if_neg he] at h ⊢
        cases hp : c.unserializeProp K now attr s1 with
        | none => rw [hp] at h; cases h
        | some p =>
          obtain ⟨r1, c1, s2⟩ := p
          rw [hp] at h
          cases r1 with
          | false => exact h
          | true => exact ih _ _ _ h

/-- More fuel does not change a result of the decoding loop. -/
theorem unserializeLoop_fuel_mono (K : Enums) (now : Int) (fuel fuel' : Nat) (hf : fuel ≤ fuel')
    (c : AnyCondition) (s : PropStream) (r : Bool × AnyCondition × PropStream)
    (h : AnyCondition.unserializeLoop K now fuel c s = some r) :
    AnyCondition.unserializeLoop K now fuel' c s = some r := by
  induction hf with
  | refl => exact h
  | step _ ih => exact unserializeLoop_fuel_succ K now _ c s r ih

/-- One iteration of the decoding loop on a tag that the class decodes successfully. -/
theorem unserializeLoop_step (K : Enums) (now : Int) (fuel : Nat) (c : AnyCondition) (tag : Nat)
    (s : PropStream) (htag : tag ≠ K.attr .CONDITIONATTR_END) (c1 : AnyCondition)
    (s1 : PropStream) (h : c.unserializeProp K now tag s = some (true, c1, s1)) :
    AnyCondition.unserializeLoop K now (fuel + 1) c (tag :: s)
      = AnyCondition.unserializeLoop K now fuel c1 s1 := by
  rw [AnyCondition.unserializeLoop]
  simp only [PropStream.readUInt8, if_neg htag, h]

/-- The decoding loop stops with success at the END tag. -/
theorem unserializeLoop_end (K : Enums) (now : Int) (fuel : Nat) (c : AnyCondition)
    (s : PropStream) :
    AnyCondition.unserializeLoop K now (fuel + 1) c (K.attr .CONDITIONATTR_END :: s)
      = some (true, c, s) := by
  rw [AnyCondition.unserializeLoop]
  simp only [PropStream.readUInt8, if_true]

/-- A tag of the universal header is handled by the base decoder in every class. -/
theorem unserializeProp_base (K : Enums) (hK : K.WellFormed) (now : Int) (c : AnyCondition)
    (t : ConditionAttr_t)
    (ht : t = .CONDITIONATTR_TYPE ∨ t = .CONDITIONATTR_ID ∨ t = .CONDITIONATTR_TICKS
      ∨ t = .CONDITIONATTR_ISBUFF ∨ t = .CONDITIONATTR_SUBID)
    (s : PropStream) :
    c.unserializeProp K now (K.attr t) s
      = some ((c.base.unserializeProp K (K.attr t) s).1,
         c.mapBase (fun _ => (c.base.unserializeProp K (K.attr t) s).2.1),
         (c.base.unserializeProp K (K.attr t) s).2.2) := by
  have hi : ∀ a b : ConditionAttr_t, K.attr a = K.attr b ↔ a = b :=
    fun a b => hK.attr_inj.eq_iff
  rcases ht with rfl | rfl | rfl | rfl | rfl <;> cases c <;>
    simp only [AnyCondition.unserializeProp, AnyCondition.base, AnyCondition.mapBase,
      ConditionAttributes.unserializeProp, ConditionRegeneration.unserializeProp,
      ConditionSoul.unserializeProp, ConditionDamage.unserializeProp,
      ConditionSpeed.unserializeProp, ConditionOutfit.unserializeProp,
      ConditionLight.unserializeProp, hi, reduceCtorEq, if_false]

/-- No other tag has the value of the END tag. -/
theorem attr_ne_end (K : Enums) (hK : K.WellFormed) (t : ConditionAttr_t)
    (ht : t ≠ .CONDITIONATTR_END) : K.attr t ≠ K.attr .CONDITIONATTR_END :=
  fun h => ht (hK.attr_inj h)

/-- One iteration of the decoding loop on a `CONDITIONATTR_TYPE` record. -/
theorem loop_TYPE (K : Enums) (hK : K.WellFormed) (now : Int) (c : AnyCondition) (v : Nat)
    (hv : IsUInt32 v) (s : PropStream) (fuel : Nat) :
    AnyCondition.unserializeLoop K now (fuel + 1) c
        (K.attr .CONDITIONATTR_TYPE :: v % 256 :: v / 256 % 256 :: v / 65536 % 256
          :: v / 16777216 % 256 :: s)
      = AnyCondition.unserializeLoop K now fuel
          (c.mapBase (fun b => { b with conditionType := v })) s := by
  have hi : ∀ a b : ConditionAttr_t, K.attr a = K.attr b ↔ a = b :=
    fun a b => hK.attr_inj.eq_iff
  refine unserializeLoop_step K now fuel c _ _ (attr_ne_end K hK _ (by decide)) _ _ ?_
  rw [unserializeProp_base K hK now c _ (Or.inl rfl)]
  simp only [Condition.unserializeProp, if_true, readInt32_bytes, toUInt32_wrapInt32 v hv]
  cases c <;> rfl

/-- One iteration of the decoding loop on a `CONDITIONATTR_ID` record. -/
theorem loop_ID (K : Enums) (hK : K.WellFormed) (now : Int) (c : AnyCondition) (x : Int)
    (hx : IsInt32 x) (s : PropStream) (fuel : Nat) :
    AnyCondition.unserializeLoop K now (fuel + 1) c
        (K.attr .CONDITIONATTR_ID :: toUInt32 x % 256 :: toUInt32 x / 256 % 256
          :: toUInt32 x / 65536 % 256 :: toUInt32 x / 16777216 % 256 :: s)
      = AnyCondition.unserializeLoop K now fuel (c.mapBase (fun b => { b with id := x })) s := by
  have hi : ∀ a b : ConditionAttr_t, K.attr a = K.attr b ↔ a = b :=
    fun a b => hK.attr_inj.eq_iff
  refine unserializeLoop_step K now fuel c _ _ (attr_ne_end K hK _ (by decide)) _ _ ?_
  rw [unserializeProp_base K hK now c _ (Or.inr (Or.inl rfl))]
  simp only [Condition.unserializeProp, hi, reduceCtorEq, if_true, if_false, readInt32_bytes,
    wrapInt32_toUInt32 x hx]
  cases c <;> rfl

/-- One iteration of the decoding loop on a `CONDITIONATTR_TICKS` record. -/
theorem loop_TICKS (K : Enums) (hK : K.WellFormed) (now : Int) (c : AnyCondition) (x : Int)
    (hx : IsInt32 x) (s : PropStream) (fuel : Nat) :
    AnyCondition.unserializeLoop K now (fuel + 1) c
        (K.attr .CONDITIONATTR_TICKS :: toUInt32 x % 256 :: toUInt32 x / 256 % 256
          :: toUInt32 x / 65536 % 256 :: toUInt32 x / 16777216 % 256 :: s)
      = AnyCondition.unserializeLoop K now fuel
          (c.mapBase (fun b => { b with ticks := x })) s := by
  have hi : ∀ a b : ConditionAttr_t, K.attr a = K.attr b ↔ a = b :=
    fun a b => hK.attr_inj.eq_iff
  refine unserializeLoop_step K now fuel c _ _ (attr_ne_end K hK _ (by decide)) _ _ ?_
  rw [unserializeProp_base K hK now c _ (Or.inr (Or.inr (Or.inl rfl)))]
  simp only [Condition.unserializeProp, hi, reduceCtorEq, if_true, if_false, readInt32_bytes,
    wrapInt32_toUInt32 x hx]
  cases c <;> rfl

/-- One iteration of the decoding loop on a `CONDITIONATTR_ISBUFF` record. -/
theorem loop_ISBUFF (K : Enums) (hK : K.WellFormed) (now : Int) (c : AnyCondition) (x : Bool)
    (s : PropStream) (fuel : Nat) :
    AnyCondition.unserializeLoop K now (fuel + 1) c
        (K.attr .CONDITIONATTR_ISBUFF :: (if x then 1 else 0) :: s)
      = AnyCondition.unserializeLoop K now fuel
          (c.mapBase (fun b => { b with isBuff := x })) s := by
  have hi : ∀ a b : ConditionAttr_t, K.attr a = K.attr b ↔ a = b :=
    fun a b => hK.attr_inj.eq_iff
  refine unserializeLoop_step K now fuel c _ _ (attr_ne_end K hK _ (by decide)) _ _ ?_
  rw [unserializeProp_base K hK now c _ (Or.inr (Or.inr (Or.inr (Or.inl rfl))))]
  cases x <;> cases c <;>
    simp [Condition.unserializeProp, hi, PropStream.readUInt8, AnyCondition.mapBase,
      AnyCondition.base]

/-- One iteration of the decoding loop on a `CONDITIONATTR_SUBID` record. -/
theorem loop_SUBID (K : Enums) (hK : K.WellFormed) (now : Int) (c : AnyCondition) (v : Nat)
    (hv : IsUInt32 v) (s : PropStream) (fuel : Nat) :
    AnyCondition.unserializeLoop K now (fuel + 1) c
        (K.attr .CONDITIONATTR_SUBID :: v % 256 :: v / 256 % 256 :: v / 65536 % 256
          :: v / 16777216 % 256 :: s)
      = AnyCondition.unserializeLoop K now fuel (c.mapBase (fun b => { b with subId := v })) s := by
  have hi : ∀ a b : ConditionAttr_t, K.attr a = K.attr b ↔ a = b :=
    fun a b => hK.attr_inj.eq_iff
  refine unserializeLoop_step K now fuel c _ _ (attr_ne_end K hK _ (by decide)) _ _ ?_
  rw [unserializeProp_base K hK now c _ (Or.inr (Or.inr (Or.inr (Or.inr rfl))))]
  simp only [Condition.unserializeProp, hi, reduceCtorEq, if_true, if_false, readUInt32_bytes,
    Nat.mod_eq_of_lt hv]
  cases c <;> rfl

/-- Two replacements of the base-class part compose. -/
theorem mapBase_mapBase (f g : Condition → Condition) (c : AnyCondition) :
    (c.mapBase f).mapBase g = c.mapBase (fun b => g (f b)) := by
  cases c <;> rfl

/-- The 22 bytes that `Condition::serialize` appends. -/
theorem serialize_header_eq (K : Enums) (hK : K.WellFormed) (b : Condition) (w : PropWriteStream) :
    b.serialize K w = (true, w ++
        (K.attr .CONDITIONATTR_TYPE :: b.conditionType % 256 :: b.conditionType / 256 % 256
          :: b.conditionType / 65536 % 256 :: b.conditionType / 16777216 % 256
        :: K.attr .CONDITIONATTR_ID :: toUInt32 b.id % 256 :: toUInt32 b.id / 256 % 256
          :: toUInt32 b.id / 65536 % 256 :: toUInt32 b.id / 16777216 % 256
        :: K.attr .CONDITIONATTR_TICKS :: toUInt32 b.ticks % 256 :: toUInt32 b.ticks / 256 % 256
          :: toUInt32 b.ticks / 65536 % 256 :: toUInt32 b.ticks / 16777216 % 256
        :: K.attr .CONDITIONATTR_ISBUFF :: (if b.isBuff then 1 else 0)
        :: K.attr .CONDITIONATTR_SUBID :: b.subId % 256 :: b.subId / 256 % 256
          :: b.subId / 65536 % 256 :: [b.subId / 16777216 % 256])) := by
  have hbyte := hK.attr_byte
  simp only [Condition.serialize, PropWriteStream.writeUInt8, PropWriteStream.writeUInt32,
    Nat.mod_eq_of_lt (hbyte _), List.nil_append, List.append_assoc, List.cons_append,
    List.singleton_append]
  cases b.isBuff <;> rfl

/-- The header written by `Condition::serialize` is read back by the decoding
loop of any class, field by field. -/
theorem unserializeLoop_header (K : Enums) (hK : K.WellFormed) (now : Int) (c : AnyCondition)
    (b : Condition) (hb : b.WellTyped) (rest : PropStream) (fuel : Nat) :
    AnyCondition.unserializeLoop K now (fuel + 5) c ((b.serialize K []).2 ++ rest)
      = AnyCondition.unserializeLoop K now fuel
          (c.mapBase (fun b0 => { b0 with
            conditionType := b.conditionType, id := b.id, ticks := b.ticks,
            isBuff := b.isBuff, subId := b.subId })) rest := by
  obtain ⟨h1, h2, -, h3, h4⟩ := hb
  rw [serialize_header_eq K hK]
  simp only [List.nil_append, List.cons_append]
  rw [loop_TYPE K hK now _ _ h3, loop_ID K hK now _ _ h4, loop_TICKS K hK now _ _ h2,
    loop_ISBUFF K hK now, loop_SUBID K hK now _ _ h1]
  simp only [mapBase_mapBase]

/-- Tags are equal exactly when their enumerators are. -/
theorem attr_eq_iff (K : Enums) (hK : K.WellFormed) (a b : ConditionAttr_t) :
    K.attr a = K.attr b ↔ a = b := hK.attr_inj.eq_iff

/-- One iteration of the decoding loop on a `CONDITIONATTR_HEALTHTICKS` record. -/
theorem loop_HEALTHTICKS (K : Enums) (hK : K.WellFormed) (now : Int) (a : ConditionRegeneration)
    (v : Nat) (hv : IsUInt32 v) (s : PropStream) (fuel : Nat) :
    AnyCondition.unserializeLoop K now (fuel + 1) (.regeneration a)
        (K.attr .CONDITIONATTR_HEALTHTICKS :: v % 256 :: v / 256 % 256 :: v / 65536 % 256
          :: v / 16777216 % 256 :: s)
      = AnyCondition.unserializeLoop K now fuel (.regeneration { a with healthTicks := v }) s := by
  have hi := attr_eq_iff K hK
  refine unserializeLoop_step K now fuel _ _ _ (attr_ne_end K hK _ (by decide)) _ _ ?_
  simp only [AnyCondition.unserializeProp, ConditionRegeneration.unserializeProp, hi, reduceCtorEq, if_true,
    if_false, readUInt32_bytes, Nat.mod_eq_of_lt hv]

/-- One iteration of the decoding loop on a `CONDITIONATTR_HEALTHGAIN` record. -/
theorem loop_HEALTHGAIN (K : Enums) (hK : K.WellFormed) (now : Int) (a : ConditionRegeneration)
    (v : Nat) (hv : IsUInt32 v) (s : PropStream) (fuel : Nat) :
    AnyCondition.unserializeLoop K now (fuel + 1) (.regeneration a)
        (K.attr .CONDITIONATTR_HEALTHGAIN :: v % 256 :: v / 256 % 256 :: v / 65536 % 256
          :: v / 16777216 % 256 :: s)
      = AnyCondition.unserializeLoop K now fuel (.regeneration { a with healthGain := v }) s := by
  have hi := attr_eq_iff K hK
  refine unserializeLoop_step K now fuel _ _ _ (attr_ne_end K hK _ (by decide)) _ _ ?_
  simp only [AnyCondition.unserializeProp, ConditionRegeneration.unserializeProp, hi, reduceCtorEq, if_true,
    if_false, readUInt32_bytes, Nat.mod_eq_of_lt hv]

/-- One iteration of the decoding loop on a `CONDITIONATTR_MANATICKS` record. -/
theorem loop_MANATICKS (K : Enums) (hK : K.WellFormed) (now : Int) (a : ConditionRegeneration)
    (v : Nat) (hv : IsUInt32 v) (s : PropStream) (fuel : Nat) :
    AnyCondition.unserializeLoop K now (fuel + 1) (.regeneration a)
        (K.attr .CONDITIONATTR_MANATICKS :: v % 256 :: v / 256 % 256 :: v / 65536 % 256
          :: v / 16777216 % 256 :: s)
      = AnyCondition.unserializeLoop K now fuel (.regeneration { a with manaTicks := v }) s := by
  have hi := attr_eq_iff K hK
  refine unserializeLoop_step K now fuel _ _ _ (attr_ne_end K hK _ (by decide)) _ _ ?_
  simp only [AnyCondition.unserializeProp, ConditionRegeneration.unserializeProp, hi, reduceCtorEq, if_true,
    if_false, readUInt32_bytes, Nat.mod_eq_of_lt hv]

/-- One iteration of the decoding loop on a `CONDITIONATTR_MANAGAIN` record. -/
theorem loop_MANAGAIN (K : Enums) (hK : K.WellFormed) (now : Int) (a : ConditionRegeneration)
    (v : Nat) (hv : IsUInt32 v) (s : PropStream) (fuel : Nat) :
    AnyCondition.unserializeLoop K now (fuel + 1) (.regeneration a)
        (K.attr .CONDITIONATTR_MANAGAIN :: v % 256 :: v / 256 % 256 :: v / 65536 % 256
          :: v / 16777216 % 256 :: s)
      = AnyCondition.unserializeLoop K now fuel (.regeneration { a with manaGain := v }) s := by
  have hi := attr_eq_iff K hK
  refine unserializeLoop_step K now fuel _ _ _ (attr_ne_end K hK _ (by decide)) _ _ ?_
  simp only [AnyCondition.unserializeProp, ConditionRegeneration.unserializeProp, hi, reduceCtorEq, if_true,
    if_false, readUInt32_bytes, Nat.mod_eq_of_lt hv]

/-- One iteration of the decoding loop on a `CONDITIONATTR_SOULGAIN` record. -/
theorem loop_SOULGAIN (K : Enums) (hK : K.WellFormed) (now : Int) (a : ConditionSoul)
    (v : Nat) (hv : IsUInt32 v) (s : PropStream) (fuel : Nat) :
    AnyCondition.unserializeLoop K now (fuel + 1) (.soul a)
        (K.attr .CONDITIONATTR_SOULGAIN :: v % 256 :: v / 256 % 256 :: v / 65536 % 256
          :: v / 16777216 % 256 :: s)
      = AnyCondition.unserializeLoop K now fuel (.soul { a with soulGain := v }) s := by
  have hi := attr_eq_iff K hK
  refine unserializeLoop_step K now fuel _ _ _ (attr_ne_end K hK _ (by decide)) _ _ ?_
  simp only [AnyCondition.unserializeProp, ConditionSoul.unserializeProp, hi, reduceCtorEq, if_true,
    if_false, readUInt32_bytes, Nat.mod_eq_of_lt hv]

/-- One iteration of the decoding loop on a `CONDITIONATTR_SOULTICKS` record. -/
theorem loop_SOULTICKS (K : Enums) (hK : K.WellFormed) (now : Int) (a : ConditionSoul)
    (v : Nat) (hv : IsUInt32 v) (s : PropStream) (fuel : Nat) :
    AnyCondition.unserializeLoop K now (fuel + 1) (.soul a)
        (K.attr .CONDITIONATTR_SOULTICKS :: v % 256 :: v / 256 % 256 :: v / 65536 % 256
          :: v / 16777216 % 256 :: s)
      = AnyCondition.unserializeLoop K now fuel (.soul { a with soulTicks := v }) s := by
  have hi := attr_eq_iff K hK
  refine unserializeLoop_step K now fuel _ _ _ (attr_ne_end K hK _ (by decide)) _ _ ?_
  simp only [AnyCondition.unserializeProp, ConditionSoul.unserializeProp, hi, reduceCtorEq, if_true,
    if_false, readUInt32_bytes, Nat.mod_eq_of_lt hv]

/-- One iteration of the decoding loop on a `CONDITIONATTR_PERIODDAMAGE` record. -/
theorem loop_PERIODDAMAGE (K : Enums) (hK : K.WellFormed) (now : Int) (a : ConditionDamage)
    (x : Int) (hx : IsInt32 x) (s : PropStream) (fuel : Nat) :
    AnyCondition.unserializeLoop K now (fuel + 1) (.damage a)
        (K.attr .CONDITIONATTR_PERIODDAMAGE :: toUInt32 x % 256 :: toUInt32 x / 256 % 256 :: toUInt32 x / 65536 % 256
          :: toUInt32 x / 16777216 % 256 :: s)
      = AnyCondition.unserializeLoop K now fuel (.damage { a with periodDamage := x }) s := by
  have hi := attr_eq_iff K hK
  refine unserializeLoop_step K now fuel _ _ _ (attr_ne_end K hK _ (by decide)) _ _ ?_
  simp only [AnyCondition.unserializeProp, ConditionDamage.unserializeProp, hi, reduceCtorEq, if_true,
    if_false, readInt32_bytes, wrapInt32_toUInt32 x hx]

/-- One iteration of the decoding loop on a `CONDITIONATTR_SPEEDDELTA` record. -/
theorem loop_SPEEDDELTA (K : Enums) (hK : K.WellFormed) (now : Int) (a : ConditionSpeed)
    (x : Int) (hx : IsInt32 x) (s : PropStream) (fuel : Nat) :
    AnyCondition.unserializeLoop K now (fuel + 1) (.speed a)
        (K.attr .CONDITIONATTR_SPEEDDELTA :: toUInt32 x % 256 :: toUInt32 x / 256 % 256 :: toUInt32 x / 65536 % 256
          :: toUInt32 x / 16777216 % 256 :: s)
      = AnyCondition.unserializeLoop K now fuel (.speed { a with speedDelta := x }) s := by
  have hi := attr_eq_iff K hK
  refine unserializeLoop_step K now fuel _ _ _ (attr_ne_end K hK _ (by decide)) _ _ ?_
  simp only [AnyCondition.unserializeProp, ConditionSpeed.unserializeProp, hi, reduceCtorEq, if_true,
    if_false, readInt32_bytes, wrapInt32_toUInt32 x hx]

/-- One iteration of the decoding loop on a `CONDITIONATTR_FORMULA_MINA` record. -/
theorem loop_FORMULA_MINA (K : Enums) (hK : K.WellFormed) (now : Int) (a : ConditionSpeed)
    (v : Nat) (hv : IsUInt32 v) (s : PropStream) (fuel : Nat) :
    AnyCondition.unserializeLoop K now (fuel + 1) (.speed a)
        (K.attr .CONDITIONATTR_FORMULA_MINA :: v % 256 :: v / 256 % 256 :: v / 65536 % 256
          :: v / 16777216 % 256 :: s)
      = AnyCondition.unserializeLoop K now fuel (.speed { a with mina := v }) s := by
  have hi := attr_eq_iff K hK
  refine unserializeLoop_step K now fuel _ _ _ (attr_ne_end K hK _ (by decide)) _ _ ?_
  simp only [AnyCondition.unserializeProp, ConditionSpeed.unserializeProp, hi, reduceCtorEq, if_true,
    if_false, readFloat_bytes, Nat.mod_eq_of_lt hv]

/-- One iteration of the decoding loop on a `CONDITIONATTR_FORMULA_MINB` record. -/
theorem loop_FORMULA_MINB (K : Enums) (hK : K.WellFormed) (now : Int) (a : ConditionSpeed)
    (v : Nat) (hv : IsUInt32 v) (s : PropStream) (fuel : Nat) :
    AnyCondition.unserializeLoop K now (fuel + 1) (.speed a)
        (K.attr .CONDITIONATTR_FORMULA_MINB :: v % 256 :: v / 256 % 256 :: v / 65536 % 256
          :: v / 16777216 % 256 :: s)
      = AnyCondition.unserializeLoop K now fuel (.speed { a with minb := v }) s := by
  have hi := attr_eq_iff K hK
  refine unserializeLoop_step K now fuel _ _ _ (attr_ne_end K hK _ (by decide)) _ _ ?_
  simp only [AnyCondition.unserializeProp, ConditionSpeed.unserializeProp, hi, reduceCtorEq, if_true,
    if_false, readFloat_bytes, Nat.mod_eq_of_lt hv]

/-- One iteration of the decoding loop on a `CONDITIONATTR_FORMULA_MAXA` record. -/
theorem loop_FORMULA_MAXA (K : Enums) (hK : K.WellFormed) (now : Int) (a : ConditionSpeed)
    (v : Nat) (hv : IsUInt32 v) (s : PropStream) (fuel : Nat) :
    AnyCondition.unserializeLoop K now (fuel + 1) (.speed a)
        (K.attr .CONDITIONATTR_FORMULA_MAXA :: v % 256 :: v / 256 % 256 :: v / 65536 % 256
          :: v / 16777216 % 256 :: s)
      = AnyCondition.unserializeLoop K now fuel (.speed { a with maxa := v }) s := by
  have hi := attr_eq_iff K hK
  refine unserializeLoop_step K now fuel _ _ _ (attr_ne_end K hK _ (by decide)) _ _ ?_
  simp only [AnyCondition.unserializeProp, ConditionSpeed.unserializeProp, hi, reduceCtorEq, if_true,
    if_false, readFloat_bytes, Nat.mod_eq_of_lt hv]

/-- One iteration of the decoding loop on a `CONDITIONATTR_FORMULA_MAXB` record. -/
theorem loop_FORMULA_MAXB (K : Enums) (hK : K.WellFormed) (now : Int) (a : ConditionSpeed)
    (v : Nat) (hv : IsUInt32 v) (s : PropStream) (fuel : Nat) :
    AnyCondition.unserializeLoop K now (fuel + 1) (.speed a)
        (K.attr .CONDITIONATTR_FORMULA_MAXB :: v % 256 :: v / 256 % 256 :: v / 65536 % 256
          :: v / 16777216 % 256 :: s)
      = AnyCondition.unserializeLoop K now fuel (.speed { a with maxb := v }) s := by
  have hi := attr_eq_iff K hK
  refine unserializeLoop_step K now fuel _ _ _ (attr_ne_end K hK _ (by decide)) _ _ ?_
  simp only [AnyCondition.unserializeProp, ConditionSpeed.unserializeProp, hi, reduceCtorEq, if_true,
    if_false, readFloat_bytes, Nat.mod_eq_of_lt hv]

/-- One iteration of the decoding loop on a `CONDITIONATTR_LIGHTTICKS` record. -/
theorem loop_LIGHTTICKS (K : Enums) (hK : K.WellFormed) (now : Int) (a : ConditionLight)
    (v : Nat) (hv : IsUInt32 v) (s : PropStream) (fuel : Nat) :
    AnyCondition.unserializeLoop K now (fuel + 1) (.light a)
        (K.attr .CONDITIONATTR_LIGHTTICKS :: v % 256 :: v / 256 % 256 :: v / 65536 % 256
          :: v / 16777216 % 256 :: s)
      = AnyCondition.unserializeLoop K now fuel (.light { a with internalLightTicks := v }) s := by
  have hi := attr_eq_iff K hK
  refine unserializeLoop_step K now fuel _ _ _ (attr_ne_end K hK _ (by decide)) _ _ ?_
  simp only [AnyCondition.unserializeProp, ConditionLight.unserializeProp, hi, reduceCtorEq, if_true,
    if_false, readUInt32_bytes, Nat.mod_eq_of_lt hv]

/-- One iteration of the decoding loop on a `CONDITIONATTR_LIGHTINTERVAL` record. -/
theorem loop_LIGHTINTERVAL (K : Enums) (hK : K.WellFormed) (now : Int) (a : ConditionLight)
    (v : Nat) (hv : IsUInt32 v) (s : PropStream) (fuel : Nat) :
    AnyCondition.unserializeLoop K now (fuel + 1) (.light a)
        (K.attr .CONDITIONATTR_LIGHTINTERVAL :: v % 256 :: v / 256 % 256 :: v / 65536 % 256
          :: v / 16777216 % 256 :: s)
      = AnyCondition.unserializeLoop K now fuel (.light { a with lightChangeInterval := v }) s := by
  have hi := attr_eq_iff K hK
  refine unserializeLoop_step K now fuel _ _ _ (attr_ne_end K hK _ (by decide)) _ _ ?_
  simp only [AnyCondition.unserializeProp, ConditionLight.unserializeProp, hi, reduceCtorEq, if_true,
    if_false, readUInt32_bytes, Nat.mod_eq_of_lt hv]

/-- One iteration of the decoding loop on a `CONDITIONATTR_LIGHTCOLOR` record. -/
theorem loop_LIGHTCOLOR (K : Enums) (hK : K.WellFormed) (now : Int) (a : ConditionLight)
    (v : Nat) (hv : v < 256) (s : PropStream) (fuel : Nat) :
    AnyCondition.unserializeLoop K now (fuel + 1) (.light a)
        (K.attr .CONDITIONATTR_LIGHTCOLOR :: v % 256 :: v / 256 % 256 :: v / 65536 % 256
          :: v / 16777216 % 256 :: s)
      = AnyCondition.unserializeLoop K now fuel
          (.light { a with lightInfo := { a.lightInfo with color := v } }) s := by
  have hi := attr_eq_iff K hK
  have h1 : v % 4294967296 % 256 = v := by omega
  refine unserializeLoop_step K now fuel _ _ _ (attr_ne_end K hK _ (by decide)) _ _ ?_
  simp only [AnyCondition.unserializeProp, ConditionLight.unserializeProp, hi, reduceCtorEq,
    if_true, if_false, readUInt32_bytes, h1]

/-- One iteration of the decoding loop on a `CONDITIONATTR_LIGHTLEVEL` record. -/
theorem loop_LIGHTLEVEL (K : Enums) (hK : K.WellFormed) (now : Int) (a : ConditionLight)
    (v : Nat) (hv : v < 256) (s : PropStream) (fuel : Nat) :
    AnyCondition.unserializeLoop K now (fuel + 1) (.light a)
        (K.attr .CONDITIONATTR_LIGHTLEVEL :: v % 256 :: v / 256 % 256 :: v / 65536 % 256
          :: v / 16777216 % 256 :: s)
      = AnyCondition.unserializeLoop K now fuel
          (.light { a with lightInfo := { a.lightInfo with level := v } }) s := by
  have hi := attr_eq_iff K hK
  have h1 : v % 4294967296 % 256 = v := by omega
  refine unserializeLoop_step K now fuel _ _ _ (attr_ne_end K hK _ (by decide)) _ _ ?_
  simp only [AnyCondition.unserializeProp, ConditionLight.unserializeProp, hi, reduceCtorEq,
    if_true, if_false, readUInt32_bytes, h1]

/-- One iteration of the decoding loop on a `CONDITIONATTR_DELAYED` record. -/
theorem loop_DELAYED (K : Enums) (hK : K.WellFormed) (now : Int) (a : ConditionDamage)
    (x : Bool) (s : PropStream) (fuel : Nat) :
    AnyCondition.unserializeLoop K now (fuel + 1) (.damage a)
        (K.attr .CONDITIONATTR_DELAYED :: (if x then 1 else 0) :: s)
      = AnyCondition.unserializeLoop K now fuel (.damage { a with delayed := x }) s := by
  have hi := attr_eq_iff K hK
  refine unserializeLoop_step K now fuel _ _ _ (attr_ne_end K hK _ (by decide)) _ _ ?_
  cases x <;>
    simp [AnyCondition.unserializeProp, ConditionDamage.unserializeProp, hi,
      PropStream.readUInt8]

/-- Reading back a raw record. -/
theorem readBytes_append (bs : List Nat) (s : PropStream) :
    PropStream.readBytes (bs ++ s) bs.length = some (bs, s) := by
  simp [PropStream.readBytes]

/-- One iteration of the decoding loop on a `CONDITIONATTR_OUTFIT` record. -/
theorem loop_OUTFIT (K : Enums) (hK : K.WellFormed) (now : Int) (a : ConditionOutfit)
    (bs : List Nat) (hbs : bs.length = K.sizeofOutfit) (s : PropStream) (fuel : Nat) :
    AnyCondition.unserializeLoop K now (fuel + 1) (.outfit a)
        (K.attr .CONDITIONATTR_OUTFIT :: (bs ++ s))
      = AnyCondition.unserializeLoop K now fuel (.outfit { a with outfit := bs }) s := by
  have hi := attr_eq_iff K hK
  refine unserializeLoop_step K now fuel _ _ _ (attr_ne_end K hK _ (by decide)) _ _ ?_
  simp only [AnyCondition.unserializeProp, ConditionOutfit.unserializeProp, hi, reduceCtorEq,
    if_true, if_false, ← hbs, readBytes_append]

/-- Reading back the twelve bytes of a schedule entry. -/
theorem readIntervalInfo_bytes (info : IntervalInfo) (hinfo : info.WellTyped) (s : PropStream) :
    PropStream.readIntervalInfo
        (toUInt32 info.interval % 256 :: toUInt32 info.interval / 256 % 256
          :: toUInt32 info.interval / 65536 % 256 :: toUInt32 info.interval / 16777216 % 256
        :: toUInt32 info.timeLeft % 256 :: toUInt32 info.timeLeft / 256 % 256
          :: toUInt32 info.timeLeft / 65536 % 256 :: toUInt32 info.timeLeft / 16777216 % 256
        :: toUInt32 info.value % 256 :: toUInt32 info.value / 256 % 256
          :: toUInt32 info.value / 65536 % 256 :: toUInt32 info.value / 16777216 % 256 :: s)
      = some (info, s) := by
  obtain ⟨h1, h2, h3⟩ := hinfo
  have hlen : ¬ (s.length + 12 < 12) := by omega
  simp only [PropStream.readIntervalInfo, List.length_cons, hlen, if_false, readInt32_bytes,
    wrapInt32_toUInt32 _ h1, wrapInt32_toUInt32 _ h2, wrapInt32_toUInt32 _ h3]

/-- One iteration of the decoding loop on a `CONDITIONATTR_INTERVALDATA` record. -/
theorem loop_INTERVALDATA (K : Enums) (hK : K.WellFormed) (now : Int) (a : ConditionDamage)
    (info : IntervalInfo) (hinfo : info.WellTyped) (s : PropStream) (fuel : Nat) :
    AnyCondition.unserializeLoop K now (fuel + 1) (.damage a)
        (K.attr .CONDITIONATTR_INTERVALDATA
        :: toUInt32 info.interval % 256 :: toUInt32 info.interval / 256 % 256
          :: toUInt32 info.interval / 65536 % 256 :: toUInt32 info.interval / 16777216 % 256
        :: toUInt32 info.timeLeft % 256 :: toUInt32 info.timeLeft / 256 % 256
          :: toUInt32 info.timeLeft / 65536 % 256 :: toUInt32 info.timeLeft / 16777216 % 256
        :: toUInt32 info.value % 256 :: toUInt32 info.value / 256 % 256
          :: toUInt32 info.value / 65536 % 256 :: toUInt32 info.value / 16777216 % 256 :: s)
      = AnyCondition.unserializeLoop K now fuel
          (.damage (if a.ticks ≠ -1 then
              { a with
                damageList := a.damageList ++ [info]
                toCondition := a.toCondition.setTicks now (wrapInt32 (a.ticks + info.interval)) }
            else { a with damageList := a.damageList ++ [info] })) s := by
  have hi := attr_eq_iff K hK
  refine unserializeLoop_step K now fuel _ _ _ (attr_ne_end K hK _ (by decide)) _ _ ?_
  simp only [AnyCondition.unserializeProp, ConditionDamage.unserializeProp, hi, reduceCtorEq,
    if_true, if_false, readIntervalInfo_bytes info hinfo]

/-- One iteration of the decoding loop on a `CONDITIONATTR_SKILLS` record. -/
theorem loop_SKILLS (K : Enums) (hK : K.WellFormed) (now : Int) (a : ConditionAttributes)
    (x : Int) (hx : IsInt32 x) (hin : a.currentSkill < a.skills.length) (s : PropStream)
    (fuel : Nat) :
    AnyCondition.unserializeLoop K now (fuel + 1) (.attributes a)
        (K.attr .CONDITIONATTR_SKILLS :: toUInt32 x % 256 :: toUInt32 x / 256 % 256
          :: toUInt32 x / 65536 % 256 :: toUInt32 x / 16777216 % 256 :: s)
      = AnyCondition.unserializeLoop K now fuel
          (.attributes { a with
            currentSkill := a.currentSkill + 1, skills := a.skills.set a.currentSkill x }) s := by
  have hi := attr_eq_iff K hK
  refine unserializeLoop_step K now fuel _ _ _ (attr_ne_end K hK _ (by decide)) _ _ ?_
  simp only [AnyCondition.unserializeProp, ConditionAttributes.unserializeProp, hi, reduceCtorEq,
    if_true, if_false, readInt32_bytes, wrapInt32_toUInt32 x hx, hin]

/-- One iteration of the decoding loop on a `CONDITIONATTR_STATS` record. -/
theorem loop_STATS (K : Enums) (hK : K.WellFormed) (now : Int) (a : ConditionAttributes)
    (x : Int) (hx : IsInt32 x) (hin : a.currentStat < a.stats.length) (s : PropStream)
    (fuel : Nat) :
    AnyCondition.unserializeLoop K now (fuel + 1) (.attributes a)
        (K.attr .CONDITIONATTR_STATS :: toUInt32 x % 256 :: toUInt32 x / 256 % 256
          :: toUInt32 x / 65536 % 256 :: toUInt32 x / 16777216 % 256 :: s)
      = AnyCondition.unserializeLoop K now fuel
          (.attributes { a with
            currentStat := a.currentStat + 1, stats := a.stats.set a.currentStat x }) s := by
  have hi := attr_eq_iff K hK
  refine unserializeLoop_step K now fuel _ _ _ (attr_ne_end K hK _ (by decide)) _ _ ?_
  simp only [AnyCondition.unserializeProp, ConditionAttributes.unserializeProp, hi, reduceCtorEq,
    if_true, if_false, readInt32_bytes, wrapInt32_toUInt32 x hx, hin]

/-- Storing into the first unused slot of a zero-padded array. -/
theorem set_append_replicate (done : List Int) (r : Nat) (x : Int) :
    (done ++ List.replicate (r + 1) 0).set done.length x
      = (done ++ [x]) ++ List.replicate r 0 := by
  induction done with
  | nil => simp [List.replicate_succ]
  | cons d ds ih => simpa using ih

/-- The decoding loop on a run of skill records fills the skill array in order. -/
theorem skills_loop (K : Enums) (hK : K.WellFormed) (now : Int) :
    ∀ (vals : List Int), (∀ x ∈ vals, IsInt32 x) →
      ∀ (done : List Int) (r : Nat) (a : ConditionAttributes) (s : PropStream) (fuel : Nat),
      a.skills = done ++ List.replicate r 0 → a.currentSkill = done.length → vals.length ≤ r →
      ∃ a', AnyCondition.unserializeLoop K now (fuel + vals.length) (.attributes a)
            (taggedInt32s (K.attr .CONDITIONATTR_SKILLS) vals ++ s)
          = AnyCondition.unserializeLoop K now fuel (.attributes a') s
        ∧ a'.skills = done ++ vals ++ List.replicate (r - vals.length) 0
        ∧ a'.toCondition = a.toCondition ∧ a'.stats = a.stats
        ∧ a'.currentStat = a.currentStat := by
  intro vals
  induction vals with
  | nil =>
    intro _ done r a s fuel h1 _ _
    exact ⟨a, rfl, by simpa using h1, rfl, rfl, rfl⟩
  | cons x xs ih =>
    intro hall done r a s fuel h1 h2 h3
    obtain ⟨r', rfl⟩ : ∃ r', r = r' + 1 := ⟨r - 1, by simp at h3; omega⟩
    have hx := hall x (List.mem_cons_self _ _)
    obtain ⟨a', e, hs, hb, hst, hcs⟩ := ih (fun y hy => hall y (List.mem_cons_of_mem _ hy))
      (done ++ [x]) r'
      { a with currentSkill := a.currentSkill + 1, skills := a.skills.set a.currentSkill x }
      s fuel
      (by simp only; rw [h1, h2, set_append_replicate])
      (by simp [h2])
      (by simpa using h3)
    refine ⟨a', ?_, ?_, hb, hst, hcs⟩
    · rw [← e]
      simp only [taggedInt32s, List.cons_append, List.length_cons]
      rw [← Nat.add_assoc, loop_SKILLS K hK now a x hx (by rw [h1, h2]; simp)]
    · rw [hs]; simp

/-- The decoding loop on a run of stat records fills the stat array in order. -/
theorem stats_loop (K : Enums) (hK : K.WellFormed) (now : Int) :
    ∀ (vals : List Int), (∀ x ∈ vals, IsInt32 x) →
      ∀ (done : List Int) (r : Nat) (a : ConditionAttributes) (s : PropStream) (fuel : Nat),
      a.stats = done ++ List.replicate r 0 → a.currentStat = done.length → vals.length ≤ r →
      ∃ a', AnyCondition.unserializeLoop K now (fuel + vals.length) (.attributes a)
            (taggedInt32s (K.attr .CONDITIONATTR_STATS) vals ++ s)
          = AnyCondition.unserializeLoop K now fuel (.attributes a') s
        ∧ a'.stats = done ++ vals ++ List.replicate (r - vals.length) 0
        ∧ a'.toCondition = a.toCondition ∧ a'.skills = a.skills := by
  intro vals
  induction vals with
  | nil =>
    intro _ done r a s fuel h1 _ _
    exact ⟨a, rfl, by simpa using h1, rfl, rfl⟩
  | cons x xs ih =>
    intro hall done r a s fuel h1 h2 h3
    obtain ⟨r', rfl⟩ : ∃ r', r = r' + 1 := ⟨r - 1, by simp at h3; omega⟩
    have hx := hall x (List.mem_cons_self _ _)
    obtain ⟨a', e, hs, hb, hsk⟩ := ih (fun y hy => hall y (List.mem_cons_of_mem _ hy))
      (done ++ [x]) r'
      { a with currentStat := a.currentStat + 1, stats := a.stats.set a.currentStat x }
      s fuel
      (by simp only; rw [h1, h2, set_append_replicate])
      (by simp [h2])
      (by simpa using h3)
    refine ⟨a', ?_, ?_, hb, hsk⟩
    · rw [← e]
      simp only [taggedInt32s, List.cons_append, List.length_cons]
      rw [← Nat.add_assoc, loop_STATS K hK now a x hx (by rw [h1, h2]; simp)]
    · rw [hs]; simp

/-- The decoding loop on a run of schedule records appends the entries in order. -/
theorem intervals_loop (K : Enums) (hK : K.WellFormed) (now : Int) :
    ∀ (list : List IntervalInfo), (∀ info ∈ list, IntervalInfo.WellTyped info) →
      ∀ (a : ConditionDamage) (s : PropStream) (fuel : Nat),
      ∃ a', AnyCondition.unserializeLoop K now (fuel + list.length) (.damage a)
            (taggedIntervals (K.attr .CONDITIONATTR_INTERVALDATA) list ++ s)
          = AnyCondition.unserializeLoop K now fuel (.damage a') s
        ∧ a'.damageList = a.damageList ++ list
        ∧ a'.delayed = a.delayed ∧ a'.periodDamage = a.periodDamage
        ∧ (list = [] → a' = a)
        ∧ a'.conditionType = a.conditionType ∧ a'.id = a.id ∧ a'.isBuff = a.isBuff
        ∧ a'.subId = a.subId
        ∧ a'.ticks = IntervalInfo.decodedTicks a.ticks list := by
  intro list
  induction list with
  | nil =>
    intro _ a s fuel
    exact ⟨a, rfl, by simp, rfl, rfl, fun _ => rfl, rfl, rfl, rfl, rfl, rfl⟩
  | cons info rest ih =>
    intro hall a s fuel
    have hinfo := hall info (List.mem_cons_self _ _)
    obtain ⟨a', e, hl, hd, hp, -, h1, h2, h3, h4, h5⟩ :=
      ih (fun y hy => hall y (List.mem_cons_of_mem _ hy))
        (if a.ticks ≠ -1 then
              { a with
                damageList := a.damageList ++ [info]
                toCondition := a.toCondition.setTicks now (wrapInt32 (a.ticks + info.interval)) }
            else { a with damageList := a.damageList ++ [info] }) s fuel
    refine ⟨a', ?_, ?_, ?_, ?_, ?_, ?_, ?_, ?_, ?_, ?_⟩
    · rw [← e]
      simp only [taggedIntervals, List.cons_append, List.length_cons]
      rw [← Nat.add_assoc, loop_INTERVALDATA K hK now a info hinfo]
    · rw [hl]; split_ifs <;> simp
    · rw [hd]; split_ifs <;> rfl
    · rw [hp]; split_ifs <;> rfl
    · intro h; exact absurd h (by simp)
    · rw [h1]; split_ifs <;> rfl
    · rw [h2]; split_ifs <;> rfl
    · rw [h3]; split_ifs <;> rfl
    · rw [h4]; split_ifs <;> rfl
    · rw [h5]
      simp only [IntervalInfo.decodedTicks, List.foldl_cons]
      split_ifs <;> rfl

/-! ### Round trip of the variant-specific fields, class by class -/

/-- Round trip for the classes without variant-specific fields. -/
theorem generic_roundtrip (K : Enums) (hK : K.WellFormed) (now : Int) (b : Condition)
    (a0 : AnyCondition) :
    ∃ payload, (b.serialize K []).2.writeUInt8 (K.attr .CONDITIONATTR_END)
          = (b.serialize K []).2 ++ payload
      ∧ 1 ≤ payload.length
      ∧ ∀ fuel, AnyCondition.unserializeLoop K now (fuel + 1) a0 payload = some (true, a0, []) := by
  refine ⟨[K.attr .CONDITIONATTR_END], ?_, by simp, fun fuel => unserializeLoop_end K now fuel a0 []⟩
  simp only [PropWriteStream.writeUInt8, Nat.mod_eq_of_lt (hK.attr_byte _)]

/-- Round trip of the fields of `ConditionRegeneration`. -/
theorem regeneration_roundtrip (K : Enums) (hK : K.WellFormed) (now : Int)
    (c : ConditionRegeneration) (hc : AnyCondition.WellTyped K (.regeneration c))
    (a0 : ConditionRegeneration) :
    ∃ payload, (c.serialize K []).2.writeUInt8 (K.attr .CONDITIONATTR_END)
          = (c.toCondition.serialize K []).2 ++ payload
      ∧ 5 ≤ payload.length
      ∧ ∀ fuel, AnyCondition.unserializeLoop K now (fuel + 5) (.regeneration a0) payload
          = some (true, .regeneration { a0 with
              healthTicks := c.healthTicks, healthGain := c.healthGain,
              manaTicks := c.manaTicks, manaGain := c.manaGain }, []) := by
  obtain ⟨-, -, -, h1, h2, h3, h4⟩ := hc
  have hbyte := hK.attr_byte
  refine ⟨K.attr .CONDITIONATTR_HEALTHTICKS :: c.healthTicks % 256 :: c.healthTicks / 256 % 256
          :: c.healthTicks / 65536 % 256 :: c.healthTicks / 16777216 % 256
        :: K.attr .CONDITIONATTR_HEALTHGAIN :: c.healthGain % 256 :: c.healthGain / 256 % 256
          :: c.healthGain / 65536 % 256 :: c.healthGain / 16777216 % 256
        :: K.attr .CONDITIONATTR_MANATICKS :: c.manaTicks % 256 :: c.manaTicks / 256 % 256
          :: c.manaTicks / 65536 % 256 :: c.manaTicks / 16777216 % 256
        :: K.attr .CONDITIONATTR_MANAGAIN :: c.manaGain % 256 :: c.manaGain / 256 % 256
          :: c.manaGain / 65536 % 256 :: c.manaGain / 16777216 % 256
        :: [K.attr .CONDITIONATTR_END], ?_, by simp, ?_⟩
  · rw [ConditionRegeneration.serialize, serialize_header_eq K hK]
    simp only [PropWriteStream.writeUInt8, PropWriteStream.writeUInt32,
      Nat.mod_eq_of_lt (hbyte _), List.nil_append, List.append_assoc, List.cons_append,
      List.singleton_append]
  · intro fuel
    rw [loop_HEALTHTICKS K hK now _ _ h1, loop_HEALTHGAIN K hK now _ _ h3,
      loop_MANATICKS K hK now _ _ h2, loop_MANAGAIN K hK now _ _ h4, unserializeLoop_end]

/-- Round trip of the fields of `ConditionSoul`. -/
theorem soul_roundtrip (K : Enums) (hK : K.WellFormed) (now : Int)
    (c : ConditionSoul) (hc : AnyCondition.WellTyped K (.soul c)) (a0 : ConditionSoul) :
    ∃ payload, (c.serialize K []).2.writeUInt8 (K.attr .CONDITIONATTR_END)
          = (c.toCondition.serialize K []).2 ++ payload
      ∧ 3 ≤ payload.length
      ∧ ∀ fuel, AnyCondition.unserializeLoop K now (fuel + 3) (.soul a0) payload
          = some (true, .soul { a0 with soulGain := c.soulGain, soulTicks := c.soulTicks },
              []) := by
  obtain ⟨-, -, h1, h2⟩ := hc
  have hbyte := hK.attr_byte
  refine ⟨K.attr .CONDITIONATTR_SOULGAIN :: c.soulGain % 256 :: c.soulGain / 256 % 256
          :: c.soulGain / 65536 % 256 :: c.soulGain / 16777216 % 256
        :: K.attr .CONDITIONATTR_SOULTICKS :: c.soulTicks % 256 :: c.soulTicks / 256 % 256
          :: c.soulTicks / 65536 % 256 :: c.soulTicks / 16777216 % 256
        :: [K.attr .CONDITIONATTR_END], ?_, by simp, ?_⟩
  · rw [ConditionSoul.serialize, serialize_header_eq K hK]
    simp only [PropWriteStream.writeUInt8, PropWriteStream.writeUInt32,
      Nat.mod_eq_of_lt (hbyte _), List.nil_append, List.append_assoc, List.cons_append,
      List.singleton_append]
  · intro fuel
    rw [loop_SOULGAIN K hK now _ _ h2, loop_SOULTICKS K hK now _ _ h1, unserializeLoop_end]

/-- Round trip of the fields of `ConditionSpeed`. -/
theorem speed_roundtrip (K : Enums) (hK : K.WellFormed) (now : Int)
    (c : ConditionSpeed) (hc : AnyCondition.WellTyped K (.speed c)) (a0 : ConditionSpeed) :
    ∃ payload, (c.serialize K []).2.writeUInt8 (K.attr .CONDITIONATTR_END)
          = (c.toCondition.serialize K []).2 ++ payload
      ∧ 6 ≤ payload.length
      ∧ ∀ fuel, AnyCondition.unserializeLoop K now (fuel + 6) (.speed a0) payload
          = some (true, .speed { a0 with
              speedDelta := c.speedDelta, mina := c.mina, minb := c.minb,
              maxa := c.maxa, maxb := c.maxb }, []) := by
  obtain ⟨-, h0, h1, h2, h3, h4⟩ := hc
  have hbyte := hK.attr_byte
  refine ⟨K.attr .CONDITIONATTR_SPEEDDELTA :: toUInt32 c.speedDelta % 256
          :: toUInt32 c.speedDelta / 256 % 256 :: toUInt32 c.speedDelta / 65536 % 256
          :: toUInt32 c.speedDelta / 16777216 % 256
        :: K.attr .CONDITIONATTR_FORMULA_MINA :: c.mina % 256 :: c.mina / 256 % 256
          :: c.mina / 65536 % 256 :: c.mina / 16777216 % 256
        :: K.attr .CONDITIONATTR_FORMULA_MINB :: c.minb % 256 :: c.minb / 256 % 256
          :: c.minb / 65536 % 256 :: c.minb / 16777216 % 256
        :: K.attr .CONDITIONATTR_FORMULA_MAXA :: c.maxa % 256 :: c.maxa / 256 % 256
          :: c.maxa / 65536 % 256 :: c.maxa / 16777216 % 256
        :: K.attr .CONDITIONATTR_FORMULA_MAXB :: c.maxb % 256 :: c.maxb / 256 % 256
          :: c.maxb / 65536 % 256 :: c.maxb / 16777216 % 256
        :: [K.attr .CONDITIONATTR_END], ?_, by simp, ?_⟩
  · rw [ConditionSpeed.serialize, serialize_header_eq K hK]
    simp only [PropWriteStream.writeUInt8, PropWriteStream.writeUInt32,
      PropWriteStream.writeInt32, PropWriteStream.writeFloat,
      Nat.mod_eq_of_lt (hbyte _), List.nil_append, List.append_assoc, List.cons_append,
      List.singleton_append]
  · intro fuel
    rw [loop_SPEEDDELTA K hK now _ _ h0, loop_FORMULA_MINA K hK now _ _ h1,
      loop_FORMULA_MINB K hK now _ _ h2, loop_FORMULA_MAXA K hK now _ _ h3,
      loop_FORMULA_MAXB K hK now _ _ h4, unserializeLoop_end]

/-- Round trip of the fields of `ConditionLight`. -/
theorem light_roundtrip (K : Enums) (hK : K.WellFormed) (now : Int)
    (c : ConditionLight) (hc : AnyCondition.WellTyped K (.light c)) (a0 : ConditionLight) :
    ∃ payload, (c.serialize K []).2.writeUInt8 (K.attr .CONDITIONATTR_END)
          = (c.toCondition.serialize K []).2 ++ payload
      ∧ 5 ≤ payload.length
      ∧ ∀ fuel, AnyCondition.unserializeLoop K now (fuel + 5) (.light a0) payload
          = some (true, .light { a0 with
              lightInfo := c.lightInfo, internalLightTicks := c.internalLightTicks,
              lightChangeInterval := c.lightChangeInterval }, []) := by
  obtain ⟨-, h1, h2, h3, h4⟩ := hc
  have hbyte := hK.attr_byte
  refine ⟨K.attr .CONDITIONATTR_LIGHTCOLOR :: c.lightInfo.color % 256
          :: c.lightInfo.color / 256 % 256 :: c.lightInfo.color / 65536 % 256
          :: c.lightInfo.color / 16777216 % 256
        :: K.attr .CONDITIONATTR_LIGHTLEVEL :: c.lightInfo.level % 256
          :: c.lightInfo.level / 256 % 256 :: c.lightInfo.level / 65536 % 256
          :: c.lightInfo.level / 16777216 % 256
        :: K.attr .CONDITIONATTR_LIGHTTICKS :: c.internalLightTicks % 256
          :: c.internalLightTicks / 256 % 256 :: c.internalLightTicks / 65536 % 256
          :: c.internalLightTicks / 16777216 % 256
        :: K.attr .CONDITIONATTR_LIGHTINTERVAL :: c.lightChangeInterval % 256
          :: c.lightChangeInterval / 256 % 256 :: c.lightChangeInterval / 65536 % 256
          :: c.lightChangeInterval / 16777216 % 256
        :: [K.attr .CONDITIONATTR_END], ?_, by simp, ?_⟩
  · rw [ConditionLight.serialize, serialize_header_eq K hK]
    simp only [PropWriteStream.writeUInt8, PropWriteStream.writeUInt32,
      Nat.mod_eq_of_lt (hbyte _), List.nil_append, List.append_assoc, List.cons_append,
      List.singleton_append]
  · intro fuel
    rw [loop_LIGHTCOLOR K hK now _ _ h2, loop_LIGHTLEVEL K hK now _ _ h1,
      loop_LIGHTTICKS K hK now _ _ h3, loop_LIGHTINTERVAL K hK now _ _ h4, unserializeLoop_end]

/-- Round trip of the outfit record of `ConditionOutfit`. -/
theorem outfit_roundtrip (K : Enums) (hK : K.WellFormed) (now : Int)
    (c : ConditionOutfit) (hc : AnyCondition.WellTyped K (.outfit c)) (a0 : ConditionOutfit) :
    ∃ payload, (c.serialize K []).2.writeUInt8 (K.attr .CONDITIONATTR_END)
          = (c.toCondition.serialize K []).2 ++ payload
      ∧ 2 ≤ payload.length
      ∧ ∀ fuel, AnyCondition.unserializeLoop K now (fuel + 2) (.outfit a0) payload
          = some (true, .outfit { a0 with outfit := c.outfit }, []) := by
  obtain ⟨-, h1, -⟩ := hc
  have hbyte := hK.attr_byte
  refine ⟨K.attr .CONDITIONATTR_OUTFIT :: (c.outfit ++ [K.attr .CONDITIONATTR_END]), ?_,
    by simp, ?_⟩
  · rw [ConditionOutfit.serialize, serialize_header_eq K hK]
    simp only [PropWriteStream.writeUInt8, PropWriteStream.writeBytes,
      Nat.mod_eq_of_lt (hbyte _), List.nil_append, List.append_assoc, List.cons_append,
      List.singleton_append]
  · intro fuel
    rw [loop_OUTFIT K hK now _ _ h1, unserializeLoop_end]

/-- The bytes written by a loop of tagged 32-bit writes. -/
theorem foldl_taggedInt32s (tag : Nat) (htag : tag < 256) :
    ∀ (vals : List Int) (w : PropWriteStream),
      vals.foldl (fun w v => (w.writeUInt8 tag).writeInt32 v) w = w ++ taggedInt32s tag vals := by
  intro vals
  induction vals with
  | nil => intro w; simp [taggedInt32s]
  | cons x xs ih =>
    intro w
    rw [List.foldl_cons, ih]
    simp only [PropWriteStream.writeUInt8, PropWriteStream.writeInt32,
      PropWriteStream.writeUInt32, Nat.mod_eq_of_lt htag, taggedInt32s, List.append_assoc,
      List.cons_append, List.nil_append]

/-- The bytes written by a loop of tagged schedule-entry writes. -/
theorem foldl_taggedIntervals (tag : Nat) (htag : tag < 256) :
    ∀ (list : List IntervalInfo) (w : PropWriteStream),
      list.foldl (fun w info => (w.writeUInt8 tag).writeIntervalInfo info) w
        = w ++ taggedIntervals tag list := by
  intro list
  induction list with
  | nil => intro w; simp [taggedIntervals]
  | cons x xs ih =>
    intro w
    rw [List.foldl_cons, ih]
    simp only [PropWriteStream.writeUInt8, PropWriteStream.writeIntervalInfo,
      PropWriteStream.writeInt32, PropWriteStream.writeUInt32, Nat.mod_eq_of_lt htag,
      taggedIntervals, List.append_assoc, List.cons_append, List.nil_append]

/-- Five bytes per tagged 32-bit record. -/
theorem length_taggedInt32s (tag : Nat) (vals : List Int) :
    (taggedInt32s tag vals).length = 5 * vals.length := by
  induction vals with
  | nil => rfl
  | cons x xs ih => simp only [taggedInt32s, List.length_cons, ih]; omega

/-- Thirteen bytes per tagged schedule entry. -/
theorem length_taggedIntervals (tag : Nat) (list : List IntervalInfo) :
    (taggedIntervals tag list).length = 13 * list.length := by
  induction list with
  | nil => rfl
  | cons x xs ih => simp only [taggedIntervals, List.length_cons, ih]; omega

/-- Reading an array index by index gives the array. -/
theorem map_getD_range' (l : List Int) :
    (List.range' 0 l.length).map (fun i => l.getD i 0) = l := by
  apply List.ext_getElem
  · simp
  · intro i h1 h2
    simp [List.getD_eq_getElem?_getD, List.getElem?_eq_getElem h2]

/-- An array read with a default of zero holds 32-bit values at every index. -/
theorem getD_isInt32 (l : List Int) (h : ∀ x ∈ l, IsInt32 x) (i : Nat) : IsInt32 (l.getD i 0) := by
  rw [List.getD_eq_getElem?_getD]
  by_cases hi : i < l.length
  · rw [List.getElem?_eq_getElem hi]
    exact h _ (List.getElem_mem hi)
  · rw [List.getElem?_eq_none (by omega)]
    exact ⟨by decide, by decide⟩

/-- Round trip of the skill and stat arrays of `ConditionAttributes`: the records
written for the indices `SKILL_FIRST .. SKILL_LAST` and `STAT_FIRST .. STAT_LAST`
are all decoded, and they land on the indices they were read from when the two
ranges start at index 0. -/
theorem attributes_roundtrip (K : Enums) (hK : K.WellFormed) (now : Int)
    (c : ConditionAttributes) (hc : AnyCondition.WellTyped K (.attributes c))
    (a0 : ConditionAttributes)
    (h0 : a0.skills = List.replicate (K.SKILL_LAST + 1) 0)
    (h1 : a0.stats = List.replicate (K.STAT_LAST + 1) 0)
    (h2 : a0.currentSkill = 0) (h3 : a0.currentStat = 0) :
    ∃ payload c', (c.serialize K []).2.writeUInt8 (K.attr .CONDITIONATTR_END)
          = (c.toCondition.serialize K []).2 ++ payload
      ∧ (K.SKILL_LAST + 1 - K.SKILL_FIRST) + (K.STAT_LAST + 1 - K.STAT_FIRST) + 1
          ≤ payload.length
      ∧ (∀ fuel, AnyCondition.unserializeLoop K now
            (fuel + ((K.SKILL_LAST + 1 - K.SKILL_FIRST) + (K.STAT_LAST + 1 - K.STAT_FIRST) + 1))
            (.attributes a0) payload
          = some (true, .attributes c', []))
      ∧ (K.SKILL_FIRST = 0 → c'.skills = c.skills)
      ∧ (K.STAT_FIRST = 0 → c'.stats = c.stats) ∧ c'.toCondition = a0.toCondition := by
  obtain ⟨-, hl1, ht1, -, -, hl2, ht2, -, -⟩ := hc
  have hbyte := hK.attr_byte
  have hv1 : ∀ x ∈ (List.range' K.SKILL_FIRST (K.SKILL_LAST + 1 - K.SKILL_FIRST)).map
      (fun i => c.skills.getD i 0), IsInt32 x := by
    intro x hx
    obtain ⟨i, -, rfl⟩ := List.mem_map.mp hx
    exact getD_isInt32 _ ht1 i
  have hv2 : ∀ x ∈ (List.range' K.STAT_FIRST (K.STAT_LAST + 1 - K.STAT_FIRST)).map
      (fun i => c.stats.getD i 0), IsInt32 x := by
    intro x hx
    obtain ⟨i, -, rfl⟩ := List.mem_map.mp hx
    exact getD_isInt32 _ ht2 i
  have hn1 : ((List.range' K.SKILL_FIRST (K.SKILL_LAST + 1 - K.SKILL_FIRST)).map
      (fun i => c.skills.getD i 0)).length = K.SKILL_LAST + 1 - K.SKILL_FIRST := by
    rw [List.length_map, List.length_range']
  have hn2 : ((List.range' K.STAT_FIRST (K.STAT_LAST + 1 - K.STAT_FIRST)).map
      (fun i => c.stats.getD i 0)).length = K.STAT_LAST + 1 - K.STAT_FIRST := by
    rw [List.length_map, List.length_range']
  obtain ⟨a1, e1, hs1, hb1, hst1, hcs1⟩ := skills_loop K hK now _ hv1 [] (K.SKILL_LAST + 1)
    a0 (taggedInt32s (K.attr .CONDITIONATTR_STATS)
        ((List.range' K.STAT_FIRST (K.STAT_LAST + 1 - K.STAT_FIRST)).map
          (fun i => c.stats.getD i 0)) ++ [K.attr .CONDITIONATTR_END])
    ((K.STAT_LAST + 1 - K.STAT_FIRST) + 1) (by simpa using h0) (by simpa using h2)
    (by rw [hn1]; omega)
  obtain ⟨a2, e2, hs2, hb2, hsk2⟩ := stats_loop K hK now _ hv2 [] (K.STAT_LAST + 1)
    a1 [K.attr .CONDITIONATTR_END] 1 (by rw [hst1]; simpa using h1)
    (by rw [hcs1]; simpa using h3) (by rw [hn2]; omega)
  rw [hn1] at e1
  rw [hn2] at e2
  refine ⟨taggedInt32s (K.attr .CONDITIONATTR_SKILLS)
        ((List.range' K.SKILL_FIRST (K.SKILL_LAST + 1 - K.SKILL_FIRST)).map
          (fun i => c.skills.getD i 0))
      ++ (taggedInt32s (K.attr .CONDITIONATTR_STATS)
        ((List.range' K.STAT_FIRST (K.STAT_LAST + 1 - K.STAT_FIRST)).map
          (fun i => c.stats.getD i 0)) ++ [K.attr .CONDITIONATTR_END]),
    a2, ?_, ?_, ?_, ?_, ?_, ?_⟩
  · rw [ConditionAttributes.serialize, serialize_header_eq K hK]
    simp only
    rw [← List.foldl_map (fun i => c.skills.getD i 0)
        (fun w v => (PropWriteStream.writeUInt8 w (K.attr .CONDITIONATTR_SKILLS)).writeInt32 v),
      ← List.foldl_map (fun i => c.stats.getD i 0)
        (fun w v => (PropWriteStream.writeUInt8 w (K.attr .CONDITIONATTR_STATS)).writeInt32 v),
      foldl_taggedInt32s _ (hbyte _), foldl_taggedInt32s _ (hbyte _)]
    simp only [PropWriteStream.writeUInt8, Nat.mod_eq_of_lt (hbyte _), List.nil_append,
      List.append_assoc]
  · simp only [List.length_append, length_taggedInt32s, List.length_singleton, hn1, hn2]
    omega
  · intro fuel
    apply unserializeLoop_fuel_mono K now
      ((K.STAT_LAST + 1 - K.STAT_FIRST) + 1 + (K.SKILL_LAST + 1 - K.SKILL_FIRST)) _ (by omega)
    rw [e1, show (K.STAT_LAST + 1 - K.STAT_FIRST) + 1 = 1 + (K.STAT_LAST + 1 - K.STAT_FIRST)
      by omega, e2]
    exact unserializeLoop_end K now 0 _ []
  · intro hf
    rw [hsk2, hs1, hn1, hf, Nat.sub_zero, ← hl1, map_getD_range']
    simp
  · intro hf
    rw [hs2, hn2, hf, Nat.sub_zero, ← hl2, map_getD_range']
    simp
  · rw [hb2, hb1]

/-- Round trip of the fields and the schedule of `ConditionDamage`. -/
theorem damage_roundtrip (K : Enums) (hK : K.WellFormed) (now : Int)
    (c : ConditionDamage) (hc : AnyCondition.WellTyped K (.damage c))
    (a0 : ConditionDamage) (h0 : a0.damageList = []) :
    ∃ payload c', (c.serialize K []).2.writeUInt8 (K.attr .CONDITIONATTR_END)
          = (c.toCondition.serialize K []).2 ++ payload
      ∧ c.damageList.length + 3 ≤ payload.length
      ∧ (∀ fuel, AnyCondition.unserializeLoop K now (fuel + (c.damageList.length + 3))
            (.damage a0) payload = some (true, .damage c', []))
      ∧ c'.delayed = c.delayed ∧ c'.periodDamage = c.periodDamage
      ∧ c'.damageList = c.damageList
      ∧ c'.conditionType = a0.conditionType ∧ c'.id = a0.id ∧ c'.isBuff = a0.isBuff
      ∧ c'.subId = a0.subId
      ∧ (c.damageList = [] → c'.ticks = a0.ticks)
      ∧ c'.ticks = IntervalInfo.decodedTicks a0.ticks c.damageList := by
  obtain ⟨-, -, -, -, -, hp, -, -, hl⟩ := hc
  have hbyte := hK.attr_byte
  obtain ⟨a1, e1, hl1, hd1, hp1, hnil, g1, g2, g3, g4, g5⟩ :=
    intervals_loop K hK now c.damageList hl
    { a0 with delayed := c.delayed, periodDamage := c.periodDamage }
    [K.attr .CONDITIONATTR_END] 1
  refine ⟨K.attr .CONDITIONATTR_DELAYED :: (if c.delayed then 1 else 0)
      :: K.attr .CONDITIONATTR_PERIODDAMAGE :: toUInt32 c.periodDamage % 256
      :: toUInt32 c.periodDamage / 256 % 256 :: toUInt32 c.periodDamage / 65536 % 256
      :: toUInt32 c.periodDamage / 16777216 % 256
      :: (taggedIntervals (K.attr .CONDITIONATTR_INTERVALDATA) c.damageList
          ++ [K.attr .CONDITIONATTR_END]),
    a1, ?_, ?_, ?_, hd1, hp1, ?_, g1, g2, g3, g4, ?_, g5⟩
  · rw [ConditionDamage.serialize, serialize_header_eq K hK]
    simp only
    rw [foldl_taggedIntervals _ (hbyte _)]
    simp only [PropWriteStream.writeUInt8, PropWriteStream.writeInt32,
      PropWriteStream.writeUInt32, Nat.mod_eq_of_lt (hbyte _), List.nil_append,
      List.append_assoc, List.cons_append, List.singleton_append]
    cases c.delayed <;> rfl
  · simp only [List.length_cons, List.length_append, length_taggedIntervals,
      List.length_singleton]
    omega
  · intro fuel
    apply unserializeLoop_fuel_mono K now (1 + c.damageList.length + 1 + 1) _ (by omega)
    rw [loop_DELAYED K hK now, loop_PERIODDAMAGE K hK now _ _ hp, e1]
    exact unserializeLoop_end K now 0 _ []
  · rw [hl1, h0]; rfl
  · intro h
    rw [hnil h]

/-! ### Assembling the round trip -/

/-- Replacing the base-class part by itself changes nothing. -/
theorem mapBase_const_base (c : AnyCondition) : c.mapBase (fun _ => c.base) = c := by
  cases c <;> rfl

/-- A replacement of the base-class part only depends on its value at that part. -/
theorem mapBase_eq_const (c : AnyCondition) (f : Condition → Condition) :
    c.mapBase f = c.mapBase (fun _ => f c.base) := by
  cases c <;> rfl

/-- Instances related by `SamePersistedPayload` have the same class. -/
theorem samePersistedPayload_variant (K : Enums) (c c' : AnyCondition)
    (h : SamePersistedPayload K c c') : c'.variant = c.variant := by
  cases c <;> cases c' <;> first | rfl | exact absurd h (by simp [SamePersistedPayload])

/-- The header has 22 bytes. -/
theorem length_serialize_header (K : Enums) (hK : K.WellFormed) (b : Condition) :
    (b.serialize K []).2.length = 22 := by
  rw [serialize_header_eq K hK]
  rfl

/-- Round trip of the variant-specific fields for every class, from a constructed instance with
an arbitrary base-class part. -/
theorem payload_roundtrip (K : Enums) (hK : K.WellFormed) (now : Int) (c : AnyCondition)
    (hc : c.WellTyped K) (b : Condition) (_id : Int) (_type : Nat) (_ticks param : Int)
    (_buff : Bool) (_subId : Nat) :
    ∃ payload n c', (c.serialize K []).2.writeUInt8 (K.attr .CONDITIONATTR_END)
          = (c.base.serialize K []).2 ++ payload
      ∧ n ≤ payload.length
      ∧ (∀ fuel, AnyCondition.unserializeLoop K now (fuel + n)
            ((AnyCondition.construct K c.variant _id _type _ticks param _buff _subId).mapBase
              (fun _ => b)) payload = some (true, c', []))
      ∧ (K.SKILL_FIRST = 0 → K.STAT_FIRST = 0 → SamePersistedPayload K c c')
      ∧ c'.variant = c.variant
      ∧ c'.base.conditionType = b.conditionType ∧ c'.base.id = b.id
      ∧ c'.base.isBuff = b.isBuff ∧ c'.base.subId = b.subId
      ∧ ((∀ d, c = .damage d → d.damageList = []) → c'.base.ticks = b.ticks)
      ∧ (c.variant ≠ .Damage → c'.base.ticks = b.ticks)
      ∧ (∀ d, c = .damage d → c'.base.ticks = IntervalInfo.decodedTicks b.ticks d.damageList) := by
  cases c with
  | generic c =>
    obtain ⟨payload, h1, h2, h3⟩ := generic_roundtrip K hK now c (.generic b)
    exact ⟨payload, 1, _, h1, h2, h3, fun _ _ => trivial, rfl, rfl, rfl, rfl, rfl,
      fun _ => rfl, fun _ => rfl, fun d h => by cases h⟩
  | invisible c =>
    obtain ⟨payload, h1, h2, h3⟩ := generic_roundtrip K hK now c (.invisible b)
    exact ⟨payload, 1, _, h1, h2, h3, fun _ _ => trivial, rfl, rfl, rfl, rfl, rfl,
      fun _ => rfl, fun _ => rfl, fun d h => by cases h⟩
  | spellCooldown c =>
    obtain ⟨payload, h1, h2, h3⟩ := generic_roundtrip K hK now c (.spellCooldown b)
    exact ⟨payload, 1, _, h1, h2, h3, fun _ _ => trivial, rfl, rfl, rfl, rfl, rfl,
      fun _ => rfl, fun _ => rfl, fun d h => by cases h⟩
  | spellGroupCooldown c =>
    obtain ⟨payload, h1, h2, h3⟩ := generic_roundtrip K hK now c (.spellGroupCooldown b)
    exact ⟨payload, 1, _, h1, h2, h3, fun _ _ => trivial, rfl, rfl, rfl, rfl, rfl,
      fun _ => rfl, fun _ => rfl, fun d h => by cases h⟩
  | regeneration c =>
    obtain ⟨payload, h1, h2, h3⟩ := regeneration_roundtrip K hK now c hc
      { ConditionRegeneration.new _id _type _ticks _buff _subId with toCondition := b }
    exact ⟨payload, 5, _, h1, h2, h3, fun _ _ => ⟨rfl, rfl, rfl, rfl⟩, rfl, rfl, rfl, rfl, rfl,
      fun _ => rfl, fun _ => rfl, fun d h => by cases h⟩
  | soul c =>
    obtain ⟨payload, h1, h2, h3⟩ := soul_roundtrip K hK now c hc
      { ConditionSoul.new _id _type _ticks _buff _subId with toCondition := b }
    exact ⟨payload, 3, _, h1, h2, h3, fun _ _ => ⟨rfl, rfl⟩, rfl, rfl, rfl, rfl, rfl,
      fun _ => rfl, fun _ => rfl, fun d h => by cases h⟩
  | speed c =>
    obtain ⟨payload, h1, h2, h3⟩ := speed_roundtrip K hK now c hc
      { ConditionSpeed.new _id _type _ticks _buff _subId param with toCondition := b }
    exact ⟨payload, 6, _, h1, h2, h3, fun _ _ => ⟨rfl, rfl, rfl, rfl, rfl⟩, rfl, rfl, rfl,
      rfl, rfl, fun _ => rfl, fun _ => rfl, fun d h => by cases h⟩
  | light c =>
    obtain ⟨payload, h1, h2, h3⟩ := light_roundtrip K hK now c hc
      { ConditionLight.new _id _type _ticks _buff _subId (toUInt8 (param % 256))
          (toUInt8 (param % 65536 / 256)) with toCondition := b }
    exact ⟨payload, 5, _, h1, h2, h3, fun _ _ => ⟨rfl, rfl, rfl, rfl⟩, rfl, rfl, rfl, rfl, rfl,
      fun _ => rfl, fun _ => rfl, fun d h => by cases h⟩
  | outfit c =>
    obtain ⟨payload, h1, h2, h3⟩ := outfit_roundtrip K hK now c hc
      { ConditionOutfit.new K _id _type _ticks _buff _subId with toCondition := b }
    exact ⟨payload, 2, _, h1, h2, h3, fun _ _ => rfl, rfl, rfl, rfl, rfl, rfl, fun _ => rfl,
      fun _ => rfl, fun d h => by cases h⟩
  | attributes c =>
    obtain ⟨payload, c', h1, h2, h3, h4, h5, h6⟩ := attributes_roundtrip K hK now c hc
      { ConditionAttributes.new K _id _type _ticks _buff _subId with toCondition := b }
      rfl rfl rfl rfl
    refine ⟨payload, _, .attributes c', h1, h2, h3, fun hs hst => ⟨fun i _ _ => by rw [h4 hs],
      fun i _ _ => by rw [h5 hst]⟩, rfl, ?_, ?_, ?_, ?_, fun _ => ?_, fun _ => ?_,
      fun d h => by cases h⟩
    all_goals simp only [AnyCondition.base, h6]
  | damage c =>
    obtain ⟨payload, c', h1, h2, h3, h4, h5, h6, g1, g2, g3, g4, g5, g6⟩ :=
      damage_roundtrip K hK now c hc
        { ConditionDamage.new _id _type _buff _subId with toCondition := b } rfl
    exact ⟨payload, _, .damage c', h1, h2, h3, fun _ _ => ⟨h4, h5, h6⟩, rfl, g1, g2, g3, g4,
      fun h => g5 (h c rfl), fun h => absurd rfl h,
      fun d h => by cases h; exact g6⟩

/-- Claim C2. For every well-typed instance `c` of any class, decoding the bytes
written by `serialize` followed by the END tag into a freshly constructed
instance of the same class (any constructor arguments) returns true, consumes
the whole stream and reproduces every variant-specific field that `serialize`
writes, as listed by `SamePersistedPayload`; the skill and stat index ranges are
taken to start at index 0 of their arrays. -/
theorem unserialize_serialize_payload (K : Enums) (hK : K.WellFormed)
    (hskill : K.SKILL_FIRST = 0) (hstat : K.STAT_FIRST = 0) (now : Int)
    (c : AnyCondition) (hc : c.WellTyped K)
    (_id : Int) (_type : Nat) (_ticks param : Int) (_buff : Bool) (_subId : Nat) :
    ∃ c', AnyCondition.unserialize K now
          (AnyCondition.construct K c.variant _id _type _ticks param _buff _subId)
          ((c.serialize K []).2.writeUInt8 (K.attr .CONDITIONATTR_END))
        = some (true, c', [])
      ∧ SamePersistedPayload K c c' := by
  have hbase : c.base.WellTyped := by
    cases c <;> first | exact hc | exact hc.1
  obtain ⟨payload, n, c', h1, h2, h3, h4, -⟩ := payload_roundtrip K hK now c hc
    { (AnyCondition.construct K c.variant _id _type _ticks param _buff _subId).base with
      conditionType := c.base.conditionType, id := c.base.id, ticks := c.base.ticks,
      isBuff := c.base.isBuff, subId := c.base.subId }
    _id _type _ticks param _buff _subId
  refine ⟨c', ?_, h4 hskill hstat⟩
  rw [AnyCondition.unserialize, h1]
  apply unserializeLoop_fuel_mono K now ((0 + n) + 5) _
    (by rw [List.length_append, length_serialize_header K hK]; omega)
  rw [unserializeLoop_header K hK now _ _ hbase, mapBase_eq_const]
  exact h3 0

/-- Claim C2 at a delayed damage condition with two schedule entries. -/
theorem unserialize_serialize_payload_witness :
    AnyCondition.WellTyped Enums.sample
        (.damage { ConditionDamage.new 0 1 false 0 with
          delayed := true
          damageList := [{ timeLeft := 1500, value := -5, interval := 2000 },
            { timeLeft := 2000, value := -3, interval := 2000 }] })
      ∧ ∃ c', AnyCondition.unserialize Enums.sample 0
            (AnyCondition.construct Enums.sample .Damage 0 1 0 0 false 0)
            (((AnyCondition.damage { ConditionDamage.new 0 1 false 0 with
                delayed := true
                damageList := [{ timeLeft := 1500, value := -5, interval := 2000 },
                  { timeLeft := 2000, value := -3, interval := 2000 }] }).serialize
              Enums.sample []).2.writeUInt8 (Enums.sample.attr .CONDITIONATTR_END))
          = some (true, c', [])
        ∧ SamePersistedPayload Enums.sample
            (.damage { ConditionDamage.new 0 1 false 0 with
              delayed := true
              damageList := [{ timeLeft := 1500, value := -5, interval := 2000 },
                { timeLeft := 2000, value := -3, interval := 2000 }] }) c' :=
  ⟨by decide,
    unserialize_serialize_payload Enums.sample Enums.sample_wellFormed rfl rfl 0
      (.damage { ConditionDamage.new 0 1 false 0 with
        delayed := true
        damageList := [{ timeLeft := 1500, value := -5, interval := 2000 },
          { timeLeft := 2000, value := -3, interval := 2000 }] })
      (by decide) 0 1 0 0 false 0⟩

/-- The stream factory reads the header written by `Condition::serialize` and calls the explicit
factory on its fields. -/
theorem createConditionStream_header (K : Enums) (hK : K.WellFormed) (b : Condition)
    (hb : b.WellTyped) (rest : PropStream) :
    Condition.createConditionStream K ((b.serialize K []).2 ++ rest)
      = (Condition.createCondition K b.id b.conditionType b.ticks 0 b.isBuff b.subId, rest) := by
  obtain ⟨h1, h2, -, h3, h4⟩ := hb
  rw [serialize_header_eq K hK]
  simp only [List.nil_append, List.cons_append, Condition.createConditionStream,
    PropStream.readUInt8, readUInt32_bytes, ne_eq, not_true_eq_false, if_false,
    wrapInt32_toUInt32 _ h2, wrapInt32_toUInt32 _ h4, Nat.mod_eq_of_lt h1, Nat.mod_eq_of_lt h3]
  cases b.isBuff <;> rfl

/-- For a type of its table the explicit factory is the constructor of the class that the table
gives. -/
theorem createCondition_eq_construct (K : Enums) (hK : K.WellFormed) (t : ConditionType_t)
    (_id : Int) (_ticks param : Int) (_buff : Bool) (_subId : Nat) :
    Condition.createCondition K _id (K.type t) _ticks param _buff _subId
      = some (AnyCondition.construct K (claimedVariant t) _id (K.type t) _ticks param _buff
          _subId) := by
  have hi : ∀ a b : ConditionType_t, K.type a = K.type b ↔ a = b :=
    fun a b => hK.type_inj.eq_iff
  cases t <;>
    simp only [Condition.createCondition, hi, reduceCtorEq, or_false, false_or, or_true,
      true_or, if_true, if_false] <;> rfl

/-- The class of a constructed instance. -/
theorem construct_variant (K : Enums) (v : Variant) (_id : Int) (_type : Nat)
    (_ticks param : Int) (_buff : Bool) (_subId : Nat) :
    (AnyCondition.construct K v _id _type _ticks param _buff _subId).variant = v := by
  cases v <;> rfl

/-- The base-class part of a constructed instance; the damage constructor sets the duration to 0. -/
theorem construct_base (K : Enums) (v : Variant) (_id : Int) (_type : Nat)
    (_ticks param : Int) (_buff : Bool) (_subId : Nat) :
    (AnyCondition.construct K v _id _type _ticks param _buff _subId).base
      = Condition.new _id _type (if v = .Damage then 0 else _ticks) _buff _subId := by
  cases v <;> rfl

/-- A constructor called with well-typed arguments yields a well-typed instance. -/
theorem construct_wellTyped (K : Enums) (v : Variant) (_id : Int) (_type : Nat)
    (_ticks param : Int) (_buff : Bool) (_subId : Nat)
    (hid : IsInt32 _id) (htype : IsUInt32 _type) (hticks : IsInt32 _ticks)
    (hparam : IsInt32 param) (hsub : IsUInt32 _subId) :
    (AnyCondition.construct K v _id _type _ticks param _buff _subId).WellTyped K := by
  have hbase : ∀ tk, IsInt32 tk → (Condition.new _id _type tk _buff _subId).WellTyped := by
    intro tk htk
    refine ⟨hsub, htk, ?_, htype, hid⟩
    unfold Condition.new IsInt64 INT64_MAX
    simp only
    split_ifs <;> decide
  have h0 : IsInt32 0 := by decide
  have hz : ∀ (n : Nat) (x : Int), x ∈ List.replicate n (0 : Int) → IsInt32 x := by
    intro n x hx
    rw [List.eq_of_mem_replicate hx]
    exact h0
  have hu8 : ∀ x : Int, toUInt8 x < 256 := by
    intro x
    unfold toUInt8
    omega
  cases v
  case Generic => exact hbase _ hticks
  case Invisible => exact hbase _ hticks
  case SpellCooldown => exact hbase _ hticks
  case SpellGroupCooldown => exact hbase _ hticks
  case Attributes =>
    exact ⟨hbase _ hticks, by simp [ConditionAttributes.new], hz _,
      by simp [ConditionAttributes.new], hz _, by simp [ConditionAttributes.new], hz _,
      by simp [ConditionAttributes.new], hz _⟩
  case Regeneration =>
    refine ⟨hbase _ hticks, ?_, ?_, ?_, ?_, ?_, ?_⟩ <;>
      simp [ConditionRegeneration.new, IsUInt32]
  case Soul =>
    refine ⟨hbase _ hticks, ?_, ?_, ?_⟩ <;> simp [ConditionSoul.new, IsUInt32]
  case Damage =>
    refine ⟨hbase _ h0, ?_, ?_, ?_, ?_, ?_, ?_, ?_, ?_⟩ <;>
      simp [ConditionDamage.new, IsUInt32, IsInt32]
  case Speed =>
    refine ⟨hbase _ hticks, hparam, ?_, ?_, ?_, ?_⟩ <;> simp [ConditionSpeed.new, IsUInt32]
  case Outfit =>
    refine ⟨hbase _ hticks, by simp [ConditionOutfit.new], ?_⟩
    intro x hx
    rw [List.eq_of_mem_replicate hx]
    decide
  case Light =>
    refine ⟨hbase _ hticks, hu8 _, hu8 _, ?_, ?_⟩ <;> simp [ConditionLight.new, IsUInt32]

/-- Replacing the base-class part by its own value changes nothing. -/
theorem mapBase_const_of_base (c : AnyCondition) (b : Condition) (h : c.base = b) :
    c.mapBase (fun _ => b) = c := by
  subst h
  exact mapBase_const_base c

/-- Claim C1 (amended). For every condition `c` whose fields hold values of
their C++ types, in any state, of a type for which the factory creates an
instance of the class of `c`: the bytes written by `serialize` followed by the
END tag are turned by `createCondition(stream)` into the instance `c0` that the
factory creates from the header, and `unserialize` on the rest of the stream
returns true, consumes the whole stream and yields an instance of the same
class whose type, scope id, buff flag and secondary id equal those of `c`.
For every class other than `ConditionDamage` its ticks equal those of `c`.
For `ConditionDamage` the constructor takes no ticks and the decoder
accumulates them from 0 over the intervals of the schedule entries, so the
ticks that come back are `IntervalInfo.decodedTicks 0` of the schedule of
`c`. -/
theorem createCondition_roundtrip (K : Enums) (hK : K.WellFormed) (now : Int)
    (c c0 : AnyCondition) (hwt : c.WellTyped K)
    (hfac : Condition.createCondition K c.base.id c.base.conditionType c.base.ticks 0
      c.base.isBuff c.base.subId = some c0)
    (hclass : c0.variant = c.variant) :
    ∃ rest c',
      Condition.createConditionStream K
          ((c.serialize K []).2.writeUInt8 (K.attr .CONDITIONATTR_END)) = (some c0, rest)
      ∧ AnyCondition.unserialize K now c0 rest = some (true, c', [])
      ∧ c'.variant = c.variant
      ∧ c'.base.conditionType = c.base.conditionType
      ∧ c'.base.id = c.base.id
      ∧ c'.base.isBuff = c.base.isBuff
      ∧ c'.base.subId = c.base.subId
      ∧ (c.variant ≠ .Damage → c'.base.ticks = c.base.ticks)
      ∧ (∀ d, c = .damage d → c'.base.ticks = IntervalInfo.decodedTicks 0 d.damageList) := by
  obtain ⟨t, ht⟩ : ∃ t : ConditionType_t, c.base.conditionType = K.type t := by
    by_contra hno
    rw [(createCondition_eq_none_iff K _ _ _ _ _ _).mpr (fun t ht => hno ⟨t, ht⟩)] at hfac
    exact absurd hfac (by simp)
  rw [ht, createCondition_eq_construct K hK] at hfac
  have hc0 := (Option.some.inj hfac).symm
  have hbase : c.base.WellTyped := by
    cases c <;> first | exact hwt | exact hwt.1
  have hv : claimedVariant t = c.variant := by
    rw [← hclass, hc0, construct_variant]
  have hb : c0.base = Condition.new c.base.id (K.type t)
      (if c.variant = .Damage then 0 else c.base.ticks) c.base.isBuff c.base.subId := by
    rw [hc0, construct_base, hv]
  obtain ⟨payload, n, c', h1, h2, h3, -, h4, g1, g2, g3, g4, -, g5, g6⟩ :=
    payload_roundtrip K hK now c hwt
    c0.base c.base.id (K.type t) c.base.ticks 0 c.base.isBuff c.base.subId
  refine ⟨payload, c', ?_, ?_, h4, ?_, ?_, ?_, ?_, ?_, ?_⟩
  · rw [h1, createConditionStream_header K hK _ hbase, ht, createCondition_eq_construct K hK,
      hc0]
  · rw [AnyCondition.unserialize]
    apply unserializeLoop_fuel_mono K now (0 + n) _ (by omega)
    have := h3 0
    rw [← hv, ← hc0, mapBase_const_base] at this
    exact this
  · rw [g1, hb, ht]; rfl
  · rw [g2, hb]; rfl
  · rw [g3, hb]; rfl
  · rw [g4, hb]; rfl
  · intro hnd
    rw [g5 hnd, hb, if_neg hnd]; rfl
  · intro d hd
    rw [g6 d hd, hb, if_pos (by rw [hd]; rfl)]; rfl

/-- Claim C1 (amended) at a haste condition of which 1000 ms have run. -/
theorem createCondition_roundtrip_witness :
    AnyCondition.WellTyped Enums.sample
        ((AnyCondition.speed (ConditionSpeed.new (-1) 9 5000 true 7 30)).executeCondition
          World.sample 1000).2.1
      ∧ ((AnyCondition.speed (ConditionSpeed.new (-1) 9 5000 true 7 30)).executeCondition
          World.sample 1000).2.1.base.ticks = 4000
      ∧ ∃ rest c',
        Condition.createConditionStream Enums.sample
            ((((AnyCondition.speed (ConditionSpeed.new (-1) 9 5000 true 7 30)).executeCondition
              World.sample 1000).2.1.serialize
              Enums.sample []).2.writeUInt8 (Enums.sample.attr .CONDITIONATTR_END))
          = (some (.speed (ConditionSpeed.new (-1) 9 4000 true 7 0)), rest)
        ∧ AnyCondition.unserialize Enums.sample 0
            (.speed (ConditionSpeed.new (-1) 9 4000 true 7 0)) rest = some (true, c', [])
        ∧ c'.variant = .Speed
        ∧ c'.base.conditionType = 9
        ∧ c'.base.id = -1
        ∧ c'.base.isBuff = true
        ∧ c'.base.subId = 7
        ∧ c'.base.ticks = 4000 := by
  obtain ⟨rest, c', h1, h2, h3, h4, h5, h6, h7, h8, -⟩ :=
    createCondition_roundtrip Enums.sample Enums.sample_wellFormed 0
      ((AnyCondition.speed (ConditionSpeed.new (-1) 9 5000 true 7 30)).executeCondition
        World.sample 1000).2.1
      (.speed (ConditionSpeed.new (-1) 9 4000 true 7 0)) (by decide) (by decide) (by decide)
  exact ⟨by decide, by decide, rest, c', h1, h2, h3, h4, h5, h6, h7, h8 (by decide)⟩

/-- Claim C1 as stated fails for the damage class. The factory creates a poison
condition; `addDamage(3, 2000, -5)` gives it three entries and 6000 ms, and
`executeCondition(1000)` leaves 5000 ms and the three entries. The stream
factory creates the instance from the header with 0 ms, and decoding the three
entries gives 6000 ms. -/
theorem createCondition_roundtrip_counterexample :
    Condition.createCondition Enums.sample 0 1 0 0 false 0
        = some (.damage (ConditionDamage.new 0 1 false 0))
      ∧ AnyCondition.WellTyped Enums.sample
        (.damage (((ConditionDamage.new 0 1 false 0).addDamage 100 3 2000
          (-5)).2.executeCondition World.sample 1000).2.1)
      ∧ (((ConditionDamage.new 0 1 false 0).addDamage 100 3 2000
          (-5)).2.executeCondition World.sample 1000).2.1.ticks = 5000
      ∧ (Condition.createConditionStream Enums.sample
          (((AnyCondition.damage (((ConditionDamage.new 0 1 false 0).addDamage 100 3 2000
            (-5)).2.executeCondition World.sample 1000).2.1).serialize
            Enums.sample []).2.writeUInt8 (Enums.sample.attr .CONDITIONATTR_END))).1
        = some (.damage (ConditionDamage.new 0 1 false 0))
      ∧ (AnyCondition.unserialize Enums.sample 0 (.damage (ConditionDamage.new 0 1 false 0))
          (Condition.createConditionStream Enums.sample
            (((AnyCondition.damage (((ConditionDamage.new 0 1 false 0).addDamage 100 3 2000
              (-5)).2.executeCondition World.sample 1000).2.1).serialize
              Enums.sample []).2.writeUInt8 (Enums.sample.attr .CONDITIONATTR_END))).2).map
          (fun r => (r.1, r.2.1.base.ticks, r.2.2))
        = some (true, 6000, []) := by
  decide

/-! ### Reads do not lengthen the stream -/

/-- A successful byte read consumes one byte. -/
theorem readUInt8_length (s : PropStream) (b : Nat) (s' : PropStream)
    (h : s.readUInt8 = some (b, s')) : s'.length + 1 = s.length := by
  rw [readUInt8_eq_some] at h
  subst h
  rfl

/-- A successful 32-bit read does not lengthen the stream. -/
theorem readUInt32_length (s : PropStream) (v : Nat) (s' : PropStream)
    (h : s.readUInt32 = some (v, s')) : s'.length ≤ s.length := by
  rw [readUInt32_eq_some] at h
  obtain ⟨b0, b1, b2, b3, rfl, -⟩ := h
  simp only [List.length_cons]
  omega

/-- A successful signed 32-bit read does not lengthen the stream. -/
theorem readInt32_length (s : PropStream) (v : Int) (s' : PropStream)
    (h : s.readInt32 = some (v, s')) : s'.length ≤ s.length := by
  unfold PropStream.readInt32 at h
  split at h
  · exact absurd h (by simp)
  · rename_i v0 s0 h0
    simp only [Option.some.injEq, Prod.mk.injEq] at h
    rw [← h.2]
    exact readUInt32_length s v0 s0 h0

/-- A successful `float` read does not lengthen the stream. -/
theorem readFloat_length (s : PropStream) (v : Nat) (s' : PropStream)
    (h : s.readFloat = some (v, s')) : s'.length ≤ s.length :=
  readUInt32_length s v s' h

/-- A successful skip does not lengthen the stream. -/
theorem skip_length (s : PropStream) (n : Nat) (s' : PropStream)
    (h : s.skip n = some s') : s'.length ≤ s.length := by
  unfold PropStream.skip at h
  split_ifs at h
  simp only [Option.some.injEq] at h
  rw [← h]
  simp

/-- A successful raw read does not lengthen the stream. -/
theorem readBytes_length (s : PropStream) (n : Nat) (bs : List Nat) (s' : PropStream)
    (h : s.readBytes n = some (bs, s')) : s'.length ≤ s.length := by
  unfold PropStream.readBytes at h
  split_ifs at h
  simp only [Option.some.injEq, Prod.mk.injEq] at h
  rw [← h.2]
  simp

/-- A successful schedule-entry read does not lengthen the stream. -/
theorem readIntervalInfo_length (s : PropStream) (info : IntervalInfo) (s' : PropStream)
    (h : s.readIntervalInfo = some (info, s')) : s'.length ≤ s.length := by
  unfold PropStream.readIntervalInfo at h
  split_ifs at h
  split at h
  · exact absurd h (by simp)
  · rename_i v1 s1 h1
    split at h
    · exact absurd h (by simp)
    · rename_i v2 s2 h2
      split at h
      · exact absurd h (by simp)
      · rename_i v3 s3 h3
        simp only [Option.some.injEq, Prod.mk.injEq] at h
        rw [← h.2]
        have a1 := readInt32_length _ _ _ h1
        have a2 := readInt32_length _ _ _ h2
        have a3 := readInt32_length _ _ _ h3
        omega

/-- The base decoder does not lengthen the stream. -/
theorem base_unserializeProp_length (K : Enums) (c : Condition) (attr : Nat)
    (s : PropStream) : (c.unserializeProp K attr s).2.2.length ≤ s.length := by
  unfold Condition.unserializeProp
  repeat' split
  all_goals first
    | exact le_refl _
    | exact readInt32_length _ _ _ (by assumption)
    | exact readUInt32_length _ _ _ (by assumption)
    | exact Nat.le_of_lt (Nat.lt_of_succ_le (le_of_eq (readUInt8_length _ _ _ (by assumption))))

/-! ## The lifecycle of the base class -/


/-- The base `executeCondition` on an infinite condition returns true and changes nothing. -/
theorem base_executeCondition_of_infinite (c : Condition) (now interval : Int)
    (h : c.ticks = -1) : c.executeCondition now interval = (true, c) := by
  simp [Condition.executeCondition, h]

/-- Claim C13. For every condition with `ticks ≠ -1` and every interval for which
`ticks - interval` stays in the range of `int32_t` (every interval `≥ 0` when
`ticks ≥ 0`), the base `executeCondition` sets `ticks` to
`max(0, ticks - interval)`, leaves `endTime` and every other field unchanged and
returns true exactly when `endTime ≥` the current time. -/
theorem base_executeCondition_finite (c : Condition) (now interval : Int)
    (ht : c.ticks ≠ -1) (hu : -2147483648 ≤ c.ticks - interval)
    (ho : c.ticks - interval ≤ 2147483647) :
    c.executeCondition now interval
      = (decide (c.endTime ≥ now), { c with ticks := max 0 (c.ticks - interval) }) := by
  unfold Condition.executeCondition
  rw [if_neg ht, wrapInt32_of_isInt32 _ ⟨hu, ho⟩]

/-- Claim C13 at `ticks = 5000`, `interval = 1000`, current time 100 and end time 0. -/
theorem base_executeCondition_finite_witness :
    (Condition.new 0 1 5000 false 0).executeCondition 100 1000
      = (false, { Condition.new 0 1 5000 false 0 with ticks := 4000 }) :=
  base_executeCondition_finite (Condition.new 0 1 5000 false 0) 100 1000 (by decide) (by decide)
    (by decide)

/-- Claim C13 without the range condition fails: at `ticks = -2147483648` and
`interval = 1` the difference wraps and `ticks` becomes `2147483647`, not
`max(0, ticks - interval) = 0`. -/
theorem base_executeCondition_finite_counterexample :
    (Condition.new 0 1 (-2147483648) false 0).WellTyped
      ∧ (Condition.new 0 1 (-2147483648) false 0).ticks ≠ -1
      ∧ ((Condition.new 0 1 (-2147483648) false 0).executeCondition 0 1).2.ticks = 2147483647
      ∧ max 0 ((Condition.new 0 1 (-2147483648) false 0).ticks - 1) = 0 := by
  decide

/-- Claim C14. The base `startCondition` always returns true; for `ticks > 0` it
sets `endTime` to `ticks +` the current time, reduced to 64 bits (so to the
exact sum when that fits in an `int64_t`), and changes nothing else; for
`ticks ≤ 0` it changes nothing. -/
theorem base_startCondition_spec (c : Condition) (now : Int) :
    (c.startCondition now).1 = true
      ∧ (0 < c.ticks →
          (c.startCondition now).2 = { c with endTime := wrapInt64 (c.ticks + now) })
      ∧ (0 < c.ticks → IsInt64 (c.ticks + now) → (c.startCondition now).2.endTime = c.ticks + now)
      ∧ (c.ticks ≤ 0 → (c.startCondition now).2 = c) := by
  unfold Condition.startCondition
  refine ⟨rfl, ?_, ?_, ?_⟩
  · intro h; simp [h]
  · intro h h64
    simp only [gt_iff_lt, h, if_true]
    unfold IsInt64 at h64
    unfold wrapInt64
    omega
  · intro h
    have : ¬ c.ticks > 0 := by omega
    simp [this]

/-- Claim C14 at `ticks = 5000` and the current time 100: the end time becomes
5100. -/
theorem base_startCondition_spec_witness :
    (0 : Int) < 5000 ∧ IsInt64 (5000 + 100)
      ∧ ((Condition.new 0 1 5000 false 0).startCondition 100).2.endTime = 5000 + 100 :=
  ⟨by decide, by decide,
    (base_startCondition_spec (Condition.new 0 1 5000 false 0) 100).2.2.1 (by decide)
      (by decide)⟩

/-- Claim C14 as stated fails for a finite duration that is not positive: at
`ticks = 0` and the current time 100 the end time stays 0 and is not
`ticks +` the current time. -/
theorem base_startCondition_spec_counterexample :
    (Condition.new 0 1 0 false 0).ticks ≠ -1
      ∧ ((Condition.new 0 1 0 false 0).startCondition 100).2.endTime = 0
      ∧ (Condition.new 0 1 0 false 0).ticks + 100 ≠ 0 := by
  decide

/-- Claim C16. `isPersistent` returns true if and only if `ticks ≠ -1` and the
scope id is `CONDITIONID_DEFAULT` or `CONDITIONID_COMBAT`. -/
theorem isPersistent_iff (K : Enums) (c : Condition) :
    c.isPersistent K = true
      ↔ c.ticks ≠ -1 ∧ (c.id = K.CONDITIONID_DEFAULT ∨ c.id = K.CONDITIONID_COMBAT) := by
  unfold Condition.isPersistent
  by_cases h1 : c.ticks = -1
  · simp [h1]
  · by_cases h2 : c.id = K.CONDITIONID_DEFAULT <;> by_cases h3 : c.id = K.CONDITIONID_COMBAT <;>
      simp [h1, h2, h3]

/-- Claim C17. The default `updateCondition` accepts if and only if the two
types are equal, it is not the case that this instance is infinite while the
incoming one has positive ticks, and the incoming ticks are negative or this
instance's `endTime` is not later than the incoming instance's computed expiry
(current time + incoming ticks, in 64 bits). -/
theorem base_updateCondition_iff (c : Condition) (now : Int) (a : Condition) :
    c.updateCondition now a = true
      ↔ c.conditionType = a.conditionType ∧ ¬ (c.ticks = -1 ∧ 0 < a.ticks)
        ∧ (a.ticks < 0 ∨ c.endTime ≤ wrapInt64 (now + a.ticks)) := by
  unfold Condition.updateCondition
  split_ifs with h1 h2 h3
  · constructor
    · intro h; cases h
    · rintro ⟨h, -⟩; exact absurd h h1
  · constructor
    · intro h; cases h
    · rintro ⟨-, h, -⟩; exact absurd ⟨h2.1, h2.2⟩ h
  · constructor
    · intro h; cases h
    · rintro ⟨-, -, h⟩
      rcases h with h | h
      · omega
      · omega
  · refine ⟨fun _ => ⟨not_not.mp h1, fun h => h2 ⟨h.1, h.2⟩, ?_⟩, fun _ => rfl⟩
    by_cases h4 : a.ticks < 0
    · exact Or.inl h4
    · right
      by_contra h5
      exact h3 ⟨by omega, by omega⟩

/-- Claim C17 as stated fails: an incoming instance whose computed expiry equals
this instance's `endTime` is accepted although the expiry is not strictly later,
and an incoming instance with negative ticks is accepted although its computed
expiry is earlier. -/
theorem base_updateCondition_iff_counterexample :
    (({ Condition.new 0 1 500 false 0 with endTime := 1100 } : Condition).updateCondition 100
        (Condition.new 0 1 1000 false 0) = true
      ∧ ¬ (wrapInt64 (100 + (Condition.new 0 1 1000 false 0).ticks)
        > ({ Condition.new 0 1 500 false 0 with endTime := 1100 } : Condition).endTime))
    ∧ (({ Condition.new 0 1 500 false 0 with endTime := 1100 } : Condition).updateCondition 100
        (Condition.new 0 1 (-1) false 0) = true
      ∧ ¬ (wrapInt64 (100 + (Condition.new 0 1 (-1) false 0).ticks)
        > ({ Condition.new 0 1 500 false 0 with endTime := 1100 } : Condition).endTime)) := by
  decide

/-! ## Parameter setters -/

/-- The base `setParam` changes nothing when it returns false. -/
theorem base_setParam_false (c : Condition) (param : ConditionParam_t) (value : Int)
    (h : (c.setParam param value).1 = false) : (c.setParam param value).2 = c := by
  unfold Condition.setParam at h ⊢
  cases param <;> first | rfl | exact absurd h (by simp)

/-- For the eight classes other than damage, speed and light, `setParam` changes no field when
it returns false. -/
theorem setParam_false_unchanged (K : Enums) (c : AnyCondition) (param : ConditionParam_t)
    (value : Int) (hd : c.variant ≠ .Damage) (hs : c.variant ≠ .Speed) (hl : c.variant ≠ .Light)
    (h : (c.setParam K param value).1 = false) : (c.setParam K param value).2 = c := by
  cases c with
  | generic c => simp only [AnyCondition.setParam] at h ⊢; rw [base_setParam_false c _ _ h]
  | invisible c => simp only [AnyCondition.setParam] at h ⊢; rw [base_setParam_false c _ _ h]
  | spellCooldown c => simp only [AnyCondition.setParam] at h ⊢; rw [base_setParam_false c _ _ h]
  | spellGroupCooldown c =>
    simp only [AnyCondition.setParam] at h ⊢; rw [base_setParam_false c _ _ h]
  | outfit c =>
    simp only [AnyCondition.setParam] at h ⊢; rw [base_setParam_false c.toCondition _ _ h]
  | attributes c =>
    simp only [AnyCondition.setParam] at h ⊢
    cases param <;> first
      | rfl
      | (simp [ConditionAttributes.setParam, Condition.setParam] at h)
  | regeneration c =>
    simp only [AnyCondition.setParam] at h ⊢
    cases param <;> first
      | rfl
      | (simp [ConditionRegeneration.setParam, Condition.setParam] at h)
  | soul c =>
    simp only [AnyCondition.setParam] at h ⊢
    cases param <;> first
      | rfl
      | (simp [ConditionSoul.setParam, Condition.setParam] at h)
  | damage c => exact absurd rfl hd
  | speed c => exact absurd rfl hs
  | light c => exact absurd rfl hl

/-- Claim C18 at its failing inputs: `setParam` of the speed, damage and light
classes returns false although the call has changed a field — the duration
through the base setter (all three), and `maxDamage` for the damage class. -/
theorem setParam_false_after_change :
    ((AnyCondition.speed (ConditionSpeed.new 0 10 1000 false 0 40)).setParam Enums.sample
        .CONDITION_PARAM_TICKS 5000
      = (false, .speed { ConditionSpeed.new 0 10 1000 false 0 40 with ticks := 5000 }))
    ∧ ((AnyCondition.damage (ConditionDamage.new 0 1 false 0)).setParam Enums.sample
        .CONDITION_PARAM_MAXVALUE 10
      = (false, .damage { ConditionDamage.new 0 1 false 0 with maxDamage := 10 }))
    ∧ ((AnyCondition.damage (ConditionDamage.new 0 1 false 0)).setParam Enums.sample
        .CONDITION_PARAM_TICKS 5000
      = (false, .damage { ConditionDamage.new 0 1 false 0 with ticks := 5000 }))
    ∧ ((AnyCondition.light (ConditionLight.new 0 13 1000 false 0 5 215)).setParam Enums.sample
        .CONDITION_PARAM_TICKS 5000
      = (false, .light { ConditionLight.new 0 13 1000 false 0 5 215 with ticks := 5000 })) := by
  decide

/-- Claim C19. `ConditionLight::setParam` returns true exactly for the
light-level and light-colour options, for which it stores the low 8 bits of the
value in `level` or `color`; for the base options ticks, buff flag and
secondary id it returns false after the base setter has applied them; for every
other option it returns false and changes nothing. -/
theorem light_setParam_spec (c : ConditionLight) (param : ConditionParam_t) (value : Int) :
    ((c.setParam param value).1 = true
        ↔ param = .CONDITION_PARAM_LIGHT_LEVEL ∨ param = .CONDITION_PARAM_LIGHT_COLOR)
      ∧ (param = .CONDITION_PARAM_LIGHT_LEVEL → (c.setParam param value).2
          = { c with lightInfo := { c.lightInfo with level := (value % 256).toNat } })
      ∧ (param = .CONDITION_PARAM_LIGHT_COLOR → (c.setParam param value).2
          = { c with lightInfo := { c.lightInfo with color := (value % 256).toNat } })
      ∧ (param = .CONDITION_PARAM_TICKS →
          c.setParam param value = (false, { c with ticks := value }))
      ∧ (param = .CONDITION_PARAM_BUFF_SPELL →
          c.setParam param value = (false, { c with isBuff := decide (value ≠ 0) }))
      ∧ (param = .CONDITION_PARAM_SUBID →
          c.setParam param value = (false, { c with subId := toUInt32 value }))
      ∧ (param ≠ .CONDITION_PARAM_LIGHT_LEVEL → param ≠ .CONDITION_PARAM_LIGHT_COLOR →
          param ≠ .CONDITION_PARAM_TICKS → param ≠ .CONDITION_PARAM_BUFF_SPELL →
          param ≠ .CONDITION_PARAM_SUBID → c.setParam param value = (false, c)) := by
  cases param <;>
    simp [ConditionLight.setParam, Condition.setParam, toUInt8]

/-- What `ConditionAttributes::setParam` stores for a negative percent value: a
stat-percent option stores 0 in the percent slot of its stat; every
skill-percent option, the melee one included, stores the negative value itself
in the percent slots of its skills. -/
theorem attributes_setParam_percent (K : Enums) (c : ConditionAttributes) (value : Int)
    (hneg : value < 0) :
    (∀ s : stats_t, c.setParam K (statPercentParam s) value
        = (true, { c with statsPercent := c.statsPercent.set (K.stat s) 0 }))
      ∧ (∀ s : skills_t, c.setParam K (skillPercentParam s) value
        = (true, { c with skillsPercent := c.skillsPercent.set (K.skill s) value }))
      ∧ c.setParam K .CONDITION_PARAM_SKILL_MELEEPERCENT value
        = (true, { c with skillsPercent := ((c.skillsPercent.set (K.skill .SKILL_CLUB) value).set
            (K.skill .SKILL_AXE) value).set (K.skill .SKILL_SWORD) value }) := by
  have hmax : max 0 value = 0 := max_eq_left (by omega)
  refine ⟨fun s => ?_, fun s => ?_, rfl⟩
  · cases s <;> simp [statPercentParam, ConditionAttributes.setParam, Condition.setParam, hmax]
  · cases s <;> rfl

/-- Claim C20 at its failing input: on a fresh attributes condition the
fist-percent option with the value `-50` stores `-50` in the percent slot of
the fist skill, not 0, while the max-hit-points percent option with the same
value stores 0 in the percent slot of that stat, on a condition whose slot
held 120. -/
theorem attributes_setParam_skillPercent_negative :
    ((ConditionAttributes.new Enums.sample 0 16 1000 false 0).setParam Enums.sample
        .CONDITION_PARAM_SKILL_FISTPERCENT (-50)).2.skillsPercent
        = [-50, 0, 0, 0, 0, 0, 0]
      ∧ (({ ConditionAttributes.new Enums.sample 0 16 1000 false 0 with
          statsPercent := [120, 0, 0, 0] } : ConditionAttributes).setParam Enums.sample
            .CONDITION_PARAM_STAT_MAXHITPOINTSPERCENT (-50)).2.statsPercent
        = [0, 0, 0, 0] := by
  decide

/-! ## The infinite duration under `executeCondition` -/

/-- The regeneration step leaves the base-class part alone. -/
theorem regeneration_regenerate_base (c : ConditionRegeneration) (w : World) (interval : Int) :
    (ConditionRegeneration.executeCondition.regenerate c w interval).1.toCondition
      = c.toCondition := by
  unfold ConditionRegeneration.executeCondition.regenerate
  simp only
  split_ifs <;> rfl

/-- The soul step leaves the base-class part alone. -/
theorem soul_regenerate_base (c : ConditionSoul) (w : World) (interval : Int) :
    (ConditionSoul.executeCondition.regenerate c w interval).1.toCondition = c.toCondition := by
  unfold ConditionSoul.executeCondition.regenerate
  simp only
  split_ifs <;> rfl

/-- The light decay step leaves the base-class part alone. -/
theorem light_decay_base (c : ConditionLight) (w : World) (interval : Int) :
    (ConditionLight.executeCondition.decay c w interval).1.toCondition = c.toCondition := by
  unfold ConditionLight.executeCondition.decay
  simp only
  split_ifs <;> rfl

/-- The damage tick leaves every base-class field other than `endTime` alone, and `endTime` too
unless `ticks` is positive. -/
theorem damage_tick_base (c : ConditionDamage) (w : World) (interval : Int) :
    (ConditionDamage.executeCondition.tick c w interval).1.toCondition = c.toCondition
      ∨ (0 < c.ticks ∧ (ConditionDamage.executeCondition.tick c w interval).1.toCondition
          = { c.toCondition with endTime := wrapInt64 (c.endTime + interval) }) := by
  unfold ConditionDamage.executeCondition.tick
  by_cases h1 : c.periodDamage ≠ 0
  · rw [if_pos h1]
    simp only
    split_ifs <;> exact Or.inl rfl
  · rw [if_neg h1]
    cases hl : c.damageList with
    | nil => exact Or.inl rfl
    | cons d rest =>
      simp only
      split_ifs <;> first | exact Or.inl rfl | (right; exact ⟨by assumption, rfl⟩)

/-- What `executeCondition` of any class does to the base-class part: it runs the base method,
for some interval, on a base-class part that differs from the one before the call at most in
`endTime`, and only when `ticks` is positive. -/
theorem executeCondition_base (c : AnyCondition) (w : World) (interval : Int) :
    ∃ b i, ((c.executeCondition w interval).1, (c.executeCondition w interval).2.1.base)
        = b.executeCondition w.now i
      ∧ (b = c.base ∨ (0 < c.base.ticks ∧ ∃ e, b = { c.base with endTime := e })) := by
  cases c with
  | generic c => exact ⟨c, interval, rfl, Or.inl rfl⟩
  | invisible c => exact ⟨c, interval, rfl, Or.inl rfl⟩
  | spellCooldown c => exact ⟨c, interval, rfl, Or.inl rfl⟩
  | spellGroupCooldown c => exact ⟨c, interval, rfl, Or.inl rfl⟩
  | attributes c => exact ⟨c.toCondition, interval, rfl, Or.inl rfl⟩
  | speed c => exact ⟨c.toCondition, interval, rfl, Or.inl rfl⟩
  | outfit c => exact ⟨c.toCondition, interval, rfl, Or.inl rfl⟩
  | regeneration c =>
    exact ⟨_, interval, rfl, Or.inl (regeneration_regenerate_base c w interval)⟩
  | soul c => exact ⟨_, interval, rfl, Or.inl (soul_regenerate_base c w interval)⟩
  | light c => exact ⟨_, interval, rfl, Or.inl (light_decay_base c w interval)⟩
  | damage c =>
    refine ⟨_, _, rfl, ?_⟩
    rcases damage_tick_base c w interval with h | ⟨h1, h2⟩
    · exact Or.inl h
    · exact Or.inr ⟨h1, _, h2⟩

/-- Claim C11. For every class, every answer of the world and every elapsed
interval, if `ticks = -1` then `executeCondition` returns true and `ticks` is
still `-1` afterwards. -/
theorem executeCondition_infinite (c : AnyCondition) (w : World) (interval : Int)
    (h : c.base.ticks = -1) :
    (c.executeCondition w interval).1 = true
      ∧ (c.executeCondition w interval).2.1.base.ticks = -1 := by
  obtain ⟨b, i, hb, hc⟩ := executeCondition_base c w interval
  have hbt : b.ticks = -1 := by
    rcases hc with hc | ⟨hpos, -⟩
    · rw [hc]; exact h
    · omega
  rw [base_executeCondition_of_infinite b w.now i hbt] at hb
  have h1 := congrArg Prod.fst hb
  have h2 := congrArg Prod.snd hb
  simp only at h1 h2
  exact ⟨h1, by rw [h2]; exact hbt⟩

/-- Claim C11 at an infinite damage condition with one schedule entry that falls
due: the call deals the damage, returns true and leaves `ticks` at `-1`. -/
theorem executeCondition_infinite_witness :
    (AnyCondition.damage { ConditionDamage.new 0 1 false 0 with
        ticks := -1, damageList := [{ timeLeft := 1000, value := -5, interval := 2000 }] }).base.ticks
        = -1
      ∧ ((AnyCondition.damage { ConditionDamage.new 0 1 false 0 with
          ticks := -1
          damageList := [{ timeLeft := 1000, value := -5, interval := 2000 }] }).executeCondition
            World.sample 1000).1 = true
      ∧ ((AnyCondition.damage { ConditionDamage.new 0 1 false 0 with
          ticks := -1
          damageList := [{ timeLeft := 1000, value := -5, interval := 2000 }] }).executeCondition
            World.sample 1000).2.1.base.ticks = -1 :=
  ⟨rfl, executeCondition_infinite _ World.sample 1000 rfl⟩

/-! ## The veto of the damage class -/

/-- Claim C15. For every damage condition with `periodDamage = 0`, an empty
schedule and `minDamage = maxDamage = 0`, `startCondition` returns false, leaves
the schedule empty and makes no call into the world, so no damage is dealt. -/
theorem damage_startCondition_veto (c : ConditionDamage) (w : World)
    (hp : c.periodDamage = 0) (hl : c.damageList = []) (hmin : c.minDamage = 0)
    (hmax : c.maxDamage = 0) :
    ∃ c', c.startCondition w = some (false, c', []) ∧ c'.damageList = [] := by
  have hinit : ∀ b : Condition, ({ c with toCondition := b } : ConditionDamage).init w.now w.seed
      w.fuel = some (false, { c with toCondition := b.setTicks w.now 0 }) := by
    intro b
    unfold ConditionDamage.init
    simp [hp, hl, hmin, hmax, uniform_random_self]
  unfold ConditionDamage.startCondition Condition.startCondition
  simp only [hinit]
  exact ⟨_, rfl, hl⟩

/-- Claim C15 at a freshly constructed damage condition. -/
theorem damage_startCondition_veto_witness :
    ∃ c', (ConditionDamage.new 0 1 false 0).startCondition World.sample = some (false, c', [])
      ∧ c'.damageList = [] :=
  damage_startCondition_veto (ConditionDamage.new 0 1 false 0) World.sample rfl rfl rfl rfl

/-! ## The invariant of the infinite duration -/

/-- The non-virtual `getNextDamage` keeps the base-class part. -/
theorem getNextDamage_base (c : ConditionDamage) :
    c.getNextDamage.2.2.toCondition = c.toCondition := by
  unfold ConditionDamage.getNextDamage
  split_ifs <;> first | rfl | (cases c.damageList <;> rfl)

/-- The rounds of `addDamage` add their times to a non-negative duration as long as the sum fits
in an `int32_t`. -/
theorem addDamage_round_iterate (now time value : Int) (ht : 0 ≤ time) :
    ∀ (n : Nat) (c : ConditionDamage), 0 ≤ c.ticks → c.ticks + (n : Int) * time ≤ 2147483647 →
      ((ConditionDamage.addDamage.round now time value)^[n] c).ticks
        = c.ticks + (n : Int) * time := by
  intro n
  induction n with
  | zero => intro c _ _; simp
  | succ n ih =>
    intro c h0 hb
    have hn : (0 : Int) ≤ (n : Int) * time := mul_nonneg (Int.ofNat_nonneg _) ht
    have hstep : (ConditionDamage.addDamage.round now time value c).ticks = c.ticks + time := by
      unfold ConditionDamage.addDamage.round
      have hne : c.ticks ≠ -1 := by omega
      simp only [ne_eq, hne, not_false_eq_true, if_true, Condition.setTicks]
      apply wrapInt32_of_isInt32
      unfold IsInt32
      push_cast at hb
      constructor <;> nlinarith
    rw [Function.iterate_succ_apply, ih _ (by rw [hstep]; omega)
      (by rw [hstep]; push_cast at hb; nlinarith), hstep]
    push_cast
    ring

/-- The function `abs32` is the absolute value except at the least 32-bit value. -/
theorem abs32_eq_abs (v : Int) (hv : IsInt32 v) (hmin : v ≠ -2147483648) : abs32 v = |v| := by
  unfold IsInt32 at hv
  unfold abs32 wrapInt32
  rcases abs_cases v with ⟨h, _⟩ | ⟨h, _⟩ <;> rw [h] <;> omega

/-- Claim C21 (amended). For every 32-bit value `v` other than `-2147483648`,
`ConditionDamage::setParam` with the max-value, min-value, start-value or
tick-interval option stores the absolute value of `v`, so the stored
`maxDamage`, `minDamage`, `startDamage` or `tickInterval` is not negative. -/
theorem damage_setParam_abs (c : ConditionDamage) (v : Int) (hv : IsInt32 v)
    (hmin : v ≠ -2147483648) :
    ((c.setParam .CONDITION_PARAM_MAXVALUE v).2.maxDamage = |v|
      ∧ (c.setParam .CONDITION_PARAM_MINVALUE v).2.minDamage = |v|
      ∧ (c.setParam .CONDITION_PARAM_STARTVALUE v).2.startDamage = |v|
      ∧ (c.setParam .CONDITION_PARAM_TICKINTERVAL v).2.tickInterval = |v|)
    ∧ 0 ≤ (c.setParam .CONDITION_PARAM_MAXVALUE v).2.maxDamage
    ∧ 0 ≤ (c.setParam .CONDITION_PARAM_MINVALUE v).2.minDamage
    ∧ 0 ≤ (c.setParam .CONDITION_PARAM_STARTVALUE v).2.startDamage
    ∧ 0 ≤ (c.setParam .CONDITION_PARAM_TICKINTERVAL v).2.tickInterval := by
  have h := abs32_eq_abs v hv hmin
  have e1 : (c.setParam .CONDITION_PARAM_MAXVALUE v).2.maxDamage = abs32 v := rfl
  have e2 : (c.setParam .CONDITION_PARAM_MINVALUE v).2.minDamage = abs32 v := rfl
  have e3 : (c.setParam .CONDITION_PARAM_STARTVALUE v).2.startDamage = abs32 v := rfl
  have e4 : (c.setParam .CONDITION_PARAM_TICKINTERVAL v).2.tickInterval = abs32 v := rfl
  rw [e1, e2, e3, e4, h]
  exact ⟨⟨rfl, rfl, rfl, rfl⟩, abs_nonneg v, abs_nonneg v, abs_nonneg v, abs_nonneg v⟩

/-- Claim C21 at `v = -7`: each of the four options stores `7`. -/
theorem damage_setParam_abs_witness :
    IsInt32 (-7) ∧ (-7 : Int) ≠ -2147483648
      ∧ ((ConditionDamage.new 0 1 false 0).setParam .CONDITION_PARAM_MAXVALUE (-7)).2.maxDamage
          = |(-7 : Int)| :=
  ⟨by decide, by decide,
    (damage_setParam_abs (ConditionDamage.new 0 1 false 0) (-7) (by decide) (by decide)).1.1⟩

/-- Claim C21 as stated fails at the least 32-bit value: the absolute value of
`-2147483648` is not a value of `int32_t`, and each of the four options stores
`-2147483648`, which is negative. -/
theorem damage_setParam_abs_counterexample :
    IsInt32 (-2147483648)
      ∧ ((ConditionDamage.new 0 1 false 0).setParam .CONDITION_PARAM_MAXVALUE
          (-2147483648)).2.maxDamage = -2147483648
      ∧ ((ConditionDamage.new 0 1 false 0).setParam .CONDITION_PARAM_MINVALUE
          (-2147483648)).2.minDamage = -2147483648
      ∧ ((ConditionDamage.new 0 1 false 0).setParam .CONDITION_PARAM_STARTVALUE
          (-2147483648)).2.startDamage = -2147483648
      ∧ ((ConditionDamage.new 0 1 false 0).setParam .CONDITION_PARAM_TICKINTERVAL
          (-2147483648)).2.tickInterval = -2147483648 := by
  decide

/-- Claim C29. For every damage condition with `periodDamage = 0` and a
non-empty schedule, `executeCondition` subtracts the interval from the head
entry's `timeLeft` (in `int32_t`) and, with `remove` the flag that is
initialised to `ticks ≠ -1` and comes back from the entity's per-tick hook: if
`timeLeft` is still positive the schedule is otherwise unchanged and `doDamage`
is not called; if `timeLeft ≤ 0` and `remove` holds, the head entry is removed and
`doDamage` is called with its value; if `timeLeft ≤ 0` and `remove` does not hold,
the head's `timeLeft` is reset to its interval, the rest of the schedule is
unchanged and `doDamage` is called with the head's value.  When `remove` does not
hold the call does not decrement `ticks`. -/
theorem damage_executeCondition_scheduled (c : ConditionDamage) (w : World) (interval : Int)
    (head : IntervalInfo) (rest : List IntervalInfo)
    (hp : c.periodDamage = 0) (hl : c.damageList = head :: rest) (hticks : IsInt32 c.ticks) :
    (0 < wrapInt32 (head.timeLeft - interval) →
        (c.executeCondition w interval).2.1.damageList
            = { head with timeLeft := wrapInt32 (head.timeLeft - interval) } :: rest
          ∧ (c.executeCondition w interval).2.2
            = [.onTickCondition c.conditionType (decide (c.ticks ≠ -1))])
    ∧ (wrapInt32 (head.timeLeft - interval) ≤ 0 →
        w.onTickCondition c.conditionType (decide (c.ticks ≠ -1)) = true →
        (c.executeCondition w interval).2.1.damageList = rest
          ∧ (c.executeCondition w interval).2.2
            = .onTickCondition c.conditionType (decide (c.ticks ≠ -1))
                :: (c.doDamage w head.value).2)
    ∧ (wrapInt32 (head.timeLeft - interval) ≤ 0 →
        w.onTickCondition c.conditionType (decide (c.ticks ≠ -1)) = false →
        (c.executeCondition w interval).2.1.damageList
            = { head with timeLeft := head.interval } :: rest
          ∧ (c.executeCondition w interval).2.2
            = .onTickCondition c.conditionType (decide (c.ticks ≠ -1))
                :: (c.doDamage w head.value).2)
    ∧ (w.onTickCondition c.conditionType (decide (c.ticks ≠ -1)) = false →
        c.ticks ≤ (c.executeCondition w interval).2.1.ticks
          ∧ (-1 ≤ c.ticks → (c.executeCondition w interval).2.1.ticks = c.ticks)) := by
  have hp' : ¬ c.periodDamage ≠ 0 := by simp [hp]
  unfold ConditionDamage.executeCondition ConditionDamage.executeCondition.tick
  rw [if_neg hp', hl]
  simp only []
  generalize w.onTickCondition c.conditionType (decide (c.ticks ≠ -1)) = remove
  generalize wrapInt32 (head.timeLeft - interval) = t
  refine ⟨?_, ?_, ?_, ?_⟩
  · intro ht
    have ht' : ¬ t ≤ 0 := by omega
    rw [if_neg ht', if_neg ht']
    cases remove
    · simp only [Bool.not_false, if_true]
      refine ⟨?_, rfl⟩
      split_ifs <;> rfl
    · exact ⟨rfl, rfl⟩
  · intro ht hr
    subst hr
    rw [if_pos ht, if_pos ht]
    exact ⟨rfl, rfl⟩
  · intro ht hr
    subst hr
    rw [if_pos ht, if_pos ht]
    simp only [Bool.not_false, if_true]
    refine ⟨?_, rfl⟩
    split_ifs <;> first | rfl | contradiction
  · intro hr
    subst hr
    simp only [Bool.not_false, if_true]
    have key : ∀ d : ConditionDamage, d.ticks = c.ticks →
        c.ticks ≤ ((if d.ticks > 0 then { d with endTime := wrapInt64 (d.endTime + interval) }
            else d).toCondition.executeCondition w.now 0).2.ticks
          ∧ (-1 ≤ c.ticks →
            ((if d.ticks > 0 then { d with endTime := wrapInt64 (d.endTime + interval) }
              else d).toCondition.executeCondition w.now 0).2.ticks = c.ticks) := by
      intro d hd
      have e : (if d.ticks > 0 then { d with endTime := wrapInt64 (d.endTime + interval) }
          else d).toCondition.ticks = c.ticks := by
        split_ifs <;> exact hd
      generalize (if d.ticks > 0 then { d with endTime := wrapInt64 (d.endTime + interval) }
          else d).toCondition = b at e
      unfold Condition.executeCondition
      split_ifs with h1
      · exact ⟨by rw [← e], fun _ => e⟩
      · simp only [sub_zero]
        rw [e, wrapInt32_of_isInt32 _ hticks]
        rw [e] at h1
        have := le_max_left 0 c.ticks
        have := le_max_right 0 c.ticks
        refine ⟨by omega, fun h => ?_⟩
        rw [max_eq_right (by omega)]
    apply key
    split_ifs <;> rfl

/-- Claim C29 at an active condition whose head entry has 500 ms left, with an
interval of 1000 ms and a hook that leaves the flag alone: the entry is removed
and its value `-5` is dealt. -/
theorem damage_executeCondition_scheduled_witness :
    ((ConditionDamage.sampleActive false).executeCondition World.sample 1000).2.1.damageList = []
      ∧ ((ConditionDamage.sampleActive false).executeCondition World.sample 1000).2.2
        = [.onTickCondition 1 true, .combatChangeHealth (-5)] :=
  (damage_executeCondition_scheduled (ConditionDamage.sampleActive false) World.sample 1000
    { timeLeft := 500, value := -5, interval := 2000 } [] rfl rfl (by decide)).2.1
    (by decide) rfl

/-! ## The remaining time of the head entry across a merge -/

/-- The `addDamage(1, …)` calls of `init` leave `delayed` and `periodDamage` as they are. -/
theorem init_foldl_delayed (now : Int) :
    ∀ (vals : List Int) (c : ConditionDamage),
      (vals.foldl (fun c value => (c.addDamage now 1 c.tickInterval (wrapInt32 (-value))).2)
          c).delayed = c.delayed
        ∧ (vals.foldl (fun c value => (c.addDamage now 1 c.tickInterval (wrapInt32 (-value))).2)
          c).periodDamage = c.periodDamage := by
  intro vals
  induction vals with
  | nil => intro c; exact ⟨rfl, rfl⟩
  | cons v vs ih =>
    intro c
    simp only [List.foldl_cons]
    have h : (c.addDamage now 1 c.tickInterval (wrapInt32 (-v))).2.delayed = c.delayed
        ∧ (c.addDamage now 1 c.tickInterval (wrapInt32 (-v))).2.periodDamage = c.periodDamage := by
      unfold ConditionDamage.addDamage
      rw [if_neg (by decide)]
      split_ifs
      · exact ⟨rfl, rfl⟩
      · have e : (1 : Int).toNat = 1 := rfl
        simp only [e, Function.iterate_one]
        unfold ConditionDamage.addDamage.round
        simp only []
        split_ifs <;> exact ⟨rfl, rfl⟩
    rw [(ih _).1, (ih _).2]
    exact h

/-- The method `init` leaves `delayed` and `periodDamage` as they are. -/
theorem init_delayed (c c' : ConditionDamage) (now : Int) (seed fuel : Nat) (r : Bool)
    (h : c.init now seed fuel = some (r, c')) :
    c'.delayed = c.delayed ∧ c'.periodDamage = c.periodDamage := by
  unfold ConditionDamage.init at h
  by_cases hp : c.periodDamage ≠ 0
  · rw [if_pos hp] at h; cases h; exact ⟨rfl, rfl⟩
  · rw [if_neg hp] at h
    by_cases hl : c.damageList.isEmpty = true
    · rw [if_pos hl] at h
      simp only at h
      by_cases ha : uniform_random seed c.minDamage c.maxDamage ≠ 0
      · rw [if_pos ha] at h
        split at h
        · cases h
        · simp only [Option.some.injEq, Prod.mk.injEq] at h
          rw [← h.2, (init_foldl_delayed now _ _).1, (init_foldl_delayed now _ _).2]
          split_ifs <;> exact ⟨rfl, rfl⟩
      · rw [if_neg ha] at h; cases h; exact ⟨rfl, rfl⟩
    · rw [if_neg hl] at h; cases h; exact ⟨rfl, rfl⟩

/-- The method `init` leaves a non-empty schedule as it is. -/
theorem init_of_ne_nil (c : ConditionDamage) (now : Int) (seed fuel : Nat)
    (x : IntervalInfo) (xs : List IntervalInfo)
    (h : c.damageList = x :: xs) : c.init now seed fuel = some (true, c) := by
  unfold ConditionDamage.init
  split_ifs with h1 h2
  · rfl
  · simp [h] at h2
  · simp [h]

/-- When `init` returns false the schedule is empty. -/
theorem init_false (c c' : ConditionDamage) (now : Int) (seed fuel : Nat)
    (h : c.init now seed fuel = some (false, c')) : c'.damageList = [] := by
  unfold ConditionDamage.init at h
  by_cases hp : c.periodDamage ≠ 0
  · rw [if_pos hp] at h; cases h
  · rw [if_neg hp] at h
    have key : ∀ (b : Bool) (d : ConditionDamage), some (b, d) = some (false, c') →
        b = !d.damageList.isEmpty → c'.damageList = [] := by
      intro b d hd hb
      simp only [Option.some.injEq, Prod.mk.injEq] at hd
      rw [← hd.2]
      rw [hd.1] at hb
      apply List.isEmpty_iff.mp
      simpa using hb.symm
    by_cases hl : c.damageList.isEmpty = true
    · rw [if_pos hl] at h
      simp only at h
      by_cases ha : uniform_random seed c.minDamage c.maxDamage ≠ 0
      · rw [if_pos ha] at h
        split at h
        · cases h
        · exact key _ _ h rfl
      · rw [if_neg ha] at h; exact key _ _ h rfl
    · rw [if_neg hl] at h; exact key _ _ h rfl

/-- Claim C25 (amended). For every accepted damage merge in which the active
schedule was non-empty: if the active condition is delayed, or the merged
condition is infinite (`ticks = -1`) or periodic, the head entry of a non-empty
resulting schedule has the `timeLeft` that the previous head entry had before
the merge.  If the active condition is not delayed and the merged one is finite
and not periodic, `init` returns the new schedule, which is the incoming one
when that is not empty and the one that `init` generates otherwise;
`getNextDamage` removes its first entry, which carries the preserved
`timeLeft`, the value of that entry is dealt at once and the resulting schedule
is the rest of the new schedule; when the new schedule is empty so is the
resulting one and nothing is dealt. -/
theorem damage_addCondition_timeLeft (c a : ConditionDamage) (now : Int) (seed fuel : Nat)
    (head : IntervalInfo) (rest : List IntervalInfo) (c' : ConditionDamage) (dealt : List Int)
    (htype : a.conditionType = c.conditionType) (hacc : c.updateCondition a = true)
    (hold : c.damageList = head :: rest)
    (hres : c.addCondition now seed fuel a = some (c', dealt)) :
    (c.delayed = true ∨ c'.ticks = -1 ∨ a.periodDamage ≠ 0 →
      ∀ head' rest', c'.damageList = head' :: rest' → head'.timeLeft = head.timeLeft)
    ∧ (c.delayed = false → c'.ticks ≠ -1 → a.periodDamage = 0 →
      ∃ r c1, (ConditionDamage.addCondition.merged c now a).init now seed fuel = some (r, c1)
        ∧ (a.damageList ≠ [] → c1.damageList = a.damageList)
        ∧ (c1.damageList = [] → c'.damageList = [] ∧ dealt = [])
        ∧ ∀ first more, c1.damageList = first :: more →
            c'.damageList = more ∧ dealt = [first.value]) := by
  unfold ConditionDamage.addCondition at hres
  rw [if_neg (by simp [htype]), if_neg (by simp [hacc])] at hres
  simp only [hold] at hres
  have hkeep : ∀ c1 : ConditionDamage, a.damageList ≠ [] → ∀ r,
      (ConditionDamage.addCondition.merged c now a).init now seed fuel = some (r, c1) →
      c1.damageList = a.damageList := by
    intro c1 hne r hinit
    obtain ⟨first, more, hl⟩ : ∃ first more, a.damageList = first :: more := by
      cases hlist : a.damageList with
      | nil => exact absurd hlist hne
      | cons first more => exact ⟨first, more, rfl⟩
    have e := hinit.symm.trans
      (init_of_ne_nil (ConditionDamage.addCondition.merged c now a) now seed fuel first more hl)
    simp only [Option.some.injEq, Prod.mk.injEq] at e
    rw [e.2]
    rfl
  split at hres
  · cases hres
  · -- `init` returned false
    rename_i c1 hinit
    simp only [Option.some.injEq, Prod.mk.injEq] at hres
    obtain ⟨rfl, rfl⟩ := hres
    have hnil := init_false _ _ _ _ _ hinit
    constructor
    · intro _ head' rest' hl
      rw [hnil] at hl; cases hl
    · intro _ _ hp
      exact ⟨false, c1, hinit, fun hne => hkeep c1 hne false hinit, fun _ => ⟨hnil, rfl⟩,
        fun first more hl => by rw [hnil] at hl; cases hl⟩
  · rename_i c1 hinit
    obtain ⟨hdel, hper⟩ := init_delayed _ _ _ _ _ _ hinit
    simp only at hdel hper
    constructor
    · intro hkeep head' rest' hl
      have key : ∀ c2 : ConditionDamage, c2.delayed = c.delayed →
          c2.periodDamage = a.periodDamage →
          (∀ y ys, c2.damageList = y :: ys → y.timeLeft = head.timeLeft) →
          (if (!c2.delayed) = true then
            match c2.getNextDamage with
            | (true, damage, c) => some (c, [damage])
            | (false, _, c) => some (c, [])
          else some (c2, [])) = some (c', dealt) →
          head'.timeLeft = head.timeLeft := by
        intro c2 h1 h2 h3 h4
        have hc2 : c' = c2 → head'.timeLeft = head.timeLeft := by
          intro e; subst e; exact h3 _ _ hl
        by_cases hd : c2.delayed = true
        · rw [if_neg (by simp [hd])] at h4
          simp only [Option.some.injEq, Prod.mk.injEq] at h4
          exact hc2 h4.1.symm
        · rw [if_pos (by simpa using hd)] at h4
          have hg : c' = c2.getNextDamage.2.2 := by
            rcases hgd : c2.getNextDamage with ⟨b, dmg, c3⟩
            rw [hgd] at h4
            cases b <;> simp only [Option.some.injEq, Prod.mk.injEq] at h4 <;> exact h4.1.symm
          have hbase := getNextDamage_base c2
          rw [← hg] at hbase
          have hstay : c2.periodDamage ≠ 0 ∨ c2.ticks = -1 → c2.getNextDamage.2.2 = c2 := by
            intro h
            unfold ConditionDamage.getNextDamage
            rcases h with h | h
            · rw [if_pos h]
            · by_cases hp0 : c2.periodDamage ≠ 0
              · rw [if_pos hp0]
              · rw [if_neg hp0]
                cases c2.damageList with
                | nil => rfl
                | cons y ys => simp only [h, ne_eq, not_true_eq_false, if_false]
          apply hc2
          rw [hg]
          apply hstay
          rcases hkeep with h | h | h
          · rw [h1] at hd; exact absurd h hd
          · right
            have : c'.ticks = c2.ticks := congrArg Condition.ticks hbase
            rw [← this]; exact h
          · left; rw [h2]; exact h
      cases hc1 : c1.damageList with
      | nil =>
        simp only [hc1] at hres
        exact key c1 hdel hper (fun y ys h => by rw [hc1] at h; cases h) hres
      | cons x xs =>
        simp only [hc1] at hres
        exact key { c1 with damageList := { x with timeLeft := head.timeLeft } :: xs } hdel hper
          (fun y ys h => by cases h; rfl) hres
    · intro hd ht hp
      have hdel' : c1.delayed = false := by rw [hdel]; exact hd
      have hper' : c1.periodDamage = 0 := by rw [hper]; exact hp
      refine ⟨true, c1, hinit, fun hne => hkeep c1 hne true hinit, ?_, ?_⟩
      · intro hl
        simp only [hl, hdel', Bool.not_false, if_true] at hres
        unfold ConditionDamage.getNextDamage at hres
        simp only [hper', ne_eq, not_true_eq_false, if_false, hl] at hres
        simp only [Option.some.injEq, Prod.mk.injEq] at hres
        obtain ⟨rfl, rfl⟩ := hres
        exact ⟨hl, rfl⟩
      · intro first more hl
        simp only [hl, hdel', Bool.not_false, if_true] at hres
        unfold ConditionDamage.getNextDamage at hres
        simp only [hper', ne_eq, not_true_eq_false, if_false] at hres
        simp only [Option.some.injEq, Prod.mk.injEq] at hres
        obtain ⟨hc, hdealt⟩ := hres
        refine ⟨?_, hdealt.symm⟩
        by_cases hk : c1.ticks = -1
        · rw [if_neg (not_not.mpr hk)] at hc
          rw [← hc] at ht
          exact absurd hk ht
        · rw [if_pos hk] at hc
          rw [← hc]

/-- Claim C25 at a delayed active condition whose head entry has 500 ms left and
an incoming condition with two entries of 2000 ms: the head entry after the
merge has 500 ms left. -/
theorem damage_addCondition_timeLeft_witness :
    (ConditionDamage.sampleActive true).addCondition 100 0 64 ConditionDamage.sampleIncoming
        = some ({ ConditionDamage.sampleActive true with
            ticks := 4000
            endTime := 4100
            damageList := [{ timeLeft := 500, value := -10, interval := 2000 },
              { timeLeft := 2000, value := -10, interval := 2000 }] }, [])
      ∧ ({ timeLeft := 500, value := -10, interval := 2000 } : IntervalInfo).timeLeft
        = ({ timeLeft := 500, value := -5, interval := 2000 } : IntervalInfo).timeLeft :=
  ⟨by decide,
    (damage_addCondition_timeLeft (ConditionDamage.sampleActive true)
      ConditionDamage.sampleIncoming 100 0 64 { timeLeft := 500, value := -5, interval := 2000 } []
      { ConditionDamage.sampleActive true with
        ticks := 4000
        endTime := 4100
        damageList := [{ timeLeft := 500, value := -10, interval := 2000 },
          { timeLeft := 2000, value := -10, interval := 2000 }] }
      [] rfl (by decide) rfl (by decide)).1 (Or.inl rfl)
      { timeLeft := 500, value := -10, interval := 2000 }
      [{ timeLeft := 2000, value := -10, interval := 2000 }] rfl⟩

/-- Claim C25 as stated fails for an active condition that is not delayed: the
merge is accepted, the active schedule had a head entry with 500 ms left, and
the resulting schedule is the second incoming entry, with 2000 ms left; the
entry that had received the 500 ms was removed and its value `-10` dealt. -/
theorem damage_addCondition_timeLeft_counterexample :
    (ConditionDamage.sampleActive false).damageList
        = [{ timeLeft := 500, value := -5, interval := 2000 }]
      ∧ ConditionDamage.sampleIncoming.conditionType
        = (ConditionDamage.sampleActive false).conditionType
      ∧ (ConditionDamage.sampleActive false).updateCondition ConditionDamage.sampleIncoming = true
      ∧ ((ConditionDamage.sampleActive false).addCondition 100 0 64
          ConditionDamage.sampleIncoming).map (fun r => (r.1.damageList, r.2))
        = some ([{ timeLeft := 2000, value := -10, interval := 2000 }], [-10]) := by
  decide

/-! ## The decay of the light -/

/-- One `executeCondition` call lowers the level of the entity's light by one, down to zero,
when the sub-timer reaches the decay interval, and leaves it otherwise. -/
theorem light_executeCondition_level (normal : LightInfo) (c : ConditionLight) (light : LightInfo)
    (w : World) (interval : Int) :
    (((c.executeCondition { w with creatureLight := light } interval).2.2.foldl
        (WorldCall.light normal) light)).level
      = light.level
        - (if toUInt32 (c.internalLightTicks + interval) ≥ c.lightChangeInterval then 1 else 0) := by
  unfold ConditionLight.executeCondition ConditionLight.executeCondition.decay
  simp only []
  split_ifs with h1 h2
  · simp [WorldCall.light]
  · simp only [List.foldl_nil]
    omega
  · simp

/-- After a run of `executeCondition` calls the level of the entity's light is the level before
the run less the number of calls in which the sub-timer reached the decay interval, or zero. -/
theorem light_executeConditions_level (normal : LightInfo) :
    ∀ (calls : List (World × Int)) (c : ConditionLight) (light : LightInfo),
      (c.executeConditions normal light calls).2.1.level
        = light.level - (c.executeConditions normal light calls).2.2 := by
  intro calls
  induction calls with
  | nil => intro c light; simp [ConditionLight.executeConditions]
  | cons x xs ih =>
    intro c light
    obtain ⟨w, interval⟩ := x
    simp only [ConditionLight.executeConditions]
    rw [ih, light_executeCondition_level]
    omega

/-- A light condition of level 5 and 5000 ms on the sample world: the decay interval is
1000 ms, and after `n` calls of 1000 ms each the level of the entity's light is `5 - n`, and zero
from the fifth call on. -/
theorem light_decay_run :
    ((ConditionLight.new 0 1 5000 false 0 5 215).startCondition World.sample).map (fun r =>
        (r.2.1.lightChangeInterval,
          (List.range 8).map (fun n =>
            (r.2.1.executeConditions { level := 0, color := 0 } { level := 5, color := 215 }
              (List.replicate n (World.sample, 1000))).2.1.level)))
      = some (1000, [5, 4, 3, 2, 1, 0, 0, 0]) := by
  decide

/-- Claim C24. For every light condition with level `L ≥ 1`, `startCondition`
sets the decay interval to `ticks / L` (integer division, stored in a
`uint32_t`), resets the sub-timer and gives the entity the light of level `L`;
afterwards each `executeCondition` call in which the accumulated sub-timer
reaches the decay interval lowers the level of the entity's light by one while
it is positive, so that after `k` such calls the level is `max(0, L - k)`: with
`L = 5` it is zero after five of them and stays zero. -/
theorem light_decay (c : ConditionLight) (w : World) (normal : LightInfo)
    (calls : List (World × Int)) (hL : 1 ≤ c.lightInfo.level) :
    ∃ c1, c.startCondition w = some (true, c1, [.setCreatureLight c.lightInfo, .changeLight])
      ∧ c1.lightChangeInterval = toUInt32 (Int.tdiv c.ticks c.lightInfo.level)
      ∧ (0 ≤ c.ticks → c.ticks ≤ 2147483647 →
          c1.lightChangeInterval = (c.ticks / c.lightInfo.level).toNat)
      ∧ c1.internalLightTicks = 0
      ∧ ([WorldCall.setCreatureLight c.lightInfo, WorldCall.changeLight].foldl
          (WorldCall.light normal) w.creatureLight).level = c.lightInfo.level
      ∧ (c1.executeConditions normal c.lightInfo calls).2.1.level
          = c.lightInfo.level - (c1.executeConditions normal c.lightInfo calls).2.2
      ∧ (c.lightInfo.level = 5 → 5 ≤ (c1.executeConditions normal c.lightInfo calls).2.2 →
          (c1.executeConditions normal c.lightInfo calls).2.1.level = 0) := by
  have hne : ¬ c.lightInfo.level = 0 := by omega
  have hb : (c.toCondition.startCondition w.now).2.ticks = c.ticks := by
    unfold Condition.startCondition
    split_ifs <;> rfl
  refine ⟨{ c with
      toCondition := (c.toCondition.startCondition w.now).2
      internalLightTicks := 0
      lightChangeInterval := toUInt32 (Int.tdiv c.ticks c.lightInfo.level) }, ?_, rfl, ?_, rfl, rfl,
    light_executeConditions_level normal calls _ _, ?_⟩
  · unfold ConditionLight.startCondition
    simp only [Condition.startCondition, hne, if_false]
    split_ifs <;> rfl
  · intro h0 h1
    simp only []
    rw [Int.tdiv_eq_ediv h0 (Int.ofNat_nonneg _)]
    unfold toUInt32
    have h2 : 0 ≤ c.ticks / (c.lightInfo.level : Int) := Int.ediv_nonneg h0 (Int.ofNat_nonneg _)
    have h3 : c.ticks / (c.lightInfo.level : Int) ≤ c.ticks := Int.ediv_le_self _ h0
    rw [Int.emod_eq_of_lt h2 (by omega)]
  · intro h5 hk
    have h := light_executeConditions_level normal calls
      { c with
        toCondition := (c.toCondition.startCondition w.now).2
        internalLightTicks := 0
        lightChangeInterval := toUInt32 (Int.tdiv c.ticks c.lightInfo.level) } c.lightInfo
    omega

/-- Claim C24 at a light condition of level 5 and 5000 ms and six calls of
1000 ms each. -/
theorem light_decay_witness :
    ∃ c1, (ConditionLight.new 0 1 5000 false 0 5 215).startCondition World.sample
        = some (true, c1,
          [.setCreatureLight (ConditionLight.new 0 1 5000 false 0 5 215).lightInfo, .changeLight])
      ∧ c1.lightChangeInterval
        = toUInt32 (Int.tdiv (ConditionLight.new 0 1 5000 false 0 5 215).ticks
            (ConditionLight.new 0 1 5000 false 0 5 215).lightInfo.level)
      ∧ (0 ≤ (ConditionLight.new 0 1 5000 false 0 5 215).ticks →
          (ConditionLight.new 0 1 5000 false 0 5 215).ticks ≤ 2147483647 →
          c1.lightChangeInterval
            = ((ConditionLight.new 0 1 5000 false 0 5 215).ticks
                / (ConditionLight.new 0 1 5000 false 0 5 215).lightInfo.level).toNat)
      ∧ c1.internalLightTicks = 0
      ∧ ([WorldCall.setCreatureLight (ConditionLight.new 0 1 5000 false 0 5 215).lightInfo,
            WorldCall.changeLight].foldl
          (WorldCall.light { level := 0, color := 0 }) World.sample.creatureLight).level
        = (ConditionLight.new 0 1 5000 false 0 5 215).lightInfo.level
      ∧ (c1.executeConditions { level := 0, color := 0 }
            (ConditionLight.new 0 1 5000 false 0 5 215).lightInfo
            (List.replicate 6 (World.sample, 1000))).2.1.level
          = (ConditionLight.new 0 1 5000 false 0 5 215).lightInfo.level
            - (c1.executeConditions { level := 0, color := 0 }
                (ConditionLight.new 0 1 5000 false 0 5 215).lightInfo
                (List.replicate 6 (World.sample, 1000))).2.2
      ∧ ((ConditionLight.new 0 1 5000 false 0 5 215).lightInfo.level = 5 →
          5 ≤ (c1.executeConditions { level := 0, color := 0 }
                (ConditionLight.new 0 1 5000 false 0 5 215).lightInfo
                (List.replicate 6 (World.sample, 1000))).2.2 →
          (c1.executeConditions { level := 0, color := 0 }
            (ConditionLight.new 0 1 5000 false 0 5 215).lightInfo
            (List.replicate 6 (World.sample, 1000))).2.1.level = 0) :=
  light_decay (ConditionLight.new 0 1 5000 false 0 5 215) World.sample { level := 0, color := 0 }
    (List.replicate 6 (World.sample, 1000)) (by decide)

/-! ## Termination, shape and sum of the damage distribution -/

/-- The inner loop ends while the test holds, within as many iterations as the running sum is
below the target. -/
theorem doWhile_continue (i med : Int) (hi : 1 ≤ i) (hmed : med + i ≤ 2147483648) :
    ∀ (fuel : Nat) (sum : Int) (list : List Int), IsInt32 sum →
      generateDamageList.closer sum i med = true → med - sum ≤ fuel →
      ∃ k sum', generateDamageList.doWhile i med fuel sum list
          = some (sum', list ++ List.replicate k i) ∧ 1 ≤ k := by
  intro fuel
  induction fuel with
  | zero =>
    intro sum list _ hc hf
    have := closer_lt _ _ _ hi hc
    simp only [Nat.cast_zero] at hf
    omega
  | succ fuel ih =>
    intro sum list hs hc hf
    have hlt := closer_lt _ _ _ hi hc
    unfold IsInt32 at hs
    have hw : wrapInt32 (sum + i) = sum + i := wrapInt32_of_isInt32 _ ⟨by omega, by omega⟩
    unfold generateDamageList.doWhile
    simp only [hw]
    by_cases hc2 : generateDamageList.closer (sum + i) i med = true
    · rw [if_pos hc2]
      obtain ⟨k, sum', h, hk⟩ := ih (sum + i) (list ++ [i]) ⟨by omega, by omega⟩ hc2
        (by push_cast at hf ⊢; omega)
      refine ⟨k + 1, sum', ?_, by omega⟩
      rw [h, List.replicate_succ, List.append_assoc]
      rfl
    · rw [if_neg hc2]
      exact ⟨1, sum + i, rfl, le_refl 1⟩

/-- The inner loop ends within `2^32` iterations. -/
theorem doWhile_terminates (i med : Int) (hi : 1 ≤ i) (hm : IsInt32 med)
    (hmed : med + i ≤ 2147483648) (fuel : Nat) (hfuel : 4294967296 ≤ fuel) (sum : Int)
    (list : List Int) :
    ∃ k sum', generateDamageList.doWhile i med fuel sum list
        = some (sum', list ++ List.replicate k i) ∧ 1 ≤ k := by
  obtain ⟨f, rfl⟩ : ∃ f, fuel = f + 1 := ⟨fuel - 1, by omega⟩
  unfold generateDamageList.doWhile
  simp only []
  have hs : IsInt32 (wrapInt32 (sum + i)) := by unfold IsInt32 wrapInt32; omega
  by_cases hc : generateDamageList.closer (wrapInt32 (sum + i)) i med = true
  · rw [if_pos hc]
    unfold IsInt32 at hs hm
    obtain ⟨k, sum', h, hk⟩ := doWhile_continue i med hi hmed f (wrapInt32 (sum + i)) (list ++ [i])
      hs hc (by omega)
    refine ⟨k + 1, sum', ?_, by omega⟩
    rw [h, List.replicate_succ, List.append_assoc]
    rfl
  · rw [if_neg hc]
    exact ⟨1, _, rfl, le_refl 1⟩

/-- The target of a round is a value of `int32_t` and small enough for the running sum not to
wrap while it is below the target. -/
theorem med_bound (amount start i : Int) (hs1 : 1 ≤ start) (hs : start ≤ 2147483647)
    (hi1 : 1 ≤ i) (hi : i ≤ start) (n : Int) :
    IsInt32 (wrapInt32 (Int.tdiv (wrapInt32 (n * amount)) start))
      ∧ wrapInt32 (Int.tdiv (wrapInt32 (n * amount)) start) + i ≤ 2147483648 := by
  have hx : IsInt32 (wrapInt32 (n * amount)) := by unfold IsInt32 wrapInt32; omega
  generalize wrapInt32 (n * amount) = x at hx
  unfold IsInt32 at hx
  have hmed : IsInt32 (wrapInt32 (Int.tdiv x start)) := by unfold IsInt32 wrapInt32; omega
  refine ⟨hmed, ?_⟩
  unfold IsInt32 at hmed
  rcases le_or_lt 0 x with hx0 | hx0
  · have e : Int.tdiv x start = x / start := Int.tdiv_eq_ediv hx0 (by omega)
    have h3 : x / start * start ≤ x := Int.ediv_mul_le x (by omega)
    have h4 : 0 ≤ x / start := Int.ediv_nonneg hx0 (by omega)
    have h5 : x / start ≤ x := Int.ediv_le_self _ hx0
    rw [e, wrapInt32_of_isInt32 _ ⟨by omega, by omega⟩]
    rcases eq_or_lt_of_le h4 with h0 | h0
    · omega
    · have : x / start + start ≤ x / start * start + 1 := by nlinarith
      omega
  · have h3 : Int.tdiv x start ≤ 0 := by
      have := Int.tdiv_nonneg (a := -x) (b := start) (by omega) (by omega)
      rw [Int.neg_tdiv] at this
      omega
    have h4 : -2147483648 ≤ Int.tdiv x start := by
      have h5 : (-x).tdiv start ≤ -x := by
        rw [Int.tdiv_eq_ediv (by omega) (by omega)]
        exact Int.ediv_le_self _ (by omega)
      rw [Int.neg_tdiv] at h5
      omega
    rw [wrapInt32_of_isInt32 _ ⟨h4, by omega⟩]
    omega

/-- The outer loop ends when each inner loop may take `2^32` iterations; the values it appends
are non-increasing, lie between 1 and the number of rounds, and include each of these numbers;
their sum is at least the triangular number of the rounds. -/
theorem forLoop_terminates (amount start : Int) (hs1 : 1 ≤ start) (hs : start ≤ 2147483647)
    (fuel : Nat) (hfuel : 4294967296 ≤ fuel) :
    ∀ (m : Nat), (m : Int) ≤ start → ∀ (sum : Int) (list : List Int),
      ∃ out, generateDamageList.forLoop amount start fuel m sum list = some (list ++ out)
        ∧ out.Pairwise (fun a b => b ≤ a) ∧ (∀ x ∈ out, 1 ≤ x ∧ x ≤ m)
        ∧ (∀ j : Int, 1 ≤ j → j ≤ m → j ∈ out)
        ∧ (m : Int) * (m + 1) ≤ 2 * out.sum := by
  intro m
  induction m with
  | zero =>
    intro _ sum list
    refine ⟨[], by simp [generateDamageList.forLoop], List.Pairwise.nil, by simp, ?_, by simp⟩
    intro j h1 h2
    simp only [Nat.cast_zero] at h2
    omega
  | succ m ih =>
    intro hm sum list
    push_cast at hm
    obtain ⟨hmed1, hmed2⟩ := med_bound amount start ((m : Int) + 1) hs1 hs (by omega) hm
      (wrapInt32 (start + 1 - ((m : Int) + 1)))
    obtain ⟨k, sum', hd, hk⟩ := doWhile_terminates ((m : Int) + 1) _ (by omega) hmed1 hmed2 fuel
      hfuel sum list
    obtain ⟨out, ho, hp, hr, hc, hsum⟩ := ih (by omega) sum' (list ++ List.replicate k ((m : Int) + 1))
    refine ⟨List.replicate k ((m : Int) + 1) ++ out, ?_, ?_, ?_, ?_, ?_⟩
    · unfold generateDamageList.forLoop
      simp only [hd, ho, List.append_assoc]
    · rw [List.pairwise_append]
      refine ⟨?_, hp, ?_⟩
      · rw [List.pairwise_replicate]
        right; exact le_refl _
      · intro a ha b hb
        rw [List.mem_replicate] at ha
        have := (hr b hb).2
        omega
    · intro x hx
      rw [List.mem_append] at hx
      push_cast
      rcases hx with hx | hx
      · rw [List.mem_replicate] at hx
        omega
      · have := hr x hx
        omega
    · intro j h1 h2
      push_cast at h2
      rw [List.mem_append]
      by_cases hj : j = (m : Int) + 1
      · left
        rw [List.mem_replicate]
        exact ⟨by omega, hj⟩
      · right
        exact hc j h1 (by omega)
    · rw [List.sum_append, List.sum_replicate]
      push_cast
      simp only [nsmul_eq_mul]
      have hk' : (1 : Int) ≤ (k : Int) := by exact_mod_cast hk
      have hm0 : (0 : Int) ≤ (m : Int) := Int.ofNat_nonneg _
      nlinarith

/-- The inner loop appends the value of its round at least once; when the first addition does
not overflow the running sum grows by the value for each element appended, the loop test fails at
the end and held after each element appended before the last. -/
theorem doWhile_sum (i med : Int) (hi : 1 ≤ i) (hmed : med + i ≤ 2147483648) :
    ∀ (fuel : Nat) (sum : Int) (list : List Int) (sum' : Int) (list' : List Int),
      generateDamageList.doWhile i med fuel sum list = some (sum', list') →
      ∃ k : Nat, 1 ≤ k ∧ list' = list ++ List.replicate k i
        ∧ (0 ≤ sum → sum + i ≤ 2147483647 →
            sum' = sum + k * i ∧ generateDamageList.closer sum' i med = false
              ∧ ∀ j : Nat, 1 ≤ j → j < k →
                  generateDamageList.closer (sum + j * i) i med = true) := by
  intro fuel
  induction fuel with
  | zero => intro sum list sum' list' h; cases h
  | succ fuel ih =>
    intro sum list sum' list' h
    unfold generateDamageList.doWhile at h
    simp only [] at h
    by_cases hc : generateDamageList.closer (wrapInt32 (sum + i)) i med = true
    · rw [if_pos hc] at h
      obtain ⟨k, hk, hl, hnum⟩ := ih _ _ _ _ h
      refine ⟨k + 1, by omega, ?_, ?_⟩
      · rw [hl, List.replicate_succ, List.append_assoc]; rfl
      · intro h0 hb
        have hw : wrapInt32 (sum + i) = sum + i := wrapInt32_of_isInt32 _ ⟨by omega, by omega⟩
        rw [hw] at hc hnum
        have hlt := closer_lt _ _ _ hi hc
        obtain ⟨e, hf, hprev⟩ := hnum (by omega) (by omega)
        refine ⟨by rw [e]; push_cast; ring, hf, fun j hj1 hjk => ?_⟩
        by_cases hj : j = 1
        · subst hj
          simpa using hc
        · have := hprev (j - 1) (by omega) (by omega)
          have e2 : sum + i + ((j - 1 : Nat) : Int) * i = sum + (j : Int) * i := by
            have : ((j - 1 : Nat) : Int) = (j : Int) - 1 := by omega
            rw [this]; ring
          rwa [e2] at this
    · rw [if_neg hc] at h
      simp only [Option.some.injEq, Prod.mk.injEq] at h
      refine ⟨1, le_refl 1, h.2.symm, ?_⟩
      intro h0 hb
      have hw : wrapInt32 (sum + i) = sum + i := wrapInt32_of_isInt32 _ ⟨by omega, by omega⟩
      rw [hw] at hc h
      refine ⟨by rw [← h.1]; push_cast; ring, ?_, fun j h1 h2 => by omega⟩
      rw [← h.1]
      simpa using hc

/-- The outer loop appends, after the values of the rounds above 1, the value 1; the running sum
ends at the larger of the target of the last round and the sum after the first 1 exactly when
the loop test of the last round holds at every running sum below the target. -/
theorem forLoop_sum (amount start : Int) (hs1 : 1 ≤ start) (hs : start ≤ 2147483647)
    (fuel : Nat) :
    ∀ (m : Nat), (m : Int) + 1 ≤ start → ∀ (sum : Int) (list out : List Int),
      generateDamageList.forLoop amount start fuel (m + 1) sum list = some out →
      ∃ L k, out = list ++ L ++ List.replicate k 1 ∧ 1 ≤ k
        ∧ (∀ x ∈ L, 2 ≤ x ∧ x ≤ (m : Int) + 1)
        ∧ (0 ≤ sum → sum + L.sum + 1 ≤ 2147483647 →
            (sum + L.sum + k
              = max (wrapInt32 (Int.tdiv (wrapInt32 (wrapInt32 (start + 1 - 1) * amount)) start))
                  (sum + L.sum + 1)
            ↔ ∀ s : Int, sum + L.sum < s →
                s < wrapInt32 (Int.tdiv (wrapInt32 (wrapInt32 (start + 1 - 1) * amount)) start) →
                generateDamageList.closer s 1
                  (wrapInt32 (Int.tdiv (wrapInt32 (wrapInt32 (start + 1 - 1) * amount)) start))
                  = true)) := by
  intro m
  induction m with
  | zero =>
    intro _ sum list out h
    unfold generateDamageList.forLoop at h
    simp only [Nat.cast_zero, zero_add] at h
    obtain ⟨-, hmed⟩ := med_bound amount start 1 hs1 hs (le_refl 1) hs1 (wrapInt32 (start + 1 - 1))
    generalize wrapInt32 (Int.tdiv (wrapInt32 (wrapInt32 (start + 1 - 1) * amount)) start) = M
      at h hmed ⊢
    split at h
    · cases h
    · rename_i sum' list' hd
      obtain ⟨k, hk, hl, hnum⟩ := doWhile_sum 1 M (le_refl 1) hmed _ _ _ _ _ hd
      simp only [generateDamageList.forLoop, Option.some.injEq] at h
      refine ⟨[], k, by rw [← h, hl]; simp, hk, by simp, ?_⟩
      intro h0 hb
      simp only [List.sum_nil, add_zero] at hb ⊢
      obtain ⟨e, hf, hprev⟩ := hnum h0 hb
      rw [mul_one] at e
      have hk' : (1 : Int) ≤ (k : Int) := by exact_mod_cast hk
      have hup : 2 ≤ k → sum + (k : Int) - 1 < M := by
        intro hk2
        have hp := closer_lt _ _ _ (le_refl 1) (hprev (k - 1) (by omega) (by omega))
        have hk'' : ((k - 1 : Nat) : Int) = (k : Int) - 1 := by omega
        rw [hk''] at hp
        omega
      constructor
      · intro hmax s hs1' hs2
        have hkM : sum + (k : Int) = M := by
          rw [max_def] at hmax
          split_ifs at hmax <;> omega
        obtain ⟨j, rfl⟩ : ∃ j : Nat, s = sum + (j : Int) * 1 :=
          ⟨(s - sum).toNat, by omega⟩
        exact hprev j (by omega) (by omega)
      · intro hall
        have hge : M ≤ sum' := by
          by_contra hc
          have := hall sum' (by omega) (by omega)
          rw [hf] at this
          exact absurd this (by simp)
        by_cases hk2 : 2 ≤ k
        · have := hup hk2
          rw [max_def]
          split_ifs <;> omega
        · have hk1 : k = 1 := by omega
          subst hk1
          rw [max_def]
          split_ifs <;> omega
  | succ m ih =>
    intro hm sum list out h
    push_cast at hm
    unfold generateDamageList.forLoop at h
    obtain ⟨-, hmed⟩ := med_bound amount start (((m + 1 : Nat) : Int) + 1) hs1 hs
      (by push_cast; omega) (by push_cast; omega)
      (wrapInt32 (start + 1 - (((m + 1 : Nat) : Int) + 1)))
    simp only [] at h
    split at h
    · cases h
    · rename_i sum' list' hd
      obtain ⟨k1, hk1, hl1, hnum1⟩ := doWhile_sum _ _ (by push_cast; omega) hmed _ _ _ _ _ hd
      obtain ⟨L, k, ho, hk, hL, hnum⟩ := ih (by omega) sum' list' out h
      refine ⟨List.replicate k1 (((m + 1 : Nat) : Int) + 1) ++ L, k, ?_, hk, ?_, ?_⟩
      · rw [ho, hl1]; simp only [List.append_assoc]
      · intro x hx
        rw [List.mem_append] at hx
        rcases hx with hx | hx
        · rw [List.mem_replicate] at hx
          push_cast at hx ⊢
          omega
        · have := hL x hx
          push_cast
          omega
      · intro h0 hb
        rw [List.sum_append, List.sum_replicate] at hb ⊢
        simp only [nsmul_eq_mul] at hb ⊢
        have hLs : 0 ≤ L.sum := List.sum_nonneg (fun x hx => by have := hL x hx; omega)
        have hk1' : (1 : Int) ≤ (k1 : Int) := by exact_mod_cast hk1
        have hm0 : (0 : Int) ≤ (m : Int) := Int.ofNat_nonneg _
        push_cast at hb ⊢
        have hprod : (m : Int) + 1 + 1 ≤ (k1 : Int) * ((m : Int) + 1 + 1) := by nlinarith
        obtain ⟨e, -, -⟩ := hnum1 h0 (by push_cast; omega)
        push_cast at e
        have := hnum (by rw [e]; nlinarith) (by rw [e]; omega)
        rw [e] at this
        have e4 : sum + (↑k1 * ((m : Int) + 1 + 1) + L.sum)
            = sum + ↑k1 * ((m : Int) + 1 + 1) + L.sum := by ring
        rw [e4]
        exact this

/-- Claim C27. For every amount and every `start ≥ 1`, `generateDamageList`
terminates, each inner loop within `2^32` iterations, and its output is a
non-increasing list all of whose elements are integers between 1 and `start`;
for `start ≤ 0` the output is empty. -/
theorem generateDamageList_shape (amount start : Int) (fuel : Nat) :
    (start ≤ 0 → ConditionDamage.generateDamageList fuel amount start = some [])
      ∧ (1 ≤ start → start ≤ 2147483647 → 4294967296 ≤ fuel →
          ∃ list, ConditionDamage.generateDamageList fuel amount start = some list
            ∧ list.Pairwise (fun a b => b ≤ a) ∧ ∀ x ∈ list, 1 ≤ x ∧ x ≤ start) := by
  constructor
  · intro h
    unfold ConditionDamage.generateDamageList
    rw [Int.toNat_of_nonpos h]
    rfl
  · intro h1 hs hfuel
    obtain ⟨out, ho, hp, hr, -, -⟩ := forLoop_terminates (abs32 amount) start h1 hs fuel hfuel
      start.toNat (by rw [Int.toNat_of_nonneg (by omega)]) 0 []
    refine ⟨out, by simpa [ConditionDamage.generateDamageList] using ho, hp, ?_⟩
    intro x hx
    have := hr x hx
    rw [Int.toNat_of_nonneg (by omega)] at this
    exact this

/-- Claim C27 at `amount = 100` and `start = 5`. -/
theorem generateDamageList_shape_witness :
    ∃ list, ConditionDamage.generateDamageList 4294967296 100 5 = some list
      ∧ list.Pairwise (fun a b => b ≤ a) ∧ ∀ x ∈ list, 1 ≤ x ∧ x ≤ 5 :=
  (generateDamageList_shape 100 5 4294967296).2 (by decide) (by decide) (by decide)

/-- Claim C28 (amended). For every amount `≥ 1` and every `start ≥ 1` with
`start * amount` in the range of `int32_t`, the list that `generateDamageList`
produces consists of the values `L` of the rounds `start` down to 2 followed by
ones. When `p + 1` fits in 32 bits, where `p` is the sum of `L`, the sum of the
list is `max(amount, p + 1)` exactly when the loop test, which the code computes
in single precision, holds at every running sum `s` of the last round with
`p < s < amount`, as it does in exact arithmetic. That is the case for every
amount up to `2^23`: then the sum is `max(amount, p + 1)`, hence not below
`amount` and equal to `amount` whenever `p < amount`, which is always the case
when `start = 1`. -/
theorem generateDamageList_sum (amount start : Int) (fuel : Nat) (ha : 1 ≤ amount)
    (hs1 : 1 ≤ start) (hmul : start * amount ≤ 2147483647) (hfuel : 4294967296 ≤ fuel) :
    ∃ L k, ConditionDamage.generateDamageList fuel amount start = some (L ++ List.replicate k 1)
      ∧ 1 ≤ k ∧ (∀ x ∈ L, 2 ≤ x ∧ x ≤ start)
      ∧ (L.sum + 1 ≤ 2147483647 →
          ((L ++ List.replicate k 1).sum = max amount (L.sum + 1)
            ↔ ∀ s : Int, L.sum < s → s < amount →
                generateDamageList.closer s 1 amount = true)
          ∧ (amount ≤ 8388608 →
            (L ++ List.replicate k 1).sum = max amount (L.sum + 1)
              ∧ amount ≤ (L ++ List.replicate k 1).sum
              ∧ (L.sum < amount → (L ++ List.replicate k 1).sum = amount)))
      ∧ (start = 1 → L = []
          ∧ (amount ≤ 8388608 → (L ++ List.replicate k 1).sum = amount)) := by
  have hs : start ≤ 2147483647 := by nlinarith
  have ham : amount ≤ 2147483647 := by nlinarith
  have habs : abs32 amount = amount := by
    unfold abs32 wrapInt32
    omega
  have hM : wrapInt32 (Int.tdiv (wrapInt32 (wrapInt32 (start + 1 - 1) * amount)) start)
      = amount := by
    have e1 : start + 1 - 1 = start := by ring
    have h0 : 0 ≤ start * amount := by nlinarith
    rw [e1, wrapInt32_of_isInt32 start ⟨by omega, hs⟩,
      wrapInt32_of_isInt32 (start * amount) ⟨by omega, hmul⟩,
      Int.mul_tdiv_cancel_left _ (by omega), wrapInt32_of_isInt32 amount ⟨by omega, ham⟩]
  obtain ⟨m, hm⟩ : ∃ m : Nat, start.toNat = m + 1 := ⟨start.toNat - 1, by omega⟩
  have hm' : (m : Int) + 1 = start := by omega
  obtain ⟨out, ho, -⟩ := forLoop_terminates (abs32 amount) start hs1 hs fuel hfuel
    start.toNat (by rw [Int.toNat_of_nonneg (by omega)]) 0 []
  rw [habs] at ho
  have ho' := ho
  rw [hm] at ho'
  obtain ⟨L, k, hl, hk, hL, hnum⟩ := forLoop_sum amount start hs1 hs
    fuel m (by omega) 0 [] _ ho'
  rw [hM] at hnum
  simp only [List.nil_append, zero_add] at hl hnum
  have hsum : (L ++ List.replicate k 1).sum = L.sum + k := by
    rw [List.sum_append, List.sum_replicate]
    simp
  have hLs : 0 ≤ L.sum := List.sum_nonneg (fun x hx => by have := hL x hx; omega)
  have hsmall : amount ≤ 8388608 → L.sum + 1 ≤ 2147483647 →
      (L ++ List.replicate k 1).sum = max amount (L.sum + 1) := by
    intro ha23 hb
    rw [hsum]
    exact (hnum (le_refl 0) hb).mpr
      (fun s h1 h2 => closer_last s amount (by omega) h2 ha23)
  refine ⟨L, k, ?_, hk, ?_, ?_, ?_⟩
  · unfold ConditionDamage.generateDamageList
    rw [habs, ho, hl, List.nil_append]
  · intro x hx
    have := hL x hx
    omega
  · intro hb
    refine ⟨?_, fun ha23 => ?_⟩
    · rw [hsum]
      exact hnum (le_refl 0) hb
    · have e := hsmall ha23 hb
      rw [e]
      exact ⟨rfl, le_max_left _ _, fun hp => max_eq_left (by omega)⟩
  · intro h1
    have hnil : L = [] := by
      apply List.eq_nil_iff_forall_not_mem.mpr
      intro x hx
      have := hL x hx
      omega
    subst hnil
    refine ⟨rfl, fun ha23 => ?_⟩
    have e := hsmall ha23 (by simp)
    rw [e]
    simp only [List.sum_nil, zero_add]
    exact max_eq_left ha

/-- Claim C28 (amended) at `amount = 100` and `start = 5`. -/
theorem generateDamageList_sum_witness :
    ∃ L k, ConditionDamage.generateDamageList 4294967296 100 5 = some (L ++ List.replicate k 1)
      ∧ 1 ≤ k ∧ (∀ x ∈ L, 2 ≤ x ∧ x ≤ 5)
      ∧ (L.sum + 1 ≤ 2147483647 →
          ((L ++ List.replicate k 1).sum = max 100 (L.sum + 1)
            ↔ ∀ s : Int, L.sum < s → s < 100 →
                generateDamageList.closer s 1 100 = true)
          ∧ ((100 : Int) ≤ 8388608 →
            (L ++ List.replicate k 1).sum = max 100 (L.sum + 1)
              ∧ 100 ≤ (L ++ List.replicate k 1).sum
              ∧ (L.sum < 100 → (L ++ List.replicate k 1).sum = 100)))
      ∧ ((5 : Int) = 1 → L = []
          ∧ ((100 : Int) ≤ 8388608 → (L ++ List.replicate k 1).sum = 100)) :=
  generateDamageList_sum 100 5 4294967296 (by decide) (by decide) (by decide) (by decide)

/-- With one start round the distribution is the inner loop for the step 1 with the amount as
its target. -/
theorem generateDamageList_start_one (fuel : Nat) (amount : Int) (h0 : 0 ≤ amount)
    (h : amount ≤ 2147483647) :
    ConditionDamage.generateDamageList fuel amount 1
      = (generateDamageList.doWhile 1 amount fuel 0 []).map (fun r => r.2) := by
  have habs : abs32 amount = amount := by
    unfold abs32 wrapInt32
    omega
  have hmed : wrapInt32 (Int.tdiv (wrapInt32 (wrapInt32 (1 + 1 - 1) * amount)) 1) = amount := by
    have e1 : wrapInt32 (1 + 1 - 1) = 1 := by decide
    rw [e1, one_mul, wrapInt32_of_isInt32 amount ⟨by omega, h⟩, Int.tdiv_one,
      wrapInt32_of_isInt32 amount ⟨by omega, h⟩]
  have hone : (1 : Int).toNat = 0 + 1 := rfl
  unfold ConditionDamage.generateDamageList
  rw [habs, hone]
  unfold generateDamageList.forLoop
  simp only [Nat.cast_zero, zero_add]
  rw [hmed]
  cases generateDamageList.doWhile 1 amount fuel 0 [] with
  | none => rfl
  | some r => rfl

/-- Claim C28 as stated fails at `amount = 17000000` and `start = 1`, where no
product overflows and `p = 0`: the list consists of ones and the claim gives it
the sum `max(17000000, 1) = 17000000`, but the loop test, computed in single
precision, fails at the running sum 8500038, so that the sum of the list is at
most 8500038. -/
theorem generateDamageList_sum_counterexample :
    generateDamageList.closer 8500038 1 17000000 = false
      ∧ ∃ list, ConditionDamage.generateDamageList 4294967296 17000000 1 = some list
        ∧ list.sum ≤ 8500038 ∧ list.sum < max 17000000 (0 + 1) := by
  have hcl : generateDamageList.closer 8500038 1 17000000 = false := by decide
  refine ⟨hcl, ?_⟩
  generalize hfuel : (4294967296 : Nat) = fuel
  generalize hamount : (17000000 : Int) = amount at hcl ⊢
  have ha0 : 0 ≤ amount := by omega
  have ha1 : amount ≤ 2147483647 := by omega
  obtain ⟨k, sum', hd, -⟩ := doWhile_terminates 1 amount (le_refl 1) ⟨by omega, ha1⟩ (by omega)
    fuel (by omega) 0 []
  obtain ⟨k', hk', hl, hnum⟩ := doWhile_sum 1 amount (le_refl 1) (by omega) _ _ _ _ _ hd
  obtain ⟨e, -, hpath⟩ := hnum (le_refl 0) (by omega)
  have hkk : k' ≤ 8500038 := by
    by_contra hc
    have := hpath 8500038 (by omega) (by omega)
    rw [show (0 : Int) + ((8500038 : Nat) : Int) * 1 = 8500038 by norm_num, hcl] at this
    exact absurd this (by simp)
  have hgen : ConditionDamage.generateDamageList fuel amount 1 = some (List.replicate k' 1) := by
    rw [generateDamageList_start_one fuel amount ha0 ha1, hd, hl]
    rfl
  have hk2 : (k' : Int) ≤ 8500038 := by exact_mod_cast hkk
  refine ⟨_, hgen, ?_, ?_⟩
  · rw [List.sum_replicate]; simp only [smul_eq_mul, mul_one, nsmul_eq_mul]
    exact hk2
  · rw [List.sum_replicate]; simp only [smul_eq_mul, mul_one, nsmul_eq_mul]
    rw [max_def]; split_ifs <;> omega

/-- Claim C30. For every amount and every `start ≥ 1` the list that
`generateDamageList` produces contains each of the integers `start`,
`start - 1`, …, 1, so its sum is at least `start * (start + 1) / 2`. -/
theorem generateDamageList_contains (amount start : Int) (fuel : Nat) (hs1 : 1 ≤ start)
    (hs : start ≤ 2147483647) (hfuel : 4294967296 ≤ fuel) :
    ∃ list, ConditionDamage.generateDamageList fuel amount start = some list
      ∧ (∀ i : Int, 1 ≤ i → i ≤ start → i ∈ list)
      ∧ start * (start + 1) / 2 ≤ list.sum := by
  obtain ⟨out, ho, -, -, hc, hsum⟩ := forLoop_terminates (abs32 amount) start hs1 hs fuel hfuel
    start.toNat (by rw [Int.toNat_of_nonneg (by omega)]) 0 []
  rw [Int.toNat_of_nonneg (by omega)] at hc hsum
  refine ⟨out, by simpa [ConditionDamage.generateDamageList] using ho, hc, ?_⟩
  generalize start * (start + 1) = P at hsum
  omega

/-- Claim C30 at `amount = 0` and `start = 5`. -/
theorem generateDamageList_contains_witness :
    ∃ list, ConditionDamage.generateDamageList 4294967296 0 5 = some list
      ∧ (∀ i : Int, 1 ≤ i → i ≤ 5 → i ∈ list)
      ∧ (5 : Int) * (5 + 1) / 2 ≤ list.sum :=
  generateDamageList_contains 0 5 4294967296 (by decide) (by decide) (by decide)

/-! ## The lifecycle hooks and a merge -/

/-- The sum of a function over the calls that a loop collects: each index for which the loop
makes a call contributes the value of the function at that call. -/
theorem foldl_calls_sum (f : WorldCall → Int) (p : Nat → Prop) [DecidablePred p]
    (g : Nat → WorldCall) :
    ∀ (l : List Nat) (r : Bool × List WorldCall),
      ((l.foldl (fun (r : Bool × List WorldCall) j => if p j then (true, r.2 ++ [g j]) else r)
          r).2.map f).sum
        = (r.2.map f).sum + (l.map (fun j => if p j then f (g j) else 0)).sum := by
  intro l
  induction l with
  | nil => intro r; simp
  | cons a l ih =>
    intro r
    simp only [List.foldl_cons, List.map_cons, List.sum_cons]
    rw [ih]
    split_ifs <;> simp [add_assoc]

/-- Over a list without duplicates, the terms that vanish off one index sum to the term at that
index. -/
theorem sum_map_ite_eq (i : Nat) (x : Nat → Int) :
    ∀ (l : List Nat), l.Nodup →
      (l.map (fun j => if j = i then x j else 0)).sum = if i ∈ l then x i else 0 := by
  intro l
  induction l with
  | nil => intro _; simp
  | cons a l ih =>
    intro hnd
    rw [List.nodup_cons] at hnd
    simp only [List.map_cons, List.sum_cons, List.mem_cons]
    rw [ih hnd.2]
    by_cases ha : a = i
    · subst ha
      simp [hnd.1]
    · have ha' : ¬ i = a := fun h => ha h.symm
      simp [ha, ha']

/-- The calls of a loop that passes the value `v j` for every index `j` with `p j` sum, for
the index `i`, to `v i` when the loop reaches `i` and `p i` holds. -/
theorem foldl_calls_sum_same (f : WorldCall → Int) (mk : Nat → Int → WorldCall) (i : Nat)
    (hf : ∀ j m, f (mk j m) = if j = i then m else 0) (p : Nat → Prop) [DecidablePred p]
    (v : Nat → Int) (l : List Nat) (hnd : l.Nodup) :
    ((l.foldl (fun (r : Bool × List WorldCall) j => if p j then (true, r.2 ++ [mk j (v j)]) else r)
        (false, [])).2.map f).sum
      = if i ∈ l then (if p i then v i else 0) else 0 := by
  rw [foldl_calls_sum f p (fun j => mk j (v j))]
  simp only [List.map_nil, List.sum_nil, zero_add]
  have e : (fun j => if p j then f (mk j (v j)) else 0)
      = fun j => if j = i then (if p j then v j else 0) else 0 := by
    funext j
    rw [hf]
    split_ifs <;> rfl
  rw [e, sum_map_ite_eq i _ l hnd]

/-- The calls of a loop count nothing in a sum that ignores them. -/
theorem foldl_calls_sum_other (f : WorldCall → Int) (mk : Nat → Int → WorldCall)
    (hf : ∀ j m, f (mk j m) = 0) (p : Nat → Prop) [DecidablePred p]
    (v : Nat → Int) (l : List Nat) :
    ((l.foldl (fun (r : Bool × List WorldCall) j => if p j then (true, r.2 ++ [mk j (v j)]) else r)
        (false, [])).2.map f).sum = 0 := by
  rw [foldl_calls_sum f p (fun j => mk j (v j))]
  simp [hf]

/-- The closing notification of a loop counts nothing in a sum that ignores it. -/
theorem sum_map_send (f : WorldCall → Int) (b : Bool) (calls : List WorldCall) (x : WorldCall)
    (hx : f x = 0) :
    ((if b = true then calls ++ [x] else calls).map f).sum = (calls.map f).sum := by
  split_ifs <;> simp [hx]

/-- The modifiers that `updateSkills` passes for the skill `i` sum to the value held for it. -/
theorem updateSkills_skillSum (K : Enums) (c : ConditionAttributes) (i : Nat) :
    ((c.updateSkills K).map (WorldCall.skillModifier i)).sum = c.skillAt K i := by
  unfold ConditionAttributes.updateSkills ConditionAttributes.skillAt
  simp only []
  rw [sum_map_send _ _ _ _ rfl,
    foldl_calls_sum_same (WorldCall.skillModifier i) WorldCall.setVarSkill i (fun _ _ => rfl)
      (fun j => c.skills.getD j 0 ≠ 0) (fun j => c.skills.getD j 0) _ (List.nodup_range' _ _)]
  split_ifs <;> simp_all

/-- The method `updateSkills` passes no modifier for a stat. -/
theorem updateSkills_statSum (K : Enums) (c : ConditionAttributes) (i : Nat) :
    ((c.updateSkills K).map (WorldCall.statModifier i)).sum = 0 := by
  unfold ConditionAttributes.updateSkills
  simp only []
  rw [sum_map_send _ _ _ _ rfl,
    foldl_calls_sum_other (WorldCall.statModifier i) WorldCall.setVarSkill (fun _ _ => rfl)
      (fun j => c.skills.getD j 0 ≠ 0) (fun j => c.skills.getD j 0)]

/-- The modifiers that `updateStats` passes for the stat `i` sum to the value held for it. -/
theorem updateStats_statSum (K : Enums) (c : ConditionAttributes) (i : Nat) :
    ((c.updateStats K).map (WorldCall.statModifier i)).sum = c.statAt K i := by
  unfold ConditionAttributes.updateStats ConditionAttributes.statAt
  simp only []
  rw [sum_map_send _ _ _ _ rfl,
    foldl_calls_sum_same (WorldCall.statModifier i) WorldCall.setVarStats i (fun _ _ => rfl)
      (fun j => c.stats.getD j 0 ≠ 0) (fun j => c.stats.getD j 0) _ (List.nodup_range' _ _)]
  split_ifs <;> simp_all

/-- The method `updateStats` passes no modifier for a skill. -/
theorem updateStats_skillSum (K : Enums) (c : ConditionAttributes) (i : Nat) :
    ((c.updateStats K).map (WorldCall.skillModifier i)).sum = 0 := by
  unfold ConditionAttributes.updateStats
  simp only []
  rw [sum_map_send _ _ _ _ rfl,
    foldl_calls_sum_other (WorldCall.skillModifier i) WorldCall.setVarStats (fun _ _ => rfl)
      (fun j => c.stats.getD j 0 ≠ 0) (fun j => c.stats.getD j 0)]

/-- For a player the modifiers that `endCondition` passes sum, for each skill and each stat, to
the negation in `int32_t` of the value held for it. -/
theorem endCondition_sums (K : Enums) (c : ConditionAttributes) (w : World)
    (hw : w.isPlayer = true) (i : Nat) :
    ((c.endCondition K w).map (WorldCall.skillModifier i)).sum = wrapInt32 (-(c.skillAt K i))
      ∧ ((c.endCondition K w).map (WorldCall.statModifier i)).sum
        = wrapInt32 (-(c.statAt K i)) := by
  unfold ConditionAttributes.endCondition ConditionAttributes.skillAt ConditionAttributes.statAt
  rw [if_pos hw]
  simp only [List.map_append, List.sum_append]
  rw [sum_map_send _ _ _ _ rfl, sum_map_send _ _ _ _ rfl, sum_map_send _ _ _ _ rfl,
    sum_map_send _ _ _ _ rfl,
    foldl_calls_sum_same (WorldCall.skillModifier i) WorldCall.setVarSkill i (fun _ _ => rfl)
      (fun j => c.skills.getD j 0 ≠ 0 ∨ c.skillsPercent.getD j 0 ≠ 0)
      (fun j => wrapInt32 (-(c.skills.getD j 0))) _ (List.nodup_range' _ _),
    foldl_calls_sum_other (WorldCall.skillModifier i) WorldCall.setVarStats (fun _ _ => rfl)
      (fun j => c.stats.getD j 0 ≠ 0) (fun j => wrapInt32 (-(c.stats.getD j 0))),
    foldl_calls_sum_other (WorldCall.statModifier i) WorldCall.setVarSkill (fun _ _ => rfl)
      (fun j => c.skills.getD j 0 ≠ 0 ∨ c.skillsPercent.getD j 0 ≠ 0)
      (fun j => wrapInt32 (-(c.skills.getD j 0))),
    foldl_calls_sum_same (WorldCall.statModifier i) WorldCall.setVarStats i (fun _ _ => rfl)
      (fun j => c.stats.getD j 0 ≠ 0) (fun j => wrapInt32 (-(c.stats.getD j 0))) _
      (List.nodup_range' _ _)]
  have hz : wrapInt32 (-0) = 0 := by decide
  simp only [add_zero, zero_add]
  constructor
  · split_ifs with h1 h2
    · rfl
    · have : c.skills.getD i 0 = 0 := by
        by_contra h3
        exact h2 (Or.inl h3)
      rw [this]; exact hz.symm
    · exact hz.symm
  · split_ifs with h1 h2
    · rfl
    · have : c.stats.getD i 0 = 0 := not_not.mp h2
      rw [this]; exact hz.symm
    · exact hz.symm

/-- A property that every step of a loop keeps holds after the loop. -/
theorem foldl_preserves {α β : Type} (P : α → Prop) (f : α → β → α)
    (h : ∀ a b, P a → P (f a b)) : ∀ (l : List β) (a : α), P a → P (l.foldl f a) := by
  intro l
  induction l with
  | nil => intro a ha; exact ha
  | cons b l ih => intro a ha; exact ih _ (h a b ha)

/-- An entry of a list, or the default, has a property that the entries and the default have. -/
theorem getD_of_forall (P : Int → Prop) (l : List Int) (i : Nat) (h0 : P 0)
    (h : ∀ x ∈ l, P x) : P (l.getD i 0) := by
  by_cases hi : i < l.length
  · rw [List.getD_eq_getElem l 0 hi]
    exact h _ (List.getElem_mem _)
  · rw [List.getD_eq_default l 0 (by omega)]
    exact h0

/-- The method `updatePercentSkills` leaves the stats and the percentages alone and stores
values of the percent formula in the skills. -/
theorem updatePercentSkills_spec (K : Enums) (c : ConditionAttributes) (w : World)
    (P : Int → Prop) (hP : ∀ x p, P (w.percentOf x p)) :
    (c.updatePercentSkills K w).stats = c.stats
      ∧ (c.updatePercentSkills K w).statsPercent = c.statsPercent
      ∧ ((∀ x ∈ c.skills, P x) → ∀ x ∈ (c.updatePercentSkills K w).skills, P x) := by
  unfold ConditionAttributes.updatePercentSkills
  refine foldl_preserves
    (fun d : ConditionAttributes => d.stats = c.stats ∧ d.statsPercent = c.statsPercent
      ∧ ((∀ x ∈ c.skills, P x) → ∀ x ∈ d.skills, P x)) _ ?_ _ c ⟨rfl, rfl, fun h => h⟩
  intro d j ⟨h1, h2, h3⟩
  split_ifs
  · exact ⟨h1, h2, h3⟩
  · refine ⟨h1, h2, fun h x hx => ?_⟩
    rcases List.mem_or_eq_of_mem_set hx with hx | hx
    · exact h3 h x hx
    · rw [hx]; exact hP _ _

/-- The method `updatePercentStats` leaves the skills alone and stores values of the percent
formula in the stats. -/
theorem updatePercentStats_spec (K : Enums) (c : ConditionAttributes) (w : World)
    (P : Int → Prop) (hP : ∀ x p, P (w.percentOf x p)) :
    (c.updatePercentStats K w).skills = c.skills
      ∧ ((∀ x ∈ c.stats, P x) → ∀ x ∈ (c.updatePercentStats K w).stats, P x) := by
  unfold ConditionAttributes.updatePercentStats
  refine foldl_preserves
    (fun d : ConditionAttributes => d.skills = c.skills
      ∧ ((∀ x ∈ c.stats, P x) → ∀ x ∈ d.stats, P x)) _ ?_ _ c ⟨rfl, fun h => h⟩
  intro d j ⟨h1, h3⟩
  split_ifs
  all_goals first
    | exact ⟨h1, h3⟩
    | (refine ⟨h1, fun h x hx => ?_⟩
       rcases List.mem_or_eq_of_mem_set hx with hx | hx
       · exact h3 h x hx
       · rw [hx]; exact hP _ _)

/-- The four update calls pass, for each skill and each stat, modifiers that sum to the value
held for it afterwards. -/
theorem updateAll_sums (K : Enums) (c : ConditionAttributes) (w : World) (i : Nat) :
    (((c.updateAll K w).2.map (WorldCall.skillModifier i)).sum = (c.updateAll K w).1.skillAt K i
      ∧ ((c.updateAll K w).2.map (WorldCall.statModifier i)).sum
        = (c.updateAll K w).1.statAt K i) := by
  unfold ConditionAttributes.updateAll
  simp only [List.map_append, List.sum_append]
  rw [updateSkills_skillSum, updateStats_skillSum, updateSkills_statSum, updateStats_statSum]
  have h := (updatePercentStats_spec K (c.updatePercentSkills K w) w (fun _ => True)
    (fun _ _ => trivial)).1
  constructor
  · unfold ConditionAttributes.skillAt
    rw [h, add_zero]
  · rw [zero_add]

/-- The four update calls keep a property of the entries that the values of the percent formula
have. -/
theorem updateAll_entries (K : Enums) (c : ConditionAttributes) (w : World) (P : Int → Prop)
    (hP : ∀ x p, P (w.percentOf x p)) (hc : (∀ x ∈ c.skills, P x) ∧ (∀ x ∈ c.stats, P x)) :
    (∀ x ∈ (c.updateAll K w).1.skills, P x) ∧ (∀ x ∈ (c.updateAll K w).1.stats, P x) := by
  unfold ConditionAttributes.updateAll
  simp only []
  obtain ⟨h1, -, h3⟩ := updatePercentSkills_spec K c w P hP
  obtain ⟨h4, h5⟩ := updatePercentStats_spec K (c.updatePercentSkills K w) w P hP
  refine ⟨?_, ?_⟩
  · rw [h4]; exact h3 hc.1
  · apply h5
    rw [h1]; exact hc.2

/-- The value held for a skill or a stat has a property that the entries and zero have. -/
theorem skillAt_of_forall (K : Enums) (c : ConditionAttributes) (P : Int → Prop) (h0 : P 0)
    (hc : (∀ x ∈ c.skills, P x) ∧ (∀ x ∈ c.stats, P x)) (i : Nat) :
    P (c.skillAt K i) ∧ P (c.statAt K i) := by
  unfold ConditionAttributes.skillAt ConditionAttributes.statAt
  constructor
  · split_ifs
    · exact getD_of_forall P _ _ h0 hc.1
    · exact h0
  · split_ifs
    · exact getD_of_forall P _ _ h0 hc.2
    · exact h0

/-- The negation in `int32_t` cancels a value modulo `2^32`, and exactly when the value is
not the least one. -/
theorem wrapInt32_neg_add (x : Int) :
    (wrapInt32 (-x) + x) % 4294967296 = 0 ∧ (Negatable32 x → wrapInt32 (-x) = -x) := by
  unfold wrapInt32 Negatable32
  constructor
  · omega
  · intro h; omega

/-- For a player `startCondition` passes, for each skill and each stat, modifiers that sum to
the value held for it afterwards. -/
theorem attributes_startCondition_sums (K : Enums) (c : ConditionAttributes) (w : World)
    (hw : w.isPlayer = true) (i : Nat) :
    ((c.startCondition K w).2.2.map (WorldCall.skillModifier i)).sum
        = (c.startCondition K w).2.1.skillAt K i
      ∧ ((c.startCondition K w).2.2.map (WorldCall.statModifier i)).sum
        = (c.startCondition K w).2.1.statAt K i
      ∧ ∀ P : Int → Prop, (∀ x p, P (w.percentOf x p)) →
          (∀ x ∈ c.skills, P x) ∧ (∀ x ∈ c.stats, P x) →
          (∀ x ∈ (c.startCondition K w).2.1.skills, P x)
            ∧ (∀ x ∈ (c.startCondition K w).2.1.stats, P x) := by
  unfold ConditionAttributes.startCondition
  simp only [Condition.startCondition, hw, if_true]
  refine ⟨(updateAll_sums K _ w i).1, (updateAll_sums K _ w i).2, ?_⟩
  intro P hP hc
  exact updateAll_entries K _ w P hP hc

/-- For a player one merge passes, for each skill and each stat, modifiers whose sum is the
difference of the values held after and before the merge modulo `2^32`, and exactly when the
value held before is not the least one. -/
theorem attributes_addCondition_sums (K : Enums) (c a : ConditionAttributes) (w : World)
    (hw : w.isPlayer = true) (i : Nat) :
    ((((c.addCondition K w a).2.map (WorldCall.skillModifier i)).sum + c.skillAt K i
          - (c.addCondition K w a).1.skillAt K i) % 4294967296 = 0
        ∧ (Negatable32 (c.skillAt K i) →
            ((c.addCondition K w a).2.map (WorldCall.skillModifier i)).sum + c.skillAt K i
              = (c.addCondition K w a).1.skillAt K i))
      ∧ ((((c.addCondition K w a).2.map (WorldCall.statModifier i)).sum + c.statAt K i
          - (c.addCondition K w a).1.statAt K i) % 4294967296 = 0
        ∧ (Negatable32 (c.statAt K i) →
            ((c.addCondition K w a).2.map (WorldCall.statModifier i)).sum + c.statAt K i
              = (c.addCondition K w a).1.statAt K i))
      ∧ ∀ P : Int → Prop, (∀ x p, P (w.percentOf x p)) →
          (∀ x ∈ c.skills, P x) ∧ (∀ x ∈ c.stats, P x) →
          (∀ x ∈ a.skills, P x) ∧ (∀ x ∈ a.stats, P x) →
          (∀ x ∈ (c.addCondition K w a).1.skills, P x)
            ∧ (∀ x ∈ (c.addCondition K w a).1.stats, P x) := by
  unfold ConditionAttributes.addCondition
  by_cases hacc : c.toCondition.updateCondition w.now a.toCondition = true
  · rw [if_pos hacc]
    simp only [hw, if_true, List.map_append, List.sum_append]
    obtain ⟨he1, he2⟩ := endCondition_sums K
      { c with toCondition := c.toCondition.setTicks w.now a.ticks } w hw i
    obtain ⟨hu1, hu2⟩ := updateAll_sums K
      { c with
        toCondition := c.toCondition.setTicks w.now a.ticks
        skills := a.skills
        skillsPercent := a.skillsPercent
        stats := a.stats
        statsPercent := a.statsPercent } w i
    have hs : ({ c with toCondition := c.toCondition.setTicks w.now a.ticks }
        : ConditionAttributes).skillAt K i = c.skillAt K i := rfl
    have ht : ({ c with toCondition := c.toCondition.setTicks w.now a.ticks }
        : ConditionAttributes).statAt K i = c.statAt K i := rfl
    rw [hs] at he1
    rw [ht] at he2
    rw [he1, he2, hu1, hu2]
    obtain ⟨hm1, hx1⟩ := wrapInt32_neg_add (c.skillAt K i)
    obtain ⟨hm2, hx2⟩ := wrapInt32_neg_add (c.statAt K i)
    refine ⟨⟨by omega, fun h => by rw [hx1 h]; ring⟩, ⟨by omega, fun h => by rw [hx2 h]; ring⟩, ?_⟩
    intro P hP _ ha
    exact updateAll_entries K _ w P hP ha
  · rw [if_neg hacc]
    simp only [List.map_nil, List.sum_nil, zero_add, sub_self, Int.zero_emod, implies_true,
      and_self, true_and]
    intro P _ hc _
    exact hc

/-- For a player a sequence of merges passes, for each skill and each stat, modifiers whose
sum is the difference of the values held after and before the merges modulo `2^32`, and exactly
when no entry involved is the least value of `int32_t`. -/
theorem attributes_addConditions_sums (K : Enums) (i : Nat) :
    ∀ (merges : List (World × ConditionAttributes)) (c : ConditionAttributes),
      (∀ m ∈ merges, m.1.isPlayer = true) →
      ((((c.addConditions K merges).2.map (WorldCall.skillModifier i)).sum + c.skillAt K i
            - (c.addConditions K merges).1.skillAt K i) % 4294967296 = 0
          ∧ (((c.addConditions K merges).2.map (WorldCall.statModifier i)).sum + c.statAt K i
            - (c.addConditions K merges).1.statAt K i) % 4294967296 = 0)
        ∧ ((∀ m ∈ merges, ∀ x p, Negatable32 (m.1.percentOf x p)) →
            (∀ x ∈ c.skills, Negatable32 x) ∧ (∀ x ∈ c.stats, Negatable32 x) →
            (∀ m ∈ merges, (∀ x ∈ m.2.skills, Negatable32 x) ∧ (∀ x ∈ m.2.stats, Negatable32 x)) →
            (((c.addConditions K merges).2.map (WorldCall.skillModifier i)).sum + c.skillAt K i
                = (c.addConditions K merges).1.skillAt K i
              ∧ ((c.addConditions K merges).2.map (WorldCall.statModifier i)).sum + c.statAt K i
                = (c.addConditions K merges).1.statAt K i)
            ∧ (∀ x ∈ (c.addConditions K merges).1.skills, Negatable32 x)
            ∧ (∀ x ∈ (c.addConditions K merges).1.stats, Negatable32 x)) := by
  intro merges
  induction merges with
  | nil =>
    intro c _
    simp only [ConditionAttributes.addConditions, List.map_nil, List.sum_nil, zero_add, sub_self,
      Int.zero_emod, and_self, true_and]
    intro _ hc _
    exact hc
  | cons m ms ih =>
    intro c hm
    have hw : m.1.isPlayer = true := hm m (List.mem_cons_self _ _)
    obtain ⟨⟨hs1, hs2⟩, ⟨ht1, ht2⟩, hent⟩ := attributes_addCondition_sums K c m.2 m.1 hw i
    obtain ⟨⟨hi1, hi2⟩, hi3⟩ := ih (c.addCondition K m.1 m.2).1
      (fun m' hm' => hm m' (List.mem_cons_of_mem _ hm'))
    simp only [ConditionAttributes.addConditions, List.map_append, List.sum_append]
    refine ⟨⟨by omega, by omega⟩, ?_⟩
    intro hP hc ha
    have hz : Negatable32 0 := by decide
    obtain ⟨hn1, hn2⟩ := skillAt_of_forall K c Negatable32 hz hc i
    have hc1 := hent Negatable32 (hP m (List.mem_cons_self _ _)) hc (ha m (List.mem_cons_self _ _))
    obtain ⟨⟨he1, he2⟩, hr⟩ := hi3 (fun m' hm' => hP m' (List.mem_cons_of_mem _ hm')) hc1
      (fun m' hm' => ha m' (List.mem_cons_of_mem _ hm'))
    have h1 := hs2 hn1
    have h2 := ht2 hn2
    exact ⟨⟨by omega, by omega⟩, hr⟩

/-- Claim C23 (amended). For every attributes condition applied to a player,
`startCondition` followed by any number of accepted or rejected `addCondition`
merges and then by `endCondition` passes, for each skill index and each stat
index, modifiers to the player's variable skill and stat offsets that sum to
zero modulo `2^32`, and to exactly zero when no entry of the skill and stat
arrays involved and no value of the percent formula is the least value of
`int32_t`. -/
theorem attributes_lifecycle_sum (K : Enums) (c : ConditionAttributes) (w : World)
    (merges : List (World × ConditionAttributes)) (wEnd : World) (i : Nat)
    (hw : w.isPlayer = true) (hm : ∀ m ∈ merges, m.1.isPlayer = true)
    (he : wEnd.isPlayer = true) :
    ((((c.lifecycle K w merges wEnd).map (WorldCall.skillModifier i)).sum % 4294967296 = 0
        ∧ ((c.lifecycle K w merges wEnd).map (WorldCall.statModifier i)).sum % 4294967296 = 0))
      ∧ ((∀ x p, Negatable32 (w.percentOf x p)) →
          (∀ m ∈ merges, ∀ x p, Negatable32 (m.1.percentOf x p)) →
          (∀ x ∈ c.skills, Negatable32 x) ∧ (∀ x ∈ c.stats, Negatable32 x) →
          (∀ m ∈ merges, (∀ x ∈ m.2.skills, Negatable32 x) ∧ (∀ x ∈ m.2.stats, Negatable32 x)) →
          ((c.lifecycle K w merges wEnd).map (WorldCall.skillModifier i)).sum = 0
            ∧ ((c.lifecycle K w merges wEnd).map (WorldCall.statModifier i)).sum = 0) := by
  obtain ⟨hs1, hs2, hs3⟩ := attributes_startCondition_sums K c w hw i
  obtain ⟨⟨hm1, hm2⟩, hm3⟩ := attributes_addConditions_sums K i merges (c.startCondition K w).2.1 hm
  obtain ⟨he1, he2⟩ := endCondition_sums K ((c.startCondition K w).2.1.addConditions K merges).1
    wEnd he i
  obtain ⟨hn1, hx1⟩ := wrapInt32_neg_add
    (((c.startCondition K w).2.1.addConditions K merges).1.skillAt K i)
  obtain ⟨hn2, hx2⟩ := wrapInt32_neg_add
    (((c.startCondition K w).2.1.addConditions K merges).1.statAt K i)
  unfold ConditionAttributes.lifecycle
  simp only [List.map_append, List.sum_append]
  rw [hs1, hs2, he1, he2]
  refine ⟨⟨by omega, by omega⟩, ?_⟩
  intro hP hPm hc ha
  have hz : Negatable32 0 := by decide
  obtain ⟨⟨h1, h2⟩, h3⟩ := hm3 hPm (hs3 Negatable32 hP hc) ha
  obtain ⟨h4, h5⟩ := skillAt_of_forall K _ Negatable32 hz h3 i
  rw [hx1 h4, hx2 h5]
  exact ⟨by omega, by omega⟩

/-- Claim C23 at a condition that adds 10 to the first skill, one merge with a condition that
adds 5 and the sample world: the modifiers passed for the first skill are `10`, `-10`, `5` and
`-5`. -/
theorem attributes_lifecycle_sum_witness :
    ((((ConditionAttributes.setParam Enums.sample
            (ConditionAttributes.new Enums.sample 0 1 1000 false 0)
            .CONDITION_PARAM_SKILL_FIST 10).2.lifecycle Enums.sample World.sample
          [(World.sample, (ConditionAttributes.setParam Enums.sample
            (ConditionAttributes.new Enums.sample 0 1 2000 false 0)
            .CONDITION_PARAM_SKILL_FIST 5).2)] World.sample).map
        (WorldCall.skillModifier 0)).sum % 4294967296 = 0)
      ∧ (((ConditionAttributes.setParam Enums.sample
            (ConditionAttributes.new Enums.sample 0 1 1000 false 0)
            .CONDITION_PARAM_SKILL_FIST 10).2.lifecycle Enums.sample World.sample
          [(World.sample, (ConditionAttributes.setParam Enums.sample
            (ConditionAttributes.new Enums.sample 0 1 2000 false 0)
            .CONDITION_PARAM_SKILL_FIST 5).2)] World.sample).filter
            (fun call => decide (WorldCall.skillModifier 0 call ≠ 0))
        = [.setVarSkill 0 10, .setVarSkill 0 (-10), .setVarSkill 0 5, .setVarSkill 0 (-5)]) :=
  ⟨(attributes_lifecycle_sum Enums.sample
      (ConditionAttributes.setParam Enums.sample
        (ConditionAttributes.new Enums.sample 0 1 1000 false 0) .CONDITION_PARAM_SKILL_FIST 10).2
      World.sample
      [(World.sample, (ConditionAttributes.setParam Enums.sample
        (ConditionAttributes.new Enums.sample 0 1 2000 false 0)
        .CONDITION_PARAM_SKILL_FIST 5).2)] World.sample 0 rfl (by decide) rfl).1.1,
    by decide⟩

/-- Claim C23 as stated fails when a value held is the least value of `int32_t`: the negation
that `endCondition` passes wraps, and the two modifiers passed for the first skill are both
`-2147483648`, with the sum `-4294967296`. -/
theorem attributes_lifecycle_sum_counterexample :
    World.sample.isPlayer = true
      ∧ (ConditionAttributes.setParam Enums.sample
            (ConditionAttributes.new Enums.sample 0 1 1000 false 0)
            .CONDITION_PARAM_SKILL_FIST (-2147483648)).2.lifecycle Enums.sample World.sample []
          World.sample
        = [.setVarSkill 0 (-2147483648), .sendSkills, .setVarSkill 0 (-2147483648), .sendSkills]
      ∧ (((ConditionAttributes.setParam Enums.sample
            (ConditionAttributes.new Enums.sample 0 1 1000 false 0)
            .CONDITION_PARAM_SKILL_FIST (-2147483648)).2.lifecycle Enums.sample World.sample []
          World.sample).map (WorldCall.skillModifier 0)).sum = -4294967296 := by
  decide

/-! ## The outcome of decoding -/

/-- A 32-bit read fails on fewer than four bytes and consumes four bytes otherwise. -/
theorem readUInt32_cases (s : PropStream) :
    (s.length < 4 ∧ s.readUInt32 = none) ∨ (4 ≤ s.length ∧ ∃ v, s.readUInt32 = some (v, s.drop 4)) := by
  match s with
  | [] => left; exact ⟨by simp, rfl⟩
  | [_] => left; exact ⟨by simp, rfl⟩
  | [_, _] => left; exact ⟨by simp, rfl⟩
  | [_, _, _] => left; exact ⟨by simp, rfl⟩
  | b0 :: b1 :: b2 :: b3 :: s => right; exact ⟨by simp, _, rfl⟩

/-- A signed 32-bit read fails on fewer than four bytes and consumes four bytes otherwise. -/
theorem readInt32_cases (s : PropStream) :
    (s.length < 4 ∧ s.readInt32 = none) ∨ (4 ≤ s.length ∧ ∃ v, s.readInt32 = some (v, s.drop 4)) := by
  unfold PropStream.readInt32
  rcases readUInt32_cases s with ⟨h, e⟩ | ⟨h, v, e⟩
  · left; rw [e]; exact ⟨h, rfl⟩
  · right; rw [e]; exact ⟨h, _, rfl⟩

/-- A byte read fails on the empty stream and consumes one byte otherwise. -/
theorem readUInt8_cases (s : PropStream) :
    (s.length < 1 ∧ s.readUInt8 = none) ∨ (1 ≤ s.length ∧ ∃ v, s.readUInt8 = some (v, s.drop 1)) := by
  match s with
  | [] => left; exact ⟨by simp, rfl⟩
  | b :: s => right; exact ⟨by simp, _, rfl⟩

/-- The decoder of the base class succeeds exactly on a recognised tag that is followed by its
payload, which it consumes. -/
theorem base_unserializeProp_spec (K : Enums) (c : Condition) (attr : Nat) (s : PropStream) :
    ((Condition.tags.find? (fun p => decide (attr = K.attr p.1))).map (fun p => p.2) = none →
        (c.unserializeProp K attr s).1 = false)
      ∧ ∀ n, (Condition.tags.find? (fun p => decide (attr = K.attr p.1))).map (fun p => p.2)
            = some n →
          (s.length < n → (c.unserializeProp K attr s).1 = false)
            ∧ (n ≤ s.length → (c.unserializeProp K attr s).1 = true
                ∧ (c.unserializeProp K attr s).2.2 = s.drop n) := by
  unfold Condition.unserializeProp Condition.tags
  split_ifs with h1 h2 h3 h4 h5 h6
  all_goals try subst_vars
  all_goals simp only [List.find?, *, decide_True, decide_False,
    Option.map_some', Option.map_none', Option.some.injEq, reduceCtorEq, false_implies,
    true_and, forall_eq', forall_const, not_false_eq_true, implies_true, and_true]
  · rcases readInt32_cases s with ⟨h, e⟩ | ⟨h, v, e⟩ <;> rw [e] <;> first
      | (refine ⟨fun _ => rfl, fun h' => ?_⟩; omega)
      | (refine ⟨fun h' => ?_, fun _ => ⟨rfl, rfl⟩⟩; omega)
  · rcases readInt32_cases s with ⟨h, e⟩ | ⟨h, v, e⟩ <;> rw [e] <;> first
      | (refine ⟨fun _ => rfl, fun h' => ?_⟩; omega)
      | (refine ⟨fun h' => ?_, fun _ => ⟨rfl, rfl⟩⟩; omega)
  · rcases readInt32_cases s with ⟨h, e⟩ | ⟨h, v, e⟩ <;> rw [e] <;> first
      | (refine ⟨fun _ => rfl, fun h' => ?_⟩; omega)
      | (refine ⟨fun h' => ?_, fun _ => ⟨rfl, rfl⟩⟩; omega)
  · rcases readUInt8_cases s with ⟨h, e⟩ | ⟨h, v, e⟩ <;> rw [e] <;> first
      | (refine ⟨fun _ => rfl, fun h' => ?_⟩; omega)
      | (refine ⟨fun h' => ?_, fun _ => ⟨rfl, rfl⟩⟩; omega)
  · rcases readUInt32_cases s with ⟨h, e⟩ | ⟨h, v, e⟩ <;> rw [e] <;> first
      | (refine ⟨fun _ => rfl, fun h' => ?_⟩; omega)
      | (refine ⟨fun h' => ?_, fun _ => ⟨rfl, rfl⟩⟩; omega)
  · simp

/-- Skipping fails on fewer bytes than asked for and drops them otherwise. -/
theorem skip_cases (s : PropStream) (n : Nat) :
    (s.length < n ∧ s.skip n = none) ∨ (n ≤ s.length ∧ s.skip n = some (s.drop n)) := by
  unfold PropStream.skip
  split_ifs with h
  · left; exact ⟨h, rfl⟩
  · right; exact ⟨by omega, rfl⟩

/-- Reading a record of raw bytes fails on fewer bytes than the record has and consumes them
otherwise. -/
theorem readBytes_cases (s : PropStream) (n : Nat) :
    (s.length < n ∧ s.readBytes n = none)
      ∨ (n ≤ s.length ∧ ∃ v, s.readBytes n = some (v, s.drop n)) := by
  unfold PropStream.readBytes
  split_ifs with h
  · left; exact ⟨h, rfl⟩
  · right; exact ⟨by omega, _, rfl⟩

/-- Reading a schedule entry fails on fewer than twelve bytes and consumes twelve otherwise. -/
theorem readIntervalInfo_cases (s : PropStream) :
    (s.length < 12 ∧ s.readIntervalInfo = none)
      ∨ (12 ≤ s.length ∧ ∃ v, s.readIntervalInfo = some (v, s.drop 12)) := by
  unfold PropStream.readIntervalInfo
  split_ifs with h
  · left; exact ⟨h, rfl⟩
  · right
    refine ⟨by omega, ?_⟩
    rcases readInt32_cases s with ⟨h1, -⟩ | ⟨-, v1, e1⟩
    · omega
    · rw [e1]
      rcases readInt32_cases (s.drop 4) with ⟨h2, -⟩ | ⟨-, v2, e2⟩
      · rw [List.length_drop] at h2; omega
      · simp only [e2]
        rcases readInt32_cases ((s.drop 4).drop 4) with ⟨h3, -⟩ | ⟨-, v3, e3⟩
        · rw [List.length_drop, List.length_drop] at h3; omega
        · simp only [e3]
          refine ⟨{ timeLeft := v2, value := v3, interval := v1 }, ?_⟩
          simp [List.drop_drop]

/-- The decoder of a class other than `ConditionAttributes` always has a result. -/
theorem unserializeProp_isSome (K : Enums) (now : Int) (c : AnyCondition) (attr : Nat)
    (s : PropStream) (hv : c.variant ≠ .Attributes) :
    ∃ p, c.unserializeProp K now attr s = some p := by
  cases c <;> first
    | exact absurd rfl hv
    | exact ⟨_, rfl⟩

/-- The decoder of every class, when it has a result, keeps the class of the instance and
succeeds exactly on a tag that it or the base decoder recognises and that is followed by its
payload, which it consumes. -/
theorem unserializeProp_spec (K : Enums) (now : Int) (c : AnyCondition) (attr : Nat)
    (s : PropStream) (p : Bool × AnyCondition × PropStream)
    (hp : c.unserializeProp K now attr s = some p) :
    p.2.1.variant = c.variant
      ∧ (c.variant.payloadSize K attr = none → p.1 = false)
      ∧ ∀ n, c.variant.payloadSize K attr = some n →
          (s.length < n → p.1 = false)
            ∧ (n ≤ s.length → p.1 = true ∧ p.2.2 = s.drop n) := by
  have hb := base_unserializeProp_spec K
  cases c with
  | generic c =>
    simp only [AnyCondition.unserializeProp, Option.some.injEq] at hp
    subst hp
    simp only [AnyCondition.variant, Variant.payloadSize, Variant.tags, List.nil_append, true_and]
    exact hb c attr s
  | invisible c =>
    simp only [AnyCondition.unserializeProp, Option.some.injEq] at hp
    subst hp
    simp only [AnyCondition.variant, Variant.payloadSize, Variant.tags, List.nil_append, true_and]
    exact hb c attr s
  | spellCooldown c =>
    simp only [AnyCondition.unserializeProp, Option.some.injEq] at hp
    subst hp
    simp only [AnyCondition.variant, Variant.payloadSize, Variant.tags, List.nil_append, true_and]
    exact hb c attr s
  | spellGroupCooldown c =>
    simp only [AnyCondition.unserializeProp, Option.some.injEq] at hp
    subst hp
    simp only [AnyCondition.variant, Variant.payloadSize, Variant.tags, List.nil_append, true_and]
    exact hb c attr s
  | soul c =>
    simp only [AnyCondition.unserializeProp, Option.some.injEq] at hp
    subst hp
    simp only [ConditionSoul.unserializeProp, PropStream.readFloat,
      AnyCondition.variant, Variant.payloadSize, Variant.tags, List.cons_append, List.nil_append]
    split_ifs
    all_goals try subst_vars
    all_goals simp only [List.find?_cons, *, decide_True, decide_False,
      Option.map_some', Option.map_none', Option.some.injEq, reduceCtorEq, false_implies,
      true_and, forall_eq', forall_const, not_false_eq_true, implies_true, and_true]
    all_goals first
      | exact hb _ _ _
      | (rcases readUInt32_cases s with ⟨h, e⟩ | ⟨h, v, e⟩ <;> rw [e] <;> first
        | (refine ⟨fun _ => rfl, fun h' => ?_⟩; omega)
        | (refine ⟨fun h' => ?_, fun _ => ⟨rfl, rfl⟩⟩; omega))
  | attributes c =>
    simp only [AnyCondition.unserializeProp] at hp
    cases hq : c.unserializeProp K attr s with
    | none => rw [hq] at hp; cases hp
    | some q =>
      obtain ⟨r, c1, s2⟩ := q
      rw [hq] at hp
      cases hp
      simp only [AnyCondition.variant, Variant.payloadSize, Variant.tags, List.cons_append,
        List.nil_append, true_and]
      unfold ConditionAttributes.unserializeProp at hq
      split_ifs at hq with h1 h2
      · subst h1
        simp only [List.find?_cons, decide_True, Option.map_some', Option.some.injEq,
          reduceCtorEq, false_implies, true_and, forall_eq']
        rcases readInt32_cases s with ⟨h, e⟩ | ⟨h, v, e⟩
        · rw [e] at hq
          cases hq
          exact ⟨fun _ => rfl, fun h' => by omega⟩
        · rw [e] at hq
          simp only at hq
          split_ifs at hq
          cases hq
          exact ⟨fun h' => by omega, fun _ => ⟨rfl, rfl⟩⟩
      · subst h2
        simp only [List.find?_cons, h1, decide_True, decide_False, Option.map_some',
          Option.some.injEq, reduceCtorEq, false_implies, true_and, forall_eq']
        rcases readInt32_cases s with ⟨h, e⟩ | ⟨h, v, e⟩
        · rw [e] at hq
          cases hq
          exact ⟨fun _ => rfl, fun h' => by omega⟩
        · rw [e] at hq
          simp only at hq
          split_ifs at hq
          cases hq
          exact ⟨fun h' => by omega, fun _ => ⟨rfl, rfl⟩⟩
      · cases hq
        simp only [List.find?_cons, h1, h2, decide_False]
        exact hb _ _ _
  | regeneration c =>
    simp only [AnyCondition.unserializeProp, Option.some.injEq] at hp
    subst hp
    simp only [ConditionRegeneration.unserializeProp, PropStream.readFloat,
      AnyCondition.variant, Variant.payloadSize, Variant.tags, List.cons_append, List.nil_append]
    split_ifs
    all_goals try subst_vars
    all_goals simp only [List.find?_cons, *, decide_True, decide_False,
      Option.map_some', Option.map_none', Option.some.injEq, reduceCtorEq, false_implies,
      true_and, forall_eq', forall_const, not_false_eq_true, implies_true, and_true]
    all_goals first
      | exact hb _ _ _
      | (rcases readUInt32_cases s with ⟨h, e⟩ | ⟨h, v, e⟩ <;> rw [e] <;> first
        | (refine ⟨fun _ => rfl, fun h' => ?_⟩; omega)
        | (refine ⟨fun h' => ?_, fun _ => ⟨rfl, rfl⟩⟩; omega))
  | damage c =>
    simp only [AnyCondition.unserializeProp, Option.some.injEq] at hp
    subst hp
    simp only [ConditionDamage.unserializeProp, PropStream.readFloat,
      AnyCondition.variant, Variant.payloadSize, Variant.tags, List.cons_append, List.nil_append]
    split_ifs
    all_goals try subst_vars
    all_goals simp only [List.find?_cons, *, decide_True, decide_False,
      Option.map_some', Option.map_none', Option.some.injEq, reduceCtorEq, false_implies,
      true_and, forall_eq', forall_const, not_false_eq_true, implies_true, and_true]
    all_goals first
      | exact hb _ _ _
      | (rcases readUInt8_cases s with ⟨h, e⟩ | ⟨h, v, e⟩ <;> rw [e] <;> first
        | (refine ⟨fun _ => rfl, fun h' => ?_⟩; omega)
        | (refine ⟨fun h' => ?_, fun _ => ⟨rfl, rfl⟩⟩; omega))
      | (rcases readInt32_cases s with ⟨h, e⟩ | ⟨h, v, e⟩ <;> rw [e] <;> first
        | (refine ⟨fun _ => rfl, fun h' => ?_⟩; omega)
        | (refine ⟨fun h' => ?_, fun _ => ⟨rfl, rfl⟩⟩; omega))
      | (rcases skip_cases s 4 with ⟨h, e⟩ | ⟨h, e⟩ <;> rw [e] <;> first
        | (refine ⟨fun _ => rfl, fun h' => ?_⟩; omega)
        | (refine ⟨fun h' => ?_, fun _ => ⟨rfl, rfl⟩⟩; omega))
      | (rcases readIntervalInfo_cases s with ⟨h, e⟩ | ⟨h, v, e⟩ <;> rw [e] <;> first
        | (refine ⟨fun _ => rfl, fun h' => ?_⟩; omega)
        | (refine ⟨fun h' => ?_, fun _ => ⟨rfl, rfl⟩⟩; omega))
  | speed c =>
    simp only [AnyCondition.unserializeProp, Option.some.injEq] at hp
    subst hp
    simp only [ConditionSpeed.unserializeProp, PropStream.readFloat,
      AnyCondition.variant, Variant.payloadSize, Variant.tags, List.cons_append, List.nil_append]
    split_ifs
    all_goals try subst_vars
    all_goals simp only [List.find?_cons, *, decide_True, decide_False,
      Option.map_some', Option.map_none', Option.some.injEq, reduceCtorEq, false_implies,
      true_and, forall_eq', forall_const, not_false_eq_true, implies_true, and_true]
    all_goals first
      | exact hb _ _ _
      | (rcases readInt32_cases s with ⟨h, e⟩ | ⟨h, v, e⟩ <;> rw [e] <;> first
        | (refine ⟨fun _ => rfl, fun h' => ?_⟩; omega)
        | (refine ⟨fun h' => ?_, fun _ => ⟨rfl, rfl⟩⟩; omega))
      | (rcases readUInt32_cases s with ⟨h, e⟩ | ⟨h, v, e⟩ <;> rw [e] <;> first
        | (refine ⟨fun _ => rfl, fun h' => ?_⟩; omega)
        | (refine ⟨fun h' => ?_, fun _ => ⟨rfl, rfl⟩⟩; omega))
  | outfit c =>
    simp only [AnyCondition.unserializeProp, Option.some.injEq] at hp
    subst hp
    simp only [ConditionOutfit.unserializeProp, PropStream.readFloat,
      AnyCondition.variant, Variant.payloadSize, Variant.tags, List.cons_append, List.nil_append]
    split_ifs
    all_goals try subst_vars
    all_goals simp only [List.find?_cons, *, decide_True, decide_False,
      Option.map_some', Option.map_none', Option.some.injEq, reduceCtorEq, false_implies,
      true_and, forall_eq', forall_const, not_false_eq_true, implies_true, and_true]
    all_goals first
      | exact hb _ _ _
      | (rcases readBytes_cases s K.sizeofOutfit with ⟨h, e⟩ | ⟨h, v, e⟩ <;> rw [e] <;> first
        | (refine ⟨fun _ => rfl, fun h' => ?_⟩; omega)
        | (refine ⟨fun h' => ?_, fun _ => ⟨rfl, rfl⟩⟩; omega))
  | light c =>
    simp only [AnyCondition.unserializeProp, Option.some.injEq] at hp
    subst hp
    simp only [ConditionLight.unserializeProp, PropStream.readFloat,
      AnyCondition.variant, Variant.payloadSize, Variant.tags, List.cons_append, List.nil_append]
    split_ifs
    all_goals try subst_vars
    all_goals simp only [List.find?_cons, *, decide_True, decide_False,
      Option.map_some', Option.map_none', Option.some.injEq, reduceCtorEq, false_implies,
      true_and, forall_eq', forall_const, not_false_eq_true, implies_true, and_true]
    all_goals first
      | exact hb _ _ _
      | (rcases readUInt32_cases s with ⟨h, e⟩ | ⟨h, v, e⟩ <;> rw [e] <;> first
        | (refine ⟨fun _ => rfl, fun h' => ?_⟩; omega)
        | (refine ⟨fun h' => ?_, fun _ => ⟨rfl, rfl⟩⟩; omega))

/-- The decoding loop, when it has a result on a stream of fewer than `fuel` bytes, returns what
the specification states. -/
theorem unserializeLoop_spec (K : Enums) (now : Int) :
    ∀ (fuel : Nat) (c : AnyCondition) (s : PropStream), s.length < fuel →
      ∀ r c' rest', AnyCondition.unserializeLoop K now fuel c s = some (r, c', rest') →
        (r = false ↔ claimedUnserialize K c.variant fuel s = none)
        ∧ ∀ rest, claimedUnserialize K c.variant fuel s = some rest → r = true ∧ rest' = rest := by
  intro fuel
  induction fuel with
  | zero => intro c s h; exact absurd h (Nat.not_lt_zero _)
  | succ fuel ih =>
    intro c s h r c' rest' hres
    cases s with
    | nil =>
      simp only [AnyCondition.unserializeLoop, PropStream.readUInt8, Option.some.injEq,
        Prod.mk.injEq] at hres
      obtain ⟨rfl, -, rfl⟩ := hres
      refine ⟨by simp [claimedUnserialize], ?_⟩
      intro rest hr
      simp only [claimedUnserialize, Option.some.injEq] at hr
      exact ⟨rfl, hr⟩
    | cons tag s1 =>
      simp only [List.length_cons] at h
      unfold AnyCondition.unserializeLoop at hres
      unfold claimedUnserialize
      simp only [PropStream.readUInt8] at hres
      by_cases he : tag = K.attr .CONDITIONATTR_END
      · rw [if_pos he] at hres ⊢
        simp only [Option.some.injEq, Prod.mk.injEq] at hres
        obtain ⟨rfl, -, rfl⟩ := hres
        refine ⟨by simp, ?_⟩
        intro rest hr
        simp only [Option.some.injEq] at hr
        exact ⟨rfl, hr⟩
      · rw [if_neg he] at hres ⊢
        cases hq : c.unserializeProp K now tag s1 with
        | none => rw [hq] at hres; cases hres
        | some q =>
          obtain ⟨hv, hnone, hsome⟩ := unserializeProp_spec K now c tag s1 q hq
          obtain ⟨r1, c1, s2⟩ := q
          rw [hq] at hres
          simp only at hv hnone hsome
          cases hp : c.variant.payloadSize K tag with
          | none =>
            have hr := hnone hp
            subst hr
            simp only [Option.some.injEq, Prod.mk.injEq] at hres
            obtain ⟨rfl, -, -⟩ := hres
            exact ⟨by simp, fun rest hr => by simp at hr⟩
          | some n =>
            simp only []
            by_cases hn : s1.length < n
            · have hr := (hsome n hp).1 hn
              subst hr
              rw [if_pos hn]
              simp only [Option.some.injEq, Prod.mk.injEq] at hres
              obtain ⟨rfl, -, -⟩ := hres
              exact ⟨by simp, fun rest hr => by simp at hr⟩
            · obtain ⟨hr, hs2⟩ := (hsome n hp).2 (by omega)
              subst hr
              subst hs2
              rw [if_neg hn]
              simp only [] at hres
              have := ih c1 (s1.drop n) (by rw [List.length_drop]; omega) r c' rest' hres
              rw [hv] at this
              exact this

/-- The decoding loop of a class other than `ConditionAttributes` has a result on every stream
of fewer than `fuel` bytes. -/
theorem unserializeLoop_isSome (K : Enums) (now : Int) :
    ∀ (fuel : Nat) (c : AnyCondition) (s : PropStream), c.variant ≠ .Attributes →
      s.length < fuel → ∃ res, AnyCondition.unserializeLoop K now fuel c s = some res := by
  intro fuel
  induction fuel with
  | zero => intro c s _ h; exact absurd h (Nat.not_lt_zero _)
  | succ fuel ih =>
    intro c s hc h
    cases s with
    | nil => exact ⟨_, rfl⟩
    | cons tag s1 =>
      simp only [List.length_cons] at h
      unfold AnyCondition.unserializeLoop
      simp only [PropStream.readUInt8]
      by_cases he : tag = K.attr .CONDITIONATTR_END
      · rw [if_pos he]; exact ⟨_, rfl⟩
      · rw [if_neg he]
        obtain ⟨q, hq⟩ := unserializeProp_isSome K now c tag s1 hc
        obtain ⟨hv, hnone, hsome⟩ := unserializeProp_spec K now c tag s1 q hq
        obtain ⟨r1, c1, s2⟩ := q
        rw [hq]
        cases r1 with
        | false => exact ⟨_, rfl⟩
        | true =>
          simp only at hv hnone hsome ⊢
          cases hp : c.variant.payloadSize K tag with
          | none => exact absurd (hnone hp) (by simp)
          | some n =>
            by_cases hn : s1.length < n
            · exact absurd ((hsome n hp).1 hn) (by simp)
            · obtain ⟨-, hs2⟩ := (hsome n hp).2 (by omega)
              subst hs2
              exact ih c1 (s1.drop n) (by rw [hv]; exact hc) (by rw [List.length_drop]; omega)

/-- Whenever `unserialize` has a result it is the one that the specification states: it returns
false exactly when, before an END tag or the end of the stream, it reads a tag that neither the
decoder of the class nor the base decoder recognises, or a recognised tag that is followed by
fewer bytes than its payload has (the case in which `claimedUnserialize` has no result), and in
every other case it returns true and leaves the stream right after the first END tag, or empty
at the end of the stream.  For every class other than `ConditionAttributes` the result exists on
every stream. -/
theorem unserialize_sound (K : Enums) (now : Int) (c : AnyCondition) (s : PropStream) :
    (∀ r c' rest', c.unserialize K now s = some (r, c', rest') →
        (r = false ↔ claimedUnserialize K c.variant (s.length + 1) s = none)
        ∧ ∀ rest, claimedUnserialize K c.variant (s.length + 1) s = some rest →
            r = true ∧ rest' = rest)
      ∧ (c.variant ≠ .Attributes → ∃ res, c.unserialize K now s = some res) :=
  ⟨unserializeLoop_spec K now (s.length + 1) c s (Nat.lt_succ_self _),
    fun hc => unserializeLoop_isSome K now (s.length + 1) c s hc (Nat.lt_succ_self _)⟩

/-- The outcome that the specification states, on four streams for a damage condition
under the sample tags: a record and an END tag followed by one more byte, a truncated record, an
unknown tag, and a record of another class. -/
theorem claimedUnserialize_samples :
    claimedUnserialize Enums.sample .Damage 8
        [Enums.sample.attr .CONDITIONATTR_TICKS, 1, 0, 0, 0,
          Enums.sample.attr .CONDITIONATTR_END, 9] = some [9]
      ∧ claimedUnserialize Enums.sample .Damage 4
        [Enums.sample.attr .CONDITIONATTR_TICKS, 1, 0] = none
      ∧ claimedUnserialize Enums.sample .Damage 2 [200] = none
      ∧ claimedUnserialize Enums.sample .Damage 6
        [Enums.sample.attr .CONDITIONATTR_SOULGAIN, 1, 0, 0, 0] = none
      ∧ claimedUnserialize Enums.sample .Damage 1 [] = some [] := by
  decide

set_option maxRecDepth 100000 in
/-- Claim C26 at its failing input. `ConditionAttributes::unserializeProp` stores
each SKILLS value at `skills[currentSkill++]` without comparing the index with
the size of the array. Under the sample enumeration the array of a freshly
created attributes condition has seven entries (`SKILL_LAST + 1`). On a stream
of eight well-formed SKILLS records followed by an END tag no tag is unknown
and no payload is truncated, so the claim gives the result true with nothing
left of the stream; the eighth record makes the decoder store outside the
array, and `unserialize` has no result. On seven such records it returns true
and consumes the whole stream. -/
theorem unserialize_attributes_outOfBounds :
    (ConditionAttributes.new Enums.sample 0 (Enums.sample.type .CONDITION_ATTRIBUTES) 1000 false
        0).skills.length = 7
      ∧ claimedUnserialize Enums.sample .Attributes 42
          (taggedInt32s (Enums.sample.attr .CONDITIONATTR_SKILLS) (List.replicate 8 1)
            ++ [Enums.sample.attr .CONDITIONATTR_END]) = some []
      ∧ AnyCondition.unserialize Enums.sample 0
          (.attributes (ConditionAttributes.new Enums.sample 0
            (Enums.sample.type .CONDITION_ATTRIBUTES) 1000 false 0))
          (taggedInt32s (Enums.sample.attr .CONDITIONATTR_SKILLS) (List.replicate 8 1)
            ++ [Enums.sample.attr .CONDITIONATTR_END]) = none
      ∧ (AnyCondition.unserialize Enums.sample 0
          (.attributes (ConditionAttributes.new Enums.sample 0
            (Enums.sample.type .CONDITION_ATTRIBUTES) 1000 false 0))
          (taggedInt32s (Enums.sample.attr .CONDITIONATTR_SKILLS) (List.replicate 7 1)
            ++ [Enums.sample.attr .CONDITIONATTR_END])).map (fun r => (r.1, r.2.2))
        = some (true, []) := by
  decide

/-! ## The divisor of the light decay interval -/

/-- The light `startCondition` has no result exactly when the level, the divisor of
`ticks / lightInfo.level`, is zero. -/
theorem light_startCondition_none_iff (c : ConditionLight) (w : World) :
    c.startCondition w = none ↔ c.lightInfo.level = 0 := by
  unfold ConditionLight.startCondition Condition.startCondition
  simp only []
  split_ifs with h <;> simp [h]

/-- The light `addCondition` has no result exactly when the merge is accepted and the level of
the incoming instance, the divisor of `ticks / lightInfo.level`, is zero. -/
theorem light_addCondition_none_iff (c a : ConditionLight) (w : World) :
    c.addCondition w a = none
      ↔ c.toCondition.updateCondition w.now a.toCondition = true ∧ a.lightInfo.level = 0 := by
  unfold ConditionLight.addCondition
  split_ifs with h1 <;> simp_all

/-- A light condition from the factory has the low byte of `param` as its level, and its
`startCondition` has no result exactly when that byte is zero. -/
theorem createCondition_light_divisor (K : Enums) (hK : K.WellFormed) (_id : Int)
    (_ticks param : Int) (_buff : Bool) (_subId : Nat) (w : World) :
    ∃ l : ConditionLight,
      Condition.createCondition K _id (K.type .CONDITION_LIGHT) _ticks param _buff _subId
          = some (.light l)
        ∧ l.lightInfo.level = toUInt8 (param % 256)
        ∧ (AnyCondition.startCondition K (.light l) w = none ↔ param % 256 = 0) := by
  refine ⟨ConditionLight.new _id (K.type .CONDITION_LIGHT) _ticks _buff _subId
    (toUInt8 (param % 256)) (toUInt8 (param % 65536 / 256)), ?_, rfl, ?_⟩
  · rw [createCondition_eq_construct K hK .CONDITION_LIGHT]
    rfl
  · simp only [AnyCondition.startCondition, Option.map_eq_none', light_startCondition_none_iff]
    show toUInt8 (param % 256) = 0 ↔ param % 256 = 0
    unfold toUInt8
    omega

/-- Claim C31 fails: the factory with `param = 0`, the default of the argument,
makes a light condition of level 0, on which `startCondition` divides by zero
(there is no result); so does `startCondition` after
`setParam(CONDITION_PARAM_LIGHT_LEVEL, 256)` or
`setParam(CONDITION_PARAM_LIGHT_LEVEL, 0)`, which return true and store level 0,
and so does an accepted `addCondition` whose incoming instance has level 0. -/
theorem light_level_zero :
    Condition.createCondition Enums.sample 0 (Enums.sample.type .CONDITION_LIGHT) 1000 0 false 0
        = some (.light (ConditionLight.new 0 (Enums.sample.type .CONDITION_LIGHT) 1000 false 0 0 0))
      ∧ (ConditionLight.new 0 (Enums.sample.type .CONDITION_LIGHT) 1000 false 0 0 0).startCondition
          World.sample = none
      ∧ ((ConditionLight.new 0 1 1000 false 0 5 215).setParam
          .CONDITION_PARAM_LIGHT_LEVEL 256).1 = true
      ∧ ((ConditionLight.new 0 1 1000 false 0 5 215).setParam
          .CONDITION_PARAM_LIGHT_LEVEL 256).2.startCondition World.sample = none
      ∧ ((ConditionLight.new 0 1 1000 false 0 5 215).setParam
          .CONDITION_PARAM_LIGHT_LEVEL 0).2.startCondition World.sample = none
      ∧ (ConditionLight.new 0 1 1000 false 0 5 215).toCondition.updateCondition World.sample.now
          (ConditionLight.new 0 1 2000 false 0 0 0).toCondition = true
      ∧ (ConditionLight.new 0 1 1000 false 0 5 215).addCondition World.sample
          (ConditionLight.new 0 1 2000 false 0 0 0) = none := by
  decide

/-! ## The duration of a schedule that is built step by step -/

/-- The rounds of `addDamage` append their entries, each with the time as its interval. -/
theorem addDamage_round_iterate_list (now time value : Int) :
    ∀ (n : Nat) (c : ConditionDamage),
      ((ConditionDamage.addDamage.round now time value)^[n] c).damageList
        = c.damageList
          ++ List.replicate n { timeLeft := time, value := value, interval := time } := by
  intro n
  induction n with
  | zero => intro c; simp
  | succ n ih =>
    intro c
    have hstep : (ConditionDamage.addDamage.round now time value c).damageList
        = c.damageList ++ [{ timeLeft := time, value := value, interval := time }] := by
      unfold ConditionDamage.addDamage.round
      simp only []
      split_ifs <;> rfl
    rw [Function.iterate_succ_apply, ih, hstep, List.replicate_succ, List.append_assoc]
    rfl

/-- The intervals of `n` equal entries sum to `n` times the interval. -/
theorem totalInterval_append_replicate (list : List IntervalInfo) (n : Nat) (info : IntervalInfo) :
    IntervalInfo.totalInterval (list ++ List.replicate n info)
      = IntervalInfo.totalInterval list + (n : Int) * info.interval := by
  unfold IntervalInfo.totalInterval
  rw [List.map_append, List.sum_append, List.map_replicate, List.sum_replicate]
  simp

/-- An allowed `addDamage` keeps the duration equal to the sum of the intervals. -/
theorem addDamage_schedule (c : ConditionDamage) (now rounds time value : Int)
    (hr : 0 ≤ rounds) (ht : 0 ≤ time) (hb : c.ticks + rounds * time ≤ 2147483647)
    (h0 : 0 ≤ c.ticks) (hinv : c.ticks = IntervalInfo.totalInterval c.damageList) :
    0 ≤ (c.addDamage now rounds time value).2.ticks
      ∧ (c.addDamage now rounds time value).2.ticks
        = IntervalInfo.totalInterval (c.addDamage now rounds time value).2.damageList := by
  unfold ConditionDamage.addDamage
  rw [if_neg (by omega)]
  split_ifs
  · exact ⟨h0, hinv⟩
  · simp only []
    have hn : ((rounds.toNat : Nat) : Int) = rounds := Int.toNat_of_nonneg hr
    rw [addDamage_round_iterate now time value ht _ c h0 (by rw [hn]; exact hb),
      addDamage_round_iterate_list, totalInterval_append_replicate, hn, ← hinv]
    have : 0 ≤ rounds * time := mul_nonneg hr ht
    exact ⟨by omega, rfl⟩

/-- The intervals of entries that all have the interval `ti` sum to their number times `ti`. -/
theorem totalInterval_map (ti : Int) (f : Int → Int) (vals : List Int) :
    IntervalInfo.totalInterval
        (vals.map (fun v => { timeLeft := ti, value := f v, interval := ti }))
      = (vals.length : Int) * ti := by
  unfold IntervalInfo.totalInterval
  induction vals with
  | nil => simp
  | cons v vs ih =>
    simp only [List.map_cons, List.sum_cons, List.length_cons] at ih ⊢
    rw [ih]
    push_cast
    ring

/-- An allowed `init` keeps the duration equal to the sum of the intervals. -/
theorem init_schedule (c : ConditionDamage) (now : Int) (seed fuel : Nat)
    (h0 : 0 ≤ c.ticks) (hinv : c.ticks = IntervalInfo.totalInterval c.damageList)
    (hg : ConditionDamage.init.NoOverflow c seed fuel)
    (r : Bool) (c' : ConditionDamage) (h : c.init now seed fuel = some (r, c')) :
    0 ≤ c'.ticks ∧ c'.ticks = IntervalInfo.totalInterval c'.damageList := by
  unfold ConditionDamage.init at h
  by_cases hp : c.periodDamage ≠ 0
  · rw [if_pos hp] at h
    cases h; exact ⟨h0, hinv⟩
  · rw [if_neg hp] at h
    have hp' : c.periodDamage = 0 := not_not.mp hp
    by_cases hl : c.damageList.isEmpty = true
    · rw [if_pos hl] at h
      have hl' : c.damageList = [] := List.isEmpty_iff.mp hl
      obtain ⟨hT, hlen⟩ := hg hp' hl'
      simp only at h
      by_cases ha : uniform_random seed c.minDamage c.maxDamage ≠ 0
      · rw [if_pos ha] at h
        have key : ∀ (c2 : ConditionDamage) (list : List Int),
            ConditionDamage.init.values c seed fuel = some list →
            c2.periodDamage = 0 → c2.tickInterval = c.tickInterval → c2.ticks = 0 →
            c2.damageList = [] →
            0 ≤ (list.foldl
                (fun c value => (c.addDamage now 1 c.tickInterval (wrapInt32 (-value))).2) c2).ticks
              ∧ (list.foldl
                (fun c value => (c.addDamage now 1 c.tickInterval (wrapInt32 (-value))).2) c2).ticks
                = IntervalInfo.totalInterval (list.foldl
                  (fun c value => (c.addDamage now 1 c.tickInterval (wrapInt32 (-value))).2)
                    c2).damageList := by
          intro c2 list hv h1 h2 h3 h4
          obtain ⟨c3, e, hlist, ht, -⟩ := init_fold now c.tickInterval hT list c2 h1 h2 (by omega)
            (by rw [h3]; have := hlen list hv; omega)
          rw [e, ht, hlist, h3, h4, List.nil_append,
            totalInterval_map c.tickInterval (fun v => wrapInt32 (-v))]
          have : (0 : Int) ≤ (list.length : Int) * c.tickInterval :=
            mul_nonneg (Int.ofNat_nonneg _) hT
          exact ⟨by omega, by ring⟩
        have hval : ConditionDamage.init.values c seed fuel
            = ConditionDamage.generateDamageList fuel (uniform_random seed c.minDamage c.maxDamage)
              (if c.startDamage > c.maxDamage then c.maxDamage
              else if c.startDamage = 0 then
                ConditionDamage.init.startValue (uniform_random seed c.minDamage c.maxDamage)
              else c.startDamage) := by
          unfold ConditionDamage.init.values
          simp only [ha, ne_eq, not_false_eq_true, if_true]
        split_ifs at h with hs1 hs2 <;> simp only at h <;> split at h
        all_goals try (cases h; done)
        all_goals
          rename_i list heq
          simp only [Option.some.injEq, Prod.mk.injEq] at h
          rw [← h.2]
          refine key _ list ?_ hp' rfl rfl hl'
          rw [hval]
          first
            | (rw [if_pos hs1]; exact heq)
            | (rw [if_neg hs1, if_pos hs2]; exact heq)
            | (rw [if_neg hs1, if_neg hs2]; exact heq)
      · rw [if_neg ha] at h
        cases h
        simp only [Condition.setTicks, hl']
        exact ⟨le_refl 0, rfl⟩
    · rw [if_neg hl] at h; cases h; exact ⟨h0, hinv⟩

/-- The decoding of a schedule entry with a non-negative interval keeps the duration equal to
the sum of the intervals. -/
theorem decode_schedule (K : Enums) (c : ConditionDamage) (now : Int) (s : PropStream)
    (h0 : 0 ≤ c.ticks) (hinv : c.ticks = IntervalInfo.totalInterval c.damageList)
    (hs : ∀ info rest, s.readIntervalInfo = some (info, rest) →
      0 ≤ info.interval ∧ c.ticks + info.interval ≤ 2147483647) :
    0 ≤ (c.unserializeProp K now (K.attr .CONDITIONATTR_INTERVALDATA) s).2.1.ticks
      ∧ (c.unserializeProp K now (K.attr .CONDITIONATTR_INTERVALDATA) s).2.1.ticks
        = IntervalInfo.totalInterval
            (c.unserializeProp K now (K.attr .CONDITIONATTR_INTERVALDATA) s).2.1.damageList := by
  unfold ConditionDamage.unserializeProp
  split_ifs with h1 h2 h3 h4
  · cases s.readUInt8 with
    | none => exact ⟨h0, hinv⟩
    | some p => exact ⟨h0, hinv⟩
  · cases s.readInt32 with
    | none => exact ⟨h0, hinv⟩
    | some p => exact ⟨h0, hinv⟩
  · cases s.skip 4 with
    | none => exact ⟨h0, hinv⟩
    | some p => exact ⟨h0, hinv⟩
  · cases hr : s.readIntervalInfo with
    | none => exact ⟨h0, hinv⟩
    | some p =>
      obtain ⟨info, rest⟩ := p
      obtain ⟨hi, hb⟩ := hs info rest hr
      have hne : c.ticks ≠ -1 := by omega
      have hw : wrapInt32 (c.ticks + info.interval) = c.ticks + info.interval :=
        wrapInt32_of_isInt32 _ ⟨by omega, hb⟩
      simp only [hne, ne_eq, not_false_eq_true, if_true, Condition.setTicks, hw]
      unfold IntervalInfo.totalInterval at hinv ⊢
      rw [List.map_append, List.sum_append, ← hinv]
      simp only [List.map_cons, List.map_nil, List.sum_cons, List.sum_nil, add_zero]
      exact ⟨by omega, trivial⟩
  · exact absurd rfl h4

/-- Claim C32. For every damage condition that starts fresh, with `ticks = 0`
and an empty schedule, and is then changed only by `addDamage` calls with
`rounds ≥ 0` and `time ≥ 0`, by `init` (with a non-negative tick interval), or by
decoding schedule entries with non-negative intervals, none of which overflows
32 bits, `ticks` equals the sum of the intervals of the entries in the
schedule. -/
theorem damage_built_ticks (K : Enums) (c : ConditionDamage) (h : ConditionDamage.Built K c) :
    c.ticks = IntervalInfo.totalInterval c.damageList := by
  have key : 0 ≤ c.ticks ∧ c.ticks = IntervalInfo.totalInterval c.damageList := by
    induction h with
    | fresh c ht hl => rw [ht, hl]; exact ⟨le_refl 0, rfl⟩
    | step c c' x _ hx hc ih =>
      obtain ⟨h0, hinv⟩ := ih
      cases x with
      | addDamage now rounds time value =>
        simp only [ConditionDamage.scheduleStep, Option.some.injEq] at hc
        rw [← hc]
        exact addDamage_schedule c now rounds time value hx.1 hx.2.1 hx.2.2 h0 hinv
      | init now seed fuel =>
        simp only [ConditionDamage.scheduleStep, Option.map_eq_some'] at hc
        obtain ⟨r, hr, rfl⟩ := hc
        exact init_schedule c now seed fuel h0 hinv hx r.1 r.2 hr
      | decode now s =>
        simp only [ConditionDamage.scheduleStep, Option.some.injEq] at hc
        rw [← hc]
        exact decode_schedule K c now s h0 hinv hx
  exact key.2

/-- Claim C32 at a freshly constructed condition after `addDamage(3, 2000, -5)`,
the decoding of an entry with the interval 1000 and a call of `init`: the
duration is 7000, the sum of the four intervals. -/
theorem damage_built_ticks_witness :
    ∃ c : ConditionDamage, ConditionDamage.Built Enums.sample c
      ∧ c.damageList.map (fun info => info.interval) = [2000, 2000, 2000, 1000]
      ∧ c.ticks = 7000 ∧ c.ticks = IntervalInfo.totalInterval c.damageList := by
  have h1 : ConditionDamage.Built Enums.sample
      ((ConditionDamage.new 0 1 false 0).addDamage 100 3 2000 (-5)).2 :=
    .step (ConditionDamage.new 0 1 false 0) _ (.addDamage 100 3 2000 (-5))
      (.fresh _ rfl rfl) ⟨by decide, by decide, by decide⟩ rfl
  have h2 : ConditionDamage.Built Enums.sample
      (((ConditionDamage.new 0 1 false 0).addDamage 100 3 2000 (-5)).2.unserializeProp
        Enums.sample 100 (Enums.sample.attr .CONDITIONATTR_INTERVALDATA)
        [232, 3, 0, 0, 232, 3, 0, 0, 251, 255, 255, 255]).2.1 :=
    .step _ _ (.decode 100 [232, 3, 0, 0, 232, 3, 0, 0, 251, 255, 255, 255]) h1
      (by
        intro info rest h
        have e : PropStream.readIntervalInfo [232, 3, 0, 0, 232, 3, 0, 0, 251, 255, 255, 255]
            = some ({ timeLeft := 1000, value := -5, interval := 1000 }, []) := by decide
        rw [e] at h
        cases h
        decide) rfl
  have h3 : ConditionDamage.Built Enums.sample
      (((ConditionDamage.new 0 1 false 0).addDamage 100 3 2000 (-5)).2.unserializeProp
        Enums.sample 100 (Enums.sample.attr .CONDITIONATTR_INTERVALDATA)
        [232, 3, 0, 0, 232, 3, 0, 0, 251, 255, 255, 255]).2.1 :=
    .step _ _ (.init 100 0 64) h2 (fun _ hl => absurd hl (by decide)) (by decide)
  exact ⟨_, h3, by decide, by decide, damage_built_ticks Enums.sample _ h3⟩

end TFS
